import Mathlib

/-!
The framebuffer client core of `ivs_connection.cpp`.

A shallow embedding of `ivsConnection` (lib/src/ivs_connection.cpp): the
rectangle decoders, the Tight filters and the server-message dispatcher are
translated to functions on an explicit connection state, and the properties of
the specification are proved about these functions.

Conventions of the embedding:

* bytes, 16-bit and 32-bit machine values are natural numbers; every place
  where the C code truncates (`Q_UINT8`, `Q_UINT16`, `Q_UINT32`) is an explicit
  `% 2^w`;
* memory (the scratch buffer `m_buffer`, the pixels of `m_screen`, the Tight
  palette and previous-row buffer) is a function from addresses to values;
  capacities of C arrays are not part of the memory itself;
* loops whose termination depends on run-time data take a `fuel` argument and
  return `none` when it is exhausted; `some (b, c)` is "the C function
  returned `b` and left the connection in state `c`";
* collaborators that are not in this file (the transport of `isdConnection`,
  `fastQImage`, zlib, LZO, libjpeg) are modelled from the specification or are
  fields of `Ext`.
-/

set_option autoImplicit false

namespace Ivs

/-! ## Build configuration and machine values -/

/-- Compile-time configuration: the preprocessor symbols the file consults and
the two buffer capacities that are declared in `ivs_connection.h`. -/
structure Build where
  /-- `WORDS_BIGENDIAN` is defined. -/
  WORDS_BIGENDIAN : Bool
  /-- `HAVE_LIBZ` is defined. -/
  HAVE_LIBZ : Bool
  /-- `HAVE_LIBJPEG` is defined. -/
  HAVE_LIBJPEG : Bool
  /-- Capacity in bytes of the scratch buffer `m_buffer`. -/
  BUFFER_SIZE : Nat
  /-- Capacity in bytes of `m_zlibBuffer`. -/
  ZLIB_BUFFER_SIZE : Nat

/-- A memory region: address to stored value. -/
abbrev Mem := Nat → Nat

/-- Store of one value at one address. -/
def Mem.write (m : Mem) (a v : Nat) : Mem :=
  fun k => if k = a then v else m k

/-- The byte stored at an address of a byte-addressed memory. -/
def byteAt (m : Mem) (a : Nat) : Nat := m a % 256

/-- A C loop `for (i = 0; i < n; i++) body(i)` on a state. -/
def forLoop {σ : Type} (n : Nat) (body : Nat → σ → σ) (s : σ) : σ :=
  match n with
  | 0 => s
  | k + 1 => body k (forLoop k body s)

/-- The 32-bit value of four bytes in host byte order: `*(Q_UINT32 *) p`. -/
def word32 (be : Bool) (b0 b1 b2 b3 : Nat) : Nat :=
  if be then (b0 % 256) * 16777216 + (b1 % 256) * 65536 + (b2 % 256) * 256 + b3 % 256
  else b0 % 256 + (b1 % 256) * 256 + (b2 % 256) * 65536 + (b3 % 256) * 16777216

/-- Load of a 32-bit host-order word from byte address `a`. -/
def load32 (be : Bool) (m : Mem) (a : Nat) : Nat :=
  word32 be (m a) (m (a + 1)) (m (a + 2)) (m (a + 3))

/-- The four bytes of a 32-bit value in host byte order. -/
def bytes32 (be : Bool) (v : Nat) : List Nat :=
  if be then [v / 16777216 % 256, v / 65536 % 256, v / 256 % 256, v % 256]
  else [v % 256, v / 256 % 256, v / 65536 % 256, v / 16777216 % 256]

/-- Store of a 32-bit host-order word at byte address `a`. -/
def store32 (be : Bool) (m : Mem) (a v : Nat) : Mem :=
  fun k =>
    if k = a then (bytes32 be v).getD 0 0
    else if k = a + 1 then (bytes32 be v).getD 1 0
    else if k = a + 2 then (bytes32 be v).getD 2 0
    else if k = a + 3 then (bytes32 be v).getD 3 0
    else m k

/-- Copy of a byte list into memory starting at address `a`
(the effect of a transport read or of `memcpy` on the destination). -/
def writeBytes (m : Mem) (a : Nat) (bs : List Nat) : Mem :=
  fun k => if a ≤ k ∧ k < a + bs.length then bs.getD (k - a) 0 else m k

/-- A 16-bit wire integer after `swap16IfLE`: the wire is big-endian. -/
def wire16 (b0 b1 : Nat) : Nat := (b0 % 256) * 256 + b1 % 256

/-- A 32-bit wire integer after `swap32IfLE`: the wire is big-endian. -/
def wire32 (b0 b1 b2 b3 : Nat) : Nat :=
  (b0 % 256) * 16777216 + (b1 % 256) * 65536 + (b2 % 256) * 256 + b3 % 256

/-! ## Connection state -/

/-- Connection states of `isdConnection::states`. -/
inductive States
  | Disconnected | Connecting | HostUnreachable | ConnectionFailed
  | AuthFailed | InvalidServer | Connected
  deriving DecidableEq, Repr

/-- Quality levels of `ivsConnection::quality`, in the order of the enum. -/
inductive Quality
  | QualityLow | QualityMedium | QualityHigh
  | QualityDemoLow | QualityDemoMedium | QualityDemoHigh
  deriving DecidableEq, Repr

/-- Position of a quality level in the enum, for `m_quality >= QualityDemoLow`. -/
def Quality.toNat : Quality → Nat
  | .QualityLow => 0 | .QualityMedium => 1 | .QualityHigh => 2
  | .QualityDemoLow => 3 | .QualityDemoMedium => 4 | .QualityDemoHigh => 5

/-- A `QPoint`. -/
structure QPoint where
  x : Int
  y : Int
  deriving DecidableEq, Repr

/-- A `QRect`: top-left corner and size. -/
structure QRect where
  x : Int
  y : Int
  w : Int
  h : Int
  deriving DecidableEq, Repr

/-- A `QRegion`, kept as the rectangles that were added to it, oldest first. -/
structure QRegion where
  rects : List QRect
  deriving DecidableEq, Repr

/-- The region `QRegion()`. -/
def QRegion.empty : QRegion := ⟨[]⟩

/-- The operation `rgn += rect`. -/
def QRegion.add (r : QRegion) (q : QRect) : QRegion := ⟨r.rects ++ [q]⟩

/-- The test `QRegion::isEmpty`: no rectangle of the region has an area. -/
def QRegion.isEmpty (r : QRegion) : Bool :=
  r.rects.all fun q => decide (q.w ≤ 0 ∨ q.h ≤ 0)

/-- The image `m_screen`: `width × height` pixels of 32 bits (`Format_RGB32`),
row after row; `pix (y * width + x)` is the pixel at column `x` of scan line `y`. -/
structure Screen where
  width : Nat
  height : Nat
  pix : Mem

/-- The pixel at column `x` of scan line `y`. -/
def Screen.pixel (s : Screen) (x y : Nat) : Nat := s.pix (y * s.width + x)

/-- The cursor image `m_cursorShape`: size, 32-bit pixels and the 1-bpp mask
that becomes its alpha channel (`bytesPerRow` mask bytes for each row). -/
structure CursorImage where
  width : Nat
  height : Nat
  pixels : Mem
  alpha : Mem

/-- The call site of a region notification. -/
inductive Origin
  /-- End of a framebuffer update in `handleServerMessages`. -/
  | update
  /-- The function `handleCursorPos`. -/
  | cursorPos
  /-- The function `handleCursorShape`. -/
  | cursorShape
  /-- The `rfbEncodingItalcCursor` case of `handleServerMessages`. -/
  | italcCursor
  deriving DecidableEq, Repr

/-- Messages given to `qWarning` and `qCritical`. -/
inductive LogMsg
  | readingMessageTypeFailed | colormapIgnored | readingUpdateMsgFailed
  | rectTooLarge | zeroSizeRect | unknownRectEncoding
  | rreCantDecode
  | zlibInflateInitError | zlibNeedsDictionary | zlibInflateError | zlibOutOfSpace
  | tightInflateEnd | tightBadSubencoding | tightUnknownFilter | tightPaletteError
  | tightIncorrectData | tightInflateInitError | tightBufferSize | tightInflateError
  | tightScanLines
  | jpegIncorrectData | jpegWrongData
  | italcSizeMismatch | italcDxNotZero
  | notAServer
  deriving DecidableEq, Repr

/-- The values of `italcAuthTypes` that `protocolInitialization` passes to the
lower layer. -/
inductive ItalcAuthTypes
  | ItalcAuthNone | ItalcAuthAppInternalChallenge | ItalcAuthChallengeViaAuthFile
  deriving DecidableEq, Repr

/-- Observable actions of the connection, in the order they happen. -/
inductive Action
  /-- The write lock on `m_imageLock` is taken (`QWriteLocker wl`). -/
  | imageLockForWrite
  /-- The write lock on `m_imageLock` is released. -/
  | imageUnlock
  /-- The call `m_cursorLock.lockForWrite()`. -/
  | cursorLockForWrite
  /-- The call `m_cursorLock.unlock()`. -/
  | cursorUnlock
  /-- A `regionChangedEvent` is posted to the parent object. -/
  | postRegionChanged (o : Origin) (rgn : QRegion)
  /-- The signal `regionUpdated` is emitted. -/
  | regionUpdated (o : Origin) (rgn : QRegion)
  /-- The signal `cursorShapeChanged` is emitted. -/
  | cursorShapeChanged
  /-- A call of `qWarning`. -/
  | qWarning (m : LogMsg)
  /-- A call of `qCritical`. -/
  | qCritical (m : LogMsg)
  /-- The call `isdConnection::close()` of the lower layer. -/
  | isdClose
  /-- The call `authAgainstServer( t )` of the lower layer. -/
  | authAgainstServer (t : ItalcAuthTypes)
  /-- The call `sendGetUserInformationRequest()` of the lower layer. -/
  | sendGetUserInformationRequest
  /-- An access behind the end of the array `m_buffer[BUFFER_SIZE]`. From here on
  the behaviour of the C++ program is undefined. -/
  | overrunBuffer
  /-- A write behind the end of the block `rle_data = new Q_UINT8[bytesRLE]` of
  `handleItalc`. From here on the behaviour of the C++ program is undefined. -/
  | overrunRleData
  deriving DecidableEq, Repr

/-- State of one zlib inflate context: the `(input, avail_out)` arguments of
the `inflate` calls made on it since `inflateInit`, oldest first. A
deterministic decompressor is a function of this history. -/
abbrev ZStream := List (List Nat × Nat)

/-- The members of `ivsConnection` (and of its base class) that the decoders and
the dispatcher read or write. -/
structure Conn where
  /-- Connection state `state()` of the base class. -/
  state : States
  /-- Member `m_isDemoServer`. -/
  isDemoServer : Bool
  /-- Member `m_useAuthFile`. -/
  useAuthFile : Bool
  /-- Member `m_quality`. -/
  quality : Quality
  /-- Whether `parent() != NULL`. -/
  hasParent : Bool
  /-- Transport: bytes received from the server and not yet read. -/
  inbound : List Nat
  /-- Transport: bytes written to the server, oldest first. -/
  outbound : List Nat
  /-- Transport: whether a write of the given bytes succeeds when the server has
  been sent the given bytes before (first argument). -/
  writeOk : List Nat → List Nat → Bool
  /-- Member `m_si.framebufferWidth`. -/
  framebufferWidth : Nat
  /-- Member `m_si.framebufferHeight`. -/
  framebufferHeight : Nat
  /-- Member `m_screen`. -/
  screen : Screen
  /-- Member `m_scaledScreenNeedsUpdate`. -/
  scaledScreenNeedsUpdate : Bool
  /-- Whether `m_scaledSize` is non-empty. -/
  scaledSizeValid : Bool
  /-- Number of times `rescaleScreen` rebuilt `m_scaledScreen`. -/
  rescaled : Nat
  /-- Member `m_softwareCursor`. -/
  softwareCursor : Bool
  /-- Member `m_cursorPos`. -/
  cursorPos : QPoint
  /-- Member `m_cursorHotSpot`. -/
  cursorHotSpot : QPoint
  /-- Member `m_cursorShape`. -/
  cursorShape : CursorImage
  /-- Member `m_rawBufferSize`. -/
  rawBufferSize : Int
  /-- Member `m_rawBuffer`, byte-addressed. -/
  rawBuffer : Mem
  /-- Member `m_decompStreamInited`. -/
  decompStreamInited : Bool
  /-- Member `m_decompStream`. -/
  decompStream : ZStream
  /-- Member `m_zlibStreamActive[4]`. -/
  zlibStreamActive : Nat → Bool
  /-- Member `m_zlibStream[4]`. -/
  zlibStream : Nat → ZStream
  /-- Member `m_buffer`, byte-addressed. -/
  buffer : Mem
  /-- Member `m_zlibBuffer`, byte-addressed. -/
  zlibBuffer : Mem
  /-- Member `m_tightPrevRow`, as 16-bit elements. -/
  tightPrevRow : Mem
  /-- Member `m_tightPalette`, byte-addressed. -/
  tightPalette : Mem
  /-- Member `m_rectWidth`. -/
  rectWidth : Nat
  /-- Member `m_rectColors`. -/
  rectColors : Nat
  /-- Actions performed so far, oldest first. -/
  trace : List Action

/-- The connection as the constructor `ivsConnection::ivsConnection` leaves it:
no screen yet, no cursor, every zlib stream inactive, `m_rawBufferSize = -1`.
Memory that C leaves uninitialised reads as zero. The transport has nothing to
read and accepts every write. -/
def Conn.new (q : Quality) (use_auth_file hasParent : Bool) : Conn where
  state := .Disconnected
  isDemoServer := false
  useAuthFile := use_auth_file
  quality := q
  hasParent := hasParent
  inbound := []
  outbound := []
  writeOk := fun _ _ => true
  framebufferWidth := 0
  framebufferHeight := 0
  screen := ⟨0, 0, fun _ => 0⟩
  scaledScreenNeedsUpdate := false
  scaledSizeValid := false
  rescaled := 0
  softwareCursor := false
  cursorPos := ⟨0, 0⟩
  cursorHotSpot := ⟨0, 0⟩
  cursorShape := ⟨0, 0, fun _ => 0, fun _ => 0⟩
  rawBufferSize := -1
  rawBuffer := fun _ => 0
  decompStreamInited := false
  decompStream := []
  zlibStreamActive := fun _ => false
  zlibStream := fun _ => []
  buffer := fun _ => 0
  zlibBuffer := fun _ => 0
  tightPrevRow := fun _ => 0
  tightPalette := fun _ => 0
  rectWidth := 0
  rectColors := 0
  trace := []

/-- A connected client with a `w × h` framebuffer whose pixels are all `p`, and
`bs` waiting on the transport: the state after `protocolInitialization` on a
server of that size. -/
def Conn.connected (q : Quality) (w h p : Nat) (bs : List Nat) : Conn :=
  { Conn.new q false true with
    state := .Connected
    framebufferWidth := w
    framebufferHeight := h
    screen := ⟨w, h, fun _ => p⟩
    inbound := bs }

/-- Append one action to the trace. -/
def Conn.act (c : Conn) (a : Action) : Conn := { c with trace := c.trace ++ [a] }

/-- Modelled from the spec: the Transport operation `read_exact(n) → bytes | Fail`
behind `isdConnection::readFromServer`, which is not part of this file. The read
succeeds exactly when `n` unread bytes are available, and then removes them from
the transport; a failed read leaves the connection as it was. -/
def readFromServer (c : Conn) (n : Nat) : Option (List Nat × Conn) :=
  if n ≤ c.inbound.length then
    some (c.inbound.take n, { c with inbound := c.inbound.drop n })
  else none

/-! ## Raw -/

/-- The inner loop of `handleRaw`: `lines` times `memcpy( dst, src, rw * 4 )`,
`src += rw`, `dst += img_width`, with `src` starting at `m_buffer` and `dst` at
pixel index `dst` of the screen. -/
def rawCopyLines (be : Bool) (buf : Mem) (pix : Mem) (dst rw img_width lines : Nat) : Mem :=
  forLoop lines
    (fun y (p : Mem) => fun k =>
      if dst + y * img_width ≤ k ∧ k < dst + y * img_width + rw then
        load32 be buf (4 * (y * rw + (k - (dst + y * img_width))))
      else p k)
    pix

/-- The `while( rh > 0 )` loop of `handleRaw`, with `lines_to_read` carried
between iterations as in the source. -/
def handleRawLoop (B : Build) :
    Nat → Conn → (rx ry rw rh lines_to_read : Nat) → Option (Bool × Conn)
  | fuel, c, rx, ry, rw, rh, lines_to_read =>
    if rh = 0 then some (true, c)
    else match fuel with
      | 0 => none
      | fuel + 1 =>
        let bytes_per_line := rw * 4
        let img_width := c.screen.width % 65536
        let lines_to_read := if lines_to_read > rh then rh else lines_to_read
        match readFromServer c (bytes_per_line * lines_to_read) with
        | none => some (false, c)
        | some (bs, c1) =>
          let buf := writeBytes c1.buffer 0 bs
          -- dst = (QRgb *) m_screen.scanLine( ry ) + rx
          let pix := rawCopyLines B.WORDS_BIGENDIAN buf c1.screen.pix
            (ry * c1.screen.width + rx) rw img_width lines_to_read
          let c2 := { c1 with buffer := buf, screen := { c1.screen with pix := pix } }
          handleRawLoop B fuel c2 rx ((ry + lines_to_read) % 65536) rw
            ((rh - lines_to_read) % 65536) lines_to_read

/-- The function `ivsConnection::handleRaw`. -/
def handleRaw (B : Build) (fuel : Nat) (c : Conn) (rx ry rw rh : Nat) :
    Option (Bool × Conn) :=
  handleRawLoop B fuel c rx ry rw rh ((B.BUFFER_SIZE / (rw * 4)) % 65536)

/-- The row-packed bytes of a `w × h` bitmap, `B j i` being the pixel at row `j`
and column `i`: the payload of a Raw rectangle in the local pixel format. -/
def rawEncode (be : Bool) (w h : Nat) (B : Nat → Nat → Nat) : List Nat :=
  (List.range h).flatMap fun j => (List.range w).flatMap fun i => bytes32 be (B j i)

/-! ## Screen operations of `fastQImage` -/

/-- Whether pixel index `k` of a screen of width `W` lies in the rect `(x, y, w, h)`:
its column `k % W` and scan line `k / W` are inside. -/
def inRect (W x y w h k : Nat) : Prop :=
  x ≤ k % W ∧ k % W < x + w ∧ y ≤ k / W ∧ k / W < y + h

instance (W x y w h k : Nat) : Decidable (inRect W x y w h k) := by
  unfold inRect
  infer_instance

/-- Modelled from the spec: `fill_rect(x,y,w,h,pixel)` of the Screen buffer
(`fastQImage::fillRect` is not part of this file): every pixel of the rect
becomes `pixel`, every other pixel stays. -/
def Screen.fillRect (s : Screen) (x y w h pixel : Nat) : Screen :=
  { s with pix := fun k => if inRect s.width x y w h k then pixel else s.pix k }

/-- Modelled from the spec: `copy_rect_from(x,y,w,h,src_row_packed)` of the Screen
buffer (`fastQImage::copyRect` is not part of this file): the pixel at column
`x + i` of scan line `y + j` becomes `src (j * w + i)`, every pixel outside the
rect stays. -/
def Screen.copyRect (s : Screen) (x y w h : Nat) (src : Mem) : Screen :=
  { s with pix := fun k =>
      if inRect s.width x y w h k then src ((k / s.width - y) * w + (k % s.width - x))
      else s.pix k }

/-- Modelled from the spec: `copy_self_rect(srcX,srcY,w,h,dstX,dstY)` of the Screen
buffer (`fastQImage::copyExistingRect` is not part of this file), safe for
overlapping rects: the pixel at `(dstX + i, dstY + j)` becomes what was at
`(srcX + i, srcY + j)` before the call. -/
def Screen.copyExistingRect (s : Screen) (srcX srcY w h dstX dstY : Nat) : Screen :=
  { s with pix := fun k =>
      if inRect s.width dstX dstY w h k then
        s.pix ((srcY + (k / s.width - dstY)) * s.width + (srcX + (k % s.width - dstX)))
      else s.pix k }

/-! ## External libraries -/

/-- What one call of zlib `inflate( zs, Z_SYNC_FLUSH )` did. -/
structure InflateResult where
  /-- The return code (`Z_OK = 0`, `Z_STREAM_END = 1`, `Z_NEED_DICT = 2`,
  `Z_BUF_ERROR = -5`, other errors negative). -/
  ret : Int
  /-- Number of input bytes taken from `next_in`. -/
  consumed : Nat
  /-- The bytes written at `next_out`. -/
  out : List Nat

/-- A decoded JPEG image as libjpeg reports it. -/
structure JpegImage where
  output_width : Nat
  output_height : Nat
  output_components : Nat
  /-- Byte `k` of scan line `row`. -/
  scanline : Nat → Nat → Nat

/-- The libraries and the lower layer the decoders call into. Their code is not
part of the repository file, so every result holds for all of their behaviours. -/
structure Ext where
  /-- Return code of `inflateInit` (`Z_OK = 0`) and whether `msg != NULL` after it. -/
  inflateInit : Int × Bool
  /-- The function `inflate` on a stream with the given history, input and `avail_out`. -/
  inflate : ZStream → List Nat → Nat → InflateResult
  /-- Return code of `inflateEnd` on a stream and whether `msg != NULL` after it. -/
  inflateEnd : ZStream → Int × Bool
  /-- The function `lzo1x_decompress`: the bytes written to the output buffer. -/
  lzo1x_decompress : List Nat → List Nat
  /-- The libjpeg calls of `decompressJpegRect` on the compressed data. -/
  jpeg : List Nat → JpegImage
  /-- Reading a `QImage` from the socket with `QDataStream`: the image and the
  bytes left on the transport. -/
  readImage : List Nat → CursorImage × List Nat
  /-- The function `isdConnection::handleServerMessage` of the base class: its
  result and the bytes left on the transport. -/
  isdHandleServerMessage : Nat → List Nat → Bool × List Nat
  /-- Content of memory obtained from `new[]`. -/
  uninit : Mem

/-- zlib return code `Z_OK`. -/
def Z_OK : Int := 0
/-- zlib return code `Z_STREAM_END`. -/
def Z_STREAM_END : Int := 1
/-- zlib return code `Z_NEED_DICT`. -/
def Z_NEED_DICT : Int := 2
/-- zlib return code `Z_BUF_ERROR`. -/
def Z_BUF_ERROR : Int := -5

/-- The outcome of `inflate` with the bounds zlib guarantees: it consumes at most
the input it was given and produces at most `avail_out` bytes. -/
def Ext.inflateBounded (E : Ext) (zs : ZStream) (input : List Nat) (avail_out : Nat) :
    InflateResult :=
  let r := E.inflate zs input avail_out
  { ret := r.ret, consumed := min r.consumed input.length, out := r.out.take avail_out }

/-- The bytes `m[a], …, m[a + n - 1]` of a byte-addressed memory. -/
def readBytes (m : Mem) (a n : Nat) : List Nat :=
  (List.range n).map fun i => byteAt m (a + i)

/-! ## CoRRE and RRE -/

/-- The `for` loop of `handleCoRRE` over the subrects stored in `m_buffer`:
subrect `i` is the 8 bytes at `ptr = m_buffer + 8 * i`. -/
def correSubrects (be : Bool) (buf : Mem) (s : Screen) (rx ry nSubrects : Nat) : Screen :=
  forLoop nSubrects
    (fun i (s : Screen) =>
      let pix := load32 be buf (8 * i)
      let x := byteAt buf (8 * i + 4)
      let y := byteAt buf (8 * i + 5)
      let w := byteAt buf (8 * i + 6)
      let h := byteAt buf (8 * i + 7)
      -- the arguments of fillRect are Q_UINT16
      s.fillRect ((rx + x) % 65536) ((ry + y) % 65536) w h pix)
    s

/-- The function `ivsConnection::handleCoRRE`. The subrects are read into
`m_buffer` and taken from it without a look at `BUFFER_SIZE`: when their
`nSubrects * 8` bytes do not fit, the read has written behind the end of the
array, which the trace records as `overrunBuffer`. What the C++ program does
after that is undefined; the model goes on as the code is written, on a memory
without end, and no result is stated for a trace with this action. A read that
fails is the `Fail` of `read_exact`: it delivers nothing. -/
def handleCoRRE (B : Build) (c : Conn) (rx ry rw rh : Nat) : Bool × Conn :=
  match readFromServer c 4 with
  | none => (false, c)
  | some (hdr, c1) =>
    let nSubrects := wire32 (hdr.getD 0 0) (hdr.getD 1 0) (hdr.getD 2 0) (hdr.getD 3 0)
    match readFromServer c1 4 with
    | none => (false, c1)
    | some (pb, c2) =>
      let pix := word32 B.WORDS_BIGENDIAN (pb.getD 0 0) (pb.getD 1 0) (pb.getD 2 0) (pb.getD 3 0)
      let c3 := { c2 with screen := c2.screen.fillRect rx ry rw rh pix }
      match readFromServer c3 (nSubrects * 8) with
      | none => (false, c3)
      | some (bs, c4) =>
        let buf := writeBytes c4.buffer 0 bs
        let c5 := { c4 with
          buffer := buf
          screen := correSubrects B.WORDS_BIGENDIAN buf c4.screen rx ry nSubrects }
        -- the bytes are in m_buffer[0 .. nSubrects * 8 - 1], whatever BUFFER_SIZE is
        (true, if nSubrects * 8 > B.BUFFER_SIZE then c5.act .overrunBuffer else c5)

/-- The function `ivsConnection::handleRRE`: it reports the rect and returns `TRUE`. -/
def handleRRE (c : Conn) (_rx _ry _rw _rh : Nat) : Bool × Conn :=
  (true, c.act (.qCritical .rreCantDecode))

/-! ## Tight: constants, filters -/

/-- Sub-encoding `rfbTightExplicitFilter`. -/
def rfbTightExplicitFilter : Nat := 4
/-- Sub-encoding `rfbTightFill`. -/
def rfbTightFill : Nat := 8
/-- Sub-encoding `rfbTightJpeg`. -/
def rfbTightJpeg : Nat := 9
/-- Largest sub-encoding, `rfbTightMaxSubencoding`. -/
def rfbTightMaxSubencoding : Nat := 9
/-- Filter id `rfbTightFilterCopy`. -/
def rfbTightFilterCopy : Nat := 0
/-- Filter id `rfbTightFilterPalette`. -/
def rfbTightFilterPalette : Nat := 1
/-- Filter id `rfbTightFilterGradient`. -/
def rfbTightFilterGradient : Nat := 2
/-- The constant `TIGHT_MIN_TO_COMPRESS`. -/
def TIGHT_MIN_TO_COMPRESS : Nat := 12

/-- Channel maxima `redMax, greenMax, blueMax` of `__localDisplayFormat`. -/
def localMax (_ch : Nat) : Nat := 255

/-- Channel shifts `redShift, greenShift, blueShift` of `__localDisplayFormat`. -/
def localShift (ch : Nat) : Nat :=
  match ch with
  | 0 => 16
  | 1 => 8
  | _ => 0

/-- The expression `RGB_TO_PIXEL(r,g,b)` on 32-bit operands. -/
def RGB_TO_PIXEL (r g b : Nat) : Nat :=
  ((((r % 4294967296) &&& localMax 0) <<< localShift 0) |||
    (((g % 4294967296) &&& localMax 1) <<< localShift 1) |||
    (((b % 4294967296) &&& localMax 2) <<< localShift 2)) % 4294967296

/-- The three filters a Tight rect can use (`filter_function`). -/
inductive TightFilter
  | copy | palette | gradient
  deriving DecidableEq, Repr

/-- The function `ivsConnection::initFilterCopy`: the bits per pixel and the new state. -/
def initFilterCopy (c : Conn) (rw : Nat) : Nat × Conn :=
  (32, { c with rectWidth := rw })

/-- The function `ivsConnection::filterCopy`, `dst` being `m_buffer + dstOff`:
one `memcpy` of `num_rows * m_rectWidth * 4` bytes from the start of `m_buffer`. -/
def filterCopy (c : Conn) (num_rows dstOff : Nat) : Conn :=
  { c with buffer := fun k =>
      if dstOff ≤ k ∧ k < dstOff + num_rows * c.rectWidth * 4 then c.buffer (k - dstOff)
      else c.buffer k }

/-- The function `ivsConnection::initFilterGradient`. -/
def initFilterGradient (c : Conn) (rw : Nat) : Nat × Conn :=
  let (bits, c1) := initFilterCopy c rw
  (bits, { c1 with tightPrevRow := fun k => if k < rw * 3 then 0 else c1.tightPrevRow k })

/-- Working state of `filterGradient`: `m_buffer`, `m_tightPrevRow` (`that_row`)
and the locals `this_row` and `pix`. -/
structure GradientState where
  buffer : Mem
  that_row : Mem
  this_row : Mem
  pix : Mem

/-- Channel `ch` of the first pixel of scan line `y` in `filterGradient`:
`pix[c] = (Q_UINT16) (((src[y*W] >> shift[c]) + that_row[c]) & max[c])`,
`this_row[c] = pix[c]`. -/
def gradientFirst (be : Bool) (W y ch : Nat) (g : GradientState) : GradientState :=
  let v := (((load32 be g.buffer (4 * (y * W)) >>> localShift ch) + g.that_row ch)
    % 4294967296 &&& localMax ch) % 65536
  { g with pix := g.pix.write ch v, this_row := g.this_row.write ch v }

/-- Channel `ch` of pixel `x ≥ 1` of scan line `y` in `filterGradient`: the
estimate `est[c]` from the pixels above, to the left and above-left is clamped
to `0 .. max[c]`, then corrected with the delta of the source pixel. -/
def gradientNext (be : Bool) (W y x ch : Nat) (g : GradientState) : GradientState :=
  let est : Int := (g.that_row (x * 3 + ch) : Int) + (g.pix ch : Int)
    - (g.that_row ((x - 1) * 3 + ch) : Int)
  let est : Int := if est > (localMax ch : Int) then (localMax ch : Int)
    else if est < 0 then 0 else est
  let v := (((load32 be g.buffer (4 * (y * W + x)) >>> localShift ch) + est.toNat)
    % 4294967296 &&& localMax ch) % 65536
  { g with pix := g.pix.write ch v, this_row := g.this_row.write (x * 3 + ch) v }

/-- One pixel `x ≥ 1` of scan line `y` in `filterGradient`: the three channels,
then `dst[y*W+x] = RGB_TO_PIXEL( pix[0], pix[1], pix[2] )`. -/
def gradientPixel (be : Bool) (W dstOff y x : Nat) (g : GradientState) : GradientState :=
  let g1 := forLoop 3 (fun ch (g : GradientState) => gradientNext be W y x ch g) g
  { g1 with
    buffer := store32 be g1.buffer (dstOff + 4 * (y * W + x))
      (RGB_TO_PIXEL (g1.pix 0) (g1.pix 1) (g1.pix 2)) }

/-- One scan line `y` of `filterGradient`. -/
def gradientRow (be : Bool) (W dstOff y : Nat) (g : GradientState) : GradientState :=
  -- first pixel in a row
  let g1 := forLoop 3 (fun ch (g : GradientState) => gradientFirst be W y ch g) g
  let g2 := { g1 with
    buffer := store32 be g1.buffer (dstOff + 4 * (y * W))
      (RGB_TO_PIXEL (g1.pix 0) (g1.pix 1) (g1.pix 2)) }
  -- remaining pixels of a row: x = 1 .. W - 1
  let g3 := forLoop (W - 1) (fun i g => gradientPixel be W dstOff y (i + 1) g) g2
  -- memcpy( that_row, this_row, m_rectWidth * 3 * sizeof( Q_UINT16 ) )
  { g3 with that_row := fun k => if k < W * 3 then g3.this_row k else g3.that_row k }

/-- The function `ivsConnection::filterGradient`, `dst` being `m_buffer + dstOff`.
The local arrays `this_row` and `pix` start with the arbitrary content
`uninit`. -/
def filterGradient (B : Build) (uninit : Mem) (c : Conn) (num_rows dstOff : Nat) : Conn :=
  let g := forLoop num_rows (fun y g => gradientRow B.WORDS_BIGENDIAN c.rectWidth dstOff y g)
    { buffer := c.buffer, that_row := c.tightPrevRow, this_row := uninit, pix := uninit }
  { c with buffer := g.buffer, tightPrevRow := g.that_row }

/-- The function `ivsConnection::initFilterPalette`: the bits per pixel (0 on
failure) and the new state. -/
def initFilterPalette (c : Conn) (rw : Nat) : Nat × Conn :=
  let c0 := { c with rectWidth := rw }
  match readFromServer c0 1 with
  | none => (0, c0)
  | some (nb, c1) =>
    let num_colors := nb.getD 0 0 % 256
    -- m_rectColors = (Q_UINT16) num_colors; ++m_rectColors
    let c2 := { c1 with rectColors := (num_colors + 1) % 65536 }
    if c2.rectColors < 2 then (0, c2)
    else match readFromServer c2 (c2.rectColors * 4) with
      | none => (0, c2)
      | some (pb, c3) =>
        (if c3.rectColors = 2 then 1 else 8,
          { c3 with tightPalette := writeBytes c3.tightPalette 0 pb })

/-- The palette entry `palette[i]`, `palette` being `(Q_UINT32 *) m_tightPalette`. -/
def paletteEntry (be : Bool) (pal : Mem) (i : Nat) : Nat := load32 be pal (4 * i)

/-- The loop over `b` in the two-colour branch of `filterPalette`, for source
byte `x` of scan line `y`: `n` pixels are produced from the bits `b = 7, 6, …`
(`n = 8` for a whole byte, `n = m_rectWidth % 8` for the last one). -/
def palette2Byte (be : Bool) (pal : Mem) (W w dstOff y x n : Nat) (buf : Mem) : Mem :=
  forLoop n
    (fun t (buf : Mem) =>
      let b := 7 - t
      store32 be buf (dstOff + 4 * (y * W + x * 8 + 7 - b))
        (paletteEntry be pal ((byteAt buf (y * w + x) >>> b) &&& 1)))
    buf

/-- One scan line `y` in the two-colour branch of `filterPalette`: the whole
source bytes `x = 0 … m_rectWidth / 8 - 1`, then the last, incomplete byte. -/
def palette2Row (be : Bool) (pal : Mem) (W w dstOff y : Nat) (buf : Mem) : Mem :=
  let buf1 := forLoop (W / 8) (fun x (buf : Mem) => palette2Byte be pal W w dstOff y x 8 buf) buf
  palette2Byte be pal W w dstOff y (W / 8) (W % 8) buf1

/-- The function `ivsConnection::filterPalette`, `dst` being `m_buffer + dstOff`. -/
def filterPalette (B : Build) (c : Conn) (num_rows dstOff : Nat) : Conn :=
  let be := B.WORDS_BIGENDIAN
  if c.rectColors = 2 then
    let w := (c.rectWidth + 7) / 8 % 65536
    { c with
      buffer := forLoop num_rows
        (fun y (buf : Mem) => palette2Row be c.tightPalette c.rectWidth w dstOff y buf)
        c.buffer }
  else
    { c with
      buffer := forLoop num_rows
        (fun y (buf : Mem) =>
          forLoop c.rectWidth
            (fun x (buf : Mem) =>
              store32 be buf (dstOff + 4 * (y * c.rectWidth + x))
                (paletteEntry be c.tightPalette (byteAt buf (y * c.rectWidth + x))))
            buf)
        c.buffer }

/-- Call of the selected filter through `filter_function`. -/
def applyFilter (B : Build) (E : Ext) (f : TightFilter) (c : Conn) (num_rows dstOff : Nat) :
    Conn :=
  match f with
  | .copy => filterCopy c num_rows dstOff
  | .palette => filterPalette B c num_rows dstOff
  | .gradient => filterGradient B E.uninit c num_rows dstOff

/-! ## Tight: the decoder -/

/-- Pixel source for `copyRect`: the 32-bit words of `m_buffer` from byte `off` on. -/
def bufferWords (be : Bool) (buf : Mem) (off : Nat) : Mem :=
  fun i => load32 be buf (off + 4 * i)

/-- A C `int` obtained from a 32-bit unsigned value. -/
def toInt32 (v : Nat) : Int :=
  if v % 4294967296 < 2147483648 then (v % 4294967296 : Nat)
  else ((v % 4294967296 : Nat) : Int) - 4294967296

/-- Modelled from the spec: `read_compact_len() → u32` of the wire codec
(`readCompactLen` is not part of this file): 1 to 3 bytes, continuation bit in
the most significant bit of each byte, 7 bits per byte and 8 bits from the
third, 22 bits in all. A failed read gives `(Q_UINT32) -1`. -/
def readCompactLen (c : Conn) : Nat × Conn :=
  match readFromServer c 1 with
  | none => (4294967295, c)
  | some (b0, c1) =>
    let len := b0.getD 0 0 % 128
    if b0.getD 0 0 % 256 < 128 then (len, c1)
    else match readFromServer c1 1 with
      | none => (4294967295, c1)
      | some (b1, c2) =>
        let len := len + (b1.getD 0 0 % 128) * 128
        if b1.getD 0 0 % 256 < 128 then (len, c2)
        else match readFromServer c2 1 with
          | none => (4294967295, c2)
          | some (b2, c3) => (len + (b2.getD 0 0 % 256) * 16384, c3)

/-- One iteration of the loop of `handleTight` that flushes zlib streams, on the
connection and the current value of `comp_ctl`: stream `stream_id` is released
when the lowest bit of `comp_ctl` is set and the stream is active, then
`comp_ctl` is shifted right by one. -/
def tightResetStep (E : Ext) (stream_id : Nat) (st : Conn × Nat) : Conn × Nat :=
  let c := st.1
  let comp_ctl := st.2
  let c1 :=
    if comp_ctl % 2 = 1 ∧ c.zlibStreamActive stream_id = true then
      let r := E.inflateEnd (c.zlibStream stream_id)
      let c0 := if r.1 ≠ Z_OK ∧ r.2 = true then c.act (.qCritical .tightInflateEnd) else c
      { c0 with zlibStreamActive := fun i => if i = stream_id then false
                                             else c0.zlibStreamActive i }
    else c
  (c1, comp_ctl / 2)

/-- The loop `for( stream_id = 0; stream_id < 4; stream_id++ )` of `handleTight`:
the connection and the value of `comp_ctl` after it. -/
def tightResetStreams (E : Ext) (c : Conn) (comp_ctl : Nat) : Conn × Nat :=
  forLoop 4 (tightResetStep E) (c, comp_ctl)

/-- The scan-line loop of `decompressJpegRect`: scan line `dy` is read into
`m_buffer`, packed into pixels at `m_buffer + BUFFER_SIZE / 2` and copied to
the screen. -/
def jpegScanlines (B : Build) (img : JpegImage) (c : Conn) (x y w : Nat) : Conn :=
  forLoop img.output_height
    (fun dy (c : Conn) =>
      let buf0 := writeBytes c.buffer 0
        ((List.range (img.output_width * img.output_components)).map fun k =>
          img.scanline dy k % 256)
      let buf1 := forLoop w
        (fun dx (buf : Mem) =>
          store32 B.WORDS_BIGENDIAN buf (B.BUFFER_SIZE / 2 + 4 * dx)
            (RGB_TO_PIXEL (byteAt buf (dx * 3)) (byteAt buf (dx * 3 + 1))
              (byteAt buf (dx * 3 + 2))))
        buf0
      { c with
        buffer := buf1
        screen := c.screen.copyRect x ((y + dy) % 65536) w 1
          (bufferWords B.WORDS_BIGENDIAN buf1 (B.BUFFER_SIZE / 2)) })
    c

/-- The function `ivsConnection::decompressJpegRect` (compiled with libjpeg only). -/
def decompressJpegRect (B : Build) (E : Ext) (c : Conn) (x y w h : Nat) : Bool × Conn :=
  let (len, c1) := readCompactLen c
  let compressed_len := toInt32 len
  if compressed_len ≤ 0 then (false, c1.act (.qCritical .jpegIncorrectData))
  else match readFromServer c1 compressed_len.toNat with
    | none => (false, c1)
    | some (data, c2) =>
      let img := E.jpeg data
      if img.output_width ≠ w ∨ img.output_height ≠ h ∨ img.output_components ≠ 3 then
        (false, c2.act (.qCritical .jpegWrongData))
      else (true, jpegScanlines B img c2 x y w)

/-- State of the decompression loops of `handleTight`. -/
structure TightLoop where
  c : Conn
  compressed_len : Nat
  rows_processed : Nat
  extra_bytes : Nat

/-- The `do … while( zs->avail_out == 0 )` loop of `handleTight` on the input
`input` still unread in `m_zlibBuffer`: `none` when the fuel runs out,
`some (false, _)` when the decoder returns `FALSE` from inside the loop. -/
def tightInflateLoop (B : Build) (E : Ext) (f : TightFilter)
    (rx ry rw stream_id row_size buffer_size : Nat) :
    Nat → TightLoop → List Nat → Option (Bool × TightLoop)
  | 0, _, _ => none
  | fuel + 1, st, input =>
    let c := st.c
    let avail_out0 := buffer_size - st.extra_bytes
    let r := E.inflateBounded (c.zlibStream stream_id) input avail_out0
    let c1 := { c with
      zlibStream := fun i => if i = stream_id then c.zlibStream stream_id ++ [(input, avail_out0)]
                             else c.zlibStream i
      buffer := writeBytes c.buffer st.extra_bytes r.out }
    let avail_out := avail_out0 - r.out.length
    if r.ret = Z_BUF_ERROR then some (true, { st with c := c1 })
    else if r.ret ≠ Z_OK ∧ r.ret ≠ Z_STREAM_END then
      some (false, { st with c := c1.act (.qCritical .tightInflateError) })
    else
      let num_rows := (buffer_size - avail_out) / row_size % 65536
      let c2 := applyFilter B E f c1 num_rows buffer_size
      let extra_bytes := buffer_size - avail_out - num_rows * row_size
      let c3 :=
        if extra_bytes > 0 then
          { c2 with buffer := fun k =>
              if k < extra_bytes then c2.buffer (num_rows * row_size + k) else c2.buffer k }
        else c2
      let c4 :=
        if num_rows > 0 then
          { c3 with
            screen := c3.screen.copyRect rx ((ry + st.rows_processed) % 65536) rw
              num_rows (bufferWords B.WORDS_BIGENDIAN c3.buffer buffer_size) }
        else c3
      let st1 : TightLoop :=
        { c := c4, compressed_len := st.compressed_len,
          rows_processed := (st.rows_processed + num_rows) % 65536, extra_bytes := extra_bytes }
      if avail_out = 0 then
        tightInflateLoop B E f rx ry rw stream_id row_size buffer_size fuel st1
          (input.drop r.consumed)
      else some (true, st1)

/-- The `while( compressed_len > 0 )` loop of `handleTight`. -/
def tightReadLoop (B : Build) (E : Ext) (f : TightFilter)
    (rx ry rw stream_id row_size buffer_size : Nat) :
    Nat → TightLoop → Option (Bool × TightLoop)
  | fuel, st =>
    if st.compressed_len = 0 then some (true, st)
    else match fuel with
      | 0 => none
      | fuel + 1 =>
        let portion_len :=
          if st.compressed_len > B.ZLIB_BUFFER_SIZE then B.ZLIB_BUFFER_SIZE
          else st.compressed_len
        match readFromServer st.c portion_len with
        | none => some (false, st)
        | some (bs, c1) =>
          let c2 := { c1 with zlibBuffer := writeBytes c1.zlibBuffer 0 bs }
          let st1 := { st with c := c2, compressed_len := st.compressed_len - portion_len }
          match tightInflateLoop B E f rx ry rw stream_id row_size buffer_size fuel st1 bs with
          | none => none
          | some (false, st2) => some (false, st2)
          | some (true, st2) =>
            tightReadLoop B E f rx ry rw stream_id row_size buffer_size fuel st2

/-- The part of `handleTight` after the filter is chosen and initialised: from
the test `bits_pixel == 0` to the end of the function. `comp_ctl` is the control
byte after the four shifts of the reset loop. -/
def tightData (B : Build) (E : Ext) (fuel : Nat) (rx ry rw rh comp_ctl : Nat)
    (filter_function : TightFilter) (bits_pixel : Nat) (c4 : Conn) : Option (Bool × Conn) :=
  if bits_pixel = 0 then some (false, c4.act (.qCritical .tightPaletteError))
  else
    -- determine if the data should be decompressed or just copied
    let row_size := (rw * bits_pixel + 7) / 8 % 65536
    if rh * row_size < TIGHT_MIN_TO_COMPRESS then
      match readFromServer c4 (rh * row_size) with
      | none => some (false, c4)
      | some (bs, c5) =>
        let c6 := { c5 with buffer := writeBytes c5.buffer 0 bs }
        -- buffer2 = &m_buffer[TIGHT_MIN_TO_COMPRESS * 4]
        let c7 := applyFilter B E filter_function c6 rh (TIGHT_MIN_TO_COMPRESS * 4)
        some (true, { c7 with
          screen := c7.screen.copyRect rx ry rw rh
            (bufferWords B.WORDS_BIGENDIAN c7.buffer (TIGHT_MIN_TO_COMPRESS * 4)) })
    else
      -- read the length (1..3 bytes) of compressed data following
      let (len, c5) := readCompactLen c4
      let compressed_len := toInt32 len
      if compressed_len ≤ 0 then some (false, c5.act (.qCritical .tightIncorrectData))
      else
        -- now let us initialize compression stream if needed
        let stream_id := comp_ctl &&& 3
        let init : Option Conn :=
          if c5.zlibStreamActive stream_id = true then some c5
          else if E.inflateInit.1 ≠ Z_OK then none
          else some { c5 with
            zlibStream := fun i => if i = stream_id then [] else c5.zlibStream i
            zlibStreamActive := fun i => if i = stream_id then true
                                         else c5.zlibStreamActive i }
        match init with
        | none =>
          some (false,
            if E.inflateInit.2 = true then c5.act (.qCritical .tightInflateInitError)
            else c5)
        | some c6 =>
          -- read, decode and draw actual pixel data in a loop
          let buffer_size := (B.BUFFER_SIZE * bits_pixel / (bits_pixel + 32)) &&& 4294967292
          if row_size > buffer_size then some (false, c6.act (.qCritical .tightBufferSize))
          else
            match tightReadLoop B E filter_function rx ry rw stream_id row_size
                buffer_size fuel
                { c := c6, compressed_len := compressed_len.toNat, rows_processed := 0,
                  extra_bytes := 0 } with
            | none => none
            | some (false, st) => some (false, st.c)
            | some (true, st) =>
              if st.rows_processed ≠ rh then
                some (false, st.c.act (.qCritical .tightScanLines))
              else some (true, st.c)

/-- The function `ivsConnection::handleTight` (compiled with zlib only). -/
def handleTight (B : Build) (E : Ext) (fuel : Nat) (c : Conn) (rx ry rw rh : Nat) :
    Option (Bool × Conn) :=
  match readFromServer c 1 with
  | none => some (false, c)
  | some (cb, c1) =>
    -- flush zlib streams if we are told by the server to do so
    let c2 := (tightResetStreams E c1 (cb.getD 0 0 % 256)).1
    let comp_ctl := (tightResetStreams E c1 (cb.getD 0 0 % 256)).2
    -- handle solid rectangles
    if comp_ctl = rfbTightFill then
      match readFromServer c2 4 with
      | none => some (false, c2)
      | some (pb, c3) =>
        let fill_color := word32 B.WORDS_BIGENDIAN (pb.getD 0 0) (pb.getD 1 0) (pb.getD 2 0)
          (pb.getD 3 0)
        some (true, { c3 with screen := c3.screen.fillRect rx ry rw rh fill_color })
    else if comp_ctl = rfbTightJpeg then
      if B.HAVE_LIBJPEG then some (decompressJpegRect B E c2 rx ry rw rh)
      -- return ( -1 ) in a function returning bool
      else some (decide ((-1 : Int) ≠ 0), c2)
    -- quit on unsupported subencoding value
    else if comp_ctl > rfbTightMaxSubencoding then
      some (false, c2.act (.qCritical .tightBadSubencoding))
    -- first, we should identify a filter to use
    else if comp_ctl &&& rfbTightExplicitFilter ≠ 0 then
      match readFromServer c2 1 with
      | none => some (false, c2)
      | some (fb, c3) =>
        let filter_id := fb.getD 0 0 % 256
        if filter_id = rfbTightFilterCopy then
          tightData B E fuel rx ry rw rh comp_ctl .copy
            (initFilterCopy c3 rw).1 (initFilterCopy c3 rw).2
        else if filter_id = rfbTightFilterPalette then
          tightData B E fuel rx ry rw rh comp_ctl .palette
            (initFilterPalette c3 rw).1 (initFilterPalette c3 rw).2
        else if filter_id = rfbTightFilterGradient then
          tightData B E fuel rx ry rw rh comp_ctl .gradient
            (initFilterGradient c3 rw).1 (initFilterGradient c3 rw).2
        else some (false, c3.act (.qCritical .tightUnknownFilter))
    else
      tightData B E fuel rx ry rw rh comp_ctl .copy
        (initFilterCopy c2 rw).1 (initFilterCopy c2 rw).2

/-! ## Zlib -/

/-- State of the `while( remaining > 0 && inflateResult == Z_OK )` loop of
`handleZlib`; `out_pos` is `next_out - m_rawBuffer` and `avail_out` the space
left behind it. -/
structure ZlibLoop where
  c : Conn
  remaining : Int
  inflateResult : Int
  out_pos : Nat
  avail_out : Nat

/-- The decompression loop of `handleZlib`: `some (false, _)` when the decoder
returns `FALSE` from inside the loop, `some (true, st)` when the loop ends. -/
def handleZlibLoop (B : Build) (E : Ext) : Nat → ZlibLoop → Option (Bool × ZlibLoop)
  | fuel, st =>
    if ¬ (st.remaining > 0 ∧ st.inflateResult = Z_OK) then some (true, st)
    else match fuel with
      | 0 => none
      | fuel + 1 =>
        let toRead : Int := if st.remaining > B.BUFFER_SIZE then B.BUFFER_SIZE else st.remaining
        -- fill the buffer, obtaining data from the server
        match readFromServer st.c toRead.toNat with
        | none => some (false, st)
        | some (bs, c1) =>
          let c2 := { c1 with buffer := writeBytes c1.buffer 0 bs }
          -- need to uncompress buffer full
          let r := E.inflateBounded c2.decompStream bs st.avail_out
          let c3 := { c2 with
            decompStream := c2.decompStream ++ [(bs, st.avail_out)]
            rawBuffer := writeBytes c2.rawBuffer st.out_pos r.out }
          let st1 : ZlibLoop :=
            { c := c3, remaining := st.remaining, inflateResult := r.ret,
              out_pos := st.out_pos + r.out.length, avail_out := st.avail_out - r.out.length }
          -- we never supply a dictionary for compression
          if r.ret = Z_NEED_DICT then
            some (false, { st1 with c := c3.act (.qCritical .zlibNeedsDictionary) })
          else if r.ret < 0 then
            some (false, { st1 with c := c3.act (.qCritical .zlibInflateError) })
          -- result buffer allocated to be at least large enough
          else if bs.length - r.consumed > 0 ∧ st1.avail_out = 0 then
            some (false, { st1 with c := c3.act (.qCritical .zlibOutOfSpace) })
          else handleZlibLoop B E fuel { st1 with remaining := st.remaining - toRead }

/-- The function `ivsConnection::handleZlib` (compiled with zlib only). -/
def handleZlib (B : Build) (E : Ext) (fuel : Nat) (c : Conn) (rx ry rw rh : Nat) :
    Option (Bool × Conn) :=
  -- first make sure we have a large enough raw buffer to hold the decompressed data
  let size := toInt32 (rw * rh * 4)
  let c1 :=
    if c.rawBufferSize < size then { c with rawBufferSize := size, rawBuffer := E.uninit }
    else c
  match readFromServer c1 4 with
  | none => some (false, c1)
  | some (hdr, c2) =>
    let remaining := toInt32 (wire32 (hdr.getD 0 0) (hdr.getD 1 0) (hdr.getD 2 0) (hdr.getD 3 0))
    -- initialize the decompression stream structures on the first invocation
    let init : Option Conn :=
      if c2.decompStreamInited = true then some c2
      else if E.inflateInit.1 ≠ Z_OK then none
      else some { c2 with decompStream := [], decompStreamInited := true }
    match init with
    | none => some (false, c2.act (.qCritical .zlibInflateInitError))
    | some c3 =>
      match handleZlibLoop B E fuel
          { c := c3, remaining := remaining, inflateResult := Z_OK, out_pos := 0,
            avail_out := c3.rawBufferSize.toNat } with
      | none => none
      | some (false, st) => some (false, st.c)
      | some (true, st) =>
        if st.inflateResult = Z_OK then
          some (true, { st.c with
            screen := st.c.screen.copyRect rx ry rw rh
              (bufferWords B.WORDS_BIGENDIAN st.c.rawBuffer 0) })
        else some (false, st.c.act (.qCritical .zlibInflateError))

/-! ## Italc -/

/-- State of the run-length loops of `handleItalc`: the screen pixels, the pixel
index `dst` points to, and the variables `dx`, `ry` and `done`. -/
structure RleState where
  pix : Mem
  dst : Nat
  dx : Nat
  ry : Nat
  done : Bool

/-- One iteration of the inner loop of `handleItalc`: `val` is stored at `dst`
and the position advances, to the next scan line at the end of a rect row. -/
def rleStep (W rx rw sh val : Nat) (st : RleState) : RleState :=
  let pix := st.pix.write st.dst val
  let dx := (st.dx + 1) % 65536
  if dx ≥ rw then
    if st.ry + 1 < sh then
      { pix := pix, dst := ((st.ry + 1) % 65536) * W + rx, dx := 0,
        ry := (st.ry + 1) % 65536, done := false }
    else { pix := pix, dst := st.dst, dx := 0, ry := st.ry, done := true }
  else { pix := pix, dst := st.dst + 1, dx := dx, ry := st.ry, done := false }

/-- The run-length loops of `handleItalc` over the decompressed data. -/
def rleDecode (W rx rw sh : Nat) (rle_data : Mem) (bytesRLE : Nat) (st : RleState) :
    RleState :=
  forLoop ((bytesRLE + 3) / 4)
    (fun g (st : RleState) =>
      if st.done then st
      else
        let i := 4 * g
        -- swap32IfBE( *( (QRgb *) ( rle_data + i ) ) ) & 0xffffff
        let val := (word32 false (rle_data i) (rle_data (i + 1)) (rle_data (i + 2))
          (rle_data (i + 3))) &&& 16777215
        forLoop (byteAt rle_data (i + 3) + 1)
          (fun _ (st : RleState) => if st.done then st else rleStep W rx rw sh val st)
          st)
    st

/-- The function `ivsConnection::handleItalc`. The header is modelled from the
spec: one byte `compressed`, then the 32-bit `bytesLZO` and `bytesRLE`.
`lzo1x_decompress` is given the block `rle_data` of `bytesRLE` bytes but not its
size: when it produces more, it has written behind the end of the block before
the lengths are compared, which the trace records as `overrunRleData`. What the
C++ program does after that is undefined; the model goes on as the code is
written, and no result is stated for a trace with this action. -/
def handleItalc (B : Build) (E : Ext) (fuel : Nat) (c : Conn) (rx ry rw rh : Nat) :
    Option (Bool × Conn) :=
  match readFromServer c 9 with
  | none => some (false, c)
  | some (hdr, c1) =>
    if hdr.getD 0 0 % 256 = 0 then handleRaw B fuel c1 rx ry rw rh
    else
      let bytesLZO := wire32 (hdr.getD 1 0) (hdr.getD 2 0) (hdr.getD 3 0) (hdr.getD 4 0)
      let bytesRLE := wire32 (hdr.getD 5 0) (hdr.getD 6 0) (hdr.getD 7 0) (hdr.getD 8 0)
      match readFromServer c1 bytesLZO with
      | none => some (false, c1)
      | some (lzo_data, c2) =>
        let out := E.lzo1x_decompress lzo_data
        if out.length ≠ bytesRLE then
          -- the whole output has been written to rle_data = new Q_UINT8[bytesRLE]
          let c2w := if out.length > bytesRLE then c2.act .overrunRleData else c2
          some (false, c2w.act (.qCritical .italcSizeMismatch))
        else
          let rle_data := writeBytes E.uninit 0 out
          let st := rleDecode c2.screen.width rx rw (c2.screen.height % 65536) rle_data bytesRLE
            { pix := c2.screen.pix, dst := ry * c2.screen.width + rx, dx := 0, ry := ry,
              done := false }
          let c3 := { c2 with screen := { c2.screen with pix := st.pix } }
          some (true, if st.dx ≠ 0 then c3.act (.qWarning .italcDxNotZero) else c3)

/-! ## Cursor -/

/-- The function `ivsConnection::postRegionChangedEvent`, called from the site `o`. -/
def postRegionChangedEvent (c : Conn) (o : Origin) (rgn : QRegion) : Conn :=
  if c.hasParent then c.act (.postRegionChanged o rgn) else c

/-- The rect `QRect( m_cursorPos - m_cursorHotSpot, m_cursorShape.size() )`. -/
def cursorRect (c : Conn) : QRect :=
  ⟨c.cursorPos.x - c.cursorHotSpot.x, c.cursorPos.y - c.cursorHotSpot.y,
    c.cursorShape.width, c.cursorShape.height⟩

/-- The function `ivsConnection::handleCursorPos`. -/
def handleCursorPos (c : Conn) (x y : Nat) : Bool × Conn :=
  -- move cursor and update appropriate region
  let ch_reg := QRegion.empty.add (cursorRect c)
  let c1 := { c with cursorPos := ⟨x, y⟩ }
  let ch_reg := ch_reg.add (cursorRect c1)
  let c2 := postRegionChangedEvent c1 .cursorPos ch_reg
  let c3 := if c2.quality.toNat < Quality.QualityDemoLow.toNat then
    c2.act (.regionUpdated .cursorPos ch_reg) else c2
  (true, c3)

/-- The expression `RGB24_TO_PIXEL(r,g,b)`. -/
def RGB24_TO_PIXEL (r g b : Nat) : Nat :=
  (((((r % 256) * localMax 0 + 127) / 255) <<< localShift 0) |||
    ((((g % 256) * localMax 1 + 127) / 255) <<< localShift 1) |||
    ((((b % 256) * localMax 2 + 127) / 255) <<< localShift 2)) % 4294967296

/-- The encoding numbers of the RFB protocol header (`rfbproto.h`, not part of
this file). -/
def rfbEncodingRaw : Nat := 0
/-- Encoding number of CopyRect. -/
def rfbEncodingCopyRect : Nat := 1
/-- Encoding number of RRE. -/
def rfbEncodingRRE : Nat := 2
/-- Encoding number of CoRRE. -/
def rfbEncodingCoRRE : Nat := 4
/-- Encoding number of Zlib. -/
def rfbEncodingZlib : Nat := 6
/-- Encoding number of Tight. -/
def rfbEncodingTight : Nat := 7
/-- Encoding number of the iTALC rect encoding. -/
def rfbEncodingItalc : Nat := 19
/-- Encoding number of the iTALC cursor encoding. -/
def rfbEncodingItalcCursor : Nat := 20
/-- Pseudo-encoding number of XCursor, `0xFFFFFF10`. -/
def rfbEncodingXCursor : Nat := 4294967056
/-- Pseudo-encoding number of RichCursor, `0xFFFFFF11`. -/
def rfbEncodingRichCursor : Nat := 4294967057
/-- Pseudo-encoding number of PointerPos, `0xFFFFFF18`. -/
def rfbEncodingPointerPos : Nat := 4294967064
/-- Pseudo-encoding number of LastRect, `0xFFFFFF20`. -/
def rfbEncodingLastRect : Nat := 4294967072

/-- The conversion of the 1-bpp XCursor bitmap in `rcMask` to byte-wide colour
indices in `rcSource`, one index every `bytesPerPixel` bytes. -/
def xcursorIndices (rcMask rcSource : Mem) (width height bytesPerRow bytesPerPixel : Nat) :
    Mem :=
  (forLoop height
    (fun y (st : Mem × Nat) =>
      let st1 := forLoop (width / 8)
        (fun x (st : Mem × Nat) =>
          forLoop 8
            (fun t (st : Mem × Nat) =>
              (st.1.write st.2 ((byteAt rcMask (y * bytesPerRow + x) >>> (7 - t)) &&& 1),
                st.2 + bytesPerPixel))
            st)
        st
      forLoop (width % 8)
        (fun t (st : Mem × Nat) =>
          (st.1.write st.2
              ((byteAt rcMask (y * bytesPerRow + width / 8) >>> (7 - t)) &&& 1),
            st.2 + bytesPerPixel))
        st1)
    (rcSource, 0)).1

/-- The end of `handleCursorShape`, from "read mask data" on: `rcSource` holds
the decoded cursor pixels. -/
def cursorShapeInstall (B : Build) (E : Ext) (c2 : Conn) (rcSource : Mem)
    (xhot yhot width height bytesMaskData : Nat) : Bool × Conn :=
  match readFromServer c2 bytesMaskData with
  | none => (false, c2)
  | some (mask, c3) =>
    let ch_reg := QRegion.empty.add (cursorRect c3)
    let c4 := c3.act .cursorLockForWrite
    let c5 := { c4 with
      cursorShape :=
        { width := width, height := height,
          pixels := bufferWords B.WORDS_BIGENDIAN rcSource 0,
          alpha := writeBytes E.uninit 0 mask } }
    let c6 := c5.act .cursorUnlock
    let c7 := { c6 with cursorHotSpot := ⟨xhot, yhot⟩ }
    let ch_reg := ch_reg.add (cursorRect c7)
    -- make sure, area around old cursor is updated and new cursor is painted
    let c8 := postRegionChangedEvent c7 .cursorShape ch_reg
    let c9 := c8.act .cursorShapeChanged
    let c10 := if c9.quality.toNat < Quality.QualityDemoLow.toNat then
      c9.act (.regionUpdated .cursorShape ch_reg) else c9
    (true, c10)

/-- The function `ivsConnection::handleCursorShape`. -/
def handleCursorShape (B : Build) (E : Ext) (c : Conn) (xhot yhot width height enc : Nat) :
    Bool × Conn :=
  -- bytesPerPixel = __localDisplayFormat.bitsPerPixel / 8
  let bytesPerPixel := 32 / 8
  let bytesPerRow := (width + 7) / 8
  let bytesMaskData := bytesPerRow * height
  if width * height = 0 then (true, c)
  -- read and decode cursor pixel data, depending on the encoding type
  else if enc = rfbEncodingXCursor then
    -- read and convert background and foreground colors
    match readFromServer c 6 with
    | none => (false, c)
    | some (rgb, c1) =>
      let colors := fun i =>
        if i = 0 then RGB24_TO_PIXEL (rgb.getD 3 0) (rgb.getD 4 0) (rgb.getD 5 0)
        else RGB24_TO_PIXEL (rgb.getD 0 0) (rgb.getD 1 0) (rgb.getD 2 0)
      -- read 1bpp pixel data into a temporary buffer
      match readFromServer c1 bytesMaskData with
      | none => (false, c1)
      | some (bits, c2) =>
        let rcMask := writeBytes E.uninit 0 bits
        -- convert 1bpp data to byte-wide color indices
        let rcSource := xcursorIndices rcMask E.uninit width height bytesPerRow bytesPerPixel
        -- convert indices into the actual pixel values: in case 4 of the switch
        -- the body of the loop over the pixels ends with a break
        let rcSource :=
          if 0 < width * height then
            store32 B.WORDS_BIGENDIAN rcSource 0 (colors (byteAt rcSource 0))
          else rcSource
        cursorShapeInstall B E c2 rcSource xhot yhot width height bytesMaskData
  else
    -- rich-cursor encoding
    match readFromServer c (width * height * bytesPerPixel) with
    | none => (false, c)
    | some (px, c1) =>
      cursorShapeInstall B E c1 (writeBytes E.uninit 0 px) xhot yhot width height bytesMaskData

/-! ## The dispatcher -/

/-- Message type `rfbFramebufferUpdate`. -/
def rfbFramebufferUpdate : Nat := 0
/-- Message type `rfbSetColourMapEntries`. -/
def rfbSetColourMapEntries : Nat := 1
/-- Message type `rfbBell`. -/
def rfbBell : Nat := 2
/-- Message type `rfbServerCutText`. -/
def rfbServerCutText : Nat := 3

/-- The function `ivsConnection::close`: the four Tight streams are marked
inactive, then the lower layer closes the transport. -/
def Conn.close (c : Conn) : Conn :=
  ({ c with zlibStreamActive := fun _ => false }).act .isdClose

/-- How one iteration of the rect loop of a framebuffer update ends. -/
inductive RectStep
  /-- The iteration is done (`break` out of the switch, or `continue`). -/
  | next (c : Conn) (updated_region : QRegion)
  /-- The rect is `rfbEncodingLastRect`: `break` out of the loop. -/
  | last (c : Conn) (updated_region : QRegion)
  /-- The dispatcher executes `return( FALSE )`. -/
  | failed (c : Conn)

/-- The step after a decoder call `if( !handleX( … ) ) return( FALSE ); break;`. -/
def RectStep.ofBool (updated_region : QRegion) (r : Bool × Conn) : RectStep :=
  if r.1 then .next r.2 updated_region else .failed r.2

/-- The `switch( rect.encoding )` of `handleServerMessages` for a rect
`(x, y, w, h)` that passed the tests before it. -/
def dispatchRect (B : Build) (E : Ext) (fuel : Nat) (c : Conn) (updated_region : QRegion)
    (x y w h encoding : Nat) : Option RectStep :=
  if encoding = rfbEncodingRaw then
    (handleRaw B fuel c x y w h).map (RectStep.ofBool updated_region)
  else if encoding = rfbEncodingCopyRect then
    match readFromServer c 4 with
    | none => some (.failed c)
    | some (cr, c1) =>
      let srcX := wire16 (cr.getD 0 0) (cr.getD 1 0)
      let srcY := wire16 (cr.getD 2 0) (cr.getD 3 0)
      some (.next { c1 with screen := c1.screen.copyExistingRect srcX srcY w h x y }
        updated_region)
  else if encoding = rfbEncodingRRE then
    some (RectStep.ofBool updated_region (handleRRE c x y w h))
  else if encoding = rfbEncodingCoRRE then
    some (RectStep.ofBool updated_region (handleCoRRE B c x y w h))
  else if B.HAVE_LIBZ = true ∧ encoding = rfbEncodingZlib then
    (handleZlib B E fuel c x y w h).map (RectStep.ofBool updated_region)
  else if B.HAVE_LIBZ = true ∧ encoding = rfbEncodingTight then
    (handleTight B E fuel c x y w h).map (RectStep.ofBool updated_region)
  else if encoding = rfbEncodingPointerPos then
    some (RectStep.ofBool updated_region (handleCursorPos c x y))
  else if encoding = rfbEncodingRichCursor ∨ encoding = rfbEncodingXCursor then
    some (RectStep.ofBool updated_region (handleCursorShape B E c x y w h encoding))
  else if encoding = rfbEncodingItalc then
    (handleItalc B E fuel c x y w h).map (RectStep.ofBool updated_region)
  else if encoding = rfbEncodingItalcCursor then
    let ch_reg := QRegion.empty.add (cursorRect c)
    let c1 := c.act .cursorLockForWrite
    let c2 := { c1 with
      cursorShape := (E.readImage c1.inbound).1
      inbound := (E.readImage c1.inbound).2 }
    let c3 := c2.act .cursorUnlock
    let c4 := { c3 with cursorHotSpot := ⟨x, y⟩ }
    let ch_reg := ch_reg.add (cursorRect c4)
    -- make sure, area around old cursor is updated and new cursor is painted
    some (.next (postRegionChangedEvent c4 .italcCursor ch_reg) updated_region)
  else
    some (.failed ((c.act (.qCritical .unknownRectEncoding)).close))

/-- One iteration of the rect loop in the `rfbFramebufferUpdate` case of
`handleServerMessages`: the rect header is read and checked, then the rect is
dispatched. -/
def handleRect (B : Build) (E : Ext) (fuel : Nat) (c : Conn) (updated_region : QRegion) :
    Option RectStep :=
  match readFromServer c 12 with
  | none => some (.failed c)
  | some (hb, c1) =>
    let x := wire16 (hb.getD 0 0) (hb.getD 1 0)
    let y := wire16 (hb.getD 2 0) (hb.getD 3 0)
    let w := wire16 (hb.getD 4 0) (hb.getD 5 0)
    let h := wire16 (hb.getD 6 0) (hb.getD 7 0)
    let encoding := wire32 (hb.getD 8 0) (hb.getD 9 0) (hb.getD 10 0) (hb.getD 11 0)
    if encoding = rfbEncodingLastRect then some (.last c1 updated_region)
    else if x + w > c1.framebufferWidth ∨ y + h > c1.framebufferHeight then
      some (.failed (c1.act (.qWarning .rectTooLarge)))
    else if encoding ≠ rfbEncodingPointerPos ∧ encoding ≠ rfbEncodingXCursor ∧
        encoding ≠ rfbEncodingRichCursor then
      if h * w = 0 then some (.next (c1.act (.qWarning .zeroSizeRect)) updated_region)
      else dispatchRect B E fuel c1 (updated_region.add ⟨x, y, w, h⟩) x y w h encoding
    else
      dispatchRect B E fuel { c1 with softwareCursor := true } updated_region x y w h encoding

/-- The rect loop `for( i = 0; i < msg.fu.nRects; i++ )`: `some (false, c, _)`
when the dispatcher returned `FALSE`, `some (true, c, rgn)` when the loop ended. -/
def rectLoop (B : Build) (E : Ext) (fuel : Nat) :
    Nat → Conn → QRegion → Option (Bool × Conn × QRegion)
  | 0, c, rgn => some (true, c, rgn)
  | n + 1, c, rgn =>
    match handleRect B E fuel c rgn with
    | none => none
    | some (.failed c1) => some (false, c1, rgn)
    | some (.last c1 rgn1) => some (true, c1, rgn1)
    | some (.next c1 rgn1) => rectLoop B E fuel n c1 rgn1

/-- The pixel index of `data[x]` for
`data = (QRgb *) m_screen.scanLine( y + it->y() ) + it->x()` on a screen of
width `W`. -/
def QRect.pixelIndex (W : Nat) (r : QRect) (x y : Nat) : Nat :=
  (((y : Int) + r.y) * W + r.x).toNat + x

/-- The two inner loops of the colour reduction on one rect of the region:
`data[x] &= and_value` for every `y < it->height()` and `x < it->width()`. The
rects of `updated_region` have 16-bit sizes, so that the `Q_UINT16` counters do
not wrap. -/
def demoMaskRect (W and_value : Nat) (pix : Mem) (r : QRect) : Mem :=
  forLoop r.h.toNat
    (fun y (p : Mem) =>
      forLoop r.w.toNat
        (fun x (p : Mem) =>
          p.write (r.pixelIndex W x y) (p (r.pixelIndex W x y) &&& and_value))
        p)
    pix

/-- The colour reduction of the demo qualities: the loop over
`updated_region.rects()`. The model keeps the rects as they were added, where Qt
returns disjoint rects that cover the same pixels; as `&=` with a fixed value
gives the same pixel when it is applied twice, the screen is the same. -/
def demoMask (s : Screen) (updated_region : QRegion) (and_value : Nat) : Screen :=
  { s with pix := updated_region.rects.foldl (demoMaskRect s.width and_value) s.pix }

/-- The `rfbFramebufferUpdate` case of `handleServerMessages`: `some (false, c)`
when the dispatcher executes `return( FALSE )`, `some (true, c)` when the case
ends with `break`. The write lock taken by `QWriteLocker wl` is released by
`wl.unlock()` or, on a `return`, when `wl` goes out of scope. -/
def handleFramebufferUpdate (B : Build) (E : Ext) (fuel : Nat) (c : Conn) :
    Option (Bool × Conn) :=
  let c0 := c.act .imageLockForWrite
  match readFromServer c0 3 with
  | none => some (false, (c0.act (.qCritical .readingUpdateMsgFailed)).act .imageUnlock)
  | some (fu, c1) =>
    let nRects := wire16 (fu.getD 1 0) (fu.getD 2 0)
    match rectLoop B E fuel nRects c1 QRegion.empty with
    | none => none
    | some (false, c2, _) => some (false, c2.act .imageUnlock)
    | some (true, c2, updated_region) =>
      if updated_region.isEmpty then some (true, c2.act .imageUnlock)
      else
        let c3 := { c2 with scaledScreenNeedsUpdate := true }
        let c4 :=
          if c3.quality.toNat ≥ Quality.QualityDemoLow.toNat ∧
              c3.quality ≠ .QualityDemoHigh then
            -- if we are providing data for demo-purposes, we perform a simple
            -- color-reduction for better compression-results
            let and_value := if c3.quality = .QualityDemoLow then 16316664 else 16579836
            { c3 with screen := demoMask c3.screen updated_region and_value }
          else c3
        let c5 := postRegionChangedEvent c4 .update updated_region
        let c6 := c5.act .imageUnlock
        some (true, c6.act (.regionUpdated .update updated_region))

/-- Modelled from the spec: the Transport operation `write_all(bytes) → ok | Fail`
behind `isdConnection::writeToServer`, which is not part of this file. Whether
the write succeeds is up to the transport (`writeOk`); when it does, the bytes
are appended to what the server has been sent, and a failed write sends
nothing. -/
def writeToServer (c : Conn) (bytes : List Nat) : Bool × Conn :=
  if c.writeOk c.outbound bytes = true then (true, { c with outbound := c.outbound ++ bytes })
  else (false, c)

/-- Message type `rfbFramebufferUpdateRequest`. -/
def rfbFramebufferUpdateRequest : Nat := 3

/-- The function `ivsConnection::sendFramebufferUpdateRequest( x, y, w, h, incremental )`. -/
def sendFramebufferUpdateRequest (c : Conn) (x y w h : Nat) (incremental : Bool) :
    Bool × Conn :=
  if c.state ≠ .Connected then (false, c)
  else
    writeToServer c
      [rfbFramebufferUpdateRequest, if incremental then 1 else 0,
        x / 256 % 256, x % 256, y / 256 % 256, y % 256,
        w / 256 % 256, w % 256, h / 256 % 256, h % 256]

/-- The function `ivsConnection::sendIncrementalFramebufferUpdateRequest`. -/
def sendIncrementalFramebufferUpdateRequest (c : Conn) : Bool × Conn :=
  sendFramebufferUpdateRequest c 0 0 c.framebufferWidth c.framebufferHeight true

/-- The function `ivsConnection::rescaleScreen`. -/
def rescaleScreen (c : Conn) : Conn :=
  if c.scaledScreenNeedsUpdate then
    { c with rescaled := c.rescaled + 1, scaledScreenNeedsUpdate := false }
  else c

/-- The body of the `while` loop of `handleServerMessages`: one server message is
read and handled. `some (false, c)` when the function executes
`return( FALSE )`, `some (true, c)` when the loop goes on. -/
def handleServerMessage (B : Build) (E : Ext) (fuel : Nat) (c : Conn) :
    Option (Bool × Conn) :=
  match readFromServer c 1 with
  | none => some (false, c.act (.qWarning .readingMessageTypeFailed))
  | some (tb, c1) =>
    let type := tb.getD 0 0 % 256
    if type = rfbSetColourMapEntries then some (true, c1.act (.qWarning .colormapIgnored))
    else if type = rfbFramebufferUpdate then handleFramebufferUpdate B E fuel c1
    else if type = rfbBell then some (true, c1)
    else if type = rfbServerCutText then
      match readFromServer c1 7 with
      | none => some (false, c1)
      | some (sct, c2) =>
        let length := wire32 (sct.getD 3 0) (sct.getD 4 0) (sct.getD 5 0) (sct.getD 6 0)
        match readFromServer c2 length with
        | none => some (false, c2)
        | some (_, c3) => some (true, c3)
    else
      let r := E.isdHandleServerMessage type c1.inbound
      some (r.1, { c1 with inbound := r.2 })

/-- The `while( hasData() && --_tries >= 0 )` loop of `handleServerMessages`;
`hasData()` is modelled from the spec (`has_buffered_data()`): unread bytes are
waiting on the transport. -/
def serverMessagesLoop (B : Build) (E : Ext) (fuel : Nat) :
    Nat → Conn → Option (Bool × Conn)
  | 0, c => some (true, c)
  | tries + 1, c =>
    if c.inbound = [] then some (true, c)
    else match handleServerMessage B E fuel c with
      | none => none
      | some (false, c1) => some (false, c1)
      | some (true, c1) => serverMessagesLoop B E fuel tries c1

/-- The function `ivsConnection::handleServerMessages`. -/
def handleServerMessages (B : Build) (E : Ext) (fuel : Nat) (c : Conn)
    (send_screen_update : Bool) (tries : Int) : Option (Bool × Conn) :=
  match serverMessagesLoop B E fuel tries.toNat c with
  | none => none
  | some (false, c1) => some (false, c1)
  | some (true, c1) =>
    let c2 := if c1.scaledSizeValid then rescaleScreen c1 else c1
    if send_screen_update then some (sendIncrementalFramebufferUpdateRequest c2)
    else some (true, c2)

/-! ## Wire format of a CoRRE rect -/

/-- One subrect of a CoRRE rect: its pixel and its position and size relative to
the rect. -/
structure CoRRESubrect where
  pixel : Nat
  x : Nat
  y : Nat
  w : Nat
  h : Nat

/-- The 8 bytes of a subrect on the wire: the pixel in the local format, then
`x`, `y`, `w`, `h` as one byte each. -/
def CoRRESubrect.encode (be : Bool) (r : CoRRESubrect) : List Nat :=
  bytes32 be r.pixel ++ [r.x, r.y, r.w, r.h]

/-- Whether the subrect contains the pixel at column `i`, row `j` of the rect. -/
def CoRRESubrect.covers (r : CoRRESubrect) (i j : Nat) : Prop :=
  r.x ≤ i ∧ i < r.x + r.w ∧ r.y ≤ j ∧ j < r.y + r.h

instance (r : CoRRESubrect) (i j : Nat) : Decidable (r.covers i j) := by
  unfold CoRRESubrect.covers
  infer_instance

/-- The payload of a CoRRE rect with background `bg` and the subrects
`sub 0, …, sub (n - 1)`: the big-endian count, the background pixel, the subrects. -/
def correEncode (be : Bool) (bg n : Nat) (sub : Nat → CoRRESubrect) : List Nat :=
  [n / 16777216 % 256, n / 65536 % 256, n / 256 % 256, n % 256] ++ bytes32 be bg ++
    (List.range n).flatMap fun k => (sub k).encode be

/-! ## Notions used in the statements and proofs -/

/-- The pixel the two-colour palette filter must produce at row `y`, column `col`
of a rect of width `W`: bit `7 - col % 8` of source byte `y * ⌈W / 8⌉ + col / 8`
selects palette entry 0 or 1. -/
def palette2Expected (be : Bool) (pal src : Mem) (W y col : Nat) : Nat :=
  if (byteAt src (y * ((W + 7) / 8) + col / 8)).testBit (7 - col % 8) then paletteEntry be pal 1
  else paletteEntry be pal 0

/-- Whether an action is a notification of a finished framebuffer update: the
region-changed event or the `regionUpdated` signal that `handleServerMessages`
sends for `updated_region` at the end of the update. -/
def Action.isUpdate : Action → Bool
  | .postRegionChanged .update _ => true
  | .regionUpdated .update _ => true
  | _ => false

/-- The trace of `c'` is the trace of `c` followed by further actions, none of
which is the notification of a finished framebuffer update. -/
def TraceExt (c' c : Conn) : Prop :=
  ∃ new, c'.trace = c.trace ++ new ∧ ∀ a, a ∈ new → Action.isUpdate a = false

/-- The 12 bytes of a rect header on the wire: `x`, `y`, `w`, `h` as 16-bit and
the encoding as 32-bit big-endian integers. -/
def rectHeader (x y w h encoding : Nat) : List Nat :=
  [x / 256 % 256, x % 256, y / 256 % 256, y % 256, w / 256 % 256, w % 256,
    h / 256 % 256, h % 256, encoding / 16777216 % 256, encoding / 65536 % 256,
    encoding / 256 % 256, encoding % 256]

/-- The connection at the end of one iteration of the rect loop. -/
def RectStep.conn : RectStep → Conn
  | .next c _ => c
  | .last c _ => c
  | .failed c => c

/-- The rect loop of a framebuffer update after `k` rects that were all handled
without failure and without `LastRect`: the connection and `updated_region` at
the start of iteration `k`, and `none` when the loop does not get there. -/
def rectPrefix (B : Build) (E : Ext) (fuel : Nat) :
    Nat → Conn → QRegion → Option (Conn × QRegion)
  | 0, c, rgn => some (c, rgn)
  | k + 1, c, rgn =>
    match handleRect B E fuel c rgn with
    | some (.next c1 rgn1) => rectPrefix B E fuel k c1 rgn1
    | _ => none

/-- Invariant of a filter that writes its output words in increasing order:
`buf` is `buf0` except for the `N` words from byte `dstOff` on, and word `idx`
of these holds `g idx`. -/
def FillInv (be : Bool) (dstOff : Nat) (buf0 : Mem) (g : Nat → Nat) (N : Nat) (buf : Mem) :
    Prop :=
  (∀ k, k < dstOff ∨ dstOff + 4 * N ≤ k → buf k = buf0 k) ∧
    (∀ idx, idx < N → load32 be buf (dstOff + 4 * idx) = g idx)

/-- Invariant of `filterGradient` on an all-zero delta buffer: the `rows * W`
source words at the start of the scratch buffer are zero, and so are the first
`N` output words from byte `dstOff` on. -/
def ZeroBuf (rows W dstOff N : Nat) (buf : Mem) : Prop :=
  (∀ k, k < 4 * (rows * W) → buf k = 0) ∧ (∀ k, dstOff ≤ k → k < dstOff + 4 * N → buf k = 0)

/-! ## Tight: the Gradient filter as the specification words it -/

/-- Spec-side: `clamp_channel`, the clamp of a predicted channel value to
`0 .. 255`. -/
def clampChannel (v : Int) : Nat :=
  if v < 0 then 0 else if 255 < v then 255 else v.toNat

/-- Spec-side: channel `ch` (0 = R, 1 = G, 2 = B) of a 32-bit pixel or delta. -/
def pixelChannel (p ch : Nat) : Nat := (p >>> localShift ch) &&& 255

/-- Spec-side: one row of one channel of the Gradient filter, from the decoded
row `above` and the deltas `delta` of the row: the value at column `x` is
`(clamp(above + left - aboveLeft, 0, 255) + delta) & 255`, `left` and
`aboveLeft` being 0 in column 0. -/
def gradientSpecRow (above delta : Nat → Nat) : Nat → Nat
  | 0 => (clampChannel ((above 0 : Int) + 0 - 0) + delta 0) &&& 255
  | x + 1 =>
    (clampChannel ((above (x + 1) : Int) + (gradientSpecRow above delta x : Int) - (above x : Int))
      + delta (x + 1)) &&& 255

/-- Spec-side: one channel of the Gradient filter over a whole rectangle: row
`y` is predicted from row `y - 1`, and row 0 from a row of zeros. -/
def gradientSpec (delta : Nat → Nat → Nat) : Nat → Nat → Nat
  | 0 => gradientSpecRow (fun _ => 0) (delta 0)
  | y + 1 => gradientSpecRow (gradientSpec delta y) (delta (y + 1))

/-- Spec-side: the decoded row above row `y` of one channel: zeros above row 0. -/
def gradientAbove (delta : Nat → Nat → Nat) (y : Nat) : Nat → Nat :=
  match y with
  | 0 => fun _ => 0
  | y + 1 => gradientSpec delta y

/-- Spec-side: the decoded pixel at column `x` of row `y` of a rectangle whose
delta image is `src`. -/
def gradientSpecPixel (src : Nat → Nat → Nat) (y x : Nat) : Nat :=
  RGB_TO_PIXEL (gradientSpec (fun j i => pixelChannel (src j i) 0) y x)
    (gradientSpec (fun j i => pixelChannel (src j i) 1) y x)
    (gradientSpec (fun j i => pixelChannel (src j i) 2) y x)

/-- Decoding of the delta image `src` of width `W` in consecutive row batches,
as the loops of `handleTight` do it: for each batch size `n` the next `n` rows
of deltas are put at the start of `m_buffer`, `filterGradient( n, dst )` is
called with `dst = m_buffer + dstOff`, and the `n * W` pixels at `dst` are the
output of the batch. `r0` is the number of rows decoded before, `uninit r0` the
content of the local arrays of the call that starts at row `r0`. The result is
the list of all output pixels, row after row. -/
def gradientBatches (B : Build) (uninit : Nat → Mem) (W dstOff : Nat) (src : Nat → Nat → Nat) :
    List Nat → Nat → Conn → List Nat
  | [], _, _ => []
  | n :: ns, r0, c =>
    let c1 := { c with
      buffer := writeBytes c.buffer 0
        (rawEncode B.WORDS_BIGENDIAN W n (fun j i => src (r0 + j) i)) }
    let c2 := filterGradient B (uninit r0) c1 n dstOff
    (List.range (n * W)).map (bufferWords B.WORDS_BIGENDIAN c2.buffer dstOff) ++
      gradientBatches B uninit W dstOff src ns (r0 + n) c2

/-! ## Tight: notions for the zlib streams -/

/-- The connection `c` with the inflate contexts of the Tight streams replaced by
`z` and their active flags by `a`. -/
def Conn.withZ (c : Conn) (z : Nat → ZStream) (a : Nat → Bool) : Conn :=
  { c with zlibStream := z, zlibStreamActive := a }

/-- The inflate contexts `z`, except that stream `sid` has the context it has in `c`. -/
def mixStreams (sid : Nat) (z : Nat → ZStream) (c : Conn) : Nat → ZStream :=
  fun i => if i = sid then c.zlibStream sid else z i

/-- The connections `c1` and `c2` differ at most in the inflate contexts of Tight
streams that are not active. -/
def StreamsAgree (c1 c2 : Conn) : Prop :=
  ∃ z, c2 = c1.withZ z c1.zlibStreamActive ∧ ∀ i, c1.zlibStreamActive i = true → z i = c1.zlibStream i

/-- Two results of a decoder agree: both run out of fuel, or both return the same
value and leave connections that differ at most in the inflate contexts of
inactive Tight streams. -/
def ResultsAgree (r1 r2 : Option (Bool × Conn)) : Prop :=
  match r1, r2 with
  | none, none => True
  | some (b1, d1), some (b2, d2) => b1 = b2 ∧ StreamsAgree d1 d2
  | _, _ => False

/-- The inflate call of one iteration of the `do … while` loop of `handleTight`:
what `inflate` returned and the connection after the call. -/
def tightInflateCall (E : Ext) (stream_id buffer_size : Nat) (st : TightLoop)
    (input : List Nat) : InflateResult × Conn :=
  (E.inflateBounded (st.c.zlibStream stream_id) input (buffer_size - st.extra_bytes),
    { st.c with
      zlibStream := fun i =>
        if i = stream_id then
          st.c.zlibStream stream_id ++ [(input, buffer_size - st.extra_bytes)]
        else st.c.zlibStream i
      buffer := writeBytes st.c.buffer st.extra_bytes
        (E.inflateBounded (st.c.zlibStream stream_id) input
          (buffer_size - st.extra_bytes)).out })

/-- The rest of an iteration of the `do … while` loop of `handleTight` after a
successful inflate call that left `avail_out` bytes of space: the filter is
applied to the complete rows, the bytes behind them are moved to the start of
`m_buffer` and the rows are copied to the screen. -/
def tightInflateRows (B : Build) (E : Ext) (f : TightFilter)
    (rx ry rw row_size buffer_size : Nat) (st : TightLoop) (c1 : Conn) (avail_out : Nat) :
    TightLoop :=
  let num_rows := (buffer_size - avail_out) / row_size % 65536
  let c2 := applyFilter B E f c1 num_rows buffer_size
  let extra_bytes := buffer_size - avail_out - num_rows * row_size
  let c3 :=
    if extra_bytes > 0 then
      { c2 with buffer := fun k =>
          if k < extra_bytes then c2.buffer (num_rows * row_size + k) else c2.buffer k }
    else c2
  let c4 :=
    if num_rows > 0 then
      { c3 with
        screen := c3.screen.copyRect rx ((ry + st.rows_processed) % 65536) rw
          num_rows (bufferWords B.WORDS_BIGENDIAN c3.buffer buffer_size) }
    else c3
  { c := c4, compressed_len := st.compressed_len,
    rows_processed := (st.rows_processed + num_rows) % 65536, extra_bytes := extra_bytes }

/-- The state of the `while( compressed_len > 0 )` loop of `handleTight` after
the read `p` of the next portion into `m_zlibBuffer`. -/
def tightReadState (st : TightLoop) (p : List Nat × Conn) (portion_len : Nat) : TightLoop :=
  { st with
    c := { p.2 with zlibBuffer := writeBytes p.2.zlibBuffer 0 p.1 }
    compressed_len := st.compressed_len - portion_len }

/-- The step "initialize compression stream if needed" of `handleTight` on
stream `stream_id`: `none` when `inflateInit` fails. -/
def tightStreamInit (E : Ext) (stream_id : Nat) (c5 : Conn) : Option Conn :=
  if c5.zlibStreamActive stream_id = true then some c5
  else if E.inflateInit.1 ≠ Z_OK then none
  else some { c5 with
    zlibStream := fun i => if i = stream_id then [] else c5.zlibStream i
    zlibStreamActive := fun i => if i = stream_id then true
                                 else c5.zlibStreamActive i }

/-- The flags `a`, except that stream `sid` has the flag it has in `c`. -/
def mixFlags (sid : Nat) (a : Nat → Bool) (c : Conn) : Nat → Bool :=
  fun i => if i = sid then c.zlibStreamActive sid else a i

/-- Relation between the connections `d1` and `d2` that two runs of the data part
of `handleTight` on stream `sid` leave, when the second run started with the
inflate contexts `z` and the flags `a`: they differ at most in the contexts and
flags of other streams, which are still `z` and `a` in `d2`, and in the context
of stream `sid` if that stream is not active. -/
def StreamRel (sid : Nat) (z : Nat → ZStream) (a : Nat → Bool) (d1 d2 : Conn) : Prop :=
  ∃ l, d2 = d1.withZ (fun i => if i = sid then l else z i) (mixFlags sid a d1) ∧
    (d1.zlibStreamActive sid = true → l = d1.zlibStream sid)

/-! ## Italc: notions for the run-length data -/

/-- Spec-side: the pixels that a sequence of RLE groups `(pixel, run-length-minus-one)`
stands for: each group is `run + 1` copies of its pixel. -/
def rleExpand (groups : List (Nat × Nat)) : List Nat :=
  groups.flatMap fun g => List.replicate (g.2 + 1) g.1

/-- The decompressed data of an Italc rect: four bytes for each group, the low
24 bits of the pixel least significant byte first, then the run length minus
one. -/
def rleEncode (groups : List (Nat × Nat)) : List Nat :=
  groups.flatMap fun g => [g.1 % 256, g.1 / 256 % 256, g.1 / 65536 % 256, g.2 % 256]

/-- The pixels that the first `n` four-byte groups of `rle_data` expand to, as the
loops of `handleItalc` read them: `rle_data[4g+3] + 1` copies of the low 24 bits
of the little-endian word at `rle_data + 4g`. -/
def rlePixels (rle_data : Mem) (n : Nat) : List Nat :=
  (List.range n).flatMap fun g =>
    List.replicate (byteAt rle_data (4 * g + 3) + 1)
      ((word32 false (rle_data (4 * g)) (rle_data (4 * g + 1)) (rle_data (4 * g + 2))
        (rle_data (4 * g + 3))) &&& 16777215)

/-- One iteration of the inner loop of `handleItalc` under the loop conditions:
nothing happens once `done` is set. -/
def rleStepD (W rx rw sh val : Nat) (st : RleState) : RleState :=
  if st.done then st else rleStep W rx rw sh val st

/-- Invariant of the run-length loops of `handleItalc` after `t` pixels of the
expansion `L` on a rect of width `rw` that starts at `(rx, ry)`, on a screen of
width `W` and height `sh` that held `p0` before: pixel `r * rw + d` of the
expansion is at column `rx + d` of scan line `ry + r` as long as that line is
on the screen, every other pixel is as in `p0`, and the loop variables point to
the place of pixel `t`, or `done` is set when the last scan line is full. -/
def RleInv (W rx ry rw sh : Nat) (p0 : Mem) (L : List Nat) (t : Nat) (st : RleState) : Prop :=
  (∀ r d, d < rw → r < sh - ry → r * rw + d < t →
      st.pix ((ry + r) * W + (rx + d)) = L.getD (r * rw + d) 0) ∧
    (∀ k, (∀ r d, d < rw → r < sh - ry → r * rw + d < t → k ≠ (ry + r) * W + (rx + d)) →
      st.pix k = p0 k) ∧
    ((∃ r d, d < rw ∧ r < sh - ry ∧ t = r * rw + d ∧ st.done = false ∧ st.dx = d ∧
        st.ry = ry + r ∧ st.dst = (ry + r) * W + (rx + d)) ∨
      (rw * (sh - ry) ≤ t ∧ st.done = true ∧ st.dx = 0))

/-- The header of an Italc rect on the wire: the flag `compressed`, then
`bytesLZO` and `bytesRLE` as 32-bit big-endian integers. -/
def italcHeader (compressed bytesLZO bytesRLE : Nat) : List Nat :=
  [compressed, bytesLZO / 16777216 % 256, bytesLZO / 65536 % 256, bytesLZO / 256 % 256,
    bytesLZO % 256, bytesRLE / 16777216 % 256, bytesRLE / 65536 % 256, bytesRLE / 256 % 256,
    bytesRLE % 256]

/-- The memory `q` is the memory `p` with the pixels at the indices in `S`
and-ed with `m`. -/
def MaskedOn (m : Nat) (S : Nat → Prop) (p q : Mem) : Prop :=
  ∀ k, (S k → q k = p k &&& m) ∧ (¬ S k → q k = p k)

/-! ## The input path -/

/-- Message type `rfbKeyEvent` (`rfbproto.h`, not part of this file). -/
def rfbKeyEvent : Nat := 4
/-- Message type `rfbPointerEvent`. -/
def rfbPointerEvent : Nat := 5

/-- The function `ivsConnection::sendFramebufferUpdateRequest( void )`: the
request for the whole framebuffer, not incremental. -/
def sendFullFramebufferUpdateRequest (c : Conn) : Bool × Conn :=
  sendFramebufferUpdateRequest c 0 0 c.framebufferWidth c.framebufferHeight false

/-- The function `ivsConnection::sendPointerEvent`; the message is
`type; u8 buttonMask; u16 x, y`. -/
def sendPointerEvent (c : Conn) (x y button_mask : Nat) : Bool × Conn :=
  if c.state ≠ .Connected then (false, c)
  else
    -- make sure our own pointer is updated when remote-controlling
    let c1 := (handleCursorPos c x y).2
    writeToServer c1
      [rfbPointerEvent, button_mask % 256, x / 256 % 256, x % 256, y / 256 % 256, y % 256]

/-- The function `ivsConnection::sendKeyEvent`; the message is
`type; u8 down; pad[2]; u32 key`. The source does not set the field `pad`: the
two bytes are the value `pad` that the local variable happens to hold. -/
def sendKeyEvent (pad : Nat) (c : Conn) (key : Nat) (down : Bool) : Bool × Conn :=
  if c.state ≠ .Connected then (false, c)
  else
    writeToServer c
      [rfbKeyEvent, if down then 1 else 0, pad / 256 % 256, pad % 256,
        key / 16777216 % 256, key / 65536 % 256, key / 256 % 256, key % 256]

/-! ## Sequences of Zlib rects -/

/-- The connection `c'` is reached from `c` by calls of `handleZlib` for rects
with `w * h * 4 < 2^31`, with anything in between that leaves `m_rawBufferSize`
as it is (no other function of the class writes this member). -/
inductive ZlibCalls (B : Build) (E : Ext) : Conn → Conn → Prop
  | done (c : Conn) : ZlibCalls B E c c
  | call (fuel : Nat) (c c1 c2 : Conn) (rx ry rw rh : Nat) (b : Bool)
      (hsize : rw * rh * 4 < 2147483648)
      (hcall : handleZlib B E fuel c rx ry rw rh = some (b, c1))
      (hrest : ZlibCalls B E c1 c2) : ZlibCalls B E c c2
  | between (c c1 c2 : Conn) (hsame : c1.rawBufferSize = c.rawBufferSize)
      (hrest : ZlibCalls B E c1 c2) : ZlibCalls B E c c2

/-! ## The handshake -/

/-- Message type `rfbSetPixelFormat` (`rfbproto.h`, not part of this file). -/
def rfbSetPixelFormat : Nat := 0
/-- Message type `rfbSetEncodings`. -/
def rfbSetEncodings : Nat := 2
/-- Pseudo-encoding number of CompressLevel4, `0xFFFFFF04`. -/
def rfbEncodingCompressLevel4 : Nat := 4294967044
/-- Pseudo-encoding number of QualityLevel4, `0xFFFFFFE4`. -/
def rfbEncodingQualityLevel4 : Nat := 4294967268
/-- Pseudo-encoding number of QualityLevel9, `0xFFFFFFE9`. -/
def rfbEncodingQualityLevel9 : Nat := 4294967273
/-- Size of the protocol version message. -/
def sz_rfbProtocolVersionMsg : Nat := 12
/-- Size of `rfbServerInitMsg`, the type of `m_si`: two 16-bit sizes, the pixel
format of 16 bytes and the 32-bit length of the name. -/
def sz_rfbServerInitMsg : Nat := 24

/-- What a call of `isdConnection::authAgainstServer` does: the state it
returns, the value of `state()` afterwards, the bytes it leaves unread on the
transport and the bytes it has written. -/
structure AuthResult where
  result : States
  state : States
  inbound : List Nat
  written : List Nat

/-- What the handshake takes from outside this file. -/
structure Lower where
  /-- Whether `sscanf` with `rfbProtocolVersionFormat` finds the two numbers in
  the version message. -/
  scanRfb : List Nat → Bool
  /-- Whether `sscanf` with `idsProtocolVersionFormat` finds the two numbers. -/
  scanIds : List Nat → Bool
  /-- The function `isdConnection::authAgainstServer` on the unread bytes. -/
  authAgainstServer : ItalcAuthTypes → List Nat → AuthResult
  /-- The bytes that `isdConnection::sendGetUserInformationRequest` writes. -/
  userInformationRequest : List Nat
  /-- Content of the fields of local variables that the source does not set. -/
  stack : Nat → Nat
  /-- Pixels of a `QImage` that has just been constructed. -/
  newImage : Mem

/-- The argument of the call `authAgainstServer( … )` in `protocolInitialization`. -/
def authType (c : Conn) : ItalcAuthTypes :=
  if c.quality.toNat ≥ Quality.QualityDemoLow.toNat then
    if c.useAuthFile then .ItalcAuthChallengeViaAuthFile
    else .ItalcAuthAppInternalChallenge
  else .ItalcAuthNone

/-- The message `spf` of `protocolInitialization`: `type`, three bytes of padding
that the source does not set, and `__localDisplayFormat` with the three maxima
in network order. -/
def setPixelFormatMsg (B : Build) (L : Lower) : List Nat :=
  [rfbSetPixelFormat, L.stack 0 % 256, L.stack 1 % 256, L.stack 2 % 256,
    32, 32, if B.WORDS_BIGENDIAN then 1 else 0, 1,
    255 / 256 % 256, 255 % 256, 255 / 256 % 256, 255 % 256, 255 / 256 % 256, 255 % 256,
    16, 8, 0, 0, 0, 0]

/-- The statement `encs[se->nEncodings++] = swap32IfLE( e )`. -/
def pushEncoding (encs : List Nat) (e : Nat) : List Nat := encs ++ [e]

/-- The array `encs` of `protocolInitialization` when the message is sent, as
the list of its `se->nEncodings` entries. -/
def setEncodingsList (B : Build) (q : Quality) : List Nat :=
  let encs : List Nat := []
  let encs :=
    if q.toNat ≥ Quality.QualityDemoLow.toNat then pushEncoding encs rfbEncodingRaw
    else
      let encs :=
        if B.HAVE_LIBZ then
          let encs := if B.HAVE_LIBJPEG then pushEncoding encs rfbEncodingTight else encs
          pushEncoding encs rfbEncodingZlib
        else encs
      let encs := pushEncoding encs rfbEncodingCoRRE
      let encs := pushEncoding encs rfbEncodingCopyRect
      let encs := pushEncoding encs rfbEncodingRaw
      let encs := pushEncoding encs rfbEncodingRichCursor
      let encs := pushEncoding encs rfbEncodingPointerPos
      if B.HAVE_LIBZ then
        let encs :=
          if B.HAVE_LIBJPEG then
            match q with
            | .QualityLow => pushEncoding encs rfbEncodingQualityLevel4
            | .QualityMedium => pushEncoding encs rfbEncodingQualityLevel9
            | _ => encs
          else encs
        pushEncoding encs rfbEncodingCompressLevel4
      else encs
  let encs := pushEncoding encs rfbEncodingItalc
  pushEncoding encs rfbEncodingItalcCursor

/-- The first `len` bytes of `buf` in `protocolInitialization`: the SetEncodings
message `type; pad; u16 nEncodings; u32 encodings[]`, the byte `pad` not being
set by the source. -/
def setEncodingsMsg (B : Build) (L : Lower) (q : Quality) : List Nat :=
  let encs := setEncodingsList B q
  let nEncodings := encs.length % 65536
  -- len = sizeof( rfbSetEncodingsMsg ) + se->nEncodings * sizeof( Q_UINT32 )
  let len := 4 + nEncodings * 4
  ([rfbSetEncodings, L.stack 3 % 256, nEncodings / 256 % 256, nEncodings % 256] ++
    encs.flatMap (bytes32 true)).take len

/-- The end of `protocolInitialization`, from the ServerInit message on. -/
def protocolInitializationTail (B : Build) (L : Lower) (c5 : Conn) : Conn :=
  match readFromServer c5 sz_rfbServerInitMsg with
  | none => { c5 with state := .ConnectionFailed }
  | some (si, c6) =>
    let c7 := { c6 with
      framebufferWidth := wire16 (si.getD 0 0) (si.getD 1 0)
      framebufferHeight := wire16 (si.getD 2 0) (si.getD 3 0) }
    let nameLength := wire32 (si.getD 20 0) (si.getD 21 0) (si.getD 22 0) (si.getD 23 0)
    match readFromServer c7 nameLength with
    | none => { c7 with state := .ConnectionFailed }
    | some (_, c8) =>
      let w1 := writeToServer c8 (setPixelFormatMsg B L)
      if w1.1 = false then { w1.2 with state := .ConnectionFailed }
      else
        let w2 := writeToServer w1.2 (setEncodingsMsg B L w1.2.quality)
        if w2.1 = false then { w2.2 with state := .ConnectionFailed }
        else
          let c9 := { w2.2 with
            state := .Connected
            screen := ⟨w2.2.framebufferWidth, w2.2.framebufferHeight, L.newImage⟩ }
          let c10 := (sendFullFramebufferUpdateRequest c9).2
          let c11 := c10.act .sendGetUserInformationRequest
          { c11 with outbound := c11.outbound ++ L.userInformationRequest }

/-- The function `ivsConnection::protocolInitialization`; its result is the
state of the connection it returns. -/
def protocolInitialization (B : Build) (L : Lower) (c : Conn) : Conn :=
  match readFromServer c sz_rfbProtocolVersionMsg with
  | none => { c with state := .ConnectionFailed }
  | some (protocol_version, c1) =>
    let parsed : Option Conn :=
      if L.scanRfb protocol_version = true then some c1
      -- not a standard VNC server - check whether it is an iTALC-demo-server
      else if L.scanIds protocol_version = true then some { c1 with isDemoServer := true }
      else none
    match parsed with
    | none => { c1.act (.qCritical .notAServer) with state := .InvalidServer }
    | some c2 =>
      let w := writeToServer c2 protocol_version
      if w.1 = false then { w.2 with state := .ConnectionFailed }
      else
        let r := L.authAgainstServer (authType w.2) w.2.inbound
        let c3 := { w.2.act (.authAgainstServer (authType w.2)) with
          state := r.state
          inbound := r.inbound
          outbound := w.2.outbound ++ r.written }
        if r.result ≠ .Connecting then c3
        else
          -- const rfbClientInitMsg ci = { 1 }
          let w0 := writeToServer c3 [1]
          if w0.1 = false then { w0.2 with state := .ConnectionFailed }
          else protocolInitializationTail B L w0.2

/-! ## The advertised encodings as the specification words them -/

/-- Spec-side: the SetEncodings list of the specification for the build `B` and
the quality `q`. -/
def advertisedEncodingsSpec (B : Build) (q : Quality) : List Nat :=
  match q with
  | .QualityDemoLow | .QualityDemoMedium | .QualityDemoHigh =>
    [rfbEncodingRaw, rfbEncodingItalc, rfbEncodingItalcCursor]
  | _ =>
    (if B.HAVE_LIBJPEG then [rfbEncodingTight] else []) ++
      (if B.HAVE_LIBZ then [rfbEncodingZlib] else []) ++
      [rfbEncodingCoRRE, rfbEncodingCopyRect, rfbEncodingRaw, rfbEncodingRichCursor,
        rfbEncodingPointerPos] ++
      (match q with
        | .QualityLow => [rfbEncodingQualityLevel4]
        | .QualityMedium => [rfbEncodingQualityLevel9]
        | _ => []) ++
      [rfbEncodingCompressLevel4, rfbEncodingItalc, rfbEncodingItalcCursor]

/-- Whether an action belongs to the frame of a framebuffer update: the screen
lock is taken or released, or the update is notified (region-changed event or
`regionUpdated` signal for `updated_region`). -/
def Action.isFrame : Action → Bool
  | .imageLockForWrite => true
  | .imageUnlock => true
  | .postRegionChanged .update _ => true
  | .regionUpdated .update _ => true
  | _ => false

/-- The trace of `c'` is the trace of `c` followed by further actions, none of
which belongs to the frame of a framebuffer update. -/
def TraceIn (c' c : Conn) : Prop :=
  ∃ new, c'.trace = c.trace ++ new ∧ ∀ a, a ∈ new → Action.isFrame a = false

/-- The bytes written at `next_out` by a sequence of `inflate` calls on one
stream: `zs` is the history of the stream before the first call, and each call
is given by its input and the `avail_out` it had. -/
def inflateOutput (E : Ext) (zs : ZStream) : List (List Nat × Nat) → List Nat
  | [] => []
  | call :: t => (E.inflateBounded zs call.1 call.2).out ++ inflateOutput E (zs ++ [call]) t

/-- Whether an action is the call of `close()` of the lower layer. -/
def Action.isClose : Action → Bool
  | .isdClose => true
  | _ => false

/-- The trace of `c'` is the trace of `c` followed by further actions, none of
which is a call of `close()`. -/
def TraceOpen (c' c : Conn) : Prop :=
  ∃ new, c'.trace = c.trace ++ new ∧ ∀ a, a ∈ new → Action.isClose a = false

/-- The `default:` label of `switch( rect.encoding )` in `handleServerMessages` is
reached: the encoding is none of the `case` labels of the build. -/
def unknownEncoding (B : Build) (encoding : Nat) : Prop :=
  encoding ≠ rfbEncodingRaw ∧ encoding ≠ rfbEncodingCopyRect ∧ encoding ≠ rfbEncodingRRE ∧
    encoding ≠ rfbEncodingCoRRE ∧ ¬ (B.HAVE_LIBZ = true ∧ encoding = rfbEncodingZlib) ∧
    ¬ (B.HAVE_LIBZ = true ∧ encoding = rfbEncodingTight) ∧
    encoding ≠ rfbEncodingPointerPos ∧
    ¬ (encoding = rfbEncodingRichCursor ∨ encoding = rfbEncodingXCursor) ∧
    encoding ≠ rfbEncodingItalc ∧ encoding ≠ rfbEncodingItalcCursor

/-! ## Sample configurations -/

/-- A build with zlib and libjpeg on a little-endian host, a scratch buffer of
`640 * 480` bytes and a zlib buffer of 512 bytes. -/
def Build.sample : Build := ⟨false, true, true, 307200, 512⟩

/-- A little-endian build whose scratch buffer has the smallest size the Tight
decoder asks for, 16384 bytes. -/
def Build.small : Build := ⟨false, true, true, 16384, 512⟩

/-- Libraries that do nothing: every zlib call reports `Z_OK` without consuming
or producing a byte, LZO returns its input, images are empty. -/
def Ext.sample : Ext where
  inflateInit := (0, false)
  inflate := fun _ _ _ => ⟨0, 0, []⟩
  inflateEnd := fun _ => (0, false)
  lzo1x_decompress := fun x => x
  jpeg := fun _ => ⟨0, 0, 0, fun _ _ => 0⟩
  readImage := fun l => (⟨0, 0, fun _ => 0, fun _ => 0⟩, l)
  isdHandleServerMessage := fun _ l => (false, l)
  uninit := fun _ => 0

/-- The subrects of the CoRRE scenario: each is the pixel `0xFF0000` at `(1, 0)`
with size `1 × 1`. -/
def sampleSubrect : Nat → CoRRESubrect := fun _ => ⟨16711680, 1, 0, 1, 1⟩

/-- The connection right before the filter call of the Tight Palette-2 scenario:
rect width 3, two colours, palette `[0x000000, 0xFFFFFF]`, data byte `0xA0` at
the start of the scratch buffer. -/
def samplePaletteConn : Conn :=
  { Conn.connected .QualityHigh 3 1 0 [] with
    rectWidth := 3
    rectColors := 2
    tightPalette := writeBytes (fun _ => 0) 0 (bytes32 false 0 ++ bytes32 false 16777215)
    buffer := writeBytes (fun _ => 0) 0 [160] }

/-- A connection whose scratch buffer holds zeros and other bytes behind them:
the deltas of a `3 × 2` rect are zero, the previous-row buffer and the bytes
from offset 24 on are not. -/
def sampleGradientConn : Conn :=
  { Conn.connected .QualityHigh 3 2 0 [] with
    buffer := fun k => if k < 24 then 0 else 255
    tightPrevRow := fun _ => 77 }

/-- A connected client with a `3 × 1` framebuffer that has received one
framebuffer update of two rects: a `1 × 1` RRE rect at `(0, 0)`, then a Raw rect
`(0, 0, 4, 1)`, one pixel wider than the framebuffer, with four payload bytes. -/
def sampleBoundsConn : Conn :=
  Conn.connected .QualityHigh 3 1 7
    (rfbFramebufferUpdate :: 0 :: (2 / 256 % 256) :: (2 % 256) ::
      (rectHeader 0 0 1 1 rfbEncodingRRE ++ (rectHeader 0 0 4 1 rfbEncodingRaw ++ [1, 2, 3, 4])))

/-- The connection `sampleBoundsConn` at the start of the second iteration of the
rect loop: the message header and the RRE rect header are read, the lock is
taken and `handleRRE` has reported the rect. -/
def sampleBoundsConn1 : Conn :=
  { sampleBoundsConn with
    inbound := rectHeader 0 0 4 1 rfbEncodingRaw ++ [1, 2, 3, 4]
    trace := [.imageLockForWrite, .qCritical .rreCantDecode] }

/-- A connected client with a `3 × 1` framebuffer that has received one
framebuffer update with a single `1 × 1` RRE rect at `(0, 0)` and nothing else. -/
def sampleRREConn : Conn :=
  Conn.connected .QualityHigh 3 1 7
    (rfbFramebufferUpdate :: 0 :: (1 / 256 % 256) :: (1 % 256) ::
      (rectHeader 0 0 1 1 rfbEncodingRRE ++ []))

/-- The bounds-violation scenario: a connected client with a `3 × 1` framebuffer
that has received one framebuffer update with the single Raw rect `(0, 0, 4, 1)`,
one pixel wider than the framebuffer (`r.w = fbW + 1`). -/
def sampleTooWideConn : Conn :=
  Conn.connected .QualityHigh 3 1 7
    (rfbFramebufferUpdate :: 0 :: (1 / 256 % 256) :: (1 % 256) ::
      (rectHeader 0 0 4 1 rfbEncodingRaw ++ [1, 2, 3, 4]))

/-- A connected client with a `3 × 1` framebuffer and an active Tight stream 2
that has received one framebuffer update with a single `1 × 1` rect of the
unknown encoding 77. -/
def sampleUnknownConn : Conn :=
  { Conn.connected .QualityHigh 3 1 7
      (rfbFramebufferUpdate :: 0 :: (1 / 256 % 256) :: (1 % 256) ::
        (rectHeader 0 0 1 1 77 ++ [])) with
    zlibStreamActive := fun i => decide (i = 2) }

/-- A `2 × 2` bitmap with four different pixels. -/
def sampleBitmap : Nat → Nat → Nat := fun j i => 1193046 + 65536 * j + i

/-- A connected client with a `3 × 1` framebuffer of pixels `7` that has received
one framebuffer update of two rects: the Raw rect `(0, 0, 1, 1)` with the pixel
bytes `1, 2, 3, 4`, then a Raw rect `(0, 0, 4, 1)`, one pixel wider than the
framebuffer. -/
def sampleNotifyConn : Conn :=
  Conn.connected .QualityHigh 3 1 7
    (rfbFramebufferUpdate :: 0 :: (2 / 256 % 256) :: (2 % 256) ::
      (rectHeader 0 0 1 1 rfbEncodingRaw ++ [1, 2, 3, 4] ++
        (rectHeader 0 0 4 1 rfbEncodingRaw ++ [5, 6, 7, 8])))

/-- The delta image of the gradient scenario: three rows of two pixels. -/
def sampleDeltas : Nat → Nat → Nat := fun j i => (j * 2 + i) * 986895 % 4294967296

/-- A connected client with a `2049 × 2` framebuffer whose Tight stream 2 is
active, about to decode a Tight rect `(0, 0, 2049, 2)`: control byte `0x14`
(reset stream 2, basic compression, bits 4 and 5 are `01`), compact length 16,
then compressed data. -/
def sampleTightConn : Conn :=
  { Conn.connected .QualityHigh 2049 2 7 [20, 16, 1, 2, 3] with
    zlibStreamActive := fun i => decide (i = 2)
    zlibStream := fun i => if i = 2 then [([7], 9)] else [] }

/-- The connection `sampleTightConn` with other inflate contexts in the Tight
streams 0, 1 and 3, which are not active. -/
def sampleTightConn2 : Conn :=
  { sampleTightConn with zlibStream := fun i => if i = 2 then [([7], 9)] else [([1], 1)] }

/-- A connected client with a `16384 × 1` framebuffer about to decode a Tight
rect `(0, 0, 16384, 1)`: control byte `0x00` (no reset, basic compression, Copy
filter), then the compact length 3 and three bytes of compressed data. -/
def sampleWideTightConn : Conn :=
  Conn.connected .QualityHigh 16384 1 7 [0, 3, 1, 2, 3]

/-- A build with zlib and without libjpeg (`HAVE_LIBJPEG` is not defined), on a
little-endian host. -/
def Build.nojpeg : Build := ⟨false, true, false, 307200, 512⟩

/-- A connected client with a `2 × 2` framebuffer about to decode a Tight rect
`(0, 0, 2, 2)` in the Jpeg sub-mode: control byte `0x90`, then the compact
length 3 and three bytes of JPEG data. -/
def sampleJpegConn : Conn :=
  Conn.connected .QualityHigh 2 2 7 [144, 3, 1, 2, 3]

/-- The groups of the Italc scenario with an exact rect: three pixels `0x00FF00`
and one pixel `0x0000FF`. -/
def sampleItalcGroups : List (Nat × Nat) := [(65280, 2), (255, 0)]

/-- A connected client with a `3 × 2` screen of pixel 7 that receives a compressed
Italc rect whose data is `sampleItalcGroups`, followed by the byte 9. -/
def sampleItalcConn : Conn :=
  Conn.connected .QualityHigh 3 2 7
    (italcHeader 1 8 8 ++ (rleEncode sampleItalcGroups ++ [9]))

/-- The groups `(0x00FF00, run = 1)` and `(0x0000FF, run = 2)`: two pixels and
then three pixels. -/
def sampleOvershootGroups : List (Nat × Nat) := [(65280, 1), (255, 2)]

/-- A connected client with a screen of width 3 and height `fbH` of pixel 7 that
receives a compressed Italc rect whose data is `sampleOvershootGroups`, followed
by the byte 9. -/
def sampleOvershootConn (fbH : Nat) : Conn :=
  Conn.connected .QualityHigh 3 fbH 7
    (italcHeader 1 8 8 ++ (rleEncode sampleOvershootGroups ++ [9]))

/-- A connected client with a `3 × 2` screen that receives a compressed Italc
rect declaring 12 bytes of run-length data while 8 bytes are sent. -/
def sampleMismatchConn : Conn :=
  Conn.connected .QualityHigh 3 2 7
    (italcHeader 1 8 12 ++ (rleEncode sampleOvershootGroups ++ [9]))

/-- A connected client of quality `q` with a `2 × 1` screen of pixel `0xFFFFFF`
that has received the body of a framebuffer update with one Raw rect
`(0, 0, 1, 1)` of pixel `0xFDFEFF`. -/
def sampleDemoConn (q : Quality) : Conn :=
  Conn.connected q 2 1 16777215
    (0 :: 0 :: 1 :: (rectHeader 0 0 1 1 rfbEncodingRaw ++ [255, 254, 253, 0]))

/-- The connection `sampleDemoConn q` when the rect loop has ended. -/
def sampleDemoDecoded (q : Quality) : Conn :=
  { (sampleDemoConn q).act .imageLockForWrite with
    inbound := []
    buffer := writeBytes (sampleDemoConn q).buffer 0 [255, 254, 253, 0]
    screen := { (sampleDemoConn q).screen with
      pix := rawCopyLines false (writeBytes (sampleDemoConn q).buffer 0 [255, 254, 253, 0])
        (sampleDemoConn q).screen.pix 0 1 2 1 } }

/-- A client that has decoded Zlib and Tight rects: the generic Zlib stream is
initialised and has inflated the bytes `[1, 2, 3]`, the four Tight streams are
active. A Zlib rect with `nBytes = 0` is waiting on the transport. -/
def sampleZlibUsedConn : Conn :=
  { Conn.connected .QualityHigh 2 1 7 [0, 0, 0, 0] with
    decompStreamInited := true
    decompStream := [([1, 2, 3], 8)]
    zlibStreamActive := fun _ => true }

/-- A connected client with a `2 × 1` framebuffer that receives a Zlib rect with
`nBytes = 0`. -/
def sampleZlibEmptyConn : Conn := Conn.connected .QualityHigh 2 1 7 [0, 0, 0, 0]

/-- A connected client with a `3 × 1` framebuffer that has received one
framebuffer update with a single rect `(x, 0, w, 1)` of encoding `enc`, followed
by four more bytes. -/
def sampleCursorBoundsConn (x w enc : Nat) : Conn :=
  Conn.connected .QualityHigh 3 1 7
    (rfbFramebufferUpdate :: 0 :: (1 / 256 % 256) :: (1 % 256) ::
      (rectHeader x 0 w 1 enc ++ [1, 2, 3, 4]))

/-- The connection `sampleCursorBoundsConn x w enc` after the dispatcher has
refused the rect: the four bytes behind the rect header are still unread, the
warning is logged, the cursor is as it was. -/
def sampleCursorRefusedConn (x w enc : Nat) : Conn :=
  { sampleCursorBoundsConn x w enc with
    inbound := [1, 2, 3, 4]
    trace := [.imageLockForWrite, .qWarning .rectTooLarge, .imageUnlock] }

/-- A connected client with a `2048 × 3` framebuffer and the `2048 * 3 * 4` zero
bytes of a Raw rect of that size on the transport. -/
def sampleRawBatchConn : Conn :=
  Conn.connected .QualityHigh 2048 3 7 (List.replicate (2048 * 3 * 4) 0 ++ [])

/-- A connected client that receives the payload of an XCursor rect of size
`2 × 1`: foreground white, background black, the bitmap byte `0xC0` (both
pixels foreground) and the mask byte `0xC0`. -/
def sampleXCursorConn : Conn :=
  Conn.connected .QualityHigh 4 4 7 [255, 255, 255, 0, 0, 0, 192, 192]

/-- A lower layer that takes `RFB` greetings (first byte `R`) as standard and
`IDS` greetings (first byte `I`) as those of a demo server, and whose
authentication succeeds without traffic. -/
def Lower.sample : Lower where
  scanRfb := fun g => g.getD 0 0 == 82
  scanIds := fun g => g.getD 0 0 == 73
  authAgainstServer := fun _ bs => ⟨.Connecting, .Connecting, bs, []⟩
  userInformationRequest := [9]
  stack := fun _ => 0
  newImage := fun _ => 0

/-- The greeting `RFB 003.003\n`. -/
def sampleRfbGreeting : List Nat := [82, 70, 66, 32, 48, 48, 51, 46, 48, 48, 51, 10]

/-- The greeting `IDS 003.003\n`. -/
def sampleIdsGreeting : List Nat := [73, 68, 83, 32, 48, 48, 51, 46, 48, 48, 51, 10]

/-- A ServerInit message for a `640 × 480` framebuffer with a name of 2 bytes. -/
def sampleServerInit : List Nat :=
  [2, 128, 1, 224, 32, 24, 0, 1, 0, 255, 0, 255, 0, 255, 16, 8, 0, 0, 0, 0, 0, 0, 0, 2]

/-- A client of quality `q` that has opened the transport and received the
greeting `greeting`, a ServerInit message and the name `ab`. -/
def sampleHandshakeConn (q : Quality) (use_auth_file : Bool) (greeting : List Nat) : Conn :=
  { Conn.new q use_auth_file true with
    state := .Connecting
    inbound := greeting ++ (sampleServerInit ++ [97, 98]) }

/-- A connection right after `initFilterCopy` for a rect of width 3. -/
def sampleCopyFilterConn : Conn :=
  (initFilterCopy (Conn.connected .QualityHigh 3 1000 7 []) 3).2

/-- A client with a `2 × 1` framebuffer whose raw buffer still holds the two
pixels `0x030201` and `0x060504` of an earlier Zlib rect. A Zlib rect with
`nBytes = 0` is waiting on the transport, followed by one more byte. -/
def sampleZlibStaleConn : Conn :=
  { Conn.connected .QualityHigh 2 1 7 [0, 0, 0, 0, 9] with
    decompStreamInited := true
    rawBufferSize := 8
    rawBuffer := writeBytes (fun _ => 0) 0 [1, 2, 3, 0, 4, 5, 6, 0] }

/-- A connected client with a `2 × 2` framebuffer that receives the payload of a
CoRRE rect with background `0x00FF00` and 2049 subrects, each the pixel
`0xFF0000` at `(1, 0)` with size `1 × 1`: `2049 * 8 = 16392` bytes of subrects. -/
def sampleCoRREOverrunConn : Conn :=
  Conn.connected .QualityHigh 2 2 0 (correEncode false 65280 2049 sampleSubrect ++ [])

/-- A connected client with a `3 × 2` screen that receives a compressed Italc
rect declaring 4 bytes of run-length data while the 8 compressed bytes
decompress (with the identity as decompressor) to 8 bytes. -/
def sampleLzoOverrunConn : Conn :=
  Conn.connected .QualityHigh 3 2 7
    (italcHeader 1 8 4 ++ (rleEncode sampleOvershootGroups ++ [9]))

/-- The client of `sampleHandshakeConn` on a transport that refuses every write. -/
def sampleDeafConn (q : Quality) (use_auth_file : Bool) (greeting : List Nat) : Conn :=
  { sampleHandshakeConn q use_auth_file greeting with writeOk := fun _ _ => false }

/-- The client of `sampleHandshakeConn` on a transport that refuses the messages
of type 2, `rfbSetEncodings`, and accepts every other write. -/
def sampleNoEncodingsConn (q : Quality) (use_auth_file : Bool) (greeting : List Nat) : Conn :=
  { sampleHandshakeConn q use_auth_file greeting with
    writeOk := fun _ bytes => !(bytes.getD 0 0 == 2) }

/-- The connection `sampleCursorBoundsConn x w enc` at the start of its rect: the
message header is read and the screen lock is taken. -/
def sampleCursorRectConn (x w enc : Nat) : Conn :=
  { sampleCursorBoundsConn x w enc with
    inbound := rectHeader x 0 w 1 enc ++ [1, 2, 3, 4]
    trace := [.imageLockForWrite] }

/-! ## Lemmas on memory and loops -/

theorem word32_lt (be : Bool) (b0 b1 b2 b3 : Nat) : word32 be b0 b1 b2 b3 < 4294967296 := by
  unfold word32
  split <;> omega

theorem bytes32_length (be : Bool) (v : Nat) : (bytes32 be v).length = 4 := by
  unfold bytes32
  split <;> rfl

theorem word32_bytes32 (be : Bool) (v : Nat) (hv : v < 4294967296) :
    word32 be ((bytes32 be v).getD 0 0) ((bytes32 be v).getD 1 0)
      ((bytes32 be v).getD 2 0) ((bytes32 be v).getD 3 0) = v := by
  cases be <;> simp [word32, bytes32] <;> omega

theorem flatMap_range_length (n len : Nat) (f : Nat → List Nat)
    (hf : ∀ i, i < n → (f i).length = len) :
    ((List.range n).flatMap f).length = n * len := by
  induction n with
  | zero => simp
  | succ n ih =>
    rw [List.range_succ, List.flatMap_append, List.length_append,
      ih (fun i hi => hf i (by omega))]
    simp [hf n (by omega), Nat.succ_mul]

theorem flatMap_range_getD (n len : Nat) (f : Nat → List Nat)
    (hf : ∀ i, i < n → (f i).length = len) (i t : Nat) (hi : i < n) (ht : t < len) :
    ((List.range n).flatMap f).getD (i * len + t) 0 = (f i).getD t 0 := by
  induction n with
  | zero => omega
  | succ n ih =>
    have hlen := flatMap_range_length n len f (fun i hi => hf i (by omega))
    rw [List.range_succ, List.flatMap_append]
    by_cases hin : i < n
    · have h1 : i * len + t < ((List.range n).flatMap f).length := by
        rw [hlen]
        have := Nat.mul_le_mul_right len (show i + 1 ≤ n by omega)
        rw [Nat.succ_mul] at this
        omega
      rw [List.getD_append _ _ _ _ h1]
      exact ih (fun i hi => hf i (by omega)) hin
    · have hi' : i = n := by omega
      subst hi'
      rw [List.getD_append_right _ _ _ _ (by rw [hlen]; omega), hlen]
      simp

/-! ## Raw: the round trip -/

theorem rawCopyLines_frame (be : Bool) (buf pix : Mem) (dst rw W n k : Nat)
    (hk : ∀ y, y < n → ¬ (dst + y * W ≤ k ∧ k < dst + y * W + rw)) :
    rawCopyLines be buf pix dst rw W n k = pix k := by
  induction n with
  | zero => rfl
  | succ n ih =>
    unfold rawCopyLines forLoop
    simp only [hk n (by omega), if_false]
    exact ih (fun y hy => hk y (by omega))

theorem rawCopyLines_get (be : Bool) (buf pix : Mem) (dst rw W n y i : Nat)
    (hW : rw ≤ W) (hy : y < n) (hi : i < rw) :
    rawCopyLines be buf pix dst rw W n (dst + y * W + i) = load32 be buf (4 * (y * rw + i)) := by
  induction n with
  | zero => omega
  | succ n ih =>
    unfold rawCopyLines forLoop
    by_cases hyn : y = n
    · subst hyn
      have h1 : dst + y * W ≤ dst + y * W + i ∧ dst + y * W + i < dst + y * W + rw := by omega
      simp only [h1, and_self, if_true]
      congr 3
      omega
    · have hlt : y < n := by omega
      have hmul := Nat.mul_le_mul_right W (show y + 1 ≤ n by omega)
      rw [Nat.succ_mul] at hmul
      have h1 : ¬ (dst + n * W ≤ dst + y * W + i ∧ dst + y * W + i < dst + n * W + rw) := by
        omega
      simp only [h1, if_false]
      exact ih hlt

theorem getD_take_lt (bs : List Nat) (n k : Nat) (h : k < n) :
    (bs.take n).getD k 0 = bs.getD k 0 := by
  simp [List.getD_eq_getElem?_getD, List.getElem?_take, h]

theorem getD_drop_add (bs : List Nat) (n k : Nat) :
    (bs.drop n).getD k 0 = bs.getD (n + k) 0 := by
  simp [List.getD_eq_getElem?_getD, List.getElem?_drop]

theorem load32_writeBytes (be : Bool) (m : Mem) (bs : List Nat) (a : Nat)
    (h : a + 3 < bs.length) :
    load32 be (writeBytes m 0 bs) a =
      word32 be (bs.getD a 0) (bs.getD (a + 1) 0) (bs.getD (a + 2) 0) (bs.getD (a + 3) 0) := by
  unfold load32 writeBytes
  have h0 : a < 0 + bs.length := by omega
  have h1 : a + 1 < 0 + bs.length := by omega
  have h2 : a + 2 < 0 + bs.length := by omega
  have h3 : a + 3 < 0 + bs.length := by omega
  simp only [Nat.zero_le, true_and, h0, h1, h2, h3, if_true, Nat.sub_zero]

theorem readFromServer_append (c : Conn) (bs rest : List Nat) (n : Nat)
    (hin : c.inbound = bs ++ rest) (hn : bs.length = n) :
    readFromServer c n = some (bs, { c with inbound := rest }) := by
  unfold readFromServer
  subst hn
  simp [hin]

theorem handleRawLoop_step (B : Build) (fuel : Nat) (c : Conn) (rx ry rw rh L : Nat)
    (bs rest : List Nat) (hrh : rh ≠ 0) (hin : c.inbound = bs ++ rest)
    (hlen : bs.length = rw * 4 * (if L > rh then rh else L)) :
    handleRawLoop B (fuel + 1) c rx ry rw rh L =
      handleRawLoop B fuel
        { c with
          inbound := rest
          buffer := writeBytes c.buffer 0 bs
          screen := { c.screen with
            pix := rawCopyLines B.WORDS_BIGENDIAN (writeBytes c.buffer 0 bs) c.screen.pix
              (ry * c.screen.width + rx) rw (c.screen.width % 65536)
              (if L > rh then rh else L) } }
        rx ((ry + (if L > rh then rh else L)) % 65536) rw
        ((rh - (if L > rh then rh else L)) % 65536) (if L > rh then rh else L) := by
  rw [handleRawLoop]
  simp only [hrh, if_false]
  rw [readFromServer_append c bs rest _ hin hlen]

theorem raw_index_shift (rw l j i t : Nat) (hjl : l ≤ j) :
    rw * 4 * l + (4 * ((j - l) * rw + i) + t) = 4 * (j * rw + i) + t := by
  have hm : (j - l) * rw + l * rw = j * rw := by
    rw [← Nat.add_mul]; congr 1; omega
  have hn : rw * 4 * l = 4 * (l * rw) := by ring
  omega

theorem handleRawLoop_spec (B : Build) :
    ∀ (fuel : Nat) (c : Conn) (rx ry rw rh L : Nat) (bs rest : List Nat),
      rh ≤ fuel → 1 ≤ L → 1 ≤ rw → rx + rw ≤ c.screen.width → c.screen.width < 65536 →
      ry + rh < 65536 → bs.length = 4 * (rh * rw) → c.inbound = bs ++ rest →
      ∃ c', handleRawLoop B fuel c rx ry rw rh L = some (true, c') ∧
        c' = { c with inbound := rest, buffer := c'.buffer,
                      screen := { c.screen with pix := c'.screen.pix } } ∧
        (∀ k, (∀ j, j < rh → ¬ ((ry + j) * c.screen.width + rx ≤ k ∧
            k < (ry + j) * c.screen.width + rx + rw)) → c'.screen.pix k = c.screen.pix k) ∧
        (∀ j i, j < rh → i < rw →
          c'.screen.pix ((ry + j) * c.screen.width + rx + i) =
            word32 B.WORDS_BIGENDIAN (bs.getD (4 * (j * rw + i)) 0)
              (bs.getD (4 * (j * rw + i) + 1) 0) (bs.getD (4 * (j * rw + i) + 2) 0)
              (bs.getD (4 * (j * rw + i) + 3) 0)) := by
  intro fuel
  induction fuel with
  | zero =>
    intro c rx ry rw rh L bs rest hf hL hrw hx hW hy hlen hin
    have hrh : rh = 0 := by omega
    subst hrh
    have hbs : bs = [] := List.length_eq_zero.mp (by simpa using hlen)
    subst hbs
    refine ⟨c, ?_, ?_, ?_, ?_⟩
    · unfold handleRawLoop; simp
    · cases c; simp_all
    · intro k _; rfl
    · intro j i hj; omega
  | succ fuel ih =>
    intro c rx ry rw rh L bs rest hf hL hrw hx hW hy hlen hin
    by_cases hrh : rh = 0
    · subst hrh
      have hbs : bs = [] := List.length_eq_zero.mp (by simpa using hlen)
      subst hbs
      refine ⟨c, ?_, ?_, ?_, ?_⟩
      · unfold handleRawLoop; simp
      · cases c; simp_all
      · intro k _; rfl
      · intro j i hj; omega
    · obtain ⟨l, hl⟩ : ∃ l, l = (if L > rh then rh else L) := ⟨_, rfl⟩
      have hl1 : 1 ≤ l ∧ l ≤ rh := by
        rw [hl]; split <;> omega
      have hmul : l * rw + (rh - l) * rw = rh * rw := by
        rw [← Nat.add_mul]; congr 1; omega
      have hstep := handleRawLoop_step B fuel c rx ry rw rh L (bs.take (rw * 4 * l))
        (bs.drop (rw * 4 * l) ++ rest) hrh
        (by rw [← List.append_assoc, List.take_append_drop]; exact hin)
        (by rw [List.length_take, ← hl, hlen]
            have : rw * 4 * l = 4 * (l * rw) := by ring
            omega)
      rw [← hl] at hstep
      rw [hstep, Nat.mod_eq_of_lt (show ry + l < 65536 by omega),
        Nat.mod_eq_of_lt (show rh - l < 65536 by omega), Nat.mod_eq_of_lt hW]
      obtain ⟨c', h1, h2, h3, h4⟩ := ih
        { c with
          inbound := bs.drop (rw * 4 * l) ++ rest
          buffer := writeBytes c.buffer 0 (bs.take (rw * 4 * l))
          screen := { c.screen with
            pix := rawCopyLines B.WORDS_BIGENDIAN (writeBytes c.buffer 0 (bs.take (rw * 4 * l)))
              c.screen.pix (ry * c.screen.width + rx) rw c.screen.width l } }
        rx (ry + l) rw (rh - l) l (bs.drop (rw * 4 * l)) rest
        (by omega) (by omega) hrw hx hW (by omega)
        (by rw [List.length_drop, hlen]
            have : rw * 4 * l = 4 * (l * rw) := by ring
            omega)
        rfl
      refine ⟨c', h1, ?_, ?_, ?_⟩
      · rw [h2]
      · intro k hk
        have e1 := h3 k (fun j hj => by
          have := hk (l + j) (by omega)
          rw [← Nat.add_assoc] at this
          exact this)
        rw [e1]
        clear e1
        exact rawCopyLines_frame _ _ _ _ _ _ _ _ (fun y hy => by
          have := hk y (by omega)
          rw [Nat.add_mul] at this
          omega)
      · intro j i hj hi
        by_cases hjl : j < l
        · have e1 := h3 ((ry + j) * c.screen.width + rx + i) (fun j2 hj2 => by
            have hm := Nat.mul_le_mul_right c.screen.width
              (show ry + j + 1 ≤ ry + l + j2 by omega)
            rw [Nat.succ_mul] at hm
            show ¬ ((ry + l + j2) * c.screen.width + rx ≤ (ry + j) * c.screen.width + rx + i ∧
              (ry + j) * c.screen.width + rx + i < (ry + l + j2) * c.screen.width + rx + rw)
            omega)
          rw [e1]
          clear e1
          have hidx : (ry + j) * c.screen.width + rx + i =
              (ry * c.screen.width + rx) + j * c.screen.width + i := by
            rw [Nat.add_mul]; omega
          show rawCopyLines B.WORDS_BIGENDIAN (writeBytes c.buffer 0 (bs.take (rw * 4 * l)))
              c.screen.pix (ry * c.screen.width + rx) rw c.screen.width l
              ((ry + j) * c.screen.width + rx + i) = _
          rw [hidx, rawCopyLines_get _ _ _ _ _ _ _ _ _ (by omega) hjl hi]
          have hm := Nat.mul_le_mul_right rw (show j + 1 ≤ l by omega)
          rw [Nat.succ_mul] at hm
          have hm2 := Nat.mul_le_mul_right rw hl1.2
          have hn : rw * 4 * l = 4 * (l * rw) := by ring
          rw [load32_writeBytes _ _ _ _ (by rw [List.length_take, hlen]; omega),
            getD_take_lt _ _ _ (by omega), getD_take_lt _ _ _ (by omega),
            getD_take_lt _ _ _ (by omega), getD_take_lt _ _ _ (by omega)]
        · have hlj : l ≤ j := Nat.le_of_not_lt hjl
          have hj1 : j - l < rh - l := by omega
          have hj2 : ry + l + (j - l) = ry + j := by omega
          have ha := raw_index_shift rw l j i 0 hlj
          have hb := raw_index_shift rw l j i 1 hlj
          have hc := raw_index_shift rw l j i 2 hlj
          have hd := raw_index_shift rw l j i 3 hlj
          rw [Nat.add_zero, Nat.add_zero] at ha
          have e4 := h4 (j - l) i hj1 hi
          rw [hj2] at e4
          rw [e4, getD_drop_add, getD_drop_add, getD_drop_add, getD_drop_add, ha, hb, hc, hd]

theorem rawEncode_length (be : Bool) (w h : Nat) (bm : Nat → Nat → Nat) :
    (rawEncode be w h bm).length = 4 * (h * w) := by
  unfold rawEncode
  rw [flatMap_range_length h (w * 4) _ (fun j _ =>
    flatMap_range_length w 4 _ (fun i _ => bytes32_length be (bm j i)))]
  ring

theorem rawEncode_getD (be : Bool) (w h : Nat) (bm : Nat → Nat → Nat) (j i t : Nat)
    (hj : j < h) (hi : i < w) (ht : t < 4) :
    (rawEncode be w h bm).getD (4 * (j * w + i) + t) 0 = (bytes32 be (bm j i)).getD t 0 := by
  unfold rawEncode
  have e : 4 * (j * w + i) + t = j * (w * 4) + (i * 4 + t) := by ring
  rw [e, flatMap_range_getD h (w * 4) _ (fun j _ =>
    flatMap_range_length w 4 _ (fun i _ => bytes32_length be (bm j i))) j (i * 4 + t) hj
      (by have := Nat.mul_le_mul_right 4 (show i + 1 ≤ w by omega); omega)]
  exact flatMap_range_getD w 4 _ (fun i _ => bytes32_length be (bm j i)) i t hi ht

theorem handleRawLoop_stuck (B : Build) (fuel : Nat) :
    ∀ (c : Conn) (rx ry rw rh : Nat), rh ≠ 0 → rh < 65536 → ry < 65536 →
      handleRawLoop B fuel c rx ry rw rh 0 = none := by
  induction fuel with
  | zero =>
    intro c rx ry rw rh h0 _ _
    rw [handleRawLoop]
    simp [h0]
  | succ fuel ih =>
    intro c rx ry rw rh h0 h1 h2
    rw [handleRawLoop_step B fuel c rx ry rw rh 0 [] c.inbound h0 rfl (by simp)]
    simp only [Nat.not_lt_zero, gt_iff_lt, if_false, Nat.add_zero, Nat.sub_zero,
      Nat.mod_eq_of_lt h1, Nat.mod_eq_of_lt h2]
    exact ih _ rx ry rw rh h0 h1 h2

/-- C1 (amended): Raw round trip. For every `w × h` bitmap `bm` of 32-bit pixels and
every rect `(x, y, w, h)` with `w, h ≥ 1` inside the framebuffer, when the 16-bit
batch size `BUFFER_SIZE / (4 w) mod 2^16` is at least 1, `handleRaw` fed the
row-packed bytes of `bm` returns `TRUE`, consumes exactly these `w * h * 4` bytes,
and afterwards screen pixel `(x + i, y + j)` is `bm j i`; nothing else of the
connection changes apart from the scratch buffer and the screen pixels. -/
theorem C1_raw_round_trip (B : Build) (fuel : Nat) (c : Conn) (x y w h : Nat)
    (bm : Nat → Nat → Nat) (rest : List Nat)
    (hw : 1 ≤ w)
    (hx : x + w ≤ c.framebufferWidth) (hy : y + h ≤ c.framebufferHeight)
    (hfbW : c.framebufferWidth < 65536) (hfbH : c.framebufferHeight < 65536)
    (hscr : c.screen.width = c.framebufferWidth)
    (hbm : ∀ j i, j < h → i < w → bm j i < 4294967296)
    (hin : c.inbound = rawEncode B.WORDS_BIGENDIAN w h bm ++ rest)
    (hL : 1 ≤ B.BUFFER_SIZE / (w * 4) % 65536)
    (hfuel : h ≤ fuel) :
    ∃ c', handleRaw B fuel c x y w h = some (true, c') ∧
      c'.inbound = rest ∧
      c.inbound.length = w * h * 4 + c'.inbound.length ∧
      (∀ i j, i < w → j < h → c'.screen.pixel (x + i) (y + j) = bm j i) ∧
      c' = { c with inbound := rest, buffer := c'.buffer,
                    screen := { c.screen with pix := c'.screen.pix } } := by
  obtain ⟨c', h1, h2, _, h4⟩ := handleRawLoop_spec B fuel c x y w h
    (B.BUFFER_SIZE / (w * 4) % 65536) (rawEncode B.WORDS_BIGENDIAN w h bm) rest
    hfuel hL hw (by omega) (by omega) (by omega) (rawEncode_length _ _ _ _) hin
  refine ⟨c', h1, by rw [h2], ?_, ?_, h2⟩
  · rw [h2, hin, List.length_append, rawEncode_length]
    simp only []
    ring
  · intro i j hi hj
    have hwd : c'.screen.width = c.screen.width := by rw [h2]
    unfold Screen.pixel
    rw [hwd, ← Nat.add_assoc, h4 j i hj hi]
    have e0 := rawEncode_getD B.WORDS_BIGENDIAN w h bm j i 0 hj hi (by omega)
    rw [Nat.add_zero] at e0
    rw [e0, rawEncode_getD _ _ _ _ _ _ 1 hj hi (by omega),
      rawEncode_getD _ _ _ _ _ _ 2 hj hi (by omega),
      rawEncode_getD _ _ _ _ _ _ 3 hj hi (by omega)]
    exact word32_bytes32 _ _ (hbm j i hj hi)

/-- C1, witness: a `2 × 2` bitmap sent Raw into the rect `(1, 1, 2, 2)` of a `4 × 3`
screen, followed by one more byte on the transport. -/
theorem C1_raw_round_trip_witness :
    ∃ c', handleRaw Build.sample 2
        (Conn.connected .QualityHigh 4 3 0 (rawEncode false 2 2 sampleBitmap ++ [7])) 1 1 2 2
          = some (true, c') ∧
      c'.inbound = [7] ∧
      (Conn.connected .QualityHigh 4 3 0 (rawEncode false 2 2 sampleBitmap ++ [7])).inbound.length
        = 2 * 2 * 4 + c'.inbound.length ∧
      (∀ i j, i < 2 → j < 2 → c'.screen.pixel (1 + i) (1 + j) = sampleBitmap j i) ∧
      c' = { Conn.connected .QualityHigh 4 3 0 (rawEncode false 2 2 sampleBitmap ++ [7]) with
              inbound := [7], buffer := c'.buffer,
              screen := { (Conn.connected .QualityHigh 4 3 0
                (rawEncode false 2 2 sampleBitmap ++ [7])).screen with pix := c'.screen.pix } } :=
  C1_raw_round_trip Build.sample 2
    (Conn.connected .QualityHigh 4 3 0 (rawEncode false 2 2 sampleBitmap ++ [7])) 1 1 2 2
    sampleBitmap [7] (by decide) (by decide) (by decide) (by decide) (by decide) rfl
    (by intro j i hj hi; unfold sampleBitmap; omega) rfl (by decide) (by decide)

/-- C1, counterexample: with a scratch buffer of 16384 bytes, a Raw rect of width
4097 and height 1 inside a `4097 × 1` framebuffer is never decoded: the batch
size `16384 / (4 * 4097)` is 0, every iteration reads 0 bytes and `handleRaw`
returns for no amount of fuel, although the whole payload is on the transport. -/
theorem C1_raw_round_trip_counterexample :
    (1 ≤ 4097 ∧ 1 ≤ 1 ∧
      0 + 4097 ≤ (Conn.connected .QualityHigh 4097 1 0
        (rawEncode false 4097 1 fun _ _ => 0)).framebufferWidth ∧
      0 + 1 ≤ (Conn.connected .QualityHigh 4097 1 0
        (rawEncode false 4097 1 fun _ _ => 0)).framebufferHeight) ∧
    ¬ ∃ fuel, handleRaw Build.small fuel
        (Conn.connected .QualityHigh 4097 1 0 (rawEncode false 4097 1 fun _ _ => 0))
        0 0 4097 1 ≠ none := by
  refine ⟨by decide, ?_⟩
  rintro ⟨fuel, h⟩
  exact h (handleRawLoop_stuck Build.small fuel _ 0 0 4097 1 (by decide) (by decide) (by decide))

/-! ## Screen operations -/

theorem idx_mod (W a b : Nat) (h : b < W) : (a * W + b) % W = b := by
  rw [Nat.add_comm, Nat.add_mul_mod_self_right, Nat.mod_eq_of_lt h]

theorem idx_div (W a b : Nat) (h : b < W) : (a * W + b) / W = a := by
  rw [Nat.add_comm, Nat.add_mul_div_right _ _ (by omega), Nat.div_eq_of_lt h, Nat.zero_add]

theorem inRect_pixel (W x y w h px py : Nat) (hpx : px < W) :
    inRect W x y w h (py * W + px) ↔ (x ≤ px ∧ px < x + w ∧ y ≤ py ∧ py < y + h) := by
  unfold inRect
  rw [idx_mod W py px hpx, idx_div W py px hpx]

theorem fillRect_pixel (s : Screen) (x y w h p px py : Nat) (hpx : px < s.width) :
    (s.fillRect x y w h p).pixel px py =
      if x ≤ px ∧ px < x + w ∧ y ≤ py ∧ py < y + h then p else s.pixel px py := by
  unfold Screen.fillRect Screen.pixel
  simp only [inRect_pixel s.width x y w h px py hpx]

theorem fillRect_width (s : Screen) (x y w h p : Nat) :
    (s.fillRect x y w h p).width = s.width := rfl

theorem tightResetStep_snd (E : Ext) (i : Nat) (st : Conn × Nat) :
    (tightResetStep E i st).2 = st.2 / 2 := rfl

theorem tightResetStep_fst (E : Ext) (i : Nat) (st : Conn × Nat) :
    (tightResetStep E i st).1 =
      { st.1 with zlibStreamActive := (tightResetStep E i st).1.zlibStreamActive,
                  trace := (tightResetStep E i st).1.trace } := by
  unfold tightResetStep
  simp only []
  split_ifs <;> rfl

theorem tightResetStreams_snd (E : Ext) (c : Conn) (cc : Nat) :
    (tightResetStreams E c cc).2 = cc / 16 := by
  unfold tightResetStreams forLoop forLoop forLoop forLoop forLoop
  simp only [tightResetStep_snd]
  omega

theorem tightResetStreams_fst (E : Ext) (c : Conn) (cc : Nat) :
    (tightResetStreams E c cc).1 =
      { c with zlibStreamActive := (tightResetStreams E c cc).1.zlibStreamActive,
               trace := (tightResetStreams E c cc).1.trace } := by
  unfold tightResetStreams forLoop forLoop forLoop forLoop forLoop
  rw [tightResetStep_fst, tightResetStep_fst E 2, tightResetStep_fst E 1,
    tightResetStep_fst E 0]

/-- C7: Tight Fill. For every rect inside the framebuffer, every prior screen
content, every 32-bit pixel `p` and every control byte `0x80 | r` with `r` in
`0..15`, `handleTight` reads the control byte and exactly the four bytes of the
pixel, returns `TRUE` and leaves every pixel of the rect equal to `p`. -/
theorem C7_tight_fill (B : Build) (E : Ext) (fuel : Nat) (c : Conn) (x y w h r p : Nat)
    (rest : List Nat) (hr : r < 16) (hp : p < 4294967296)
    (hx : x + w ≤ c.framebufferWidth) (hscr : c.screen.width = c.framebufferWidth)
    (hin : c.inbound = (128 + r) :: (bytes32 B.WORDS_BIGENDIAN p ++ rest)) :
    ∃ c', handleTight B E fuel c x y w h = some (true, c') ∧
      c'.inbound = rest ∧
      c.inbound.length = 1 + 4 + c'.inbound.length ∧
      ∀ i j, i < w → j < h → c'.screen.pixel (x + i) (y + j) = p := by
  have hread1 := readFromServer_append c [128 + r] (bytes32 B.WORDS_BIGENDIAN p ++ rest) 1
    (by simpa using hin) rfl
  obtain ⟨c1, hc1⟩ : ∃ c1 : Conn, c1 = { c with inbound := bytes32 B.WORDS_BIGENDIAN p ++ rest } :=
    ⟨_, rfl⟩
  rw [← hc1] at hread1
  have hcc : (tightResetStreams E c1 ((128 + r) % 256)).2 = rfbTightFill := by
    rw [tightResetStreams_snd]
    unfold rfbTightFill
    omega
  have hc2 := tightResetStreams_fst E c1 ((128 + r) % 256)
  obtain ⟨c2, hc2e⟩ : ∃ c2 : Conn, c2 = (tightResetStreams E c1 ((128 + r) % 256)).1 := ⟨_, rfl⟩
  rw [← hc2e] at hc2
  have hc2in : c2.inbound = bytes32 B.WORDS_BIGENDIAN p ++ rest := by
    rw [hc2, hc1]
  have hc2scr : c2.screen = c.screen := by
    rw [hc2, hc1]
  have hread2 := readFromServer_append c2 (bytes32 B.WORDS_BIGENDIAN p) rest 4 hc2in
    (bytes32_length _ _)
  refine ⟨{ c2 with inbound := rest, screen := c2.screen.fillRect x y w h p }, ?_, rfl, ?_, ?_⟩
  · unfold handleTight
    rw [hread1]
    simp only [List.getD_cons_zero, hcc, if_true, ← hc2e, hread2, word32_bytes32 _ _ hp]
  · rw [hin]
    simp [bytes32_length]
    omega
  · intro i j hi hj
    show (c2.screen.fillRect x y w h p).pixel (x + i) (y + j) = p
    rw [fillRect_pixel _ _ _ _ _ _ _ _ (by rw [hc2scr, hscr]; omega)]
    simp only [Nat.le_add_right, Nat.add_lt_add_iff_left, hi, hj, and_self, if_true]

/-- C7, witness: control byte `0x80`, pixel `0x123456`, rect `(0, 0, 10, 10)`. -/
theorem C7_tight_fill_witness :
    ∃ c', handleTight Build.sample Ext.sample 0
        (Conn.connected .QualityHigh 10 10 0 ((128 + 0) :: (bytes32 false 1193046 ++ [])))
        0 0 10 10 = some (true, c') ∧
      c'.inbound = [] ∧
      (Conn.connected .QualityHigh 10 10 0
        ((128 + 0) :: (bytes32 false 1193046 ++ []))).inbound.length = 1 + 4 + c'.inbound.length ∧
      ∀ i j, i < 10 → j < 10 → c'.screen.pixel (0 + i) (0 + j) = 1193046 :=
  C7_tight_fill Build.sample Ext.sample 0
    (Conn.connected .QualityHigh 10 10 0 ((128 + 0) :: (bytes32 false 1193046 ++ [])))
    0 0 10 10 0 1193046 [] (by decide) (by decide) (by decide) rfl rfl

/-! ## CoRRE -/

theorem wire32_bytes (n : Nat) (hn : n < 4294967296) :
    wire32 (n / 16777216 % 256) (n / 65536 % 256) (n / 256 % 256) (n % 256) = n := by
  unfold wire32
  omega

theorem correSubrects_width (be : Bool) (buf : Mem) (s : Screen) (rx ry n : Nat) :
    (correSubrects be buf s rx ry n).width = s.width := by
  induction n with
  | zero => rfl
  | succ n ih =>
    unfold correSubrects forLoop
    simp only [fillRect_width]
    exact ih

theorem correSubrects_succ (be : Bool) (buf : Mem) (s : Screen) (rx ry n : Nat) :
    correSubrects be buf s rx ry (n + 1) =
      (correSubrects be buf s rx ry n).fillRect ((rx + byteAt buf (8 * n + 4)) % 65536)
        ((ry + byteAt buf (8 * n + 5)) % 65536) (byteAt buf (8 * n + 6))
        (byteAt buf (8 * n + 7)) (load32 be buf (8 * n)) := rfl

theorem corre_buf_getD (be : Bool) (n : Nat) (sub : Nat → CoRRESubrect) (k t : Nat)
    (hk : k < n) (ht : t < 8) :
    ((List.range n).flatMap fun k => (sub k).encode be).getD (8 * k + t) 0 =
      ((sub k).encode be).getD t 0 := by
  rw [Nat.mul_comm 8 k]
  exact flatMap_range_getD n 8 _ (fun i _ => by
    simp [CoRRESubrect.encode, bytes32_length]) k t hk ht

theorem corre_buf_length (be : Bool) (n : Nat) (sub : Nat → CoRRESubrect) :
    ((List.range n).flatMap fun k => (sub k).encode be).length = n * 8 :=
  flatMap_range_length n 8 _ (fun i _ => by simp [CoRRESubrect.encode, bytes32_length])

theorem encode_getD_lo (be : Bool) (r : CoRRESubrect) (t : Nat) (ht : t < 4) :
    (r.encode be).getD t 0 = (bytes32 be r.pixel).getD t 0 := by
  unfold CoRRESubrect.encode
  exact List.getD_append _ _ _ _ (by rw [bytes32_length]; exact ht)

theorem encode_getD_hi (be : Bool) (r : CoRRESubrect) (t : Nat) :
    (r.encode be).getD (4 + t) 0 = [r.x, r.y, r.w, r.h].getD t 0 := by
  unfold CoRRESubrect.encode
  rw [List.getD_append_right _ _ _ _ (by rw [bytes32_length]; omega), bytes32_length]
  simp

theorem writeBytes_zero_get (m : Mem) (bs : List Nat) (a : Nat) (h : a < bs.length) :
    writeBytes m 0 bs a = bs.getD a 0 := by
  unfold writeBytes
  simp [h]

theorem corre_read (be : Bool) (m : Mem) (n : Nat) (sub : Nat → CoRRESubrect) (k : Nat)
    (hk : k < n)
    (hs : (sub k).pixel < 4294967296 ∧ (sub k).x < 256 ∧ (sub k).y < 256 ∧
      (sub k).w < 256 ∧ (sub k).h < 256) :
    load32 be (writeBytes m 0 ((List.range n).flatMap fun k => (sub k).encode be)) (8 * k)
        = (sub k).pixel ∧
      byteAt (writeBytes m 0 ((List.range n).flatMap fun k => (sub k).encode be)) (8 * k + 4)
        = (sub k).x ∧
      byteAt (writeBytes m 0 ((List.range n).flatMap fun k => (sub k).encode be)) (8 * k + 5)
        = (sub k).y ∧
      byteAt (writeBytes m 0 ((List.range n).flatMap fun k => (sub k).encode be)) (8 * k + 6)
        = (sub k).w ∧
      byteAt (writeBytes m 0 ((List.range n).flatMap fun k => (sub k).encode be)) (8 * k + 7)
        = (sub k).h := by
  have hlen := corre_buf_length be n sub
  have hget : ∀ t, t < 8 →
      writeBytes m 0 ((List.range n).flatMap fun k => (sub k).encode be) (8 * k + t) =
        ((sub k).encode be).getD t 0 := by
    intro t ht
    rw [writeBytes_zero_get _ _ _ (by rw [hlen]; omega), corre_buf_getD be n sub k t hk ht]
  refine ⟨?_, ?_, ?_, ?_, ?_⟩
  · unfold load32
    have h0 := hget 0 (by omega)
    rw [Nat.add_zero] at h0
    rw [h0, hget 1 (by omega), hget 2 (by omega),
      hget 3 (by omega), encode_getD_lo _ _ 0 (by omega), encode_getD_lo _ _ 1 (by omega),
      encode_getD_lo _ _ 2 (by omega), encode_getD_lo _ _ 3 (by omega)]
    exact word32_bytes32 _ _ hs.1
  · unfold byteAt
    rw [hget 4 (by omega), encode_getD_hi be (sub k) 0]
    simp only [List.getD_cons_zero]
    omega
  · unfold byteAt
    rw [hget 5 (by omega), encode_getD_hi be (sub k) 1]
    simp only [List.getD_cons_succ, List.getD_cons_zero]
    omega
  · unfold byteAt
    rw [hget 6 (by omega), encode_getD_hi be (sub k) 2]
    simp only [List.getD_cons_succ, List.getD_cons_zero]
    omega
  · unfold byteAt
    rw [hget 7 (by omega), encode_getD_hi be (sub k) 3]
    simp only [List.getD_cons_succ, List.getD_cons_zero]
    omega

theorem correSubrects_pixel (be : Bool) (m : Mem) (s : Screen) (x y w h n : Nat)
    (sub : Nat → CoRRESubrect) (hx : x + w ≤ s.width) (hW : s.width < 65536) (hy : y + h < 65536)
    (hsub : ∀ k, k < n → (sub k).pixel < 4294967296 ∧ (sub k).x < 256 ∧ (sub k).y < 256 ∧
      (sub k).w < 256 ∧ (sub k).h < 256 ∧ (sub k).x + (sub k).w ≤ w ∧ (sub k).y + (sub k).h ≤ h)
    (i j : Nat) (hi : i < w) :
    ∀ m', m' ≤ n →
      (∀ k, k < m' → (sub k).covers i j →
        (∀ k', k < k' → k' < m' → ¬ (sub k').covers i j) →
        (correSubrects be (writeBytes m 0 ((List.range n).flatMap fun k => (sub k).encode be))
          s x y m').pixel (x + i) (y + j) = (sub k).pixel) ∧
      ((∀ k, k < m' → ¬ (sub k).covers i j) →
        (correSubrects be (writeBytes m 0 ((List.range n).flatMap fun k => (sub k).encode be))
          s x y m').pixel (x + i) (y + j) = s.pixel (x + i) (y + j)) := by
  intro m'
  induction m' with
  | zero =>
    intro _
    exact ⟨fun k hk => by omega, fun _ => rfl⟩
  | succ m' ih =>
    intro hm
    obtain ⟨ih1, ih2⟩ := ih (by omega)
    obtain ⟨hp, hsx, hsy, hsw, hsh, hxw, hyh⟩ := hsub m' (by omega)
    obtain ⟨r1, r2, r3, r4, r5⟩ := corre_read be m n sub m' (by omega) ⟨hp, hsx, hsy, hsw, hsh⟩
    have hstep : (correSubrects be
          (writeBytes m 0 ((List.range n).flatMap fun k => (sub k).encode be)) s x y
          (m' + 1)).pixel (x + i) (y + j) =
        if (sub m').covers i j then (sub m').pixel
        else (correSubrects be
          (writeBytes m 0 ((List.range n).flatMap fun k => (sub k).encode be)) s x y
          m').pixel (x + i) (y + j) := by
      rw [correSubrects_succ, r1, r2, r3, r4, r5,
        fillRect_pixel _ _ _ _ _ _ _ _ (by rw [correSubrects_width]; omega),
        Nat.mod_eq_of_lt (show x + (sub m').x < 65536 by omega),
        Nat.mod_eq_of_lt (show y + (sub m').y < 65536 by omega)]
      unfold CoRRESubrect.covers
      congr 1
      apply propext
      constructor <;> intro hc <;> omega
    rw [hstep]
    by_cases hc : (sub m').covers i j
    · simp only [hc, if_true]
      refine ⟨fun k hk hck hlast => ?_, fun hnone => absurd hc (hnone m' (by omega))⟩
      by_cases hkm : k = m'
      · rw [hkm]
      · exact absurd hc (hlast m' (by omega) (by omega))
    · simp only [hc, if_false]
      refine ⟨fun k hk hck hlast => ?_, fun hnone => ih2 (fun k hk => hnone k (by omega))⟩
      have hkm : k < m' := by
        by_cases hkm : k = m'
        · rw [hkm] at hck
          exact absurd hck hc
        · omega
      exact ih1 k hkm hck (fun k' h1 h2 => hlast k' h1 (by omega))

/-! ## Word stores -/

theorem store32_frame (be : Bool) (m : Mem) (a v k : Nat) (hk : k < a ∨ a + 4 ≤ k) :
    store32 be m a v k = m k := by
  unfold store32
  have h0 : k ≠ a := by omega
  have h1 : k ≠ a + 1 := by omega
  have h2 : k ≠ a + 2 := by omega
  have h3 : k ≠ a + 3 := by omega
  simp only [h0, h1, h2, h3, if_false]

theorem load32_store32_same (be : Bool) (m : Mem) (a v : Nat) (hv : v < 4294967296) :
    load32 be (store32 be m a v) a = v := by
  unfold load32 store32
  have h1 : a + 1 ≠ a := by omega
  have h2 : a + 2 ≠ a := by omega
  have h3 : a + 3 ≠ a := by omega
  have h4 : a + 2 ≠ a + 1 := by omega
  have h5 : a + 3 ≠ a + 1 := by omega
  have h6 : a + 3 ≠ a + 2 := by omega
  simp only [h1, h2, h3, h4, h5, h6, if_true, if_false]
  exact word32_bytes32 be v hv

theorem load32_store32_other (be : Bool) (m : Mem) (a v a' : Nat)
    (h : a' + 4 ≤ a ∨ a + 4 ≤ a') :
    load32 be (store32 be m a v) a' = load32 be m a' := by
  unfold load32
  rw [store32_frame be m a v a' (by omega), store32_frame be m a v (a' + 1) (by omega),
    store32_frame be m a v (a' + 2) (by omega), store32_frame be m a v (a' + 3) (by omega)]

theorem load32_lt (be : Bool) (m : Mem) (a : Nat) : load32 be m a < 4294967296 :=
  word32_lt _ _ _ _ _

theorem FillInv_step (be : Bool) (dstOff : Nat) (buf0 : Mem) (g : Nat → Nat) (N : Nat)
    (buf : Mem) (v : Nat) (hI : FillInv be dstOff buf0 g N buf) (hv : v < 4294967296)
    (hg : v = g N) :
    FillInv be dstOff buf0 g (N + 1) (store32 be buf (dstOff + 4 * N) v) := by
  obtain ⟨h1, h2⟩ := hI
  refine ⟨fun k hk => ?_, fun idx hidx => ?_⟩
  · rw [store32_frame be buf _ v k (by omega)]
    exact h1 k (by omega)
  · by_cases hN : idx = N
    · rw [hN, load32_store32_same be buf _ v hv, hg]
    · rw [load32_store32_other be buf _ v _ (by omega)]
      exact h2 idx (by omega)

/-! ## Tight: the two-colour palette filter -/

theorem shiftRight_and_one (m b : Nat) : (m >>> b) &&& 1 = if m.testBit b then 1 else 0 := by
  rw [Nat.and_one_is_mod, Nat.shiftRight_eq_div_pow, Nat.testBit_to_div_mod]
  by_cases h : m / 2 ^ b % 2 = 1
  · simp [h]
  · have h0 : m / 2 ^ b % 2 = 0 := by omega
    simp [h0]

theorem paletteEntry_bit (be : Bool) (pal : Mem) (m b : Nat) :
    paletteEntry be pal ((m >>> b) &&& 1) =
      if m.testBit b then paletteEntry be pal 1 else paletteEntry be pal 0 := by
  rw [shiftRight_and_one]
  split <;> rfl

theorem palette2Byte_succ (be : Bool) (pal : Mem) (W w dstOff y x n : Nat) (buf : Mem) :
    palette2Byte be pal W w dstOff y x (n + 1) buf =
      store32 be (palette2Byte be pal W w dstOff y x n buf)
        (dstOff + 4 * (y * W + x * 8 + 7 - (7 - n)))
        (paletteEntry be pal
          ((byteAt (palette2Byte be pal W w dstOff y x n buf) (y * w + x) >>> (7 - n)) &&& 1)) :=
  rfl

theorem palette2Byte_inv (be : Bool) (pal : Mem) (W w dstOff y x : Nat) (buf0 : Mem)
    (g : Nat → Nat) (buf : Mem) (hI : FillInv be dstOff buf0 g (y * W + x * 8) buf) :
    ∀ n, n ≤ 8 → (0 < n → y * w + x < dstOff) →
      (∀ t, t < n → g (y * W + x * 8 + t) =
        if (byteAt buf0 (y * w + x)).testBit (7 - t) then paletteEntry be pal 1
        else paletteEntry be pal 0) →
      FillInv be dstOff buf0 g (y * W + x * 8 + n) (palette2Byte be pal W w dstOff y x n buf) := by
  intro n
  induction n with
  | zero =>
    intro _ _ _
    exact hI
  | succ n ih =>
    intro hn hsrc hg
    have hprev := ih (by omega) (fun _ => hsrc (by omega)) (fun t ht => hg t (by omega))
    rw [palette2Byte_succ]
    have haddr : y * W + x * 8 + 7 - (7 - n) = y * W + x * 8 + n := by omega
    have hbyte : byteAt (palette2Byte be pal W w dstOff y x n buf) (y * w + x) =
        byteAt buf0 (y * w + x) := by
      unfold byteAt
      rw [hprev.1 _ (Or.inl (hsrc (by omega)))]
    rw [haddr, hbyte]
    refine FillInv_step be dstOff buf0 g _ _ _ hprev (load32_lt _ _ _) ?_
    rw [paletteEntry_bit]
    exact (hg n (by omega)).symm

theorem palette2Bytes_inv (be : Bool) (pal : Mem) (W w dstOff y : Nat) (buf0 : Mem)
    (g : Nat → Nat) (buf : Mem) (hI : FillInv be dstOff buf0 g (y * W) buf) :
    ∀ nx, (∀ x, x < nx → y * w + x < dstOff) →
      (∀ x t, x < nx → t < 8 → g (y * W + x * 8 + t) =
        if (byteAt buf0 (y * w + x)).testBit (7 - t) then paletteEntry be pal 1
        else paletteEntry be pal 0) →
      FillInv be dstOff buf0 g (y * W + nx * 8)
        (forLoop nx (fun x (buf : Mem) => palette2Byte be pal W w dstOff y x 8 buf) buf) := by
  intro nx
  induction nx with
  | zero =>
    intro _ _
    simpa [forLoop] using hI
  | succ nx ih =>
    intro hsrc hg
    have hprev := ih (fun x hx => hsrc x (by omega)) (fun x t hx ht => hg x t (by omega) ht)
    have h := palette2Byte_inv be pal W w dstOff y nx buf0 g _ hprev 8 (Nat.le_refl 8)
      (fun _ => hsrc nx (by omega)) (fun t ht => hg nx t (by omega) ht)
    have e : y * W + nx * 8 + 8 = y * W + (nx + 1) * 8 := by omega
    rw [e] at h
    exact h

theorem palette2Row_inv (be : Bool) (pal : Mem) (W dstOff y : Nat) (buf0 : Mem) (buf : Mem)
    (hW : W < 65536) (hsrc : (y + 1) * ((W + 7) / 8) ≤ dstOff)
    (hI : FillInv be dstOff buf0
      (fun idx => palette2Expected be pal buf0 W (idx / W) (idx % W)) (y * W) buf) :
    FillInv be dstOff buf0 (fun idx => palette2Expected be pal buf0 W (idx / W) (idx % W))
      ((y + 1) * W) (palette2Row be pal W ((W + 7) / 8 % 65536) dstOff y buf) := by
  have hw : (W + 7) / 8 % 65536 = (W + 7) / 8 := Nat.mod_eq_of_lt (by omega)
  rw [hw]
  have hmul : (y + 1) * ((W + 7) / 8) = y * ((W + 7) / 8) + (W + 7) / 8 := Nat.succ_mul _ _
  have hg : ∀ x t, x * 8 + t < W → t < 8 →
      (fun idx => palette2Expected be pal buf0 W (idx / W) (idx % W)) (y * W + x * 8 + t) =
        if (byteAt buf0 (y * ((W + 7) / 8) + x)).testBit (7 - t) then paletteEntry be pal 1
        else paletteEntry be pal 0 := by
    intro x t hxt ht
    show palette2Expected be pal buf0 W ((y * W + x * 8 + t) / W) ((y * W + x * 8 + t) % W) = _
    rw [Nat.add_assoc, idx_div W y _ hxt, idx_mod W y _ hxt]
    unfold palette2Expected
    have e1 : (x * 8 + t) / 8 = x := by omega
    have e2 : (x * 8 + t) % 8 = t := by omega
    rw [e1, e2]
  unfold palette2Row
  have h1 := palette2Bytes_inv be pal W ((W + 7) / 8) dstOff y buf0 _ buf hI (W / 8)
    (fun x hx => by omega) (fun x t hx ht => hg x t (by omega) ht)
  have h2 := palette2Byte_inv be pal W ((W + 7) / 8) dstOff y (W / 8) buf0 _ _ h1 (W % 8)
    (by omega) (fun _ => by omega) (fun t ht => hg (W / 8) t (by omega) (by omega))
  have e : y * W + W / 8 * 8 + W % 8 = (y + 1) * W := by
    rw [Nat.succ_mul]
    omega
  rw [e] at h2
  exact h2

theorem palette2Rows_inv (be : Bool) (pal : Mem) (W dstOff : Nat) (buf0 : Mem)
    (hW : W < 65536) :
    ∀ rows, rows * ((W + 7) / 8) ≤ dstOff →
      FillInv be dstOff buf0 (fun idx => palette2Expected be pal buf0 W (idx / W) (idx % W))
        (rows * W)
        (forLoop rows
          (fun y (buf : Mem) => palette2Row be pal W ((W + 7) / 8 % 65536) dstOff y buf) buf0) := by
  intro rows
  induction rows with
  | zero =>
    intro _
    exact ⟨fun _ _ => rfl, fun idx hidx => by omega⟩
  | succ rows ih =>
    intro hsrc
    have hmul : (rows + 1) * ((W + 7) / 8) = rows * ((W + 7) / 8) + (W + 7) / 8 :=
      Nat.succ_mul _ _
    exact palette2Row_inv be pal W dstOff rows buf0 _ hW hsrc (ih (by omega))

/-- C8: Tight two-colour palette. For every two-colour palette `{colA, colB}`,
every rect width, every number of rows and every source bit pattern at the
start of the scratch buffer, `filterPalette` writing its output behind the
source bytes sets output pixel (row `y`, column `col`) to `colA` when bit
`7 - col % 8` of source byte `y * ⌈w / 8⌉ + col / 8` is 0 and to `colB` when
it is 1; the padding bits of a row produce no pixel: nothing outside the
`num_rows * w` output words is written. -/
theorem C8_tight_two_colour_palette (B : Build) (c : Conn) (num_rows dstOff colA colB : Nat)
    (hcolors : c.rectColors = 2) (hW : c.rectWidth < 65536)
    (hA : paletteEntry B.WORDS_BIGENDIAN c.tightPalette 0 = colA)
    (hB : paletteEntry B.WORDS_BIGENDIAN c.tightPalette 1 = colB)
    (hsrc : num_rows * ((c.rectWidth + 7) / 8) ≤ dstOff) :
    (∀ y col, y < num_rows → col < c.rectWidth →
      bufferWords B.WORDS_BIGENDIAN (filterPalette B c num_rows dstOff).buffer dstOff
          (y * c.rectWidth + col) =
        if (byteAt c.buffer (y * ((c.rectWidth + 7) / 8) + col / 8)).testBit (7 - col % 8)
        then colB else colA) ∧
      (∀ k, k < dstOff ∨ dstOff + 4 * (num_rows * c.rectWidth) ≤ k →
        (filterPalette B c num_rows dstOff).buffer k = c.buffer k) := by
  have hinv := palette2Rows_inv B.WORDS_BIGENDIAN c.tightPalette c.rectWidth dstOff c.buffer hW
    num_rows hsrc
  have hbuf : (filterPalette B c num_rows dstOff).buffer =
      forLoop num_rows
        (fun y (buf : Mem) => palette2Row B.WORDS_BIGENDIAN c.tightPalette c.rectWidth
          ((c.rectWidth + 7) / 8 % 65536) dstOff y buf) c.buffer := by
    unfold filterPalette
    simp only [hcolors, if_true]
  rw [hbuf]
  refine ⟨fun y col hy hcol => ?_, hinv.1⟩
  have hidx : y * c.rectWidth + col < num_rows * c.rectWidth := by
    have := Nat.mul_le_mul_right c.rectWidth (show y + 1 ≤ num_rows by omega)
    rw [Nat.succ_mul] at this
    omega
  unfold bufferWords
  rw [hinv.2 _ hidx]
  show palette2Expected B.WORDS_BIGENDIAN c.tightPalette c.buffer c.rectWidth
    ((y * c.rectWidth + col) / c.rectWidth) ((y * c.rectWidth + col) % c.rectWidth) = _
  rw [idx_div _ _ _ hcol, idx_mod _ _ _ hcol]
  unfold palette2Expected
  rw [hA, hB]

/-- C8, witness: palette `[0x000000, 0xFFFFFF]`, data `0xA0`, one row of width 3
gives `[0xFFFFFF, 0x000000, 0xFFFFFF]` (bits 1, 0, 1; the last 5 bits are ignored). -/
theorem C8_tight_two_colour_palette_witness :
    bufferWords false (filterPalette Build.sample samplePaletteConn 1 48).buffer 48 0 = 16777215 ∧
    bufferWords false (filterPalette Build.sample samplePaletteConn 1 48).buffer 48 1 = 0 ∧
    bufferWords false (filterPalette Build.sample samplePaletteConn 1 48).buffer 48 2 = 16777215 ∧
    (∀ k, k < 48 ∨ 48 + 4 * (1 * 3) ≤ k →
      (filterPalette Build.sample samplePaletteConn 1 48).buffer k = samplePaletteConn.buffer k) := by
  have h := C8_tight_two_colour_palette Build.sample samplePaletteConn 1 48 0 16777215
    rfl (by decide) (by decide) (by decide) (by decide)
  refine ⟨?_, ?_, ?_, h.2⟩
  · exact (h.1 0 0 (by decide) (by decide)).trans (by decide)
  · exact (h.1 0 1 (by decide) (by decide)).trans (by decide)
  · exact (h.1 0 2 (by decide) (by decide)).trans (by decide)

/-! ## Tight: the palette size -/

theorem initFilterPalette_zero (c : Conn) (rw : Nat) (rest : List Nat)
    (hin : c.inbound = 0 :: rest) :
    initFilterPalette c rw =
      (0, { c with rectWidth := rw, inbound := rest, rectColors := 1 }) := by
  unfold initFilterPalette
  dsimp only
  rw [readFromServer_append { c with rectWidth := rw } [0] rest 1 hin rfl]
  rfl

theorem initFilterPalette_colours (be : Bool) (c : Conn) (rw n : Nat) (col : Nat → Nat)
    (rest : List Nat) (hn1 : 1 ≤ n) (hn : n < 256)
    (hin : c.inbound = n :: ((List.range (n + 1)).flatMap (fun i => bytes32 be (col i)) ++ rest)) :
    initFilterPalette c rw =
      (if n = 1 then 1 else 8,
        { c with
          rectWidth := rw
          inbound := rest
          rectColors := n + 1
          tightPalette := writeBytes c.tightPalette 0
            ((List.range (n + 1)).flatMap fun i => bytes32 be (col i)) }) := by
  unfold initFilterPalette
  dsimp only
  rw [readFromServer_append { c with rectWidth := rw } [n] _ 1 hin rfl]
  have e1 : n % 256 = n := Nat.mod_eq_of_lt hn
  have e2 : (n + 1) % 65536 = n + 1 := Nat.mod_eq_of_lt (by omega)
  have e3 : ¬ (n + 1 < 2) := by omega
  simp only [List.getD_cons_zero, e1, e2, e3, if_false]
  rw [readFromServer_append _ ((List.range (n + 1)).flatMap fun i => bytes32 be (col i)) rest
    ((n + 1) * 4) rfl (flatMap_range_length _ 4 _ (fun i _ => bytes32_length be (col i)))]
  have e4 : (n + 1 = 2) = (n = 1) := propext ⟨fun h => by omega, fun h => by omega⟩
  simp only [e4]

theorem palette_entry_written (be : Bool) (m : Mem) (n : Nat) (col : Nat → Nat) (i : Nat)
    (hi : i < n) (hcol : col i < 4294967296) :
    paletteEntry be (writeBytes m 0 ((List.range n).flatMap fun i => bytes32 be (col i))) i
      = col i := by
  have hlen := flatMap_range_length n 4 (fun i => bytes32 be (col i))
    (fun i _ => bytes32_length be (col i))
  have hget := fun t (ht : t < 4) => flatMap_range_getD n 4 (fun i => bytes32 be (col i))
    (fun i _ => bytes32_length be (col i)) i t hi ht
  unfold paletteEntry
  rw [load32_writeBytes _ _ _ _ (by rw [hlen]; omega), Nat.mul_comm 4 i]
  have h0 := hget 0 (by omega)
  rw [Nat.add_zero] at h0
  rw [h0, hget 1 (by omega), hget 2 (by omega), hget 3 (by omega)]
  exact word32_bytes32 be _ hcol

theorem handleTight_palette_zero (B : Build) (E : Ext) (fuel : Nat) (c : Conn)
    (x y w h r : Nat) (rest : List Nat) (hr : r < 16)
    (hin : c.inbound = (64 + r) :: 1 :: 0 :: rest) :
    ∃ c', handleTight B E fuel c x y w h = some (false, c') ∧ c'.inbound = rest ∧
      c'.screen = c.screen := by
  have hread1 := readFromServer_append c [64 + r] (1 :: 0 :: rest) 1 (by simpa using hin) rfl
  obtain ⟨c1, hc1⟩ : ∃ c1 : Conn, c1 = { c with inbound := 1 :: 0 :: rest } := ⟨_, rfl⟩
  rw [← hc1] at hread1
  have hcc : (tightResetStreams E c1 ((64 + r) % 256)).2 = 4 := by
    rw [tightResetStreams_snd]
    omega
  have hc2 := tightResetStreams_fst E c1 ((64 + r) % 256)
  obtain ⟨c2, hc2e⟩ : ∃ c2 : Conn, c2 = (tightResetStreams E c1 ((64 + r) % 256)).1 := ⟨_, rfl⟩
  rw [← hc2e] at hc2
  have hc2in : c2.inbound = [1] ++ 0 :: rest := by
    rw [hc2, hc1]
    rfl
  have hc2scr : c2.screen = c.screen := by
    rw [hc2, hc1]
  have hread2 := readFromServer_append c2 [1] (0 :: rest) 1 hc2in rfl
  have hinit := initFilterPalette_zero { c2 with inbound := 0 :: rest } w rest rfl
  refine ⟨({ c2 with rectWidth := w, inbound := rest, rectColors := 1 } : Conn).act
    (.qCritical .tightPaletteError), ?_, rfl, hc2scr⟩
  unfold handleTight
  rw [hread1]
  simp only [List.getD_cons_zero, hcc, ← hc2e, hread2]
  rw [hinit]
  simp [rfbTightFill, rfbTightJpeg, rfbTightMaxSubencoding, rfbTightExplicitFilter,
    rfbTightFilterCopy, rfbTightFilterPalette, tightData]

/-- C9 (amended): Tight palette size. For every palette-size byte `n` in `1..255`
followed by `n + 1` palette entries, `initFilterPalette` initialises the palette
filter with `n + 1` colours, at 1 bit per pixel for `n = 1` and 8 bits per pixel
otherwise, and stores the entries in the palette. The byte `n = 0` is rejected:
`initFilterPalette` returns 0 bits, and a Tight rect whose control byte asks
for an explicit filter (`0x40 | r`), with filter id Palette and size byte 0,
makes `handleTight` return `FALSE` without touching the screen. -/
theorem C9_tight_palette_size (B : Build) (E : Ext) (fuel : Nat) (c : Conn)
    (x y w h r n : Nat) (col : Nat → Nat) (rest : List Nat)
    (hn : n < 256) (hr : r < 16) (hcol : ∀ i, i ≤ n → col i < 4294967296) :
    (1 ≤ n →
      c.inbound = n :: ((List.range (n + 1)).flatMap
        (fun i => bytes32 B.WORDS_BIGENDIAN (col i)) ++ rest) →
      (initFilterPalette c w).1 = (if n = 1 then 1 else 8) ∧
        (initFilterPalette c w).2.rectColors = n + 1 ∧
        (initFilterPalette c w).2.inbound = rest ∧
        ∀ i, i ≤ n →
          paletteEntry B.WORDS_BIGENDIAN (initFilterPalette c w).2.tightPalette i = col i) ∧
    (c.inbound = 0 :: rest → (initFilterPalette c w).1 = 0) ∧
    (c.inbound = (64 + r) :: 1 :: 0 :: rest →
      ∃ c', handleTight B E fuel c x y w h = some (false, c') ∧ c'.inbound = rest ∧
        c'.screen = c.screen) := by
  refine ⟨fun hn1 hin => ?_, fun hin => ?_, fun hin => ?_⟩
  · rw [initFilterPalette_colours B.WORDS_BIGENDIAN c w n col rest hn1 hn hin]
    exact ⟨rfl, rfl, rfl, fun i hi =>
      palette_entry_written B.WORDS_BIGENDIAN c.tightPalette (n + 1) col i (by omega) (hcol i hi)⟩
  · rw [initFilterPalette_zero c w rest hin]
  · exact handleTight_palette_zero B E fuel c x y w h r rest hr hin

/-- C9, witness: size byte 1 and the palette `[0x000000, 0xFFFFFF]` give two
colours at 1 bit per pixel. -/
theorem C9_tight_palette_size_witness :
    (initFilterPalette
        (Conn.connected .QualityHigh 3 1 0 (1 :: ((List.range (1 + 1)).flatMap
          (fun i => bytes32 false (16777215 * i)) ++ [160]))) 3).1 = 1 ∧
      (initFilterPalette
        (Conn.connected .QualityHigh 3 1 0 (1 :: ((List.range (1 + 1)).flatMap
          (fun i => bytes32 false (16777215 * i)) ++ [160]))) 3).2.rectColors = 1 + 1 ∧
      (initFilterPalette
        (Conn.connected .QualityHigh 3 1 0 (1 :: ((List.range (1 + 1)).flatMap
          (fun i => bytes32 false (16777215 * i)) ++ [160]))) 3).2.inbound = [160] := by
  have h := (C9_tight_palette_size Build.sample Ext.sample 0
    (Conn.connected .QualityHigh 3 1 0 (1 :: ((List.range (1 + 1)).flatMap
      (fun i => bytes32 false (16777215 * i)) ++ [160])))
    0 0 3 1 0 1 (fun i => 16777215 * i) [160] (by decide) (by decide)
    (fun i hi => by show 16777215 * i < 4294967296; omega)).1 (by decide) rfl
  exact ⟨h.1, h.2.1, h.2.2.1⟩

/-- C9, counterexample: the palette-size byte 0 does not give a 1-colour palette.
`initFilterPalette` returns 0 bits per pixel, and the Tight rect with control
byte `0x40`, filter id 1, size byte 0, one palette entry and one data byte is
refused by `handleTight`. -/
theorem C9_tight_palette_size_counterexample :
    (initFilterPalette (Conn.connected .QualityHigh 1 1 0 [0, 1, 2, 3, 0, 0]) 1).1 = 0 ∧
      (handleTight Build.sample Ext.sample 0
        (Conn.connected .QualityHigh 1 1 0 [64, 1, 0, 1, 2, 3, 0, 0]) 0 0 1 1).map Prod.fst
        = some false := by
  refine ⟨?_, ?_⟩
  · rw [initFilterPalette_zero _ 1 [1, 2, 3, 0, 0] rfl]
  · obtain ⟨c', h1, _⟩ := handleTight_palette_zero Build.sample Ext.sample 0
      (Conn.connected .QualityHigh 1 1 0 [64, 1, 0, 1, 2, 3, 0, 0]) 0 0 1 1 0 [1, 2, 3, 0, 0]
      (by decide) rfl
    rw [h1]
    rfl

/-! ## Tight: the gradient filter on zero deltas -/

theorem store32_zero (be : Bool) (m : Mem) (a k : Nat) :
    store32 be m a 0 k = if a ≤ k ∧ k < a + 4 then 0 else m k := by
  unfold store32 bytes32
  by_cases h0 : k = a
  · cases be <;> simp [h0]
  · by_cases h1 : k = a + 1
    · cases be <;> simp [h1]
    · by_cases h2 : k = a + 2
      · cases be <;> simp [h2]
      · by_cases h3 : k = a + 3
        · cases be <;> simp [h3]
        · have : ¬ (a ≤ k ∧ k < a + 4) := by omega
          simp only [h0, h1, h2, h3, this, if_false]

theorem load32_zero (be : Bool) (m : Mem) (a : Nat)
    (h : m a = 0 ∧ m (a + 1) = 0 ∧ m (a + 2) = 0 ∧ m (a + 3) = 0) : load32 be m a = 0 := by
  unfold load32 word32
  rw [h.1, h.2.1, h.2.2.1, h.2.2.2]
  cases be <;> rfl

theorem ZeroBuf_step (be : Bool) (rows W dstOff N : Nat) (buf : Mem)
    (h : ZeroBuf rows W dstOff N buf) :
    ZeroBuf rows W dstOff (N + 1) (store32 be buf (dstOff + 4 * N) 0) := by
  obtain ⟨h1, h2⟩ := h
  refine ⟨fun k hk => ?_, fun k hk1 hk2 => ?_⟩
  · rw [store32_zero]
    split
    · rfl
    · exact h1 k hk
  · rw [store32_zero]
    split
    · rfl
    · exact h2 k hk1 (by omega)

theorem ZeroBuf_src (be : Bool) (rows W dstOff N : Nat) (buf : Mem)
    (h : ZeroBuf rows W dstOff N buf) (idx : Nat) (hidx : idx < rows * W) :
    load32 be buf (4 * idx) = 0 :=
  load32_zero be buf _ ⟨h.1 _ (by omega), h.1 _ (by omega), h.1 _ (by omega), h.1 _ (by omega)⟩

theorem RGB_TO_PIXEL_zero : RGB_TO_PIXEL 0 0 0 = 0 := by decide

theorem gradientFirst_zero (be : Bool) (W y ch : Nat) (g : GradientState)
    (hsrc : load32 be g.buffer (4 * (y * W)) = 0) (hthat : g.that_row ch = 0) :
    gradientFirst be W y ch g =
      { g with pix := g.pix.write ch 0, this_row := g.this_row.write ch 0 } := by
  unfold gradientFirst
  simp only [hsrc, hthat, Nat.zero_shiftRight, Nat.add_zero, Nat.zero_mod, Nat.zero_and]

theorem gradientNext_zero (be : Bool) (W y x ch : Nat) (g : GradientState)
    (hsrc : load32 be g.buffer (4 * (y * W + x)) = 0) (hpix : g.pix ch = 0)
    (h1 : g.that_row (x * 3 + ch) = 0) (h2 : g.that_row ((x - 1) * 3 + ch) = 0) :
    gradientNext be W y x ch g =
      { g with pix := g.pix.write ch 0, this_row := g.this_row.write (x * 3 + ch) 0 } := by
  unfold gradientNext
  simp [hsrc, hpix, h1, h2, localMax]

theorem gradientPixel_zero (be : Bool) (W dstOff y x : Nat) (g : GradientState)
    (hsrc : load32 be g.buffer (4 * (y * W + x)) = 0)
    (hpix : g.pix 0 = 0 ∧ g.pix 1 = 0 ∧ g.pix 2 = 0)
    (hthat : ∀ k, k < x * 3 + 3 → g.that_row k = 0) (hx : 1 ≤ x) :
    (gradientPixel be W dstOff y x g).buffer = store32 be g.buffer (dstOff + 4 * (y * W + x)) 0 ∧
      (gradientPixel be W dstOff y x g).that_row = g.that_row ∧
      ((gradientPixel be W dstOff y x g).pix 0 = 0 ∧ (gradientPixel be W dstOff y x g).pix 1 = 0 ∧
        (gradientPixel be W dstOff y x g).pix 2 = 0) ∧
      (∀ k, (gradientPixel be W dstOff y x g).this_row k =
        if x * 3 ≤ k ∧ k < x * 3 + 3 then 0 else g.this_row k) := by
  have e0 := gradientNext_zero be W y x 0 g hsrc hpix.1 (hthat _ (by omega)) (hthat _ (by omega))
  have e1 := gradientNext_zero be W y x 1
    { g with pix := g.pix.write 0 0, this_row := g.this_row.write (x * 3 + 0) 0 } hsrc
    (by simp [Mem.write, hpix.2.1]) (hthat _ (by omega)) (hthat _ (by omega))
  have e2 := gradientNext_zero be W y x 2
    { g with pix := (g.pix.write 0 0).write 1 0,
             this_row := (g.this_row.write (x * 3 + 0) 0).write (x * 3 + 1) 0 } hsrc
    (by simp [Mem.write, hpix.2.2]) (hthat _ (by omega)) (hthat _ (by omega))
  have e : gradientPixel be W dstOff y x g =
      { g with
        pix := ((g.pix.write 0 0).write 1 0).write 2 0
        this_row := ((g.this_row.write (x * 3 + 0) 0).write (x * 3 + 1) 0).write (x * 3 + 2) 0
        buffer := store32 be g.buffer (dstOff + 4 * (y * W + x)) 0 } := by
    unfold gradientPixel forLoop forLoop forLoop forLoop
    simp only []
    rw [e0, e1, e2]
    simp [Mem.write, RGB_TO_PIXEL_zero]
  rw [e]
  refine ⟨rfl, rfl, ⟨by simp [Mem.write], by simp [Mem.write], by simp [Mem.write]⟩, fun k => ?_⟩
  simp only [Mem.write]
  by_cases h0 : k = x * 3 + 0
  · simp [h0]
  · by_cases h1 : k = x * 3 + 1
    · simp [h1]
    · by_cases h2 : k = x * 3 + 2
      · simp [h2]
      · have hn : ¬ (x * 3 ≤ k ∧ k < x * 3 + 3) := by omega
        simp only [h0, h1, h2, hn, if_false]

theorem gradientPixels_zero (be : Bool) (rows W dstOff y : Nat) (hy : y < rows)
    (g2 : GradientState) (hthat : ∀ k, k < W * 3 → g2.that_row k = 0)
    (hb : ZeroBuf rows W dstOff (y * W + 1) g2.buffer)
    (hpix : g2.pix 0 = 0 ∧ g2.pix 1 = 0 ∧ g2.pix 2 = 0)
    (hthis : ∀ k, k < 3 → g2.this_row k = 0) :
    ∀ n, n + 1 ≤ W →
      ZeroBuf rows W dstOff (y * W + 1 + n)
          (forLoop n (fun i g => gradientPixel be W dstOff y (i + 1) g) g2).buffer ∧
        (forLoop n (fun i g => gradientPixel be W dstOff y (i + 1) g) g2).that_row
          = g2.that_row ∧
        ((forLoop n (fun i g => gradientPixel be W dstOff y (i + 1) g) g2).pix 0 = 0 ∧
          (forLoop n (fun i g => gradientPixel be W dstOff y (i + 1) g) g2).pix 1 = 0 ∧
          (forLoop n (fun i g => gradientPixel be W dstOff y (i + 1) g) g2).pix 2 = 0) ∧
        (∀ k, k < (n + 1) * 3 →
          (forLoop n (fun i g => gradientPixel be W dstOff y (i + 1) g) g2).this_row k = 0) := by
  intro n
  induction n with
  | zero =>
    intro _
    exact ⟨hb, rfl, hpix, fun k hk => hthis k (by omega)⟩
  | succ n ih =>
    intro hn
    obtain ⟨i1, i2, i3, i4⟩ := ih (by omega)
    have hmul := Nat.mul_le_mul_right W (show y + 1 ≤ rows by omega)
    rw [Nat.succ_mul] at hmul
    have hsrc := ZeroBuf_src be rows W dstOff _ _ i1 (y * W + (n + 1)) (by omega)
    obtain ⟨p1, p2, p3, p4⟩ := gradientPixel_zero be W dstOff y (n + 1) _ hsrc i3
      (fun k hk => by rw [i2]; exact hthat k (by omega)) (by omega)
    show ZeroBuf rows W dstOff (y * W + 1 + (n + 1))
        (gradientPixel be W dstOff y (n + 1)
          (forLoop n (fun i g => gradientPixel be W dstOff y (i + 1) g) g2)).buffer ∧
      (gradientPixel be W dstOff y (n + 1)
          (forLoop n (fun i g => gradientPixel be W dstOff y (i + 1) g) g2)).that_row
        = g2.that_row ∧
      ((gradientPixel be W dstOff y (n + 1)
          (forLoop n (fun i g => gradientPixel be W dstOff y (i + 1) g) g2)).pix 0 = 0 ∧
        (gradientPixel be W dstOff y (n + 1)
          (forLoop n (fun i g => gradientPixel be W dstOff y (i + 1) g) g2)).pix 1 = 0 ∧
        (gradientPixel be W dstOff y (n + 1)
          (forLoop n (fun i g => gradientPixel be W dstOff y (i + 1) g) g2)).pix 2 = 0) ∧
      (∀ k, k < (n + 1 + 1) * 3 →
        (gradientPixel be W dstOff y (n + 1)
          (forLoop n (fun i g => gradientPixel be W dstOff y (i + 1) g) g2)).this_row k = 0)
    refine ⟨?_, p2.trans i2, p3, fun k hk => ?_⟩
    · rw [p1]
      have e : y * W + (n + 1) = y * W + 1 + n := by omega
      rw [e]
      exact ZeroBuf_step be rows W dstOff _ _ i1
    · rw [p4 k]
      split
      · rfl
      · exact i4 k (by omega)

theorem gradientRow_zero (be : Bool) (rows W dstOff y : Nat) (hy : y < rows) (hW : 1 ≤ W)
    (g : GradientState) (hthat : ∀ k, k < W * 3 → g.that_row k = 0)
    (hb : ZeroBuf rows W dstOff (y * W) g.buffer) :
    ZeroBuf rows W dstOff ((y + 1) * W) (gradientRow be W dstOff y g).buffer ∧
      (∀ k, k < W * 3 → (gradientRow be W dstOff y g).that_row k = 0) := by
  have hmul := Nat.mul_le_mul_right W (show y + 1 ≤ rows by omega)
  rw [Nat.succ_mul] at hmul
  have hsrc := ZeroBuf_src be rows W dstOff _ _ hb (y * W) (by omega)
  have e0 := gradientFirst_zero be W y 0 g hsrc (hthat 0 (by omega))
  have e1 := gradientFirst_zero be W y 1
    { g with pix := g.pix.write 0 0, this_row := g.this_row.write 0 0 } hsrc (hthat 1 (by omega))
  have e2 := gradientFirst_zero be W y 2
    { g with pix := (g.pix.write 0 0).write 1 0,
             this_row := (g.this_row.write 0 0).write 1 0 } hsrc (hthat 2 (by omega))
  obtain ⟨q1, q2, _, q4⟩ := gradientPixels_zero be rows W dstOff y hy
    { g with
      pix := ((g.pix.write 0 0).write 1 0).write 2 0
      this_row := ((g.this_row.write 0 0).write 1 0).write 2 0
      buffer := store32 be g.buffer (dstOff + 4 * (y * W)) 0 }
    hthat (ZeroBuf_step be rows W dstOff _ _ hb)
    ⟨by simp [Mem.write], by simp [Mem.write], by simp [Mem.write]⟩
    (fun k hk => by
      simp only [Mem.write]
      have : k = 0 ∨ k = 1 ∨ k = 2 := by omega
      rcases this with h | h | h <;> simp [h])
    (W - 1) (by omega)
  have e : gradientRow be W dstOff y g =
      { forLoop (W - 1) (fun i g => gradientPixel be W dstOff y (i + 1) g)
          { g with
            pix := ((g.pix.write 0 0).write 1 0).write 2 0
            this_row := ((g.this_row.write 0 0).write 1 0).write 2 0
            buffer := store32 be g.buffer (dstOff + 4 * (y * W)) 0 } with
        that_row := fun k =>
          if k < W * 3 then
            (forLoop (W - 1) (fun i g => gradientPixel be W dstOff y (i + 1) g)
              { g with
                pix := ((g.pix.write 0 0).write 1 0).write 2 0
                this_row := ((g.this_row.write 0 0).write 1 0).write 2 0
                buffer := store32 be g.buffer (dstOff + 4 * (y * W)) 0 }).this_row k
          else
            (forLoop (W - 1) (fun i g => gradientPixel be W dstOff y (i + 1) g)
              { g with
                pix := ((g.pix.write 0 0).write 1 0).write 2 0
                this_row := ((g.this_row.write 0 0).write 1 0).write 2 0
                buffer := store32 be g.buffer (dstOff + 4 * (y * W)) 0 }).that_row k } := by
    unfold gradientRow
    simp only [forLoop]
    rw [e0, e1, e2]
    simp [Mem.write, RGB_TO_PIXEL_zero]
  rw [e]
  refine ⟨?_, fun k hk => ?_⟩
  · have e3 : y * W + 1 + (W - 1) = (y + 1) * W := by
      rw [Nat.succ_mul]
      omega
    rw [e3] at q1
    exact q1
  · simp only [hk, if_true]
    exact q4 k (by omega)

theorem gradientRows_zero (be : Bool) (rows W dstOff : Nat) (hW : 1 ≤ W)
    (g : GradientState) (hthat : ∀ k, k < W * 3 → g.that_row k = 0)
    (hb : ZeroBuf rows W dstOff 0 g.buffer) :
    ∀ m, m ≤ rows →
      ZeroBuf rows W dstOff (m * W)
          (forLoop m (fun y g => gradientRow be W dstOff y g) g).buffer ∧
        (∀ k, k < W * 3 →
          (forLoop m (fun y g => gradientRow be W dstOff y g) g).that_row k = 0) := by
  intro m
  induction m with
  | zero =>
    intro _
    rw [Nat.zero_mul]
    exact ⟨hb, hthat⟩
  | succ m ih =>
    intro hm
    obtain ⟨i1, i2⟩ := ih (by omega)
    exact gradientRow_zero be rows W dstOff m (by omega) hW _ i2 i1

/-- C10: gradient neutrality. For every rect width `w` in `1..2048` and every
number of rows `≥ 1`, after `initFilterGradient` (which zeroes the previous
row), `filterGradient` applied to an all-zero delta buffer produces all-zero
output pixels, and afterwards the previous-row buffer holds the per-channel
values of the last decoded scan line, all zero. -/
theorem C10_gradient_neutrality (B : Build) (uninit : Mem) (c : Conn) (w rows dstOff : Nat)
    (hw1 : 1 ≤ w) (_hw : w ≤ 2048) (hrows : 1 ≤ rows)
    (hzero : ∀ k, k < 4 * (rows * w) → c.buffer k = 0) :
    (initFilterGradient c w).1 = 32 ∧
      (∀ k, k < w * 3 → (initFilterGradient c w).2.tightPrevRow k = 0) ∧
      (∀ idx, idx < rows * w →
        bufferWords B.WORDS_BIGENDIAN
          (filterGradient B uninit (initFilterGradient c w).2 rows dstOff).buffer dstOff idx = 0) ∧
      (∀ x ch, x < w → ch < 3 →
        (filterGradient B uninit (initFilterGradient c w).2 rows dstOff).tightPrevRow (x * 3 + ch) =
          (bufferWords B.WORDS_BIGENDIAN
            (filterGradient B uninit (initFilterGradient c w).2 rows dstOff).buffer dstOff
            ((rows - 1) * w + x) >>> localShift ch) &&& localMax ch) ∧
      (∀ k, k < w * 3 →
        (filterGradient B uninit (initFilterGradient c w).2 rows dstOff).tightPrevRow k = 0) := by
  have hinit : ∀ k, k < w * 3 → (initFilterGradient c w).2.tightPrevRow k = 0 := by
    intro k hk
    simp [initFilterGradient, initFilterCopy, hk]
  have hbuf : (initFilterGradient c w).2.buffer = c.buffer := rfl
  have hwd : (initFilterGradient c w).2.rectWidth = w := rfl
  obtain ⟨r1, r2⟩ := gradientRows_zero B.WORDS_BIGENDIAN rows w dstOff hw1
    { buffer := (initFilterGradient c w).2.buffer,
      that_row := (initFilterGradient c w).2.tightPrevRow, this_row := uninit, pix := uninit }
    hinit ⟨fun k hk => by rw [hbuf]; exact hzero k hk, fun k h1 h2 => by omega⟩ rows
    (Nat.le_refl rows)
  have hout : ∀ idx, idx < rows * w →
      bufferWords B.WORDS_BIGENDIAN
        (filterGradient B uninit (initFilterGradient c w).2 rows dstOff).buffer dstOff idx = 0 := by
    intro idx hidx
    unfold bufferWords
    exact load32_zero _ _ _ ⟨r1.2 _ (by omega) (by omega), r1.2 _ (by omega) (by omega),
      r1.2 _ (by omega) (by omega), r1.2 _ (by omega) (by omega)⟩
  refine ⟨rfl, hinit, hout, fun x ch hx hch => ?_, fun k hk => r2 k hk⟩
  have hlast : (rows - 1) * w + x < rows * w := by
    have := Nat.mul_le_mul_right w (show rows - 1 + 1 ≤ rows by omega)
    rw [Nat.succ_mul] at this
    omega
  rw [hout _ hlast, Nat.zero_shiftRight, Nat.zero_and]
  exact r2 _ (by omega)

/-- C10, witness: a `3 × 2` rect with zero deltas, a previous-row buffer full of
the value 77 before `initFilterGradient`, output at byte 24 of the scratch
buffer, where the bytes were all 255. -/
theorem C10_gradient_neutrality_witness :
    (initFilterGradient sampleGradientConn 3).1 = 32 ∧
      (∀ k, k < 3 * 3 → (initFilterGradient sampleGradientConn 3).2.tightPrevRow k = 0) ∧
      (∀ idx, idx < 2 * 3 →
        bufferWords false
          (filterGradient Build.sample (fun _ => 9)
            (initFilterGradient sampleGradientConn 3).2 2 24).buffer 24 idx = 0) ∧
      (∀ x ch, x < 3 → ch < 3 →
        (filterGradient Build.sample (fun _ => 9)
            (initFilterGradient sampleGradientConn 3).2 2 24).tightPrevRow (x * 3 + ch) =
          (bufferWords false
            (filterGradient Build.sample (fun _ => 9)
              (initFilterGradient sampleGradientConn 3).2 2 24).buffer 24
            ((2 - 1) * 3 + x) >>> localShift ch) &&& localMax ch) ∧
      (∀ k, k < 3 * 3 →
        (filterGradient Build.sample (fun _ => 9)
          (initFilterGradient sampleGradientConn 3).2 2 24).tightPrevRow k = 0) :=
  C10_gradient_neutrality Build.sample (fun _ => 9) sampleGradientConn 3 2 24
    (by decide) (by decide) (by decide)
    (fun k hk => by
      show (if k < 24 then 0 else 255) = 0
      simp only [show k < 24 by omega, if_true])

/-! ## The dispatcher: what a failing rect does -/

theorem wire16_bytes (n : Nat) (hn : n < 65536) : wire16 (n / 256 % 256) (n % 256) = n := by
  unfold wire16
  omega

theorem rectLoop_prefix (B : Build) (E : Ext) (fuel : Nat) :
    ∀ (k n : Nat) (c : Conn) (rgn : QRegion) (ck : Conn) (rgnk : QRegion),
      rectPrefix B E fuel k c rgn = some (ck, rgnk) →
      rectLoop B E fuel (k + n) c rgn = rectLoop B E fuel n ck rgnk := by
  intro k
  induction k with
  | zero =>
    intro n c rgn ck rgnk h
    simp only [rectPrefix, Option.some.injEq, Prod.mk.injEq] at h
    rw [Nat.zero_add, h.1, h.2]
  | succ k ih =>
    intro n c rgn ck rgnk h
    have e : k + 1 + n = (k + n) + 1 := by omega
    rw [e, rectLoop]
    rw [rectPrefix] at h
    split at h
    · rename_i c1 rgn1 heq
      rw [heq]
      exact ih n c1 rgn1 ck rgnk h
    · exact absurd h (by simp)

theorem rectLoop_failed (B : Build) (E : Ext) (fuel : Nat) (k n : Nat) (c : Conn)
    (rgn : QRegion) (ck : Conn) (rgnk : QRegion) (cf : Conn)
    (hpre : rectPrefix B E fuel k c rgn = some (ck, rgnk)) (hk : k < n)
    (hfail : handleRect B E fuel ck rgnk = some (.failed cf)) :
    rectLoop B E fuel n c rgn = some (false, cf, rgnk) := by
  obtain ⟨m, hm⟩ : ∃ m, n = k + (m + 1) := ⟨n - k - 1, by omega⟩
  rw [hm, rectLoop_prefix B E fuel k (m + 1) c rgn ck rgnk hpre, rectLoop, hfail]

theorem handleServerMessages_failed (B : Build) (E : Ext) (fuel : Nat) (c : Conn)
    (send_screen_update : Bool) (tries : Int) (pad nRects k : Nat) (body : List Nat)
    (ck : Conn) (rgnk : QRegion) (cf : Conn)
    (htries : 1 ≤ tries) (hn : nRects < 65536) (hk : k < nRects)
    (hin : c.inbound =
      rfbFramebufferUpdate :: pad :: (nRects / 256 % 256) :: (nRects % 256) :: body)
    (hpre : rectPrefix B E fuel k
      { c with inbound := body, trace := c.trace ++ [.imageLockForWrite] } QRegion.empty
        = some (ck, rgnk))
    (hfail : handleRect B E fuel ck rgnk = some (.failed cf)) :
    handleServerMessages B E fuel c send_screen_update tries =
      some (false, cf.act .imageUnlock) := by
  obtain ⟨t, ht⟩ : ∃ t : Nat, tries.toNat = t + 1 := ⟨tries.toNat - 1, by omega⟩
  have hread1 := readFromServer_append c [rfbFramebufferUpdate]
    (pad :: (nRects / 256 % 256) :: (nRects % 256) :: body) 1 (by simpa using hin) rfl
  have hread2 := readFromServer_append
    ({ c with inbound := pad :: (nRects / 256 % 256) :: (nRects % 256) :: body }.act
      .imageLockForWrite)
    [pad, nRects / 256 % 256, nRects % 256] body 3 rfl rfl
  have hloop := rectLoop_failed B E fuel k nRects _ QRegion.empty ck rgnk cf hpre hk hfail
  have hfu : handleFramebufferUpdate B E fuel
      { c with inbound := pad :: (nRects / 256 % 256) :: (nRects % 256) :: body } =
        some (false, cf.act .imageUnlock) := by
    unfold handleFramebufferUpdate
    simp only []
    rw [hread2]
    simp only [List.getD_cons_succ, List.getD_cons_zero, wire16_bytes nRects hn]
    have hl : rectLoop B E fuel nRects
        { c with inbound := body, trace := c.trace ++ [.imageLockForWrite] } QRegion.empty =
          some (false, cf, rgnk) := hloop
    simp only [Conn.act]
    rw [hl]
  have hmsg : handleServerMessage B E fuel c = some (false, cf.act .imageUnlock) := by
    unfold handleServerMessage
    rw [hread1]
    simp only [List.getD_cons_zero]
    rw [← hfu]
    simp [rfbFramebufferUpdate, rfbSetColourMapEntries]
  unfold handleServerMessages
  rw [ht, serverMessagesLoop]
  have hne : c.inbound ≠ [] := by rw [hin]; simp
  simp only [hne, if_false, hmsg]

theorem handleRect_header (B : Build) (E : Ext) (fuel : Nat) (c : Conn) (rgn : QRegion)
    (x y w h enc : Nat) (rest : List Nat)
    (hx : x < 65536) (hy : y < 65536) (hw : w < 65536) (hh : h < 65536)
    (henc : enc < 4294967296) (hin : c.inbound = rectHeader x y w h enc ++ rest) :
    handleRect B E fuel c rgn =
      if enc = rfbEncodingLastRect then some (.last { c with inbound := rest } rgn)
      else if x + w > c.framebufferWidth ∨ y + h > c.framebufferHeight then
        some (.failed (({ c with inbound := rest } : Conn).act (.qWarning .rectTooLarge)))
      else if enc ≠ rfbEncodingPointerPos ∧ enc ≠ rfbEncodingXCursor ∧
          enc ≠ rfbEncodingRichCursor then
        if h * w = 0 then
          some (.next (({ c with inbound := rest } : Conn).act (.qWarning .zeroSizeRect)) rgn)
        else dispatchRect B E fuel { c with inbound := rest } (rgn.add ⟨x, y, w, h⟩) x y w h enc
      else
        dispatchRect B E fuel { c with inbound := rest, softwareCursor := true } rgn x y w h
          enc := by
  unfold handleRect
  rw [readFromServer_append c (rectHeader x y w h enc) rest 12 hin rfl]
  simp only [rectHeader, List.getD_cons_succ, List.getD_cons_zero, wire16_bytes x hx,
    wire16_bytes y hy, wire16_bytes w hw, wire16_bytes h hh, wire32_bytes enc henc]

theorem handleRect_out_of_bounds (B : Build) (E : Ext) (fuel : Nat) (c : Conn) (rgn : QRegion)
    (x y w h enc : Nat) (rest : List Nat)
    (hx : x < 65536) (hy : y < 65536) (hw : w < 65536) (hh : h < 65536)
    (henc : enc < 4294967296) (hin : c.inbound = rectHeader x y w h enc ++ rest)
    (hlast : enc ≠ rfbEncodingLastRect)
    (hb : x + w > c.framebufferWidth ∨ y + h > c.framebufferHeight) :
    handleRect B E fuel c rgn =
      some (.failed (({ c with inbound := rest } : Conn).act (.qWarning .rectTooLarge))) := by
  rw [handleRect_header B E fuel c rgn x y w h enc rest hx hy hw hh henc hin]
  simp only [hlast, if_false, hb, if_true]

theorem handleRect_unknown (B : Build) (E : Ext) (fuel : Nat) (c : Conn) (rgn : QRegion)
    (x y w h enc : Nat) (rest : List Nat)
    (hx : x < 65536) (hy : y < 65536) (hw : w < 65536) (hh : h < 65536)
    (henc : enc < 4294967296) (hin : c.inbound = rectHeader x y w h enc ++ rest)
    (hb : x + w ≤ c.framebufferWidth ∧ y + h ≤ c.framebufferHeight) (hwh : h * w ≠ 0)
    (hunk : enc ≠ rfbEncodingLastRect ∧ enc ≠ rfbEncodingRaw ∧ enc ≠ rfbEncodingCopyRect ∧
      enc ≠ rfbEncodingRRE ∧ enc ≠ rfbEncodingCoRRE ∧ enc ≠ rfbEncodingZlib ∧
      enc ≠ rfbEncodingTight ∧ enc ≠ rfbEncodingPointerPos ∧ enc ≠ rfbEncodingRichCursor ∧
      enc ≠ rfbEncodingXCursor ∧ enc ≠ rfbEncodingItalc ∧ enc ≠ rfbEncodingItalcCursor) :
    handleRect B E fuel c rgn =
      some (.failed
        ((({ c with inbound := rest } : Conn).act (.qCritical .unknownRectEncoding)).close)) := by
  rw [handleRect_header B E fuel c rgn x y w h enc rest hx hy hw hh henc hin]
  obtain ⟨h0, h1, h2, h3, h4, h5, h6, h7, h8, h9, h10, h11⟩ := hunk
  have hnb : ¬ (x + w > c.framebufferWidth ∨ y + h > c.framebufferHeight) := by omega
  simp only [h0, if_false, hnb, h7, h8, h9, ne_eq, not_false_eq_true, and_self, if_true, hwh]
  unfold dispatchRect
  simp only [h1, h2, h3, h4, h5, h6, h7, h8, h9, h10, h11, if_false, and_false, or_self]

/-- C2: bounds rejection. In every framebuffer update, when the rect loop reaches
a rect that is not `LastRect` and has `x + w > fbW` or `y + h > fbH`,
`handleServerMessages` returns `FALSE`, and the connection it leaves is the one
at the start of that rect with only the 12 header bytes taken from the
transport and the warning and the unlock added to the trace: no payload byte of
the rect is read, no decoder runs for it or for a later rect, and the screen is
the one the earlier rects left. -/
theorem C2_bounds_rejection (B : Build) (E : Ext) (fuel : Nat) (c : Conn)
    (send_screen_update : Bool) (tries : Int) (pad nRects k : Nat) (body : List Nat)
    (ck : Conn) (rgnk : QRegion) (x y w h enc : Nat) (rest : List Nat)
    (htries : 1 ≤ tries) (hn : nRects < 65536) (hk : k < nRects)
    (hin : c.inbound =
      rfbFramebufferUpdate :: pad :: (nRects / 256 % 256) :: (nRects % 256) :: body)
    (hpre : rectPrefix B E fuel k
      { c with inbound := body, trace := c.trace ++ [.imageLockForWrite] } QRegion.empty
        = some (ck, rgnk))
    (hx : x < 65536) (hy : y < 65536) (hw : w < 65536) (hh : h < 65536)
    (henc : enc < 4294967296) (hhdr : ck.inbound = rectHeader x y w h enc ++ rest)
    (hlast : enc ≠ rfbEncodingLastRect)
    (hb : x + w > ck.framebufferWidth ∨ y + h > ck.framebufferHeight) :
    ∃ c', handleServerMessages B E fuel c send_screen_update tries = some (false, c') ∧
      c' = { ck with inbound := rest,
                     trace := ck.trace ++ [.qWarning .rectTooLarge, .imageUnlock] } ∧
      c'.inbound = rest ∧ c'.screen = ck.screen := by
  refine ⟨_, handleServerMessages_failed B E fuel c send_screen_update tries pad nRects k body
    ck rgnk _ htries hn hk hin hpre
    (handleRect_out_of_bounds B E fuel ck rgnk x y w h enc rest hx hy hw hh henc hhdr hlast hb),
    ?_, rfl, rfl⟩
  simp [Conn.act]

/-- C2, witness: on a `3 × 1` framebuffer, an update whose first rect is a `1 × 1`
RRE rect and whose second rect is the Raw rect `(0, 0, 4, 1)`: the dispatcher
returns `FALSE`, the four payload bytes of the second rect stay on the
transport and the screen is untouched. -/
theorem C2_bounds_rejection_witness :
    ∃ c', handleServerMessages Build.sample Ext.sample 0 sampleBoundsConn false 5
        = some (false, c') ∧
      c' = { sampleBoundsConn1 with
              inbound := [1, 2, 3, 4],
              trace := sampleBoundsConn1.trace ++ [.qWarning .rectTooLarge, .imageUnlock] } ∧
      c'.inbound = [1, 2, 3, 4] ∧ c'.screen = sampleBoundsConn1.screen :=
  C2_bounds_rejection Build.sample Ext.sample 0 sampleBoundsConn false 5 0 2 1
    (rectHeader 0 0 1 1 rfbEncodingRRE ++ (rectHeader 0 0 4 1 rfbEncodingRaw ++ [1, 2, 3, 4]))
    sampleBoundsConn1 (QRegion.empty.add ⟨0, 0, 1, 1⟩) 0 0 4 1 rfbEncodingRaw [1, 2, 3, 4]
    (by decide) (by decide) (by decide) rfl rfl
    (by decide) (by decide) (by decide) (by decide) (by decide) rfl (by decide) (by decide)

/-- C3, counterexample: the bounds-violation scenario (one rect with
`r.w = fbW + 1`). `handleServerMessages` returns `FALSE`, but the connection
state is still `Connected`, not `ConnectionFailed`, and the dispatcher has not
closed the transport. -/
theorem C3_failure_transition_counterexample :
    ∃ c', handleServerMessages Build.sample Ext.sample 0 sampleTooWideConn false 1
        = some (false, c') ∧
      c'.state = .Connected ∧ c'.state ≠ .ConnectionFailed ∧
      Action.isdClose ∉ c'.trace := by
  refine ⟨_, handleServerMessages_failed Build.sample Ext.sample 0 sampleTooWideConn false 1 0 1 0
    (rectHeader 0 0 4 1 rfbEncodingRaw ++ [1, 2, 3, 4]) _ QRegion.empty _
    (by decide) (by decide) (by decide) rfl rfl
    (handleRect_out_of_bounds Build.sample Ext.sample 0 _ QRegion.empty 0 0 4 1 rfbEncodingRaw
      [1, 2, 3, 4] (by decide) (by decide) (by decide) (by decide) (by decide) rfl (by decide)
      (by decide)), rfl, by decide, ?_⟩
  simp [Conn.act, sampleTooWideConn, Conn.connected, Conn.new]

/-! ## No decoder sends the notification of a finished update -/

@[refl]
theorem TraceExt.refl (c : Conn) : TraceExt c c :=
  ⟨[], by simp, fun a ha => absurd ha (List.not_mem_nil a)⟩

theorem TraceExt.trans {a b c : Conn} (h1 : TraceExt a b) (h2 : TraceExt b c) : TraceExt a c := by
  obtain ⟨n1, e1, p1⟩ := h1
  obtain ⟨n2, e2, p2⟩ := h2
  refine ⟨n2 ++ n1, by rw [e1, e2, List.append_assoc], fun x hx => ?_⟩
  rcases List.mem_append.mp hx with h | h
  · exact p2 x h
  · exact p1 x h

theorem TraceExt.act (c : Conn) (a : Action) (h : a.isUpdate = false) : TraceExt (c.act a) c :=
  ⟨[a], rfl, fun x hx => by rw [List.mem_singleton.mp hx]; exact h⟩

theorem TraceExt.of_trace (c c' : Conn) (h : c'.trace = c.trace) : TraceExt c' c :=
  ⟨[], by simp [h], fun a ha => absurd ha (List.not_mem_nil a)⟩

theorem readFromServer_some (c : Conn) (n : Nat) (bs : List Nat) (c1 : Conn)
    (h : readFromServer c n = some (bs, c1)) :
    c1 = { c with inbound := c.inbound.drop n } := by
  unfold readFromServer at h
  split at h
  · simp only [Option.some.injEq, Prod.mk.injEq] at h
    exact h.2.symm
  · exact absurd h (by simp)

theorem readFromServer_trace (c : Conn) (n : Nat) (bs : List Nat) (c1 : Conn)
    (h : readFromServer c n = some (bs, c1)) : c1.trace = c.trace := by
  rw [readFromServer_some c n bs c1 h]

theorem tightResetStep_traceExt (E : Ext) (i : Nat) (st : Conn × Nat) :
    TraceExt (tightResetStep E i st).1 st.1 := by
  unfold tightResetStep
  simp only []
  split_ifs
  · exact TraceExt.act _ _ rfl
  · exact TraceExt.of_trace _ _ rfl
  · exact TraceExt.refl _

theorem tightResetStreams_traceExt (E : Ext) (c : Conn) (cc : Nat) :
    TraceExt (tightResetStreams E c cc).1 c := by
  unfold tightResetStreams forLoop forLoop forLoop forLoop forLoop
  exact (tightResetStep_traceExt E 3 _).trans ((tightResetStep_traceExt E 2 _).trans
    ((tightResetStep_traceExt E 1 _).trans (tightResetStep_traceExt E 0 _)))

theorem initFilterPalette_trace (c : Conn) (rw : Nat) :
    (initFilterPalette c rw).2.trace = c.trace := by
  unfold initFilterPalette
  dsimp only
  split
  · rfl
  · rename_i nb c1 h1
    have t1 := readFromServer_trace _ _ _ _ h1
    split
    · exact t1
    · split
      · exact t1
      · rename_i pb c3 h3
        have t3 := readFromServer_trace _ _ _ _ h3
        exact t3.trans t1

theorem applyFilter_trace (B : Build) (E : Ext) (f : TightFilter) (c : Conn)
    (num_rows dstOff : Nat) : (applyFilter B E f c num_rows dstOff).trace = c.trace := by
  cases f
  · rfl
  · unfold applyFilter filterPalette
    dsimp only
    split <;> rfl
  · rfl

theorem readCompactLen_trace (c : Conn) : (readCompactLen c).2.trace = c.trace := by
  unfold readCompactLen
  split
  · rfl
  · rename_i b0 c1 h1
    have t1 := readFromServer_trace _ _ _ _ h1
    dsimp only
    split
    · exact t1
    · split
      · exact t1
      · rename_i b1 c2 h2
        have t2 := readFromServer_trace _ _ _ _ h2
        split
        · exact t2.trans t1
        · split
          · exact t2.trans t1
          · rename_i b2 c3 h3
            exact (readFromServer_trace _ _ _ _ h3).trans (t2.trans t1)

theorem jpegScanlines_trace (B : Build) (img : JpegImage) (c : Conn) (x y w : Nat) :
    (jpegScanlines B img c x y w).trace = c.trace := by
  unfold jpegScanlines
  induction img.output_height with
  | zero => rfl
  | succ n ih => exact ih

theorem decompressJpegRect_traceExt (B : Build) (E : Ext) (c : Conn) (x y w h : Nat) :
    TraceExt (decompressJpegRect B E c x y w h).2 c := by
  have t0 := readCompactLen_trace c
  unfold decompressJpegRect
  dsimp only
  split
  · exact (TraceExt.act _ _ (by rfl)).trans (TraceExt.of_trace _ _ t0)
  · split
    · exact TraceExt.of_trace _ _ t0
    · rename_i data c2 h2
      have t2 := readFromServer_trace _ _ _ _ h2
      split
      · exact (TraceExt.act _ _ (by rfl)).trans (TraceExt.of_trace _ _ (t2.trans t0))
      · exact TraceExt.of_trace _ _ ((jpegScanlines_trace _ _ _ _ _ _).trans (t2.trans t0))

theorem ite_trace (p : Prop) [Decidable p] (a b : Conn) (t : List Action)
    (ha : a.trace = t) (hb : b.trace = t) : (if p then a else b).trace = t := by
  split <;> assumption

theorem tightInflateLoop_traceExt (B : Build) (E : Ext) (f : TightFilter)
    (rx ry rw stream_id row_size buffer_size : Nat) :
    ∀ (fuel : Nat) (st : TightLoop) (input : List Nat) (b : Bool) (st' : TightLoop),
      tightInflateLoop B E f rx ry rw stream_id row_size buffer_size fuel st input
        = some (b, st') →
      TraceExt st'.c st.c := by
  intro fuel
  induction fuel with
  | zero =>
    intro st input b st' h
    rw [tightInflateLoop] at h
    exact absurd h (by simp)
  | succ fuel ih =>
    intro st input b st' h
    rw [tightInflateLoop] at h
    dsimp only at h
    split at h
    · simp only [Option.some.injEq, Prod.mk.injEq] at h
      rw [← h.2]
      exact TraceExt.of_trace _ _ rfl
    · split at h
      · simp only [Option.some.injEq, Prod.mk.injEq] at h
        rw [← h.2]
        exact TraceExt.act _ _ rfl
      · split at h
        · refine (ih _ _ _ _ h).trans ?_
          apply TraceExt.of_trace
          dsimp only
          apply ite_trace
          · apply ite_trace
            · exact applyFilter_trace _ _ _ _ _ _
            · exact applyFilter_trace _ _ _ _ _ _
          · apply ite_trace
            · exact applyFilter_trace _ _ _ _ _ _
            · exact applyFilter_trace _ _ _ _ _ _
        · simp only [Option.some.injEq, Prod.mk.injEq] at h
          rw [← h.2]
          apply TraceExt.of_trace
          dsimp only
          apply ite_trace
          · apply ite_trace
            · exact applyFilter_trace _ _ _ _ _ _
            · exact applyFilter_trace _ _ _ _ _ _
          · apply ite_trace
            · exact applyFilter_trace _ _ _ _ _ _
            · exact applyFilter_trace _ _ _ _ _ _

theorem tightReadLoop_traceExt (B : Build) (E : Ext) (f : TightFilter)
    (rx ry rw stream_id row_size buffer_size : Nat) :
    ∀ (fuel : Nat) (st : TightLoop) (b : Bool) (st' : TightLoop),
      tightReadLoop B E f rx ry rw stream_id row_size buffer_size fuel st = some (b, st') →
      TraceExt st'.c st.c := by
  intro fuel
  induction fuel with
  | zero =>
    intro st b st' h
    rw [tightReadLoop] at h
    split at h
    · simp only [Option.some.injEq, Prod.mk.injEq] at h
      rw [← h.2]
    · exact absurd h (by simp)
  | succ fuel ih =>
    intro st b st' h
    rw [tightReadLoop] at h
    split at h
    · simp only [Option.some.injEq, Prod.mk.injEq] at h
      rw [← h.2]
    · dsimp only at h
      split at h
      · simp only [Option.some.injEq, Prod.mk.injEq] at h
        rw [← h.2]
      · rename_i bs c1 h1
        have t1 := readFromServer_trace _ _ _ _ h1
        split at h
        · exact absurd h (by simp)
        · rename_i st2 h2
          simp only [Option.some.injEq, Prod.mk.injEq] at h
          rw [← h.2]
          exact (tightInflateLoop_traceExt _ _ _ _ _ _ _ _ _ _ _ _ _ _ h2).trans
            (TraceExt.of_trace _ _ t1)
        · rename_i st2 h2
          exact (ih _ _ _ h).trans
            ((tightInflateLoop_traceExt _ _ _ _ _ _ _ _ _ _ _ _ _ _ h2).trans
              (TraceExt.of_trace _ _ t1))

theorem tightData_traceExt (B : Build) (E : Ext) (fuel : Nat) (rx ry rw rh comp_ctl : Nat)
    (f : TightFilter) (bits_pixel : Nat) (c4 : Conn) (b : Bool) (c' : Conn)
    (h : tightData B E fuel rx ry rw rh comp_ctl f bits_pixel c4 = some (b, c')) :
    TraceExt c' c4 := by
  unfold tightData at h
  split at h
  · simp only [Option.some.injEq, Prod.mk.injEq] at h
    rw [← h.2]
    exact TraceExt.act _ _ rfl
  · dsimp only at h
    split at h
    · split at h
      · simp only [Option.some.injEq, Prod.mk.injEq] at h
        rw [← h.2]
      · rename_i bs c5 h5
        have t5 := readFromServer_trace _ _ _ _ h5
        simp only [Option.some.injEq, Prod.mk.injEq] at h
        rw [← h.2]
        apply TraceExt.of_trace
        exact (applyFilter_trace _ _ _ _ _ _).trans t5
    · have t5 := readCompactLen_trace c4
      split at h
      · simp only [Option.some.injEq, Prod.mk.injEq] at h
        rw [← h.2]
        exact (TraceExt.act _ _ (by rfl)).trans (TraceExt.of_trace _ _ t5)
      · split at h
        · simp only [Option.some.injEq, Prod.mk.injEq] at h
          rw [← h.2]
          split
          · exact (TraceExt.act _ _ (by rfl)).trans (TraceExt.of_trace _ _ t5)
          · exact TraceExt.of_trace _ _ t5
        · rename_i c6 h6
          have t6 : c6.trace = (readCompactLen c4).2.trace := by
            split at h6
            · simp only [Option.some.injEq] at h6
              rw [← h6]
            · split at h6
              · exact absurd h6 (by simp)
              · simp only [Option.some.injEq] at h6
                rw [← h6]
          split at h
          · simp only [Option.some.injEq, Prod.mk.injEq] at h
            rw [← h.2]
            exact (TraceExt.act _ _ (by rfl)).trans
              (TraceExt.of_trace _ _ (t6.trans t5))
          · split at h
            · exact absurd h (by simp)
            · rename_i st hst
              have := tightReadLoop_traceExt _ _ _ _ _ _ _ _ _ _ _ _ _ hst
              simp only [Option.some.injEq, Prod.mk.injEq] at h
              rw [← h.2]
              exact this.trans (TraceExt.of_trace _ _ (t6.trans t5))
            · rename_i st hst
              have := tightReadLoop_traceExt _ _ _ _ _ _ _ _ _ _ _ _ _ hst
              split at h
              · simp only [Option.some.injEq, Prod.mk.injEq] at h
                rw [← h.2]
                exact (TraceExt.act _ _ (by rfl)).trans
                  (this.trans (TraceExt.of_trace _ _ (t6.trans t5)))
              · simp only [Option.some.injEq, Prod.mk.injEq] at h
                rw [← h.2]
                exact this.trans (TraceExt.of_trace _ _ (t6.trans t5))

theorem initFilterCopy_trace (c : Conn) (rw : Nat) : (initFilterCopy c rw).2.trace = c.trace :=
  rfl

theorem initFilterGradient_trace (c : Conn) (rw : Nat) :
    (initFilterGradient c rw).2.trace = c.trace := rfl

theorem handleTight_traceExt (B : Build) (E : Ext) (fuel : Nat) (c : Conn)
    (rx ry rw rh : Nat) (b : Bool) (c' : Conn)
    (h : handleTight B E fuel c rx ry rw rh = some (b, c')) :
    TraceExt c' c := by
  unfold handleTight at h
  split at h
  · simp only [Option.some.injEq, Prod.mk.injEq] at h
    rw [← h.2]
  · rename_i cb c1 h1
    have t1 := readFromServer_trace _ _ _ _ h1
    have u2 := (tightResetStreams_traceExt E c1 (cb.getD 0 0 % 256)).trans
      (TraceExt.of_trace _ _ t1)
    dsimp only at h
    split at h
    · split at h
      · simp only [Option.some.injEq, Prod.mk.injEq] at h
        rw [← h.2]
        exact u2
      · rename_i pb c3 h3
        have t3 := readFromServer_trace _ _ _ _ h3
        simp only [Option.some.injEq, Prod.mk.injEq] at h
        rw [← h.2]
        exact (TraceExt.of_trace _ _ t3).trans u2
    · split at h
      · split at h
        · simp only [Option.some.injEq] at h
          have hj := decompressJpegRect_traceExt B E
            (tightResetStreams E c1 (cb.getD 0 0 % 256)).1 rx ry rw rh
          rw [h] at hj
          exact hj.trans u2
        · simp only [Option.some.injEq, Prod.mk.injEq] at h
          rw [← h.2]
          exact u2
      · split at h
        · simp only [Option.some.injEq, Prod.mk.injEq] at h
          rw [← h.2]
          exact (TraceExt.act _ _ (by rfl)).trans u2
        · split at h
          · split at h
            · simp only [Option.some.injEq, Prod.mk.injEq] at h
              rw [← h.2]
              exact u2
            · rename_i fb c3 h3
              have t3 := readFromServer_trace _ _ _ _ h3
              have u3 := (TraceExt.of_trace _ _ t3).trans u2
              split at h
              · exact (tightData_traceExt _ _ _ _ _ _ _ _ _ _ _ _ _ h).trans
                  ((TraceExt.of_trace _ _ (initFilterCopy_trace _ _)).trans u3)
              · split at h
                · exact (tightData_traceExt _ _ _ _ _ _ _ _ _ _ _ _ _ h).trans
                    ((TraceExt.of_trace _ _ (initFilterPalette_trace _ _)).trans u3)
                · split at h
                  · exact (tightData_traceExt _ _ _ _ _ _ _ _ _ _ _ _ _ h).trans
                      ((TraceExt.of_trace _ _ (initFilterGradient_trace _ _)).trans u3)
                  · simp only [Option.some.injEq, Prod.mk.injEq] at h
                    rw [← h.2]
                    exact (TraceExt.act _ _ (by rfl)).trans u3
          · exact (tightData_traceExt _ _ _ _ _ _ _ _ _ _ _ _ _ h).trans
              ((TraceExt.of_trace _ _ (initFilterCopy_trace _ _)).trans u2)

theorem handleZlibLoop_traceExt (B : Build) (E : Ext) :
    ∀ (fuel : Nat) (st : ZlibLoop) (b : Bool) (st' : ZlibLoop),
      handleZlibLoop B E fuel st = some (b, st') →
      TraceExt st'.c st.c := by
  intro fuel
  induction fuel with
  | zero =>
    intro st b st' h
    rw [handleZlibLoop] at h
    split at h
    · simp only [Option.some.injEq, Prod.mk.injEq] at h
      rw [← h.2]
    · exact absurd h (by simp)
  | succ fuel ih =>
    intro st b st' h
    rw [handleZlibLoop] at h
    split at h
    · simp only [Option.some.injEq, Prod.mk.injEq] at h
      rw [← h.2]
    · dsimp only at h
      split at h
      · simp only [Option.some.injEq, Prod.mk.injEq] at h
        rw [← h.2]
      · rename_i bs c1 h1
        have t1 := readFromServer_trace _ _ _ _ h1
        split at h
        · simp only [Option.some.injEq, Prod.mk.injEq] at h
          rw [← h.2]
          exact (TraceExt.act _ _ (by rfl)).trans (TraceExt.of_trace _ _ t1)
        · split at h
          · simp only [Option.some.injEq, Prod.mk.injEq] at h
            rw [← h.2]
            exact (TraceExt.act _ _ (by rfl)).trans (TraceExt.of_trace _ _ t1)
          · split at h
            · simp only [Option.some.injEq, Prod.mk.injEq] at h
              rw [← h.2]
              exact (TraceExt.act _ _ (by rfl)).trans (TraceExt.of_trace _ _ t1)
            · exact (ih _ _ _ h).trans (TraceExt.of_trace _ _ t1)

theorem handleZlib_traceExt (B : Build) (E : Ext) (fuel : Nat) (c : Conn)
    (rx ry rw rh : Nat) (b : Bool) (c' : Conn)
    (h : handleZlib B E fuel c rx ry rw rh = some (b, c')) :
    TraceExt c' c := by
  unfold handleZlib at h
  dsimp only at h
  have t0 : (if c.rawBufferSize < toInt32 (rw * rh * 4) then
      ({ c with rawBufferSize := toInt32 (rw * rh * 4), rawBuffer := E.uninit } : Conn)
      else c).trace = c.trace := ite_trace _ _ _ _ rfl rfl
  split at h
  · simp only [Option.some.injEq, Prod.mk.injEq] at h
    rw [← h.2]
    exact TraceExt.of_trace _ _ t0
  · rename_i hdr c2 h2
    have t2 := (readFromServer_trace _ _ _ _ h2).trans t0
    split at h
    · simp only [Option.some.injEq, Prod.mk.injEq] at h
      rw [← h.2]
      exact (TraceExt.act _ _ (by rfl)).trans (TraceExt.of_trace _ _ t2)
    · rename_i c3 h3
      have t3 : c3.trace = c2.trace := by
        split at h3
        · simp only [Option.some.injEq] at h3
          rw [← h3]
        · split at h3
          · exact absurd h3 (by simp)
          · simp only [Option.some.injEq] at h3
            rw [← h3]
      split at h
      · exact absurd h (by simp)
      · rename_i st hst
        have := handleZlibLoop_traceExt _ _ _ _ _ _ hst
        simp only [Option.some.injEq, Prod.mk.injEq] at h
        rw [← h.2]
        exact this.trans (TraceExt.of_trace _ _ (t3.trans t2))
      · rename_i st hst
        have := handleZlibLoop_traceExt _ _ _ _ _ _ hst
        split at h
        · simp only [Option.some.injEq, Prod.mk.injEq] at h
          rw [← h.2]
          exact (TraceExt.of_trace _ _ rfl).trans
            (this.trans (TraceExt.of_trace _ _ (t3.trans t2)))
        · simp only [Option.some.injEq, Prod.mk.injEq] at h
          rw [← h.2]
          exact (TraceExt.act _ _ (by rfl)).trans
            (this.trans (TraceExt.of_trace _ _ (t3.trans t2)))

theorem handleRawLoop_trace (B : Build) :
    ∀ (fuel : Nat) (c : Conn) (rx ry rw rh L : Nat) (b : Bool) (c' : Conn),
      handleRawLoop B fuel c rx ry rw rh L = some (b, c') → c'.trace = c.trace := by
  intro fuel
  induction fuel with
  | zero =>
    intro c rx ry rw rh L b c' h
    rw [handleRawLoop] at h
    split at h
    · simp only [Option.some.injEq, Prod.mk.injEq] at h
      rw [← h.2]
    · exact absurd h (by simp)
  | succ fuel ih =>
    intro c rx ry rw rh L b c' h
    rw [handleRawLoop] at h
    split at h
    · simp only [Option.some.injEq, Prod.mk.injEq] at h
      rw [← h.2]
    · dsimp only at h
      split at h
      · simp only [Option.some.injEq, Prod.mk.injEq] at h
        rw [← h.2]
      · rename_i bs c1 h1
        have t1 := readFromServer_trace _ _ _ _ h1
        exact (ih _ _ _ _ _ _ _ _ h).trans t1

theorem handleRaw_trace (B : Build) (fuel : Nat) (c : Conn) (rx ry rw rh : Nat) (b : Bool)
    (c' : Conn) (h : handleRaw B fuel c rx ry rw rh = some (b, c')) : c'.trace = c.trace :=
  handleRawLoop_trace B fuel c rx ry rw rh _ b c' h

theorem handleCoRRE_trace (B : Build) (c : Conn) (rx ry rw rh : Nat) :
    ∃ new, (handleCoRRE B c rx ry rw rh).2.trace = c.trace ++ new ∧
      ∀ a, a ∈ new → a = Action.overrunBuffer := by
  unfold handleCoRRE
  split
  · exact ⟨[], by simp, fun a ha => absurd ha (List.not_mem_nil a)⟩
  · rename_i hdr c1 h1
    have t1 := readFromServer_trace _ _ _ _ h1
    dsimp only
    split
    · exact ⟨[], by simp [t1], fun a ha => absurd ha (List.not_mem_nil a)⟩
    · rename_i pb c2 h2
      have t2 := (readFromServer_trace _ _ _ _ h2).trans t1
      split
      · exact ⟨[], by simp [t2], fun a ha => absurd ha (List.not_mem_nil a)⟩
      · rename_i bs c4 h4
        have t4 : c4.trace = c.trace := (readFromServer_trace _ _ _ _ h4).trans t2
        dsimp only
        split
        · exact ⟨[.overrunBuffer], by simp [Conn.act, t4],
            fun a ha => List.mem_singleton.mp ha⟩
        · exact ⟨[], by simp [t4], fun a ha => absurd ha (List.not_mem_nil a)⟩

theorem handleItalc_traceExt (B : Build) (E : Ext) (fuel : Nat) (c : Conn)
    (rx ry rw rh : Nat) (b : Bool) (c' : Conn)
    (h : handleItalc B E fuel c rx ry rw rh = some (b, c')) :
    TraceExt c' c := by
  unfold handleItalc at h
  split at h
  · simp only [Option.some.injEq, Prod.mk.injEq] at h
    rw [← h.2]
  · rename_i hdr c1 h1
    have t1 := readFromServer_trace _ _ _ _ h1
    split at h
    · exact TraceExt.of_trace _ _ ((handleRaw_trace _ _ _ _ _ _ _ _ _ h).trans t1)
    · dsimp only at h
      split at h
      · simp only [Option.some.injEq, Prod.mk.injEq] at h
        rw [← h.2]
        exact TraceExt.of_trace _ _ t1
      · rename_i lzo c2 h2
        have t2 := (readFromServer_trace _ _ _ _ h2).trans t1
        split at h
        · simp only [Option.some.injEq, Prod.mk.injEq] at h
          rw [← h.2]
          refine (TraceExt.act _ _ (by rfl)).trans ?_
          split
          · exact (TraceExt.act _ _ (by rfl)).trans (TraceExt.of_trace _ _ t2)
          · exact TraceExt.of_trace _ _ t2
        · simp only [Option.some.injEq, Prod.mk.injEq] at h
          rw [← h.2]
          split
          · exact (TraceExt.act _ _ (by rfl)).trans (TraceExt.of_trace _ _ t2)
          · exact TraceExt.of_trace _ _ t2

theorem postRegionChangedEvent_traceExt (c : Conn) (o : Origin) (rgn : QRegion)
    (ho : o ≠ .update) : TraceExt (postRegionChangedEvent c o rgn) c := by
  unfold postRegionChangedEvent
  split
  · apply TraceExt.act
    cases o <;> first | rfl | exact absurd rfl ho
  · rfl

theorem handleCursorPos_traceExt (c : Conn) (x y : Nat) :
    TraceExt (handleCursorPos c x y).2 c := by
  unfold handleCursorPos
  dsimp only
  split
  · exact (TraceExt.act _ _ (by rfl)).trans
      ((postRegionChangedEvent_traceExt _ _ _ (by decide)).trans
        (TraceExt.of_trace _ _ rfl))
  · exact (postRegionChangedEvent_traceExt _ _ _ (by decide)).trans
      (TraceExt.of_trace _ _ rfl)

theorem cursorShapeInstall_traceExt (B : Build) (E : Ext) (c2 : Conn) (rcSource : Mem)
    (xhot yhot width height bytesMaskData : Nat) :
    TraceExt (cursorShapeInstall B E c2 rcSource xhot yhot width height bytesMaskData).2
      c2 := by
  unfold cursorShapeInstall
  split
  · rfl
  · rename_i mask c3 h3
    have t3 := readFromServer_trace _ _ _ _ h3
    dsimp only
    have e : ∀ d : Conn, d.trace = c3.trace ++ [.cursorLockForWrite, .cursorUnlock] →
        TraceExt d c2 := by
      intro d hd
      refine ⟨[.cursorLockForWrite, .cursorUnlock], by rw [hd, t3], ?_⟩
      intro a ha
      simp only [List.mem_cons, List.mem_singleton, List.not_mem_nil, or_false] at ha
      rcases ha with rfl | rfl <;> rfl
    split
    · refine (TraceExt.act _ _ (by rfl)).trans ((TraceExt.act _ _ (by rfl)).trans
        ((postRegionChangedEvent_traceExt _ _ _ (by decide)).trans (e _ ?_)))
      simp [Conn.act]
    · refine (TraceExt.act _ _ (by rfl)).trans
        ((postRegionChangedEvent_traceExt _ _ _ (by decide)).trans (e _ ?_))
      simp [Conn.act]

theorem handleCursorShape_traceExt (B : Build) (E : Ext) (c : Conn)
    (xhot yhot width height enc : Nat) :
    TraceExt (handleCursorShape B E c xhot yhot width height enc).2 c := by
  unfold handleCursorShape
  dsimp only
  split
  · rfl
  · split
    · split
      · rfl
      · rename_i rgb c1 h1
        have t1 := readFromServer_trace _ _ _ _ h1
        split
        · exact TraceExt.of_trace _ _ t1
        · rename_i bits c2 h2
          have t2 := (readFromServer_trace _ _ _ _ h2).trans t1
          exact (cursorShapeInstall_traceExt _ _ _ _ _ _ _ _ _).trans
            (TraceExt.of_trace _ _ t2)
    · split
      · rfl
      · rename_i px c1 h1
        have t1 := readFromServer_trace _ _ _ _ h1
        exact (cursorShapeInstall_traceExt _ _ _ _ _ _ _ _ _).trans
          (TraceExt.of_trace _ _ t1)

theorem ofBool_conn (r : Bool × Conn) (rgn : QRegion) :
    (RectStep.ofBool rgn r).conn = r.2 := by
  unfold RectStep.ofBool
  split <;> rfl

theorem close_traceExt (c : Conn) : TraceExt c.close c := by
  unfold Conn.close
  exact TraceExt.act _ _ rfl

theorem dispatchRect_traceExt (B : Build) (E : Ext) (fuel : Nat) (c : Conn)
    (rgn : QRegion) (x y w h enc : Nat) (r : RectStep)
    (hr : dispatchRect B E fuel c rgn x y w h enc = some r) :
    TraceExt r.conn c := by
  unfold dispatchRect at hr
  by_cases h0 : enc = rfbEncodingRaw
  · rw [if_pos h0] at hr
    obtain ⟨a, ha, hf⟩ := Option.map_eq_some'.mp hr
    rw [← hf, ofBool_conn]
    exact TraceExt.of_trace _ _ (handleRaw_trace _ _ _ _ _ _ _ a.1 a.2 ha)
  rw [if_neg h0] at hr
  by_cases h1 : enc = rfbEncodingCopyRect
  · rw [if_pos h1] at hr
    cases hread : readFromServer c 4 with
    | none =>
      rw [hread] at hr
      simp only [Option.some.injEq] at hr
      rw [← hr]
      rfl
    | some p =>
      rw [hread] at hr
      simp only [Option.some.injEq] at hr
      rw [← hr]
      exact TraceExt.of_trace _ _ (readFromServer_trace _ _ p.1 p.2 hread)
  rw [if_neg h1] at hr
  by_cases h2 : enc = rfbEncodingRRE
  · rw [if_pos h2] at hr
    simp only [Option.some.injEq] at hr
    rw [← hr, ofBool_conn]
    exact TraceExt.act _ _ rfl
  rw [if_neg h2] at hr
  by_cases h3 : enc = rfbEncodingCoRRE
  · rw [if_pos h3] at hr
    simp only [Option.some.injEq] at hr
    rw [← hr, ofBool_conn]
    obtain ⟨new, e, hnew⟩ := handleCoRRE_trace B c x y w h
    exact ⟨new, e, fun a ha => by rw [hnew a ha]; rfl⟩
  rw [if_neg h3] at hr
  by_cases h4 : B.HAVE_LIBZ = true ∧ enc = rfbEncodingZlib
  · rw [if_pos h4] at hr
    obtain ⟨a, ha, hf⟩ := Option.map_eq_some'.mp hr
    rw [← hf, ofBool_conn]
    exact handleZlib_traceExt _ _ _ _ _ _ _ _ a.1 a.2 ha
  rw [if_neg h4] at hr
  by_cases h5 : B.HAVE_LIBZ = true ∧ enc = rfbEncodingTight
  · rw [if_pos h5] at hr
    obtain ⟨a, ha, hf⟩ := Option.map_eq_some'.mp hr
    rw [← hf, ofBool_conn]
    exact handleTight_traceExt _ _ _ _ _ _ _ _ a.1 a.2 ha
  rw [if_neg h5] at hr
  by_cases h6 : enc = rfbEncodingPointerPos
  · rw [if_pos h6] at hr
    simp only [Option.some.injEq] at hr
    rw [← hr, ofBool_conn]
    exact handleCursorPos_traceExt _ _ _
  rw [if_neg h6] at hr
  by_cases h7 : enc = rfbEncodingRichCursor ∨ enc = rfbEncodingXCursor
  · rw [if_pos h7] at hr
    simp only [Option.some.injEq] at hr
    rw [← hr, ofBool_conn]
    exact handleCursorShape_traceExt _ _ _ _ _ _ _ _
  rw [if_neg h7] at hr
  by_cases h8 : enc = rfbEncodingItalc
  · rw [if_pos h8] at hr
    obtain ⟨a, ha, hf⟩ := Option.map_eq_some'.mp hr
    rw [← hf, ofBool_conn]
    exact handleItalc_traceExt _ _ _ _ _ _ _ _ a.1 a.2 ha
  rw [if_neg h8] at hr
  by_cases h9 : enc = rfbEncodingItalcCursor
  · rw [if_pos h9] at hr
    simp only [Option.some.injEq] at hr
    rw [← hr]
    refine (postRegionChangedEvent_traceExt _ _ _ (by decide)).trans ?_
    refine ⟨[.cursorLockForWrite, .cursorUnlock], by simp [Conn.act], ?_⟩
    intro a ha
    simp only [List.mem_cons, List.mem_singleton, List.not_mem_nil, or_false] at ha
    rcases ha with rfl | rfl <;> rfl
  rw [if_neg h9] at hr
  simp only [Option.some.injEq] at hr
  rw [← hr]
  exact (close_traceExt _).trans (TraceExt.act _ _ rfl)

theorem handleRect_traceExt (B : Build) (E : Ext) (fuel : Nat) (c : Conn)
    (rgn : QRegion) (r : RectStep) (hr : handleRect B E fuel c rgn = some r) :
    TraceExt r.conn c := by
  unfold handleRect at hr
  split at hr
  · simp only [Option.some.injEq] at hr
    rw [← hr]
    rfl
  · rename_i hb c1 h1
    have t1 := TraceExt.of_trace _ _ (readFromServer_trace _ _ _ _ h1)
    dsimp only at hr
    split at hr
    · simp only [Option.some.injEq] at hr
      rw [← hr]
      exact t1
    · split at hr
      · simp only [Option.some.injEq] at hr
        rw [← hr]
        exact (TraceExt.act _ _ (by rfl)).trans t1
      · split at hr
        · split at hr
          · simp only [Option.some.injEq] at hr
            rw [← hr]
            exact (TraceExt.act _ _ (by rfl)).trans t1
          · exact (dispatchRect_traceExt _ _ _ _ _ _ _ _ _ _ _ hr).trans t1
        · exact (dispatchRect_traceExt _ _ _ _ _ _ _ _ _ _ _ hr).trans t1

theorem rectPrefix_traceExt (B : Build) (E : Ext) (fuel : Nat) :
    ∀ (k : Nat) (c : Conn) (rgn : QRegion) (ck : Conn) (rgnk : QRegion),
      rectPrefix B E fuel k c rgn = some (ck, rgnk) → TraceExt ck c := by
  intro k
  induction k with
  | zero =>
    intro c rgn ck rgnk h
    simp only [rectPrefix, Option.some.injEq, Prod.mk.injEq] at h
    rw [h.1]
  | succ k ih =>
    intro c rgn ck rgnk h
    rw [rectPrefix] at h
    split at h
    · rename_i c1 rgn1 heq
      exact (ih _ _ _ _ h).trans (handleRect_traceExt _ _ _ _ _ _ heq)
    · exact absurd h (by simp)

theorem isUpdate_false_ne (a : Action) (h : Action.isUpdate a = false) (rgn : QRegion) :
    a ≠ .postRegionChanged .update rgn ∧ a ≠ .regionUpdated .update rgn := by
  constructor <;> intro e <;> rw [e] at h <;> exact Bool.noConfusion h

/-! ## C4: no notification on failure -/

/-- C4: no notification on failure. Whenever the rect loop of a framebuffer
update reaches a rect that fails, after any number `k` of rects that were handled
without failure (and may have been decoded into the screen),
`handleServerMessages` returns `FALSE`, and among the actions it has added to the
trace there is neither the region-changed event that `handleServerMessages` posts
for `updated_region` at the end of an update nor the `regionUpdated` signal it
emits for that region, whatever the region. -/
theorem C4_no_notification_on_failure (B : Build) (E : Ext) (fuel : Nat) (c : Conn)
    (send_screen_update : Bool) (tries : Int) (pad nRects k : Nat) (body : List Nat)
    (ck : Conn) (rgnk : QRegion) (cf : Conn)
    (htries : 1 ≤ tries) (hn : nRects < 65536) (hk : k < nRects)
    (hin : c.inbound =
      rfbFramebufferUpdate :: pad :: (nRects / 256 % 256) :: (nRects % 256) :: body)
    (hpre : rectPrefix B E fuel k
      { c with inbound := body, trace := c.trace ++ [.imageLockForWrite] } QRegion.empty
        = some (ck, rgnk))
    (hfail : handleRect B E fuel ck rgnk = some (.failed cf)) :
    ∃ c' new, handleServerMessages B E fuel c send_screen_update tries = some (false, c') ∧
      c'.trace = c.trace ++ new ∧
      ∀ rgn, Action.postRegionChanged .update rgn ∉ new ∧
        Action.regionUpdated .update rgn ∉ new := by
  have t0 : TraceExt
      ({ c with inbound := body, trace := c.trace ++ [.imageLockForWrite] } : Conn) c :=
    TraceExt.act c .imageLockForWrite rfl
  have t1 := rectPrefix_traceExt B E fuel k _ _ ck rgnk hpre
  have t2 : TraceExt cf ck := handleRect_traceExt B E fuel ck rgnk _ hfail
  have t3 : TraceExt (cf.act .imageUnlock) cf := TraceExt.act cf .imageUnlock rfl
  obtain ⟨new, hnew, hno⟩ := t3.trans (t2.trans (t1.trans t0))
  refine ⟨_, new, handleServerMessages_failed B E fuel c send_screen_update tries pad nRects k
    body ck rgnk cf htries hn hk hin hpre hfail, hnew, fun rgn => ⟨fun hm => ?_, fun hm => ?_⟩⟩
  · exact (isUpdate_false_ne _ (hno _ hm) rgn).1 rfl
  · exact (isUpdate_false_ne _ (hno _ hm) rgn).2 rfl

/-- C4, witness: the update of `sampleNotifyConn`. Its first rect is decoded into
the screen, its second rect is too wide: the dispatcher returns `FALSE` and has
sent no notification for the update. -/
theorem C4_no_notification_on_failure_witness :
    ∃ c' new, handleServerMessages Build.sample Ext.sample 1 sampleNotifyConn false 1
        = some (false, c') ∧
      c'.trace = sampleNotifyConn.trace ++ new ∧
      ∀ rgn, Action.postRegionChanged .update rgn ∉ new ∧
        Action.regionUpdated .update rgn ∉ new :=
  C4_no_notification_on_failure Build.sample Ext.sample 1 sampleNotifyConn false 1 0 2 1
    (rectHeader 0 0 1 1 rfbEncodingRaw ++ [1, 2, 3, 4] ++
      (rectHeader 0 0 4 1 rfbEncodingRaw ++ [5, 6, 7, 8]))
    _ _ _ (by decide) (by decide) (by decide) rfl rfl rfl

/-! ## RRE -/

theorem handleRect_rre (B : Build) (E : Ext) (fuel : Nat) (c : Conn) (rgn : QRegion)
    (x y w h : Nat) (rest : List Nat)
    (hx : x < 65536) (hy : y < 65536) (hw : w < 65536) (hh : h < 65536)
    (hin : c.inbound = rectHeader x y w h rfbEncodingRRE ++ rest)
    (hb : x + w ≤ c.framebufferWidth ∧ y + h ≤ c.framebufferHeight) (hwh : h * w ≠ 0) :
    handleRect B E fuel c rgn =
      some (.next (({ c with inbound := rest } : Conn).act (.qCritical .rreCantDecode))
        (rgn.add ⟨x, y, w, h⟩)) := by
  rw [handleRect_header B E fuel c rgn x y w h rfbEncodingRRE rest hx hy hw hh (by decide) hin]
  have hnb : ¬ (x + w > c.framebufferWidth ∨ y + h > c.framebufferHeight) := by omega
  simp only [hnb, if_false, hwh]
  simp [rfbEncodingRRE, rfbEncodingLastRect, rfbEncodingPointerPos, rfbEncodingXCursor,
    rfbEncodingRichCursor, dispatchRect, rfbEncodingRaw, rfbEncodingCopyRect, handleRRE,
    RectStep.ofBool]

/-- C5 (the code at the failing input): a framebuffer update with a single
in-bounds `1 × 1` RRE rect is not a fatal decode error. `handleRRE` logs the
rect and returns `TRUE`, so `handleServerMessages` returns `TRUE`, reads no
payload byte, leaves the screen as it was and notifies the consumers of the
"updated" region. -/
theorem C5_rre_is_accepted :
    ∃ c', handleServerMessages Build.sample Ext.sample 0 sampleRREConn false 1
        = some (true, c') ∧
      c'.trace = [.imageLockForWrite, .qCritical .rreCantDecode,
        .postRegionChanged .update ⟨[⟨0, 0, 1, 1⟩]⟩, .imageUnlock,
        .regionUpdated .update ⟨[⟨0, 0, 1, 1⟩]⟩] ∧
      c'.inbound = [] ∧ c'.state = .Connected ∧ c'.screen = sampleRREConn.screen :=
  ⟨_, rfl, rfl, rfl, rfl, rfl⟩

/-! ## Tight: the gradient filter in row batches -/

theorem and_255 (a : Nat) : a &&& 255 = a % 256 := Nat.and_pow_two_sub_one_eq_mod a 8

theorem gradientSpecRow_lt (above delta : Nat → Nat) (x : Nat) :
    gradientSpecRow above delta x < 256 := by
  cases x <;> (unfold gradientSpecRow; rw [and_255]; omega)

theorem gradientSpec_eq (delta : Nat → Nat → Nat) (y : Nat) :
    gradientSpec delta y = gradientSpecRow (gradientAbove delta y) (delta y) := by
  cases y <;> rfl

theorem gradientAbove_lt (delta : Nat → Nat → Nat) (y x : Nat) :
    gradientAbove delta y x < 256 := by
  cases y with
  | zero => exact Nat.zero_lt_succ _
  | succ y =>
    show gradientSpec delta y x < 256
    rw [gradientSpec_eq]
    exact gradientSpecRow_lt _ _ _

theorem gradient_arith (a : Nat) (e : Int) :
    ((a + (if e > 255 then (255 : Int) else if e < 0 then 0 else e).toNat) % 4294967296
      &&& 255) % 65536 = (clampChannel e + (a &&& 255)) &&& 255 := by
  unfold clampChannel
  rw [and_255, and_255, and_255]
  split_ifs <;> omega

theorem gradientFirst_eq (be : Bool) (W y ch : Nat) (g : GradientState) (s a : Nat)
    (hsrc : load32 be g.buffer (4 * (y * W)) = s) (hthat : g.that_row ch = a)
    (ha : a < 256) :
    gradientFirst be W y ch g =
      { g with
        pix := g.pix.write ch ((clampChannel ((a : Int) + 0 - 0) + pixelChannel s ch) &&& 255)
        this_row := g.this_row.write ch
          ((clampChannel ((a : Int) + 0 - 0) + pixelChannel s ch) &&& 255) } := by
  have e : (((s >>> localShift ch) + a) % 4294967296 &&& localMax ch) % 65536 =
      (clampChannel ((a : Int) + 0 - 0) + pixelChannel s ch) &&& 255 := by
    unfold clampChannel pixelChannel localMax
    rw [and_255, and_255, and_255]
    split_ifs <;> omega
  unfold gradientFirst
  simp only [hsrc, hthat, e]

theorem gradientNext_eq (be : Bool) (W y x ch : Nat) (g : GradientState) (s ab l abl : Nat)
    (hsrc : load32 be g.buffer (4 * (y * W + x)) = s) (hpix : g.pix ch = l)
    (h1 : g.that_row (x * 3 + ch) = ab) (h2 : g.that_row ((x - 1) * 3 + ch) = abl) :
    gradientNext be W y x ch g =
      { g with
        pix := g.pix.write ch
          ((clampChannel ((ab : Int) + (l : Int) - (abl : Int)) + pixelChannel s ch) &&& 255)
        this_row := g.this_row.write (x * 3 + ch)
          ((clampChannel ((ab : Int) + (l : Int) - (abl : Int)) + pixelChannel s ch) &&& 255) } := by
  have e := gradient_arith (s >>> localShift ch) ((ab : Int) + (l : Int) - (abl : Int))
  unfold gradientNext
  simp only [hsrc, hpix, h1, h2, localMax, Nat.cast_ofNat]
  unfold pixelChannel
  rw [← e]

theorem FillInv_src (be : Bool) (dstOff : Nat) (buf0 : Mem) (out : Nat → Nat) (N : Nat)
    (buf : Mem) (hI : FillInv be dstOff buf0 out N buf) (a : Nat) (ha : a + 4 ≤ dstOff) :
    load32 be buf a = load32 be buf0 a := by
  unfold load32
  rw [hI.1 a (by omega), hI.1 (a + 1) (by omega), hI.1 (a + 2) (by omega),
    hI.1 (a + 3) (by omega)]

theorem RGB_TO_PIXEL_lt (r g b : Nat) : RGB_TO_PIXEL r g b < 4294967296 := by
  unfold RGB_TO_PIXEL
  exact Nat.mod_lt _ (by decide)

theorem gradientPixel_spec (be : Bool) (W dstOff y x : Nat) (g : GradientState)
    (s : Nat) (ab l abl : Nat → Nat)
    (hsrc : load32 be g.buffer (4 * (y * W + x)) = s)
    (hpix : ∀ ch, ch < 3 → g.pix ch = l ch)
    (h1 : ∀ ch, ch < 3 → g.that_row (x * 3 + ch) = ab ch)
    (h2 : ∀ ch, ch < 3 → g.that_row ((x - 1) * 3 + ch) = abl ch) :
    (gradientPixel be W dstOff y x g).buffer =
        store32 be g.buffer (dstOff + 4 * (y * W + x))
          (RGB_TO_PIXEL
            ((clampChannel ((ab 0 : Int) + (l 0 : Int) - (abl 0 : Int)) + pixelChannel s 0) &&& 255)
            ((clampChannel ((ab 1 : Int) + (l 1 : Int) - (abl 1 : Int)) + pixelChannel s 1) &&& 255)
            ((clampChannel ((ab 2 : Int) + (l 2 : Int) - (abl 2 : Int)) + pixelChannel s 2) &&& 255))
      ∧ (gradientPixel be W dstOff y x g).that_row = g.that_row ∧
      (∀ ch, ch < 3 → (gradientPixel be W dstOff y x g).pix ch =
        (clampChannel ((ab ch : Int) + (l ch : Int) - (abl ch : Int)) + pixelChannel s ch)
          &&& 255) ∧
      (∀ k, (gradientPixel be W dstOff y x g).this_row k =
        if x * 3 ≤ k ∧ k < x * 3 + 3 then
          (clampChannel ((ab (k - x * 3) : Int) + (l (k - x * 3) : Int) - (abl (k - x * 3) : Int))
            + pixelChannel s (k - x * 3)) &&& 255
        else g.this_row k) := by
  have e0 := gradientNext_eq be W y x 0 g s (ab 0) (l 0) (abl 0) hsrc (hpix 0 (by omega))
    (h1 0 (by omega)) (h2 0 (by omega))
  have e1 := gradientNext_eq be W y x 1 (gradientNext be W y x 0 g) s (ab 1) (l 1) (abl 1)
    (by rw [e0]; exact hsrc) (by rw [e0]; simp [Mem.write, hpix 1 (by omega)])
    (by rw [e0]; exact h1 1 (by omega)) (by rw [e0]; exact h2 1 (by omega))
  have e2 := gradientNext_eq be W y x 2
    (gradientNext be W y x 1 (gradientNext be W y x 0 g)) s (ab 2) (l 2) (abl 2)
    (by rw [e1, e0]; exact hsrc) (by rw [e1, e0]; simp [Mem.write, hpix 2 (by omega)])
    (by rw [e1, e0]; exact h1 2 (by omega)) (by rw [e1, e0]; exact h2 2 (by omega))
  have e : gradientPixel be W dstOff y x g =
      { gradientNext be W y x 2 (gradientNext be W y x 1 (gradientNext be W y x 0 g)) with
        buffer := store32 be
          (gradientNext be W y x 2 (gradientNext be W y x 1 (gradientNext be W y x 0 g))).buffer
          (dstOff + 4 * (y * W + x))
          (RGB_TO_PIXEL
            ((gradientNext be W y x 2
              (gradientNext be W y x 1 (gradientNext be W y x 0 g))).pix 0)
            ((gradientNext be W y x 2
              (gradientNext be W y x 1 (gradientNext be W y x 0 g))).pix 1)
            ((gradientNext be W y x 2
              (gradientNext be W y x 1 (gradientNext be W y x 0 g))).pix 2)) } := rfl
  rw [e, e2, e1, e0]
  refine ⟨?_, rfl, fun ch hch => ?_, fun k => ?_⟩
  · simp [Mem.write]
  · have : ch = 0 ∨ ch = 1 ∨ ch = 2 := by omega
    rcases this with h | h | h <;> simp [h, Mem.write]
  · simp only [Mem.write]
    by_cases k0 : k = x * 3 + 0
    · simp [k0]
    · by_cases k1 : k = x * 3 + 1
      · simp [k1]
      · by_cases k2 : k = x * 3 + 2
        · simp [k2]
        · have hn : ¬ (x * 3 ≤ k ∧ k < x * 3 + 3) := by omega
          simp only [k0, k1, k2, hn, if_false]

theorem gradientPixels_spec (be : Bool) (n W dstOff y : Nat) (hy : y < n)
    (hoff : 4 * (n * W) ≤ dstOff) (buf0 : Mem) (out : Nat → Nat)
    (above row : Nat → Nat → Nat) (g2 : GradientState)
    (hthat : ∀ x ch, x < W → ch < 3 → g2.that_row (x * 3 + ch) = above ch x)
    (hrow : ∀ ch x, ch < 3 → x + 1 < W → row ch (x + 1) =
      (clampChannel ((above ch (x + 1) : Int) + (row ch x : Int) - (above ch x : Int))
        + pixelChannel (load32 be buf0 (4 * (y * W + (x + 1)))) ch) &&& 255)
    (hout : ∀ x, x < W → out (y * W + x) = RGB_TO_PIXEL (row 0 x) (row 1 x) (row 2 x))
    (hb : FillInv be dstOff buf0 out (y * W + 1) g2.buffer)
    (hpix : ∀ ch, ch < 3 → g2.pix ch = row ch 0)
    (hthis : ∀ ch, ch < 3 → g2.this_row ch = row ch 0) :
    ∀ m, m + 1 ≤ W →
      FillInv be dstOff buf0 out (y * W + 1 + m)
          (forLoop m (fun i g => gradientPixel be W dstOff y (i + 1) g) g2).buffer ∧
        (forLoop m (fun i g => gradientPixel be W dstOff y (i + 1) g) g2).that_row
          = g2.that_row ∧
        (∀ ch, ch < 3 →
          (forLoop m (fun i g => gradientPixel be W dstOff y (i + 1) g) g2).pix ch = row ch m) ∧
        (∀ x ch, x ≤ m → ch < 3 →
          (forLoop m (fun i g => gradientPixel be W dstOff y (i + 1) g) g2).this_row (x * 3 + ch)
            = row ch x) := by
  intro m
  induction m with
  | zero =>
    intro _
    refine ⟨hb, rfl, hpix, fun x ch hx hch => ?_⟩
    have : x = 0 := by omega
    rw [this, Nat.zero_mul, Nat.zero_add]
    exact hthis ch hch
  | succ m ih =>
    intro hm
    obtain ⟨i1, i2, i3, i4⟩ := ih (by omega)
    have hmul := Nat.mul_le_mul_right W (show y + 1 ≤ n by omega)
    rw [Nat.succ_mul] at hmul
    have hsrc := FillInv_src be dstOff buf0 out _ _ i1 (4 * (y * W + (m + 1))) (by omega)
    obtain ⟨p1, p2, p3, p4⟩ := gradientPixel_spec be W dstOff y (m + 1) _ _
      (fun ch => above ch (m + 1)) (fun ch => row ch m) (fun ch => above ch m) hsrc i3
      (fun ch hch => by rw [i2]; exact hthat (m + 1) ch (by omega) hch)
      (fun ch hch => by rw [i2, Nat.add_sub_cancel]; exact hthat m ch (by omega) hch)
    show FillInv be dstOff buf0 out (y * W + 1 + (m + 1))
        (gradientPixel be W dstOff y (m + 1)
          (forLoop m (fun i g => gradientPixel be W dstOff y (i + 1) g) g2)).buffer ∧
      (gradientPixel be W dstOff y (m + 1)
          (forLoop m (fun i g => gradientPixel be W dstOff y (i + 1) g) g2)).that_row
        = g2.that_row ∧
      (∀ ch, ch < 3 →
        (gradientPixel be W dstOff y (m + 1)
          (forLoop m (fun i g => gradientPixel be W dstOff y (i + 1) g) g2)).pix ch
          = row ch (m + 1)) ∧
      (∀ x ch, x ≤ m + 1 → ch < 3 →
        (gradientPixel be W dstOff y (m + 1)
          (forLoop m (fun i g => gradientPixel be W dstOff y (i + 1) g) g2)).this_row (x * 3 + ch)
          = row ch x)
    refine ⟨?_, p2.trans i2, fun ch hch => ?_, fun x ch hx hch => ?_⟩
    · have e : y * W + (m + 1) = y * W + 1 + m := by omega
      generalize hV : RGB_TO_PIXEL _ _ _ = V at p1
      have hv : V = out (y * W + 1 + m) := by
        rw [← hV, ← e, hout (m + 1) (by omega), hrow 0 m (by omega) (by omega),
          hrow 1 m (by omega) (by omega), hrow 2 m (by omega) (by omega)]
      rw [p1, e]
      exact FillInv_step be dstOff buf0 out _ _ _ i1 (by rw [← hV]; exact RGB_TO_PIXEL_lt _ _ _) hv
    · rw [p3 ch hch, hrow ch m hch (by omega)]
    · rw [p4]
      by_cases hx1 : x = m + 1
      · have hin : (m + 1) * 3 ≤ x * 3 + ch ∧ x * 3 + ch < (m + 1) * 3 + 3 := by omega
        have hk : x * 3 + ch - (m + 1) * 3 = ch := by omega
        rw [if_pos hin, hk, hx1, hrow ch m hch (by omega)]
      · have hin : ¬ ((m + 1) * 3 ≤ x * 3 + ch ∧ x * 3 + ch < (m + 1) * 3 + 3) := by omega
        rw [if_neg hin]
        exact i4 x ch (by omega) hch

theorem gradientRow_spec (be : Bool) (n W dstOff y : Nat) (hy : y < n) (hW : 1 ≤ W)
    (hoff : 4 * (n * W) ≤ dstOff) (buf0 : Mem) (out : Nat → Nat)
    (above row : Nat → Nat → Nat) (g : GradientState)
    (hthat : ∀ x ch, x < W → ch < 3 → g.that_row (x * 3 + ch) = above ch x)
    (habove : ∀ ch, ch < 3 → above ch 0 < 256)
    (hrow0 : ∀ ch, ch < 3 → row ch 0 =
      (clampChannel ((above ch 0 : Int) + 0 - 0)
        + pixelChannel (load32 be buf0 (4 * (y * W))) ch) &&& 255)
    (hrow : ∀ ch x, ch < 3 → x + 1 < W → row ch (x + 1) =
      (clampChannel ((above ch (x + 1) : Int) + (row ch x : Int) - (above ch x : Int))
        + pixelChannel (load32 be buf0 (4 * (y * W + (x + 1)))) ch) &&& 255)
    (hout : ∀ x, x < W → out (y * W + x) = RGB_TO_PIXEL (row 0 x) (row 1 x) (row 2 x))
    (hb : FillInv be dstOff buf0 out (y * W) g.buffer) :
    FillInv be dstOff buf0 out ((y + 1) * W) (gradientRow be W dstOff y g).buffer ∧
      (∀ x ch, x < W → ch < 3 → (gradientRow be W dstOff y g).that_row (x * 3 + ch) = row ch x) := by
  have hmul := Nat.mul_le_mul_right W (show y + 1 ≤ n by omega)
  rw [Nat.succ_mul] at hmul
  have hsrc := FillInv_src be dstOff buf0 out _ _ hb (4 * (y * W)) (by omega)
  have t0 := hthat 0 0 hW (by omega)
  have t1 := hthat 0 1 hW (by omega)
  have t2 := hthat 0 2 hW (by omega)
  simp only [Nat.zero_mul, Nat.zero_add] at t0 t1 t2
  have e0 := gradientFirst_eq be W y 0 g (load32 be buf0 (4 * (y * W))) (above 0 0) hsrc t0
    (habove 0 (by omega))
  have e1 := gradientFirst_eq be W y 1 (gradientFirst be W y 0 g)
    (load32 be buf0 (4 * (y * W))) (above 1 0)
    (by rw [e0]; exact hsrc) (by rw [e0]; exact t1) (habove 1 (by omega))
  have e2 := gradientFirst_eq be W y 2 (gradientFirst be W y 1 (gradientFirst be W y 0 g))
    (load32 be buf0 (4 * (y * W))) (above 2 0)
    (by rw [e1, e0]; exact hsrc) (by rw [e1, e0]; exact t2) (habove 2 (by omega))
  rw [← hrow0 0 (by omega)] at e0
  rw [← hrow0 1 (by omega)] at e1
  rw [← hrow0 2 (by omega)] at e2
  obtain ⟨g1, hg1⟩ : ∃ g1, g1 = gradientFirst be W y 2
      (gradientFirst be W y 1 (gradientFirst be W y 0 g)) := ⟨_, rfl⟩
  have hg1' := hg1
  rw [e2, e1, e0] at hg1'
  have f1 : g1.buffer = g.buffer := by rw [hg1']
  have f2 : g1.that_row = g.that_row := by rw [hg1']
  have f3 : ∀ ch, ch < 3 → g1.pix ch = row ch 0 := by
    intro ch hch
    have : ch = 0 ∨ ch = 1 ∨ ch = 2 := by omega
    rw [hg1']
    rcases this with h | h | h <;> simp [h, Mem.write]
  have f4 : ∀ ch, ch < 3 → g1.this_row ch = row ch 0 := by
    intro ch hch
    have : ch = 0 ∨ ch = 1 ∨ ch = 2 := by omega
    rw [hg1']
    rcases this with h | h | h <;> simp [h, Mem.write]
  have e : gradientRow be W dstOff y g =
      { forLoop (W - 1) (fun i g => gradientPixel be W dstOff y (i + 1) g)
          { g1 with
            buffer := store32 be g1.buffer (dstOff + 4 * (y * W))
              (RGB_TO_PIXEL (g1.pix 0) (g1.pix 1) (g1.pix 2)) } with
        that_row := fun k =>
          if k < W * 3 then
            (forLoop (W - 1) (fun i g => gradientPixel be W dstOff y (i + 1) g)
              { g1 with
                buffer := store32 be g1.buffer (dstOff + 4 * (y * W))
                  (RGB_TO_PIXEL (g1.pix 0) (g1.pix 1) (g1.pix 2)) }).this_row k
          else
            (forLoop (W - 1) (fun i g => gradientPixel be W dstOff y (i + 1) g)
              { g1 with
                buffer := store32 be g1.buffer (dstOff + 4 * (y * W))
                  (RGB_TO_PIXEL (g1.pix 0) (g1.pix 1) (g1.pix 2)) }).that_row k } := by
    rw [hg1]
    rfl
  have hb1 : FillInv be dstOff buf0 out (y * W + 1)
      (store32 be g1.buffer (dstOff + 4 * (y * W))
        (RGB_TO_PIXEL (g1.pix 0) (g1.pix 1) (g1.pix 2))) := by
    rw [f1]
    refine FillInv_step be dstOff buf0 out _ _ _ hb (RGB_TO_PIXEL_lt _ _ _) ?_
    have := hout 0 hW
    rw [Nat.add_zero] at this
    rw [this, f3 0 (by omega), f3 1 (by omega), f3 2 (by omega)]
  obtain ⟨q1, _, _, q4⟩ := gradientPixels_spec be n W dstOff y hy hoff buf0 out above row
    { g1 with
      buffer := store32 be g1.buffer (dstOff + 4 * (y * W))
        (RGB_TO_PIXEL (g1.pix 0) (g1.pix 1) (g1.pix 2)) }
    (fun x ch hx hch => by
      show g1.that_row (x * 3 + ch) = above ch x
      rw [f2]
      exact hthat x ch hx hch)
    hrow hout hb1 f3 f4 (W - 1) (by omega)
  rw [e]
  refine ⟨?_, fun x ch hx hch => ?_⟩
  · have e3 : y * W + 1 + (W - 1) = (y + 1) * W := by
      rw [Nat.succ_mul]
      omega
    rw [e3] at q1
    exact q1
  · have hk : x * 3 + ch < W * 3 := by omega
    simp only [hk, if_true]
    exact q4 x ch (by omega) hch

theorem gradientRows_spec (be : Bool) (n W dstOff r0 : Nat) (hW : 1 ≤ W)
    (hoff : 4 * (n * W) ≤ dstOff) (buf0 : Mem) (src : Nat → Nat → Nat)
    (hsrc : ∀ j i, j < n → i < W → load32 be buf0 (4 * (j * W + i)) = src (r0 + j) i)
    (g : GradientState) (hbuf : g.buffer = buf0)
    (hthat : ∀ x ch, x < W → ch < 3 →
      g.that_row (x * 3 + ch) = gradientAbove (fun j i => pixelChannel (src j i) ch) r0 x) :
    ∀ m, m ≤ n →
      FillInv be dstOff buf0 (fun idx => gradientSpecPixel src (r0 + idx / W) (idx % W)) (m * W)
          (forLoop m (fun y g => gradientRow be W dstOff y g) g).buffer ∧
        (∀ x ch, x < W → ch < 3 →
          (forLoop m (fun y g => gradientRow be W dstOff y g) g).that_row (x * 3 + ch) =
            gradientAbove (fun j i => pixelChannel (src j i) ch) (r0 + m) x) := by
  intro m
  induction m with
  | zero =>
    intro _
    refine ⟨⟨fun k _ => by rw [← hbuf]; rfl, fun idx hidx => ?_⟩, hthat⟩
    rw [Nat.zero_mul] at hidx
    exact absurd hidx (Nat.not_lt_zero _)
  | succ m ih =>
    intro hm
    obtain ⟨i1, i2⟩ := ih (by omega)
    show FillInv be dstOff buf0 (fun idx => gradientSpecPixel src (r0 + idx / W) (idx % W))
        ((m + 1) * W)
        (gradientRow be W dstOff m (forLoop m (fun y g => gradientRow be W dstOff y g) g)).buffer ∧
      (∀ x ch, x < W → ch < 3 →
        (gradientRow be W dstOff m
          (forLoop m (fun y g => gradientRow be W dstOff y g) g)).that_row (x * 3 + ch) =
          gradientSpec (fun j i => pixelChannel (src j i) ch) (r0 + m) x)
    refine gradientRow_spec be n W dstOff m (by omega) hW hoff buf0 _
      (fun ch x => gradientAbove (fun j i => pixelChannel (src j i) ch) (r0 + m) x)
      (fun ch x => gradientSpec (fun j i => pixelChannel (src j i) ch) (r0 + m) x)
      _ i2 (fun ch _ => gradientAbove_lt _ _ _) (fun ch _ => ?_) (fun ch x _ hx => ?_)
      (fun x hx => ?_) i1
    · have hs := hsrc m 0 (by omega) (by omega)
      rw [Nat.add_zero] at hs
      rw [hs]
      dsimp only
      rw [gradientSpec_eq]
      rfl
    · rw [hsrc m (x + 1) (by omega) hx]
      dsimp only
      rw [gradientSpec_eq]
      rfl
    · show gradientSpecPixel src (r0 + (m * W + x) / W) ((m * W + x) % W) = _
      rw [idx_div W m x hx, idx_mod W m x hx]
      rfl

theorem load32_rawEncode (be : Bool) (W n : Nat) (bm : Nat → Nat → Nat) (mem : Mem)
    (j i : Nat) (hj : j < n) (hi : i < W) (hbm : bm j i < 4294967296) :
    load32 be (writeBytes mem 0 (rawEncode be W n bm)) (4 * (j * W + i)) = bm j i := by
  have hlen := rawEncode_length be W n bm
  have hmul := Nat.mul_le_mul_right W (show j + 1 ≤ n by omega)
  rw [Nat.succ_mul] at hmul
  rw [load32_writeBytes be mem _ _ (by omega)]
  have g0 := rawEncode_getD be W n bm j i 0 hj hi (by omega)
  rw [Nat.add_zero] at g0
  rw [g0, rawEncode_getD be W n bm j i 1 hj hi (by omega),
    rawEncode_getD be W n bm j i 2 hj hi (by omega),
    rawEncode_getD be W n bm j i 3 hj hi (by omega)]
  exact word32_bytes32 be _ hbm

theorem range_map_split (a b W r0 : Nat) (hW : 1 ≤ W) (f : Nat → Nat → Nat) :
    (List.range (a * W)).map (fun k => f (r0 + k / W) (k % W)) ++
        (List.range (b * W)).map (fun k => f (r0 + a + k / W) (k % W)) =
      (List.range ((a + b) * W)).map (fun k => f (r0 + k / W) (k % W)) := by
  rw [Nat.add_mul, List.range_add, List.map_append, List.map_map]
  congr 1
  apply List.map_congr_left
  intro k _
  show f (r0 + a + k / W) (k % W) = f (r0 + (a * W + k) / W) ((a * W + k) % W)
  rw [Nat.add_comm (a * W) k, Nat.add_mul_div_right _ _ (by omega), Nat.add_mul_mod_self_right,
    Nat.add_comm (k / W) a, Nat.add_assoc]

theorem gradientBatches_spec (B : Build) (uninit : Nat → Mem) (W dstOff : Nat)
    (src : Nat → Nat → Nat) (hW : 1 ≤ W) (hsrc : ∀ j i, src j i < 4294967296) :
    ∀ (bs : List Nat) (r0 : Nat) (c : Conn), (∀ n, n ∈ bs → 4 * (n * W) ≤ dstOff) →
      c.rectWidth = W →
      (∀ x ch, x < W → ch < 3 →
        c.tightPrevRow (x * 3 + ch) = gradientAbove (fun j i => pixelChannel (src j i) ch) r0 x) →
      gradientBatches B uninit W dstOff src bs r0 c =
        (List.range (bs.sum * W)).map (fun k => gradientSpecPixel src (r0 + k / W) (k % W)) := by
  intro bs
  induction bs with
  | nil =>
    intro r0 c _ _ _
    simp [gradientBatches]
  | cons n ns ih =>
    intro r0 c hfit hw hprev
    obtain ⟨r1, r2⟩ := gradientRows_spec B.WORDS_BIGENDIAN n W dstOff r0 hW
      (hfit n (List.mem_cons_self _ _))
      (writeBytes c.buffer 0 (rawEncode B.WORDS_BIGENDIAN W n (fun j i => src (r0 + j) i))) src
      (fun j i hj hi => load32_rawEncode _ W n _ _ j i hj hi (hsrc _ _))
      { buffer := writeBytes c.buffer 0
          (rawEncode B.WORDS_BIGENDIAN W n (fun j i => src (r0 + j) i)),
        that_row := c.tightPrevRow, this_row := uninit r0, pix := uninit r0 }
      rfl hprev n (Nat.le_refl n)
    rw [gradientBatches, List.sum_cons]
    rw [ih (r0 + n) _ (fun k hk => hfit k (List.mem_cons_of_mem _ hk))
      (by rw [← hw]; rfl) (by
        intro x ch hx hch
        unfold filterGradient
        dsimp only
        rw [hw]
        exact r2 x ch hx hch)]
    rw [← range_map_split n ns.sum W r0 hW (gradientSpecPixel src)]
    congr 1
    apply List.map_congr_left
    intro idx hidx
    rw [List.mem_range] at hidx
    unfold filterGradient bufferWords
    dsimp only
    rw [hw]
    exact r1.2 idx hidx

theorem RGB_TO_PIXEL_eq (r g b : Nat) (hr : r < 256) (hg : g < 256) (hb : b < 256) :
    RGB_TO_PIXEL r g b = r * 65536 + g * 256 + b := by
  have h1 : 2 ^ 8 * g + b = 2 ^ 8 * g ||| b := Nat.mul_add_lt_is_or (by omega) g
  have h2 : 2 ^ 16 * r + (2 ^ 8 * g + b) = 2 ^ 16 * r ||| (2 ^ 8 * g + b) :=
    Nat.mul_add_lt_is_or (by omega) r
  show ((r % 4294967296 &&& 255) <<< 16 ||| (g % 4294967296 &&& 255) <<< 8 |||
    (b % 4294967296 &&& 255) <<< 0) % 4294967296 = _
  rw [and_255, and_255, and_255, Nat.shiftLeft_eq, Nat.shiftLeft_eq, Nat.shiftLeft_eq,
    Nat.or_assoc]
  have e1 : r % 4294967296 % 256 * 2 ^ 16 = 2 ^ 16 * r := by omega
  have e2 : g % 4294967296 % 256 * 2 ^ 8 = 2 ^ 8 * g := by omega
  have e3 : b % 4294967296 % 256 * 2 ^ 0 = b := by omega
  rw [e1, e2, e3, ← h1, ← h2]
  omega

theorem pixelChannel_RGB (r g b : Nat) (hr : r < 256) (hg : g < 256) (hb : b < 256) :
    pixelChannel (RGB_TO_PIXEL r g b) 0 = r ∧ pixelChannel (RGB_TO_PIXEL r g b) 1 = g ∧
      pixelChannel (RGB_TO_PIXEL r g b) 2 = b := by
  rw [RGB_TO_PIXEL_eq r g b hr hg hb]
  unfold pixelChannel
  rw [and_255, and_255, and_255, Nat.shiftRight_eq_div_pow, Nat.shiftRight_eq_div_pow,
    Nat.shiftRight_eq_div_pow]
  refine ⟨?_, ?_, ?_⟩
  · show (r * 65536 + g * 256 + b) / 2 ^ 16 % 256 = r
    omega
  · show (r * 65536 + g * 256 + b) / 2 ^ 8 % 256 = g
    omega
  · show (r * 65536 + g * 256 + b) / 2 ^ 0 % 256 = b
    omega

theorem gradientSpec_lt (delta : Nat → Nat → Nat) (y x : Nat) : gradientSpec delta y x < 256 := by
  rw [gradientSpec_eq]
  exact gradientSpecRow_lt _ _ _

/-- C11: the Gradient predictor is batch independent. For every width `w` in
`1..2048` and every delta image `src` of `h` rows, decoding it with
`filterGradient` in any split `bs` of the `h` rows into consecutive batches (the
previous-row buffer zeroed by `initFilterGradient` and carried between the
calls, each batch small enough that its deltas lie in front of the output in
`m_buffer`) yields the pixels of `gradientSpecPixel`: channel `ch` of the pixel
at column `x` of row `y` is
`(clamp(above + left - aboveLeft, 0, 255) + delta) & 255` over the decoded
neighbours in the whole rectangle, 0 outside it. The right-hand side does not
mention `bs`, so the result does not depend on the batching. -/
theorem C11_gradient_batch_independent (B : Build) (uninit : Nat → Mem) (c : Conn)
    (w h dstOff : Nat) (src : Nat → Nat → Nat) (bs : List Nat)
    (hw1 : 1 ≤ w) (_hw : w ≤ 2048) (hsrc : ∀ j i, src j i < 4294967296)
    (hsum : bs.sum = h) (hfit : ∀ n, n ∈ bs → 4 * (n * w) ≤ dstOff) :
    gradientBatches B uninit w dstOff src bs 0 (initFilterGradient c w).2 =
        (List.range (h * w)).map (fun k => gradientSpecPixel src (k / w) (k % w)) ∧
      (∀ y x ch, ch < 3 →
        pixelChannel (gradientSpecPixel src y x) ch =
          gradientSpec (fun j i => pixelChannel (src j i) ch) y x) ∧
      (∀ y x ch,
        gradientSpec (fun j i => pixelChannel (src j i) ch) (y + 1) (x + 1) =
          (clampChannel
            ((gradientSpec (fun j i => pixelChannel (src j i) ch) y (x + 1) : Int)
              + (gradientSpec (fun j i => pixelChannel (src j i) ch) (y + 1) x : Int)
              - (gradientSpec (fun j i => pixelChannel (src j i) ch) y x : Int))
            + pixelChannel (src (y + 1) (x + 1)) ch) &&& 255) := by
  refine ⟨?_, fun y x ch hch => ?_, fun y x ch => rfl⟩
  · have := gradientBatches_spec B uninit w dstOff src hw1 hsrc bs 0 (initFilterGradient c w).2
      hfit rfl (fun x ch hx hch => by
        have hk : x * 3 + ch < w * 3 := by omega
        simp [initFilterGradient, initFilterCopy, hk, gradientAbove])
    rw [this, hsum]
    apply List.map_congr_left
    intro k _
    rw [Nat.zero_add]
  · obtain ⟨p0, p1, p2⟩ := pixelChannel_RGB _ _ _
      (gradientSpec_lt (fun j i => pixelChannel (src j i) 0) y x)
      (gradientSpec_lt (fun j i => pixelChannel (src j i) 1) y x)
      (gradientSpec_lt (fun j i => pixelChannel (src j i) 2) y x)
    have : ch = 0 ∨ ch = 1 ∨ ch = 2 := by omega
    unfold gradientSpecPixel
    rcases this with h | h | h <;> rw [h]
    · exact p0
    · exact p1
    · exact p2

/-- C11, witness: a `2 × 3` delta image decoded as one row followed by two rows,
and as a single batch of three rows: both give the same six pixels. -/
theorem C11_gradient_batch_independent_witness :
    gradientBatches Build.sample (fun _ _ => 9) 2 48 sampleDeltas [1, 2] 0
        (initFilterGradient sampleGradientConn 2).2 =
      gradientBatches Build.sample (fun _ _ => 9) 2 48 sampleDeltas [3] 0
        (initFilterGradient sampleGradientConn 2).2 :=
  (C11_gradient_batch_independent Build.sample (fun _ _ => 9) sampleGradientConn 2 3 48
    sampleDeltas [1, 2] (by decide) (by decide)
    (fun j i => Nat.mod_lt _ (by decide)) rfl
    (fun n hn => by
      simp only [List.mem_cons, List.mem_singleton, List.not_mem_nil, or_false] at hn
      rcases hn with rfl | rfl <;> decide)).1.trans
  (C11_gradient_batch_independent Build.sample (fun _ _ => 9) sampleGradientConn 2 3 48
    sampleDeltas [3] (by decide) (by decide)
    (fun j i => Nat.mod_lt _ (by decide)) rfl
    (fun n hn => by
      simp only [List.mem_singleton] at hn
      rw [hn]
      decide)).1.symm

/-! ## Tight: inactive streams do not influence decoding -/

theorem streamsAgree_refl (c : Conn) : StreamsAgree c c := ⟨c.zlibStream, rfl, fun _ _ => rfl⟩

theorem readFromServer_ws (c : Conn) (z : Nat → ZStream) (a : Nat → Bool) (n : Nat) :
    readFromServer (c.withZ z a) n =
      (readFromServer c n).map (fun p => (p.1, p.2.withZ z a)) := by
  unfold readFromServer
  split <;> rename_i h
  · rw [if_pos (by exact h)]
    rfl
  · rw [if_neg (by exact h)]
    rfl

theorem initFilterCopy_ws (c : Conn) (z : Nat → ZStream) (a : Nat → Bool) (rw : Nat) :
    initFilterCopy (c.withZ z a) rw =
      ((initFilterCopy c rw).1, (initFilterCopy c rw).2.withZ z a) := rfl

theorem initFilterGradient_ws (c : Conn) (z : Nat → ZStream) (a : Nat → Bool) (rw : Nat) :
    initFilterGradient (c.withZ z a) rw =
      ((initFilterGradient c rw).1, (initFilterGradient c rw).2.withZ z a) := rfl

theorem initFilterPalette_ws (c : Conn) (z : Nat → ZStream) (a : Nat → Bool) (rw : Nat) :
    initFilterPalette (c.withZ z a) rw =
      ((initFilterPalette c rw).1, (initFilterPalette c rw).2.withZ z a) := by
  unfold initFilterPalette
  dsimp only
  have e1 := readFromServer_ws { c with rectWidth := rw } z a 1
  change readFromServer { c.withZ z a with rectWidth := rw } 1 = _ at e1
  rw [e1]
  cases h1 : readFromServer { c with rectWidth := rw } 1 with
  | none => rfl
  | some p =>
    dsimp only [Option.map]
    by_cases h2 : (p.1.getD 0 0 % 256 + 1) % 65536 < 2
    · rw [if_pos (by exact h2), if_pos (by exact h2)]
      rfl
    · rw [if_neg (by exact h2), if_neg (by exact h2)]
      have e2 := readFromServer_ws { p.2 with rectColors := (p.1.getD 0 0 % 256 + 1) % 65536 } z a
        ((p.1.getD 0 0 % 256 + 1) % 65536 * 4)
      change readFromServer
        { p.2.withZ z a with rectColors := (p.1.getD 0 0 % 256 + 1) % 65536 }
        ((p.1.getD 0 0 % 256 + 1) % 65536 * 4) = _ at e2
      rw [e2]
      cases h3 : readFromServer { p.2 with rectColors := (p.1.getD 0 0 % 256 + 1) % 65536 }
        ((p.1.getD 0 0 % 256 + 1) % 65536 * 4) with
      | none => rfl
      | some q => rfl

theorem applyFilter_ws (B : Build) (E : Ext) (f : TightFilter) (c : Conn) (z : Nat → ZStream) (a : Nat → Bool)
    (num_rows dstOff : Nat) :
    applyFilter B E f (c.withZ z a) num_rows dstOff =
      (applyFilter B E f c num_rows dstOff).withZ z a := by
  cases f
  · rfl
  · unfold applyFilter filterPalette
    dsimp only
    by_cases h : c.rectColors = 2
    · rw [if_pos (by exact h), if_pos h]
      rfl
    · rw [if_neg (by exact h), if_neg h]
      rfl
  · rfl

theorem readCompactLen_ws (c : Conn) (z : Nat → ZStream) (a : Nat → Bool) :
    readCompactLen (c.withZ z a) =
      ((readCompactLen c).1, (readCompactLen c).2.withZ z a) := by
  unfold readCompactLen
  rw [readFromServer_ws]
  cases h1 : readFromServer c 1 with
  | none => rfl
  | some p =>
    dsimp only [Option.map]
    by_cases h2 : p.1.getD 0 0 % 256 < 128
    · rw [if_pos h2, if_pos h2]
    · rw [if_neg h2, if_neg h2, readFromServer_ws]
      cases h3 : readFromServer p.2 1 with
      | none => rfl
      | some q =>
        dsimp only [Option.map]
        by_cases h4 : q.1.getD 0 0 % 256 < 128
        · rw [if_pos h4, if_pos h4]
        · rw [if_neg h4, if_neg h4, readFromServer_ws]
          cases h5 : readFromServer q.2 1 with
          | none => rfl
          | some r => rfl

theorem act_ws (c : Conn) (z : Nat → ZStream) (a : Nat → Bool) (m : Action) :
    (c.withZ z a).act m = (c.act m).withZ z a := rfl

theorem forLoop_ws (z : Nat → ZStream) (a : Nat → Bool) (body : Nat → Conn → Conn)
    (hbody : ∀ i c, body i (c.withZ z a) = (body i c).withZ z a) (n : Nat) (c : Conn) :
    forLoop n body (c.withZ z a) = (forLoop n body c).withZ z a := by
  induction n with
  | zero => rfl
  | succ n ih =>
    show body n (forLoop n body (c.withZ z a)) = (body n (forLoop n body c)).withZ z a
    rw [ih, hbody]

theorem decompressJpegRect_ws (B : Build) (E : Ext) (c : Conn) (z : Nat → ZStream)
    (a : Nat → Bool) (x y w h : Nat) :
    decompressJpegRect B E (c.withZ z a) x y w h =
      ((decompressJpegRect B E c x y w h).1, (decompressJpegRect B E c x y w h).2.withZ z a) := by
  unfold decompressJpegRect
  rw [readCompactLen_ws]
  dsimp only
  by_cases h1 : toInt32 (readCompactLen c).1 ≤ 0
  · rw [if_pos h1, if_pos h1]
    rfl
  · rw [if_neg h1, if_neg h1, readFromServer_ws]
    cases h2 : readFromServer (readCompactLen c).2 (toInt32 (readCompactLen c).1).toNat with
    | none => rfl
    | some p =>
      dsimp only [Option.map]
      by_cases h3 : (E.jpeg p.1).output_width ≠ w ∨ (E.jpeg p.1).output_height ≠ h ∨
          (E.jpeg p.1).output_components ≠ 3
      · rw [if_pos h3, if_pos h3]
        rfl
      · rw [if_neg h3, if_neg h3]
        unfold jpegScanlines
        rw [forLoop_ws z a _ (fun i c => rfl)]

theorem withZ_self (c : Conn) : c.withZ c.zlibStream c.zlibStreamActive = c := rfl

theorem mixStreams_self (sid : Nat) (z : Nat → ZStream) (c : Conn) :
    mixStreams sid z c sid = c.zlibStream sid := by
  unfold mixStreams
  rw [if_pos rfl]

theorem mixStreams_congr (sid : Nat) (z : Nat → ZStream) (c c' : Conn)
    (h : c'.zlibStream sid = c.zlibStream sid) : mixStreams sid z c' = mixStreams sid z c := by
  unfold mixStreams
  rw [h]

theorem applyFilter_zlibStream (B : Build) (E : Ext) (f : TightFilter) (c : Conn)
    (num_rows dstOff : Nat) :
    (applyFilter B E f c num_rows dstOff).zlibStream = c.zlibStream ∧
      (applyFilter B E f c num_rows dstOff).zlibStreamActive = c.zlibStreamActive := by
  have h := applyFilter_ws B E f c c.zlibStream c.zlibStreamActive num_rows dstOff
  rw [withZ_self] at h
  constructor
  · conv_lhs => rw [h]
    rfl
  · conv_lhs => rw [h]
    rfl

theorem tightInflateLoop_succ (B : Build) (E : Ext) (f : TightFilter)
    (rx ry rw sid row_size buffer_size fuel : Nat) (st : TightLoop) (input : List Nat) :
    tightInflateLoop B E f rx ry rw sid row_size buffer_size (fuel + 1) st input =
      if (tightInflateCall E sid buffer_size st input).1.ret = Z_BUF_ERROR then
        some (true, { st with c := (tightInflateCall E sid buffer_size st input).2 })
      else if (tightInflateCall E sid buffer_size st input).1.ret ≠ Z_OK ∧
          (tightInflateCall E sid buffer_size st input).1.ret ≠ Z_STREAM_END then
        some (false, { st with
          c := (tightInflateCall E sid buffer_size st input).2.act
            (.qCritical .tightInflateError) })
      else if buffer_size - st.extra_bytes -
          (tightInflateCall E sid buffer_size st input).1.out.length = 0 then
        tightInflateLoop B E f rx ry rw sid row_size buffer_size fuel
          (tightInflateRows B E f rx ry rw row_size buffer_size st
            (tightInflateCall E sid buffer_size st input).2
            (buffer_size - st.extra_bytes -
              (tightInflateCall E sid buffer_size st input).1.out.length))
          (input.drop (tightInflateCall E sid buffer_size st input).1.consumed)
      else
        some (true, tightInflateRows B E f rx ry rw row_size buffer_size st
          (tightInflateCall E sid buffer_size st input).2
          (buffer_size - st.extra_bytes -
            (tightInflateCall E sid buffer_size st input).1.out.length)) := by
  rw [tightInflateLoop]
  rfl

theorem tightReadLoop_eq (B : Build) (E : Ext) (f : TightFilter)
    (rx ry rw sid row_size buffer_size fuel : Nat) (st : TightLoop) :
    tightReadLoop B E f rx ry rw sid row_size buffer_size fuel st =
      if st.compressed_len = 0 then some (true, st)
      else match fuel with
        | 0 => none
        | fuel + 1 =>
          match readFromServer st.c
              (if st.compressed_len > B.ZLIB_BUFFER_SIZE then B.ZLIB_BUFFER_SIZE
               else st.compressed_len) with
          | none => some (false, st)
          | some p =>
            match tightInflateLoop B E f rx ry rw sid row_size buffer_size fuel
                (tightReadState st p
                  (if st.compressed_len > B.ZLIB_BUFFER_SIZE then B.ZLIB_BUFFER_SIZE
                   else st.compressed_len)) p.1 with
            | none => none
            | some (false, st2) => some (false, st2)
            | some (true, st2) =>
              tightReadLoop B E f rx ry rw sid row_size buffer_size fuel st2 := by
  cases fuel with
  | zero =>
    rw [tightReadLoop]
  | succ fuel =>
    rw [tightReadLoop]
    split
    · rfl
    · dsimp only
      split
      · rename_i h
        rw [h]
      · rename_i bs c1 h
        rw [h]
        rfl

theorem tightInflateCall_ws (E : Ext) (sid buffer_size : Nat) (st : TightLoop)
    (input : List Nat) (z : Nat → ZStream) (a : Nat → Bool) :
    tightInflateCall E sid buffer_size
        { st with c := st.c.withZ (mixStreams sid z st.c) a } input =
      ((tightInflateCall E sid buffer_size st input).1,
        (tightInflateCall E sid buffer_size st input).2.withZ
          (mixStreams sid z (tightInflateCall E sid buffer_size st input).2) a) := by
  have hm : ∀ l : ZStream,
      (fun i => if i = sid then l else mixStreams sid z st.c i) =
        mixStreams sid z
          { st.c with
            zlibStream := fun i => if i = sid then l else st.c.zlibStream i
            buffer := writeBytes st.c.buffer st.extra_bytes
              (E.inflateBounded (st.c.zlibStream sid) input
                (buffer_size - st.extra_bytes)).out } := by
    intro l
    funext i
    unfold mixStreams
    by_cases h : i = sid
    · simp [h]
    · simp [h]
  unfold tightInflateCall
  dsimp only [Conn.withZ]
  rw [mixStreams_self, hm]

theorem tightInflateRows_stream (B : Build) (E : Ext) (f : TightFilter)
    (rx ry rw row_size buffer_size : Nat) (st : TightLoop) (c1 : Conn) (avail_out : Nat) :
    (tightInflateRows B E f rx ry rw row_size buffer_size st c1 avail_out).c.zlibStream
        = c1.zlibStream ∧
      (tightInflateRows B E f rx ry rw row_size buffer_size st c1 avail_out).c.zlibStreamActive
        = c1.zlibStreamActive := by
  obtain ⟨h1, h2⟩ := applyFilter_zlibStream B E f c1
    ((buffer_size - avail_out) / row_size % 65536) buffer_size
  unfold tightInflateRows
  dsimp only
  constructor
  · split <;> split <;> exact h1
  · split <;> split <;> exact h2

theorem tightInflateRows_ws (B : Build) (E : Ext) (f : TightFilter)
    (rx ry rw sid row_size buffer_size : Nat) (st : TightLoop) (c1 : Conn) (avail_out : Nat)
    (z : Nat → ZStream) (a : Nat → Bool) (cz : Conn) :
    tightInflateRows B E f rx ry rw row_size buffer_size
        { st with c := cz } (c1.withZ (mixStreams sid z c1) a) avail_out =
      { tightInflateRows B E f rx ry rw row_size buffer_size st c1 avail_out with
        c := (tightInflateRows B E f rx ry rw row_size buffer_size st c1 avail_out).c.withZ
          (mixStreams sid z
            (tightInflateRows B E f rx ry rw row_size buffer_size st c1 avail_out).c) a } := by
  have hs := (tightInflateRows_stream B E f rx ry rw row_size buffer_size st c1 avail_out).1
  rw [mixStreams_congr sid z c1
    (tightInflateRows B E f rx ry rw row_size buffer_size st c1 avail_out).c (by rw [hs])]
  unfold tightInflateRows
  dsimp only
  rw [applyFilter_ws]
  by_cases h1 : buffer_size - avail_out -
      (buffer_size - avail_out) / row_size % 65536 * row_size > 0 <;>
    by_cases h2 : (buffer_size - avail_out) / row_size % 65536 > 0 <;>
    simp only [h1, h2, if_true, if_false] <;> rfl

theorem tightInflateLoop_ws (B : Build) (E : Ext) (f : TightFilter)
    (rx ry rw sid row_size buffer_size : Nat) (z : Nat → ZStream) (a : Nat → Bool) :
    ∀ (fuel : Nat) (st : TightLoop) (input : List Nat),
      tightInflateLoop B E f rx ry rw sid row_size buffer_size fuel
          { st with c := st.c.withZ (mixStreams sid z st.c) a } input =
        (tightInflateLoop B E f rx ry rw sid row_size buffer_size fuel st input).map
          (fun r => (r.1, { r.2 with c := r.2.c.withZ (mixStreams sid z r.2.c) a })) := by
  intro fuel
  induction fuel with
  | zero =>
    intro st input
    rfl
  | succ fuel ih =>
    intro st input
    rw [tightInflateLoop_succ, tightInflateLoop_succ, tightInflateCall_ws]
    dsimp only
    by_cases h1 : (tightInflateCall E sid buffer_size st input).1.ret = Z_BUF_ERROR
    · rw [if_pos h1, if_pos h1]
      rfl
    · rw [if_neg h1, if_neg h1]
      by_cases h2 : (tightInflateCall E sid buffer_size st input).1.ret ≠ Z_OK ∧
          (tightInflateCall E sid buffer_size st input).1.ret ≠ Z_STREAM_END
      · rw [if_pos h2, if_pos h2]
        rfl
      · rw [if_neg h2, if_neg h2]
        by_cases h3 : buffer_size - st.extra_bytes -
            (tightInflateCall E sid buffer_size st input).1.out.length = 0
        · rw [if_pos h3, if_pos h3, tightInflateRows_ws, ih]
        · rw [if_neg h3, if_neg h3, tightInflateRows_ws]
          rfl

theorem tightReadLoop_ws (B : Build) (E : Ext) (f : TightFilter)
    (rx ry rw sid row_size buffer_size : Nat) (z : Nat → ZStream) (a : Nat → Bool) :
    ∀ (fuel : Nat) (st : TightLoop),
      tightReadLoop B E f rx ry rw sid row_size buffer_size fuel
          { st with c := st.c.withZ (mixStreams sid z st.c) a } =
        (tightReadLoop B E f rx ry rw sid row_size buffer_size fuel st).map
          (fun r => (r.1, { r.2 with c := r.2.c.withZ (mixStreams sid z r.2.c) a })) := by
  intro fuel
  induction fuel with
  | zero =>
    intro st
    rw [tightReadLoop_eq, tightReadLoop_eq]
    dsimp only
    split <;> rfl
  | succ fuel ih =>
    intro st
    rw [tightReadLoop_eq, tightReadLoop_eq B E f rx ry rw sid row_size buffer_size (fuel + 1) st]
    dsimp only
    by_cases h0 : st.compressed_len = 0
    · rw [if_pos h0, if_pos h0]
      rfl
    · rw [if_neg h0, if_neg h0, readFromServer_ws]
      cases hr : readFromServer st.c
          (if st.compressed_len > B.ZLIB_BUFFER_SIZE then B.ZLIB_BUFFER_SIZE
           else st.compressed_len) with
      | none => rfl
      | some p =>
        dsimp only [Option.map]
        have e : tightReadState
            { c := st.c.withZ (mixStreams sid z st.c) a, compressed_len := st.compressed_len,
              rows_processed := st.rows_processed, extra_bytes := st.extra_bytes }
            (p.1, p.2.withZ (mixStreams sid z st.c) a)
            (if st.compressed_len > B.ZLIB_BUFFER_SIZE then B.ZLIB_BUFFER_SIZE
             else st.compressed_len) =
            { tightReadState st p
                (if st.compressed_len > B.ZLIB_BUFFER_SIZE then B.ZLIB_BUFFER_SIZE
                 else st.compressed_len) with
              c := (tightReadState st p
                (if st.compressed_len > B.ZLIB_BUFFER_SIZE then B.ZLIB_BUFFER_SIZE
                 else st.compressed_len)).c.withZ
                  (mixStreams sid z (tightReadState st p
                    (if st.compressed_len > B.ZLIB_BUFFER_SIZE then B.ZLIB_BUFFER_SIZE
                     else st.compressed_len)).c) a } := by
          have hp := readFromServer_some _ _ _ _ (show readFromServer st.c _ = some (p.1, p.2) from hr)
          have : mixStreams sid z (tightReadState st p
              (if st.compressed_len > B.ZLIB_BUFFER_SIZE then B.ZLIB_BUFFER_SIZE
               else st.compressed_len)).c = mixStreams sid z st.c := by
            apply mixStreams_congr
            show p.2.zlibStream sid = st.c.zlibStream sid
            rw [hp]
          rw [this]
          rfl
        rw [e, tightInflateLoop_ws]
        cases hl : tightInflateLoop B E f rx ry rw sid row_size buffer_size fuel
            (tightReadState st p
              (if st.compressed_len > B.ZLIB_BUFFER_SIZE then B.ZLIB_BUFFER_SIZE
               else st.compressed_len)) p.1 with
        | none => rfl
        | some r =>
          obtain ⟨b, st2⟩ := r
          cases b with
          | false => rfl
          | true =>
            dsimp only [Option.map]
            rw [ih]
            cases tightReadLoop B E f rx ry rw sid row_size buffer_size fuel st2 <;> rfl

theorem tightData_eq (B : Build) (E : Ext) (fuel rx ry rw rh comp_ctl : Nat)
    (f : TightFilter) (bits_pixel : Nat) (c4 : Conn) :
    tightData B E fuel rx ry rw rh comp_ctl f bits_pixel c4 =
      if bits_pixel = 0 then some (false, c4.act (.qCritical .tightPaletteError))
      else if rh * ((rw * bits_pixel + 7) / 8 % 65536) < TIGHT_MIN_TO_COMPRESS then
        match readFromServer c4 (rh * ((rw * bits_pixel + 7) / 8 % 65536)) with
        | none => some (false, c4)
        | some p =>
          some (true,
            { applyFilter B E f { p.2 with buffer := writeBytes p.2.buffer 0 p.1 } rh
                (TIGHT_MIN_TO_COMPRESS * 4) with
              screen :=
                (applyFilter B E f { p.2 with buffer := writeBytes p.2.buffer 0 p.1 } rh
                  (TIGHT_MIN_TO_COMPRESS * 4)).screen.copyRect rx ry rw rh
                  (bufferWords B.WORDS_BIGENDIAN
                    (applyFilter B E f { p.2 with buffer := writeBytes p.2.buffer 0 p.1 } rh
                      (TIGHT_MIN_TO_COMPRESS * 4)).buffer (TIGHT_MIN_TO_COMPRESS * 4)) })
      else if toInt32 (readCompactLen c4).1 ≤ 0 then
        some (false, (readCompactLen c4).2.act (.qCritical .tightIncorrectData))
      else
        match tightStreamInit E (comp_ctl &&& 3) (readCompactLen c4).2 with
        | none =>
          some (false,
            if E.inflateInit.2 = true then
              (readCompactLen c4).2.act (.qCritical .tightInflateInitError)
            else (readCompactLen c4).2)
        | some c6 =>
          if (rw * bits_pixel + 7) / 8 % 65536 >
              (B.BUFFER_SIZE * bits_pixel / (bits_pixel + 32)) &&& 4294967292 then
            some (false, c6.act (.qCritical .tightBufferSize))
          else
            match tightReadLoop B E f rx ry rw (comp_ctl &&& 3)
                ((rw * bits_pixel + 7) / 8 % 65536)
                ((B.BUFFER_SIZE * bits_pixel / (bits_pixel + 32)) &&& 4294967292) fuel
                { c := c6, compressed_len := (toInt32 (readCompactLen c4).1).toNat,
                  rows_processed := 0, extra_bytes := 0 } with
            | none => none
            | some (false, st) => some (false, st.c)
            | some (true, st) =>
              if st.rows_processed ≠ rh then
                some (false, st.c.act (.qCritical .tightScanLines))
              else some (true, st.c) := by
  unfold tightData tightStreamInit
  dsimp only
  split
  · rfl
  · split
    · split
      · rename_i h
        rw [h]
      · rename_i bs c5 h
        rw [h]
    · rfl

theorem mixStreams_id (sid : Nat) (c : Conn) : mixStreams sid c.zlibStream c = c.zlibStream := by
  funext i
  unfold mixStreams
  split
  · rename_i h
    rw [h]
  · rfl

theorem mixStreams_of_eq (sid : Nat) (z : Nat → ZStream) (c : Conn)
    (h : z sid = c.zlibStream sid) : mixStreams sid z c = z := by
  funext i
  unfold mixStreams
  split
  · rename_i hi
    rw [hi, h]
  · rfl

theorem mixFlags_of_eq (sid : Nat) (a : Nat → Bool) (c : Conn)
    (h : a sid = c.zlibStreamActive sid) : mixFlags sid a c = a := by
  funext i
  unfold mixFlags
  split
  · rename_i hi
    rw [hi, h]
  · rfl

theorem mixFlags_congr (sid : Nat) (a : Nat → Bool) (c c' : Conn)
    (h : c'.zlibStreamActive sid = c.zlibStreamActive sid) :
    mixFlags sid a c' = mixFlags sid a c := by
  unfold mixFlags
  rw [h]

theorem StreamRel.base (sid : Nat) (z : Nat → ZStream) (a : Nat → Bool) (d : Conn)
    (ha : a sid = d.zlibStreamActive sid)
    (hz : d.zlibStreamActive sid = true → z sid = d.zlibStream sid) :
    StreamRel sid z a d (d.withZ z a) := by
  refine ⟨z sid, ?_, hz⟩
  rw [mixFlags_of_eq sid a d ha]
  congr 1
  funext i
  split
  · rename_i h
    rw [h]
  · rfl

theorem StreamRel.mix (sid : Nat) (z : Nat → ZStream) (a : Nat → Bool) (d : Conn) :
    StreamRel sid z a d (d.withZ (mixStreams sid z d) (mixFlags sid a d)) :=
  ⟨d.zlibStream sid, rfl, fun _ => rfl⟩

theorem readCompactLen_zlibStream (c : Conn) :
    (readCompactLen c).2.zlibStream = c.zlibStream ∧
      (readCompactLen c).2.zlibStreamActive = c.zlibStreamActive := by
  have h := readCompactLen_ws c c.zlibStream c.zlibStreamActive
  rw [withZ_self] at h
  have h2 := congrArg Prod.snd h
  dsimp only at h2
  constructor
  · conv_lhs => rw [h2]
    rfl
  · conv_lhs => rw [h2]
    rfl

theorem tightReadLoop_frame (B : Build) (E : Ext) (f : TightFilter)
    (rx ry rw sid row_size buffer_size fuel : Nat) (st : TightLoop) (b : Bool) (st' : TightLoop)
    (h : tightReadLoop B E f rx ry rw sid row_size buffer_size fuel st = some (b, st')) :
    st'.c.zlibStreamActive = st.c.zlibStreamActive ∧
      ∀ i, i ≠ sid → st'.c.zlibStream i = st.c.zlibStream i := by
  have hw := tightReadLoop_ws B E f rx ry rw sid row_size buffer_size st.c.zlibStream
    st.c.zlibStreamActive fuel st
  rw [mixStreams_id, withZ_self] at hw
  change tightReadLoop B E f rx ry rw sid row_size buffer_size fuel st = _ at hw
  rw [h] at hw
  simp only [Option.map, Option.some.injEq, Prod.mk.injEq, true_and] at hw
  have hc := congrArg TightLoop.c hw
  dsimp only at hc
  constructor
  · conv_lhs => rw [hc]
    rfl
  · intro i hi
    conv_lhs => rw [hc]
    show mixStreams sid st.c.zlibStream st'.c i = _
    unfold mixStreams
    rw [if_neg hi]

theorem tightStreamInit_ws (E : Ext) (sid : Nat) (c5 : Conn) (z : Nat → ZStream)
    (a : Nat → Bool) (ha : a sid = c5.zlibStreamActive sid)
    (hz : c5.zlibStreamActive sid = true → z sid = c5.zlibStream sid) :
    tightStreamInit E sid (c5.withZ z a) =
      (tightStreamInit E sid c5).map
        (fun c6 => c6.withZ (mixStreams sid z c6) (mixFlags sid a c6)) := by
  unfold tightStreamInit
  by_cases h : c5.zlibStreamActive sid = true
  · have h' : (c5.withZ z a).zlibStreamActive sid = true := by
      show a sid = true
      rw [ha, h]
    rw [if_pos h, if_pos h']
    show some (c5.withZ z a) = some (c5.withZ (mixStreams sid z c5) (mixFlags sid a c5))
    rw [mixStreams_of_eq sid z c5 (hz h), mixFlags_of_eq sid a c5 ha]
  · have h' : ¬ (c5.withZ z a).zlibStreamActive sid = true := by
      show ¬ a sid = true
      rw [ha]
      exact h
    rw [if_neg h, if_neg h']
    by_cases hi : E.inflateInit.1 ≠ Z_OK
    · rw [if_pos hi, if_pos hi]
      rfl
    · rw [if_neg hi, if_neg hi]
      simp only [Option.map, Option.some.injEq]
      unfold Conn.withZ mixStreams mixFlags
      simp only [if_true, Conn.mk.injEq, true_and, and_true]

theorem tightData_rel (B : Build) (E : Ext) (fuel rx ry rw rh comp_ctl : Nat)
    (f : TightFilter) (bits_pixel : Nat) (c4 : Conn) (z : Nat → ZStream) (a : Nat → Bool)
    (ha : a (comp_ctl &&& 3) = c4.zlibStreamActive (comp_ctl &&& 3))
    (hz : c4.zlibStreamActive (comp_ctl &&& 3) = true →
      z (comp_ctl &&& 3) = c4.zlibStream (comp_ctl &&& 3)) :
    match tightData B E fuel rx ry rw rh comp_ctl f bits_pixel c4,
      tightData B E fuel rx ry rw rh comp_ctl f bits_pixel (c4.withZ z a) with
    | none, none => True
    | some r1, some r2 => r1.1 = r2.1 ∧ StreamRel (comp_ctl &&& 3) z a r1.2 r2.2
    | _, _ => False := by
  rw [tightData_eq, tightData_eq B E fuel rx ry rw rh comp_ctl f bits_pixel (c4.withZ z a)]
  by_cases h0 : bits_pixel = 0
  · rw [if_pos h0, if_pos h0]
    exact ⟨rfl, StreamRel.base _ z a (c4.act _) ha hz⟩
  rw [if_neg h0, if_neg h0]
  by_cases h1 : rh * ((rw * bits_pixel + 7) / 8 % 65536) < TIGHT_MIN_TO_COMPRESS
  · rw [if_pos h1, if_pos h1, readFromServer_ws]
    cases hr : readFromServer c4 (rh * ((rw * bits_pixel + 7) / 8 % 65536)) with
    | none => exact ⟨rfl, StreamRel.base _ z a c4 ha hz⟩
    | some p =>
      have hp := readFromServer_some _ _ _ _ (show readFromServer c4 _ = some (p.1, p.2) from hr)
      obtain ⟨f1, f2⟩ := applyFilter_zlibStream B E f
        { p.2 with buffer := writeBytes p.2.buffer 0 p.1 } rh (TIGHT_MIN_TO_COMPRESS * 4)
      have g1 : p.2.zlibStream = c4.zlibStream := by rw [hp]
      have g2 : p.2.zlibStreamActive = c4.zlibStreamActive := by rw [hp]
      dsimp only [Option.map]
      refine ⟨rfl, ?_⟩
      have e : ({ p.2.withZ z a with buffer := writeBytes (p.2.withZ z a).buffer 0 p.1 } : Conn) =
          ({ p.2 with buffer := writeBytes p.2.buffer 0 p.1 } : Conn).withZ z a := rfl
      rw [e, applyFilter_ws]
      exact StreamRel.base _ z a _
        (by
          show a _ = (applyFilter B E f _ rh _).zlibStreamActive _
          rw [f2]
          show a _ = p.2.zlibStreamActive _
          rw [g2, ha])
        (by
          show (applyFilter B E f _ rh _).zlibStreamActive _ = true →
            z _ = (applyFilter B E f _ rh _).zlibStream _
          rw [f1, f2]
          show p.2.zlibStreamActive _ = true → z _ = p.2.zlibStream _
          rw [g1, g2]
          exact hz)
  rw [if_neg h1, if_neg h1, readCompactLen_ws]
  obtain ⟨k1, k2⟩ := readCompactLen_zlibStream c4
  have ha5 : a (comp_ctl &&& 3) = (readCompactLen c4).2.zlibStreamActive (comp_ctl &&& 3) := by
    rw [k2, ha]
  have hz5 : (readCompactLen c4).2.zlibStreamActive (comp_ctl &&& 3) = true →
      z (comp_ctl &&& 3) = (readCompactLen c4).2.zlibStream (comp_ctl &&& 3) := by
    rw [k1, k2]
    exact hz
  dsimp only
  by_cases h2 : toInt32 (readCompactLen c4).1 ≤ 0
  · rw [if_pos h2, if_pos h2]
    exact ⟨rfl, StreamRel.base _ z a ((readCompactLen c4).2.act _) ha5 hz5⟩
  rw [if_neg h2, if_neg h2, tightStreamInit_ws E _ _ z a ha5 hz5]
  cases hi : tightStreamInit E (comp_ctl &&& 3) (readCompactLen c4).2 with
  | none =>
    dsimp only [Option.map]
    refine ⟨rfl, ?_⟩
    by_cases hm : E.inflateInit.2 = true
    · rw [if_pos hm, if_pos hm]
      exact StreamRel.base _ z a ((readCompactLen c4).2.act _) ha5 hz5
    · rw [if_neg hm, if_neg hm]
      exact StreamRel.base _ z a _ ha5 hz5
  | some c6 =>
    dsimp only [Option.map]
    by_cases h3 : (rw * bits_pixel + 7) / 8 % 65536 >
        (B.BUFFER_SIZE * bits_pixel / (bits_pixel + 32)) &&& 4294967292
    · rw [if_pos h3, if_pos h3]
      exact ⟨rfl, StreamRel.mix _ z a (c6.act _)⟩
    rw [if_neg h3, if_neg h3]
    have hl := tightReadLoop_ws B E f rx ry rw (comp_ctl &&& 3)
      ((rw * bits_pixel + 7) / 8 % 65536)
      ((B.BUFFER_SIZE * bits_pixel / (bits_pixel + 32)) &&& 4294967292) z
      (mixFlags (comp_ctl &&& 3) a c6) fuel
      { c := c6, compressed_len := (toInt32 (readCompactLen c4).1).toNat,
        rows_processed := 0, extra_bytes := 0 }
    dsimp only at hl
    rw [hl]
    cases hrun : tightReadLoop B E f rx ry rw (comp_ctl &&& 3)
      ((rw * bits_pixel + 7) / 8 % 65536)
      ((B.BUFFER_SIZE * bits_pixel / (bits_pixel + 32)) &&& 4294967292) fuel
      { c := c6, compressed_len := (toInt32 (readCompactLen c4).1).toNat,
        rows_processed := 0, extra_bytes := 0 } with
    | none => trivial
    | some r =>
      obtain ⟨b, st⟩ := r
      obtain ⟨q1, _⟩ := tightReadLoop_frame _ _ _ _ _ _ _ _ _ _ _ _ _ hrun
      have hq : mixFlags (comp_ctl &&& 3) a c6 = mixFlags (comp_ctl &&& 3) a st.c :=
        (mixFlags_congr _ a c6 st.c (by rw [q1])).symm
      dsimp only [Option.map]
      rw [hq]
      cases b with
      | false => exact ⟨rfl, StreamRel.mix _ z a st.c⟩
      | true =>
        dsimp only
        by_cases h4 : st.rows_processed ≠ rh
        · rw [if_pos h4, if_pos h4]
          exact ⟨rfl, StreamRel.mix _ z a (st.c.act _)⟩
        · rw [if_neg h4, if_neg h4]
          exact ⟨rfl, StreamRel.mix _ z a st.c⟩

theorem tightResetStep_active (E : Ext) (k : Nat) (st : Conn × Nat) (i : Nat) :
    (tightResetStep E k st).1.zlibStreamActive i =
      if i = k ∧ st.2 % 2 = 1 then false else st.1.zlibStreamActive i := by
  unfold tightResetStep
  dsimp only
  by_cases h : st.2 % 2 = 1 ∧ st.1.zlibStreamActive k = true
  · rw [if_pos h]
    have key : ∀ c0 : Conn, c0.zlibStreamActive = st.1.zlibStreamActive →
        ({ c0 with zlibStreamActive := fun i => if i = k then false
                                               else c0.zlibStreamActive i } : Conn).zlibStreamActive i
          = if i = k ∧ st.2 % 2 = 1 then false else st.1.zlibStreamActive i := by
      intro c0 hc0
      show (if i = k then false else c0.zlibStreamActive i) = _
      rw [hc0]
      by_cases hi : i = k
      · simp [hi, h.1]
      · simp [hi]
    by_cases h2 : (E.inflateEnd (st.1.zlibStream k)).1 ≠ Z_OK ∧
        (E.inflateEnd (st.1.zlibStream k)).2 = true
    · rw [if_pos h2]
      exact key _ rfl
    · rw [if_neg h2]
      exact key _ rfl
  · rw [if_neg h]
    by_cases hi : i = k ∧ st.2 % 2 = 1
    · rw [if_pos hi, hi.1]
      have : ¬ st.1.zlibStreamActive k = true := fun hh => h ⟨hi.2, hh⟩
      simpa using this
    · rw [if_neg hi]

theorem tightResetStep_zlibStream (E : Ext) (k : Nat) (st : Conn × Nat) :
    (tightResetStep E k st).1.zlibStream = st.1.zlibStream := by
  rw [tightResetStep_fst]

theorem tightResetStep_ws (E : Ext) (k : Nat) (c : Conn) (cc : Nat) (z : Nat → ZStream)
    (hz : ∀ i, c.zlibStreamActive i = true → z i = c.zlibStream i) :
    tightResetStep E k (c.withZ z c.zlibStreamActive, cc) =
      ((tightResetStep E k (c, cc)).1.withZ z (tightResetStep E k (c, cc)).1.zlibStreamActive,
        (tightResetStep E k (c, cc)).2) := by
  unfold tightResetStep
  dsimp only
  by_cases h : cc % 2 = 1 ∧ c.zlibStreamActive k = true
  · have h' : cc % 2 = 1 ∧ (c.withZ z c.zlibStreamActive).zlibStreamActive k = true := h
    rw [if_pos h, if_pos h']
    have e : (c.withZ z c.zlibStreamActive).zlibStream k = c.zlibStream k := hz k h.2
    rw [e]
    by_cases h2 : (E.inflateEnd (c.zlibStream k)).1 ≠ Z_OK ∧ (E.inflateEnd (c.zlibStream k)).2 = true
    · rw [if_pos h2, if_pos h2]
      rfl
    · rw [if_neg h2, if_neg h2]
      rfl
  · have h' : ¬ (cc % 2 = 1 ∧ (c.withZ z c.zlibStreamActive).zlibStreamActive k = true) := h
    rw [if_neg h, if_neg h']

theorem tightResetStep_agree (E : Ext) (k : Nat) (c : Conn) (cc : Nat) (z : Nat → ZStream)
    (hz : ∀ i, c.zlibStreamActive i = true → z i = c.zlibStream i) (i : Nat)
    (hi : (tightResetStep E k (c, cc)).1.zlibStreamActive i = true) :
    z i = (tightResetStep E k (c, cc)).1.zlibStream i := by
  rw [tightResetStep_zlibStream]
  rw [tightResetStep_active] at hi
  split at hi
  · exact absurd hi (by simp)
  · exact hz i hi

theorem tightResetStreams_ws (E : Ext) (c : Conn) (cb : Nat) (z : Nat → ZStream)
    (hz : ∀ i, c.zlibStreamActive i = true → z i = c.zlibStream i) :
    tightResetStreams E (c.withZ z c.zlibStreamActive) cb =
        ((tightResetStreams E c cb).1.withZ z (tightResetStreams E c cb).1.zlibStreamActive,
          (tightResetStreams E c cb).2) ∧
      ∀ i, (tightResetStreams E c cb).1.zlibStreamActive i = true →
        z i = (tightResetStreams E c cb).1.zlibStream i := by
  unfold tightResetStreams forLoop forLoop forLoop forLoop forLoop
  have s0 := tightResetStep_ws E 0 c cb z hz
  have a0 := tightResetStep_agree E 0 c cb z hz
  have s1 := tightResetStep_ws E 1 _ (tightResetStep E 0 (c, cb)).2 z a0
  have a1 := tightResetStep_agree E 1 _ (tightResetStep E 0 (c, cb)).2 z a0
  have s2 := tightResetStep_ws E 2 _ (tightResetStep E 1 (tightResetStep E 0 (c, cb))).2 z a1
  have a2 := tightResetStep_agree E 2 _ (tightResetStep E 1 (tightResetStep E 0 (c, cb))).2 z a1
  have s3 := tightResetStep_ws E 3 _
    (tightResetStep E 2 (tightResetStep E 1 (tightResetStep E 0 (c, cb)))).2 z a2
  have a3 := tightResetStep_agree E 3 _
    (tightResetStep E 2 (tightResetStep E 1 (tightResetStep E 0 (c, cb)))).2 z a2
  exact ⟨by rw [s0, s1, s2, s3], a3⟩

theorem tightResetStreams_active (E : Ext) (c : Conn) (cb i : Nat) :
    (tightResetStreams E c cb).1.zlibStreamActive i =
      if i < 4 ∧ cb / 2 ^ i % 2 = 1 then false else c.zlibStreamActive i := by
  unfold tightResetStreams forLoop forLoop forLoop forLoop forLoop
  rw [tightResetStep_active, tightResetStep_active, tightResetStep_active,
    tightResetStep_active]
  simp only [tightResetStep_snd]
  by_cases h0 : i = 0
  · subst h0
    simp
  by_cases h1 : i = 1
  · subst h1
    simp
  by_cases h2 : i = 2
  · subst h2
    simp [Nat.div_div_eq_div_mul]
  by_cases h3 : i = 3
  · subst h3
    simp [Nat.div_div_eq_div_mul]
  have h4 : ¬ i < 4 := by omega
  simp [h0, h1, h2, h3, h4]

theorem tightData_frame (B : Build) (E : Ext) (fuel rx ry rw rh comp_ctl : Nat)
    (f : TightFilter) (bits_pixel : Nat) (c4 : Conn) (b : Bool) (c' : Conn)
    (h : tightData B E fuel rx ry rw rh comp_ctl f bits_pixel c4 = some (b, c')) :
    ∀ i, i ≠ comp_ctl &&& 3 →
      c'.zlibStream i = c4.zlibStream i ∧ c'.zlibStreamActive i = c4.zlibStreamActive i := by
  have r := tightData_rel B E fuel rx ry rw rh comp_ctl f bits_pixel c4 c4.zlibStream
    c4.zlibStreamActive rfl (fun _ => rfl)
  rw [withZ_self, h] at r
  obtain ⟨_, l, hl, _⟩ := r
  dsimp only at hl
  intro i hi
  constructor
  · conv_lhs => rw [hl]
    show (if i = comp_ctl &&& 3 then l else c4.zlibStream i) = _
    rw [if_neg hi]
  · conv_lhs => rw [hl]
    show mixFlags (comp_ctl &&& 3) c4.zlibStreamActive c' i = _
    unfold mixFlags
    rw [if_neg hi]

theorem StreamsAgree.of_withZ (d c : Conn) (z : Nat → ZStream)
    (hf : d.zlibStreamActive = c.zlibStreamActive) (hs : d.zlibStream = c.zlibStream)
    (hz : ∀ i, c.zlibStreamActive i = true → z i = c.zlibStream i) :
    StreamsAgree d (d.withZ z c.zlibStreamActive) :=
  ⟨z, by rw [hf], by rw [hf, hs]; exact hz⟩

theorem tightData_agree (B : Build) (E : Ext) (fuel rx ry rw rh comp_ctl : Nat)
    (f : TightFilter) (bits_pixel : Nat) (c4 c4' : Conn) (hs : StreamsAgree c4 c4') :
    ResultsAgree (tightData B E fuel rx ry rw rh comp_ctl f bits_pixel c4)
      (tightData B E fuel rx ry rw rh comp_ctl f bits_pixel c4') := by
  obtain ⟨z, rfl, hz⟩ := hs
  have r := tightData_rel B E fuel rx ry rw rh comp_ctl f bits_pixel c4 z
    c4.zlibStreamActive rfl (hz _)
  cases h1 : tightData B E fuel rx ry rw rh comp_ctl f bits_pixel c4 with
  | none =>
    rw [h1] at r
    cases h2 : tightData B E fuel rx ry rw rh comp_ctl f bits_pixel
        (c4.withZ z c4.zlibStreamActive) with
    | none => trivial
    | some r2 =>
      rw [h2] at r
      exact r
  | some r1 =>
    rw [h1] at r
    cases h2 : tightData B E fuel rx ry rw rh comp_ctl f bits_pixel
        (c4.withZ z c4.zlibStreamActive) with
    | none =>
      rw [h2] at r
      exact r
    | some r2 =>
      rw [h2] at r
      obtain ⟨hb, l, hl, hact⟩ := r
      have hfr := tightData_frame B E fuel rx ry rw rh comp_ctl f bits_pixel c4 r1.1 r1.2 h1
      refine ⟨hb, fun i => if i = comp_ctl &&& 3 then l else z i, ?_, fun i hi => ?_⟩
      · rw [hl]
        congr 1
        funext i
        unfold mixFlags
        split
        · rename_i h
          rw [h]
        · rename_i h
          exact ((hfr i h).2).symm
      · dsimp only
        split
        · rename_i h
          rw [h] at hi ⊢
          exact hact hi
        · rename_i h
          rw [(hfr i h).1]
          rw [(hfr i h).2] at hi
          exact hz i hi

theorem initFilterPalette_zlibStream (c : Conn) (rw : Nat) :
    (initFilterPalette c rw).2.zlibStream = c.zlibStream ∧
      (initFilterPalette c rw).2.zlibStreamActive = c.zlibStreamActive := by
  have h := initFilterPalette_ws c c.zlibStream c.zlibStreamActive rw
  rw [withZ_self] at h
  have h2 := congrArg Prod.snd h
  dsimp only at h2
  constructor
  · conv_lhs => rw [h2]
    rfl
  · conv_lhs => rw [h2]
    rfl

theorem decompressJpegRect_zlibStream (B : Build) (E : Ext) (c : Conn) (x y w h : Nat) :
    (decompressJpegRect B E c x y w h).2.zlibStream = c.zlibStream ∧
      (decompressJpegRect B E c x y w h).2.zlibStreamActive = c.zlibStreamActive := by
  have h := decompressJpegRect_ws B E c c.zlibStream c.zlibStreamActive x y w h
  rw [withZ_self] at h
  have h2 := congrArg Prod.snd h
  dsimp only at h2
  constructor
  · conv_lhs => rw [h2]
    rfl
  · conv_lhs => rw [h2]
    rfl

theorem handleTight_agree (B : Build) (E : Ext) (fuel : Nat) (c c' : Conn) (rx ry rw rh : Nat)
    (hs : StreamsAgree c c') :
    ResultsAgree (handleTight B E fuel c rx ry rw rh) (handleTight B E fuel c' rx ry rw rh) := by
  obtain ⟨z, rfl, hz⟩ := hs
  unfold handleTight
  rw [readFromServer_ws]
  cases hr : readFromServer c 1 with
  | none => exact ⟨rfl, z, rfl, hz⟩
  | some p =>
    have hp := readFromServer_some _ _ _ _ (show readFromServer c 1 = some (p.1, p.2) from hr)
    have g1 : p.2.zlibStream = c.zlibStream := by rw [hp]
    have g2 : p.2.zlibStreamActive = c.zlibStreamActive := by rw [hp]
    have hz1 : ∀ i, p.2.zlibStreamActive i = true → z i = p.2.zlibStream i := by
      rw [g1, g2]
      exact hz
    obtain ⟨w1, w2⟩ := tightResetStreams_ws E p.2 (p.1.getD 0 0 % 256) z hz1
    dsimp only [Option.map]
    rw [← g2, w1]
    dsimp only
    obtain ⟨c2, hc2⟩ : ∃ c2, c2 = (tightResetStreams E p.2 (p.1.getD 0 0 % 256)).1 := ⟨_, rfl⟩
    obtain ⟨cc, hcc⟩ : ∃ cc, cc = (tightResetStreams E p.2 (p.1.getD 0 0 % 256)).2 := ⟨_, rfl⟩
    rw [← hc2, ← hcc]
    rw [← hc2] at w2
    clear hc2 hcc w1 hz1 g1 g2 hp hr hz
    by_cases h0 : cc = rfbTightFill
    · rw [if_pos h0, if_pos h0, readFromServer_ws]
      cases hr2 : readFromServer c2 4 with
      | none => exact ⟨rfl, z, rfl, w2⟩
      | some q =>
        have hq := readFromServer_some _ _ _ _ (show readFromServer c2 4 = some (q.1, q.2) from hr2)
        refine ⟨rfl, z, ?_, ?_⟩
        · show _ = Conn.withZ _ z q.2.zlibStreamActive
          rw [show q.2.zlibStreamActive = c2.zlibStreamActive by rw [hq]]
          rfl
        · show ∀ i, q.2.zlibStreamActive i = true → z i = q.2.zlibStream i
          rw [hq]
          exact w2
    rw [if_neg h0, if_neg h0]
    by_cases h1 : cc = rfbTightJpeg
    · rw [if_pos h1, if_pos h1]
      by_cases hj : B.HAVE_LIBJPEG = true
      · rw [if_pos hj, if_pos hj, decompressJpegRect_ws]
        obtain ⟨j1, j2⟩ := decompressJpegRect_zlibStream B E c2 rx ry rw rh
        exact ⟨rfl, StreamsAgree.of_withZ _ c2 z j2 j1 w2⟩
      · rw [if_neg hj, if_neg hj]
        exact ⟨rfl, z, rfl, w2⟩
    rw [if_neg h1, if_neg h1]
    by_cases h2 : cc > rfbTightMaxSubencoding
    · rw [if_pos h2, if_pos h2]
      exact ⟨rfl, z, rfl, w2⟩
    rw [if_neg h2, if_neg h2]
    by_cases h3 : cc &&& rfbTightExplicitFilter ≠ 0
    · rw [if_pos h3, if_pos h3, readFromServer_ws]
      cases hr3 : readFromServer c2 1 with
      | none => exact ⟨rfl, z, rfl, w2⟩
      | some q =>
        have hq := readFromServer_some _ _ _ _ (show readFromServer c2 1 = some (q.1, q.2) from hr3)
        have q1 : q.2.zlibStream = c2.zlibStream := by rw [hq]
        have q2 : q.2.zlibStreamActive = c2.zlibStreamActive := by rw [hq]
        dsimp only [Option.map]
        by_cases f0 : q.1.getD 0 0 % 256 = rfbTightFilterCopy
        · rw [if_pos f0, if_pos f0]
          exact tightData_agree B E fuel rx ry rw rh cc .copy _ _ _
            (StreamsAgree.of_withZ _ c2 z q2 q1 w2)
        rw [if_neg f0, if_neg f0]
        by_cases f1 : q.1.getD 0 0 % 256 = rfbTightFilterPalette
        · rw [if_pos f1, if_pos f1, initFilterPalette_ws]
          obtain ⟨i1, i2⟩ := initFilterPalette_zlibStream q.2 rw
          exact tightData_agree B E fuel rx ry rw rh cc .palette _ _ _
            (StreamsAgree.of_withZ _ c2 z (i2.trans q2) (i1.trans q1) w2)
        rw [if_neg f1, if_neg f1]
        by_cases f2 : q.1.getD 0 0 % 256 = rfbTightFilterGradient
        · rw [if_pos f2, if_pos f2]
          exact tightData_agree B E fuel rx ry rw rh cc .gradient _ _ _
            (StreamsAgree.of_withZ _ c2 z q2 q1 w2)
        rw [if_neg f2, if_neg f2]
        exact ⟨rfl, StreamsAgree.of_withZ _ c2 z q2 q1 w2⟩
    rw [if_neg h3, if_neg h3]
    exact tightData_agree B E fuel rx ry rw rh cc .copy _ _ _
      (StreamsAgree.of_withZ _ c2 z rfl rfl w2)

theorem tightStreamInit_active (E : Ext) (sid : Nat) (c5 c6 : Conn)
    (h : tightStreamInit E sid c5 = some c6) :
    c6.zlibStreamActive sid = true ∧ (c5.zlibStreamActive sid = false → c6.zlibStream sid = []) := by
  unfold tightStreamInit at h
  by_cases h1 : c5.zlibStreamActive sid = true
  · rw [if_pos h1] at h
    simp only [Option.some.injEq] at h
    rw [← h]
    exact ⟨h1, fun h2 => absurd h1 (by rw [h2]; simp)⟩
  · rw [if_neg h1] at h
    by_cases h2 : E.inflateInit.1 ≠ Z_OK
    · rw [if_pos h2] at h
      exact absurd h (by simp)
    · rw [if_neg h2] at h
      simp only [Option.some.injEq] at h
      rw [← h]
      exact ⟨if_pos rfl, fun _ => if_pos rfl⟩

theorem tightData_active (B : Build) (E : Ext) (fuel rx ry rw rh comp_ctl : Nat)
    (f : TightFilter) (bits_pixel : Nat) (c4 c' : Conn)
    (h : tightData B E fuel rx ry rw rh comp_ctl f bits_pixel c4 = some (true, c'))
    (hc : TIGHT_MIN_TO_COMPRESS ≤ rh * ((rw * bits_pixel + 7) / 8 % 65536)) :
    c'.zlibStreamActive (comp_ctl &&& 3) = true := by
  rw [tightData_eq] at h
  by_cases h0 : bits_pixel = 0
  · rw [if_pos h0] at h
    simp at h
  rw [if_neg h0, if_neg (by omega)] at h
  by_cases h2 : toInt32 (readCompactLen c4).1 ≤ 0
  · rw [if_pos h2] at h
    simp at h
  rw [if_neg h2] at h
  cases hi : tightStreamInit E (comp_ctl &&& 3) (readCompactLen c4).2 with
  | none =>
    rw [hi] at h
    simp at h
  | some c6 =>
    rw [hi] at h
    dsimp only at h
    by_cases h3 : (rw * bits_pixel + 7) / 8 % 65536 >
        (B.BUFFER_SIZE * bits_pixel / (bits_pixel + 32)) &&& 4294967292
    · rw [if_pos h3] at h
      simp at h
    rw [if_neg h3] at h
    cases hrun : tightReadLoop B E f rx ry rw (comp_ctl &&& 3)
      ((rw * bits_pixel + 7) / 8 % 65536)
      ((B.BUFFER_SIZE * bits_pixel / (bits_pixel + 32)) &&& 4294967292) fuel
      { c := c6, compressed_len := (toInt32 (readCompactLen c4).1).toNat,
        rows_processed := 0, extra_bytes := 0 } with
    | none =>
      rw [hrun] at h
      simp at h
    | some r =>
      obtain ⟨b, st⟩ := r
      obtain ⟨q1, _⟩ := tightReadLoop_frame _ _ _ _ _ _ _ _ _ _ _ _ _ hrun
      rw [hrun] at h
      cases b with
      | false => simp at h
      | true =>
        dsimp only at h
        by_cases h4 : st.rows_processed ≠ rh
        · rw [if_pos h4] at h
          simp at h
        · rw [if_neg h4] at h
          simp only [Option.some.injEq, Prod.mk.injEq, true_and] at h
          rw [← h, q1]
          exact (tightStreamInit_active E _ _ _ hi).1

theorem and_3 (a : Nat) : a &&& 3 = a % 4 := Nat.and_pow_two_sub_one_eq_mod a 2

theorem tightResetStreams_zlibStream (E : Ext) (c : Conn) (cb : Nat) :
    (tightResetStreams E c cb).1.zlibStream = c.zlibStream := by
  rw [tightResetStreams_fst]

theorem handleTight_streams (B : Build) (E : Ext) (fuel : Nat) (c : Conn) (rx ry rw rh : Nat)
    (cb : Nat) (rest : List Nat) (b : Bool) (c' : Conn)
    (hin : c.inbound = cb :: rest) (hcb : cb < 256)
    (h : handleTight B E fuel c rx ry rw rh = some (b, c')) :
    ∀ i, i ≠ cb / 16 % 4 →
      c'.zlibStream i = c.zlibStream i ∧
        c'.zlibStreamActive i =
          (if i < 4 ∧ cb / 2 ^ i % 2 = 1 then false else c.zlibStreamActive i) := by
  have hread := readFromServer_append c [cb] rest 1 (by simpa using hin) rfl
  unfold handleTight at h
  rw [hread] at h
  dsimp only at h
  have hmod : [cb].getD 0 0 % 256 = cb := by
    show cb % 256 = cb
    omega
  rw [hmod, tightResetStreams_snd] at h
  have hs := tightResetStreams_zlibStream E { c with inbound := rest } cb
  have ha := tightResetStreams_active E { c with inbound := rest } cb
  obtain ⟨c2, hc2⟩ : ∃ c2, c2 = (tightResetStreams E { c with inbound := rest } cb).1 := ⟨_, rfl⟩
  rw [← hc2] at h hs ha
  change c2.zlibStream = c.zlibStream at hs
  change ∀ i, c2.zlibStreamActive i =
    if i < 4 ∧ cb / 2 ^ i % 2 = 1 then false else c.zlibStreamActive i at ha
  clear hc2 hread hmod hin
  intro i hi
  rw [← ha i, ← hs]
  have key : ∀ d : Conn, d.zlibStream = c2.zlibStream →
      d.zlibStreamActive = c2.zlibStreamActive → some (b, c') = some (b, d) →
      c'.zlibStream i = c2.zlibStream i ∧ c'.zlibStreamActive i = c2.zlibStreamActive i := by
    intro d h1 h2 h3
    simp only [Option.some.injEq, Prod.mk.injEq, true_and] at h3
    rw [h3, h1, h2]
    exact ⟨rfl, rfl⟩
  have keyD : ∀ (f : TightFilter) (bits : Nat) (c4 : Conn), c4.zlibStream = c2.zlibStream →
      c4.zlibStreamActive = c2.zlibStreamActive →
      tightData B E fuel rx ry rw rh (cb / 16) f bits c4 = some (b, c') →
      c'.zlibStream i = c2.zlibStream i ∧ c'.zlibStreamActive i = c2.zlibStreamActive i := by
    intro f bits c4 h1 h2 h3
    have := tightData_frame B E fuel rx ry rw rh (cb / 16) f bits c4 b c' h3 i
      (by rw [and_3]; exact hi)
    rw [h1, h2] at this
    exact this
  by_cases h0 : cb / 16 = rfbTightFill
  · rw [if_pos h0] at h
    cases hr2 : readFromServer c2 4 with
    | none =>
      rw [hr2] at h
      simp only [Option.some.injEq, Prod.mk.injEq] at h
      rw [← h.2]
      exact ⟨rfl, rfl⟩
    | some q =>
      have hq := readFromServer_some _ _ _ _ (show readFromServer c2 4 = some (q.1, q.2) from hr2)
      rw [hr2] at h
      simp only [Option.some.injEq, Prod.mk.injEq] at h
      rw [← h.2]
      show q.2.zlibStream i = _ ∧ q.2.zlibStreamActive i = _
      rw [hq]
      exact ⟨rfl, rfl⟩
  rw [if_neg h0] at h
  by_cases h1 : cb / 16 = rfbTightJpeg
  · rw [if_pos h1] at h
    by_cases hj : B.HAVE_LIBJPEG = true
    · rw [if_pos hj] at h
      obtain ⟨j1, j2⟩ := decompressJpegRect_zlibStream B E c2 rx ry rw rh
      simp only [Option.some.injEq] at h
      rw [h] at j1 j2
      exact ⟨by rw [← j1], by rw [← j2]⟩
    · rw [if_neg hj] at h
      simp only [Option.some.injEq, Prod.mk.injEq] at h
      rw [← h.2]
      exact ⟨rfl, rfl⟩
  rw [if_neg h1] at h
  by_cases h2 : cb / 16 > rfbTightMaxSubencoding
  · rw [if_pos h2] at h
    simp only [Option.some.injEq, Prod.mk.injEq] at h
    rw [← h.2]
    exact ⟨rfl, rfl⟩
  rw [if_neg h2] at h
  by_cases h3 : cb / 16 &&& rfbTightExplicitFilter ≠ 0
  · rw [if_pos h3] at h
    cases hr3 : readFromServer c2 1 with
    | none =>
      rw [hr3] at h
      simp only [Option.some.injEq, Prod.mk.injEq] at h
      rw [← h.2]
      exact ⟨rfl, rfl⟩
    | some q =>
      have hq := readFromServer_some _ _ _ _ (show readFromServer c2 1 = some (q.1, q.2) from hr3)
      have q1 : q.2.zlibStream = c2.zlibStream := by rw [hq]
      have q2 : q.2.zlibStreamActive = c2.zlibStreamActive := by rw [hq]
      rw [hr3] at h
      dsimp only at h
      by_cases f0 : q.1.getD 0 0 % 256 = rfbTightFilterCopy
      · rw [if_pos f0] at h
        exact keyD _ _ (initFilterCopy q.2 rw).2 q1 q2 h
      rw [if_neg f0] at h
      by_cases f1 : q.1.getD 0 0 % 256 = rfbTightFilterPalette
      · rw [if_pos f1] at h
        obtain ⟨i1, i2⟩ := initFilterPalette_zlibStream q.2 rw
        exact keyD _ _ _ (i1.trans q1) (i2.trans q2) h
      rw [if_neg f1] at h
      by_cases f2 : q.1.getD 0 0 % 256 = rfbTightFilterGradient
      · rw [if_pos f2] at h
        exact keyD _ _ (initFilterGradient q.2 rw).2 q1 q2 h
      rw [if_neg f2] at h
      simp only [Option.some.injEq, Prod.mk.injEq] at h
      rw [← h.2]
      show q.2.zlibStream i = _ ∧ q.2.zlibStreamActive i = _
      rw [q1, q2]
      exact ⟨rfl, rfl⟩
  rw [if_neg h3] at h
  exact keyD _ _ (initFilterCopy c2 rw).2 rfl rfl h

/-! ## Tight: stream reset and stream selection -/

/-- C12: Tight stream reset. For every control byte `cb` and every `i` in `0..3`:
if bit `i` of `cb` is set, the flag of stream `i` is false after the reset loop
of `handleTight`, and if the bit is clear the flag is what it was. A stream that
is not active gets a fresh inflate context before it is used: when two
connections differ only in the inflate contexts of streams that are not active,
`handleTight` returns the same value on both and leaves connections that
again differ only in contexts of inactive streams; and when the data part of
`handleTight` has decoded compressed data successfully, the flag of the stream
it used is set. -/
theorem C12_tight_stream_reset (B : Build) (E : Ext) (fuel : Nat) (c c' : Conn)
    (cb i rx ry rw rh : Nat) (hi : i < 4) (hs : StreamsAgree c c') :
    (cb / 2 ^ i % 2 = 1 → (tightResetStreams E c cb).1.zlibStreamActive i = false) ∧
      (cb / 2 ^ i % 2 = 0 →
        (tightResetStreams E c cb).1.zlibStreamActive i = c.zlibStreamActive i) ∧
      ResultsAgree (handleTight B E fuel c rx ry rw rh) (handleTight B E fuel c' rx ry rw rh) ∧
      (∀ (comp_ctl : Nat) (f : TightFilter) (bits_pixel : Nat) (c4 d : Conn),
        tightData B E fuel rx ry rw rh comp_ctl f bits_pixel c4 = some (true, d) →
        TIGHT_MIN_TO_COMPRESS ≤ rh * ((rw * bits_pixel + 7) / 8 % 65536) →
        d.zlibStreamActive (comp_ctl &&& 3) = true) := by
  refine ⟨fun hb => ?_, fun hb => ?_, handleTight_agree B E fuel c c' rx ry rw rh hs,
    fun comp_ctl f bits_pixel c4 d h hc =>
      tightData_active B E fuel rx ry rw rh comp_ctl f bits_pixel c4 d h hc⟩
  · rw [tightResetStreams_active, if_pos ⟨hi, hb⟩]
  · rw [tightResetStreams_active, if_neg (fun h => by omega)]

/-- C12, witness: the control byte `0x14` on `sampleTightConn` and on
`sampleTightConn2`, which has other contexts in the inactive streams. Stream 2
(bit 2 is set) is inactive after the reset loop, and the two runs agree. -/
theorem C12_tight_stream_reset_witness :
    (20 / 2 ^ 2 % 2 = 1 →
        (tightResetStreams Ext.sample sampleTightConn 20).1.zlibStreamActive 2 = false) ∧
      (20 / 2 ^ 2 % 2 = 0 →
        (tightResetStreams Ext.sample sampleTightConn 20).1.zlibStreamActive 2 =
          sampleTightConn.zlibStreamActive 2) ∧
      ResultsAgree (handleTight Build.small Ext.sample 0 sampleTightConn 0 0 2049 2)
        (handleTight Build.small Ext.sample 0 sampleTightConn2 0 0 2049 2) ∧
      (∀ (comp_ctl : Nat) (f : TightFilter) (bits_pixel : Nat) (c4 d : Conn),
        tightData Build.small Ext.sample 0 0 0 2049 2 comp_ctl f bits_pixel c4 = some (true, d) →
        TIGHT_MIN_TO_COMPRESS ≤ 2 * ((2049 * bits_pixel + 7) / 8 % 65536) →
        d.zlibStreamActive (comp_ctl &&& 3) = true) :=
  C12_tight_stream_reset Build.small Ext.sample 0 sampleTightConn sampleTightConn2 20 2
    0 0 2049 2 (by decide)
    ⟨sampleTightConn2.zlibStream, rfl, fun i hi => by
      have h2 : i = 2 := of_decide_eq_true hi
      rw [h2]
      rfl⟩

theorem and_4_of_lt (a : Nat) (h : a < 4) : a &&& rfbTightExplicitFilter = 0 := by
  unfold rfbTightExplicitFilter
  interval_cases a <;> rfl

/-- C13 (amended): Tight stream selection. For every received control byte `cb`,
the zlib stream of the rect is the one given by bits 4 and 5 of the byte,
`(cb >> 4) & 3`: whatever `handleTight` returns, the inflate context of every
other stream is what it was before the rect and its flag is what the reset loop
made of it; and when a rect with basic compression (no explicit filter) that is
too large for the uncompressed path has been decoded, the flag of stream
`(cb >> 4) & 3` is set. -/
theorem C13_tight_stream_selection (B : Build) (E : Ext) (fuel : Nat) (c : Conn)
    (rx ry rw rh cb : Nat) (rest : List Nat) (b : Bool) (c' : Conn)
    (hin : c.inbound = cb :: rest) (hcb : cb < 256)
    (h : handleTight B E fuel c rx ry rw rh = some (b, c')) :
    (∀ i, i ≠ cb / 16 % 4 →
      c'.zlibStream i = c.zlibStream i ∧
        c'.zlibStreamActive i =
          (if i < 4 ∧ cb / 2 ^ i % 2 = 1 then false else c.zlibStreamActive i)) ∧
      (b = true → cb / 16 < 4 → TIGHT_MIN_TO_COMPRESS ≤ rh * ((rw * 32 + 7) / 8 % 65536) →
        c'.zlibStreamActive (cb / 16 % 4) = true) := by
  refine ⟨handleTight_streams B E fuel c rx ry rw rh cb rest b c' hin hcb h, fun hb h4 hc => ?_⟩
  have hread := readFromServer_append c [cb] rest 1 (by simpa using hin) rfl
  unfold handleTight at h
  rw [hread] at h
  dsimp only at h
  have hmod : [cb].getD 0 0 % 256 = cb := by
    show cb % 256 = cb
    omega
  rw [hmod, tightResetStreams_snd] at h
  have n0 : ¬ cb / 16 = rfbTightFill := by unfold rfbTightFill; omega
  have n1 : ¬ cb / 16 = rfbTightJpeg := by unfold rfbTightJpeg; omega
  have n2 : ¬ cb / 16 > rfbTightMaxSubencoding := by unfold rfbTightMaxSubencoding; omega
  have n3 : ¬ (cb / 16 &&& rfbTightExplicitFilter ≠ 0) := by
    rw [and_4_of_lt _ h4]
    simp
  rw [if_neg n0, if_neg n1, if_neg n2, if_neg n3, hb] at h
  have := tightData_active B E fuel rx ry rw rh (cb / 16) .copy _ _ c' h hc
  rw [and_3] at this
  exact this

/-- C13, witness: the rect of `sampleTightConn`, control byte `0x14`, on a build
whose scratch buffer is too small for a row of 2049 pixels. `handleTight` sets
up stream `(0x14 >> 4) & 3 = 1` and returns `FALSE`; the other streams keep
their contexts, and stream 2 has been reset. -/
theorem C13_tight_stream_selection_witness :
    ∃ c', handleTight Build.small Ext.sample 0 sampleTightConn 0 0 2049 2 = some (false, c') ∧
      (∀ i, i ≠ 20 / 16 % 4 →
        c'.zlibStream i = sampleTightConn.zlibStream i ∧
          c'.zlibStreamActive i =
            (if i < 4 ∧ 20 / 2 ^ i % 2 = 1 then false else sampleTightConn.zlibStreamActive i)) :=
  ⟨_, rfl,
    (C13_tight_stream_selection Build.small Ext.sample 0 sampleTightConn 0 0 2049 2 20
      [16, 1, 2, 3] false _ rfl (by decide) rfl).1⟩

/-- C13, counterexample: the control byte `0x14` has `0x14 & 3 = 0`, but the stream
that `handleTight` sets up for the rect of `sampleTightConn` is stream 1: after
the call stream 0 is still inactive with an empty context and stream 1 is
active. -/
theorem C13_tight_stream_selection_counterexample :
    ∃ c', handleTight Build.small Ext.sample 0 sampleTightConn 0 0 2049 2 = some (false, c') ∧
      sampleTightConn.inbound.head? = some 20 ∧ 20 &&& 3 = 0 ∧
      sampleTightConn.zlibStreamActive 1 = false ∧
      c'.zlibStreamActive 0 = false ∧ c'.zlibStream 0 = [] ∧
      c'.zlibStreamActive 1 = true ∧
      c'.trace = [.qCritical .tightBufferSize] :=
  ⟨_, rfl, rfl, rfl, rfl, rfl, rfl, rfl, rfl⟩

/-! ## Tight: the row size of a wide rect -/

/-- C14 (the code at the failing input): a Tight rect of width 16384 and height 1
with the Copy filter has rows of `16384 * 32 / 8 = 65536` bytes, so
`h * row_size` is not below 12 and the data is compressed. `handleTight` keeps
the row size in a `Q_UINT16`, where it is 0: it takes the uncompressed path,
reads 0 bytes, copies stale content of `m_buffer` to the screen and returns
`TRUE`; the compact length and the compressed data stay on the transport. -/
theorem C14_row_size_truncated :
    ∃ c', handleTight Build.sample Ext.sample 0 sampleWideTightConn 0 0 16384 1
        = some (true, c') ∧
      (16384 * 32 + 7) / 8 = 65536 ∧ ¬ 1 * ((16384 * 32 + 7) / 8) < TIGHT_MIN_TO_COMPRESS ∧
      (16384 * 32 + 7) / 8 % 65536 = 0 ∧
      c'.inbound = [3, 1, 2, 3] ∧ c'.trace = [] ∧
      (∀ i, c'.zlibStreamActive i = false) :=
  ⟨_, rfl, rfl, by decide, rfl, rfl, rfl, fun _ => rfl⟩

/-! ## Tight: the Jpeg sub-mode without libjpeg -/

/-- C15 (the code at the failing input): in a build with zlib and without libjpeg,
a Tight rect whose control byte `0x90` selects the Jpeg sub-mode is not a
decode error. `handleTight` executes `return ( -1 )`, which is `TRUE` in a
function returning `bool`: it reports success without a log message, leaves the
screen as it was and leaves the compact length and the JPEG data on the
transport. -/
theorem C15_jpeg_without_library_is_accepted :
    ∃ c', handleTight Build.nojpeg Ext.sample 0 sampleJpegConn 0 0 2 2 = some (true, c') ∧
      Build.nojpeg.HAVE_LIBZ = true ∧ Build.nojpeg.HAVE_LIBJPEG = false ∧
      c'.inbound = [3, 1, 2, 3] ∧ c'.trace = [] ∧ c'.screen = sampleJpegConn.screen ∧
      c'.state = .Connected :=
  ⟨_, rfl, rfl, rfl, rfl, rfl, rfl, rfl⟩

/-! ## Italc: the run-length loops -/

theorem forLoop_rleStepD (W rx rw sh val : Nat) (n : Nat) (st : RleState) :
    forLoop n (fun _ (st : RleState) => if st.done then st else rleStep W rx rw sh val st) st =
      (List.replicate n val).foldl (fun st v => rleStepD W rx rw sh v st) st := by
  induction n with
  | zero => rfl
  | succ n ih =>
    show (fun _ (st : RleState) => if st.done then st else rleStep W rx rw sh val st) n
      (forLoop n _ st) = _
    rw [ih, List.replicate_succ', List.foldl_append]
    rfl

theorem foldl_rleStepD_done (W rx rw sh : Nat) (l : List Nat) (st : RleState)
    (h : st.done = true) : l.foldl (fun st v => rleStepD W rx rw sh v st) st = st := by
  induction l with
  | nil => rfl
  | cons a l ih =>
    rw [List.foldl_cons]
    have : rleStepD W rx rw sh a st = st := by
      unfold rleStepD
      rw [if_pos h]
    rw [this, ih]

theorem rleDecode_foldl (W rx rw sh : Nat) (rle_data : Mem) (bytesRLE : Nat) (st : RleState) :
    rleDecode W rx rw sh rle_data bytesRLE st =
      (rlePixels rle_data ((bytesRLE + 3) / 4)).foldl (fun st v => rleStepD W rx rw sh v st) st := by
  unfold rleDecode rlePixels
  induction (bytesRLE + 3) / 4 with
  | zero => rfl
  | succ n ih =>
    rw [List.range_succ, List.flatMap_append, List.foldl_append, ← ih]
    simp only [List.flatMap_singleton]
    rw [← forLoop_rleStepD]
    show (fun g (st : RleState) => if st.done then st else _) n (forLoop n _ st) = _
    dsimp only
    split
    · rename_i hd
      rw [forLoop_rleStepD, foldl_rleStepD_done _ _ _ _ _ _ hd]
    · rfl

theorem pos_inj (W a b a' b' : Nat) (hb : b < W) (hb' : b' < W)
    (h : a * W + b = a' * W + b') : a = a' ∧ b = b' := by
  have h1 := idx_div W a b hb
  have h2 := idx_mod W a b hb
  rw [h, idx_div W a' b' hb'] at h1
  rw [h, idx_mod W a' b' hb'] at h2
  exact ⟨h1.symm, h2.symm⟩

theorem RleInv_step (W rx ry rw sh : Nat) (p0 : Mem) (L : List Nat) (t : Nat) (st : RleState)
    (hW : rx + rw ≤ W) (hrw : rw < 65536) (hsh : sh < 65536)
    (hI : RleInv W rx ry rw sh p0 L t st) :
    RleInv W rx ry rw sh p0 L (t + 1) (rleStepD W rx rw sh (L.getD t 0) st) := by
  obtain ⟨h1, h2, h3⟩ := hI
  rcases h3 with ⟨r, d, hd, hr, ht, hdone, hdx, hry, hdst⟩ | ⟨hN, hdone, hdx⟩
  · -- the loop is running: pixel `t` is stored at `(rx + d, ry + r)`
    have hstep : rleStepD W rx rw sh (L.getD t 0) st = rleStep W rx rw sh (L.getD t 0) st := by
      unfold rleStepD
      rw [if_neg (by rw [hdone]; simp)]
    rw [hstep]
    have hpix :
        (∀ r' d', d' < rw → r' < sh - ry → r' * rw + d' < t + 1 →
          (st.pix.write st.dst (L.getD t 0)) ((ry + r') * W + (rx + d')) =
            L.getD (r' * rw + d') 0) ∧
        (∀ k, (∀ r' d', d' < rw → r' < sh - ry → r' * rw + d' < t + 1 →
          k ≠ (ry + r') * W + (rx + d')) → (st.pix.write st.dst (L.getD t 0)) k = p0 k) := by
      rw [hdst]
      constructor
      · intro r' d' hd' hr' hlt
        unfold Mem.write
        by_cases hsame : (ry + r') * W + (rx + d') = (ry + r) * W + (rx + d)
        · rw [if_pos hsame]
          obtain ⟨e1, e2⟩ := pos_inj W _ _ _ _ (by omega) (by omega) hsame
          have er : r' = r := by omega
          have ed : d' = d := by omega
          rw [er, ed, ← ht]
        · rw [if_neg hsame]
          refine h1 r' d' hd' hr' ?_
          by_contra hge
          have heq : r' * rw + d' = r * rw + d := by omega
          obtain ⟨e1, e2⟩ := pos_inj rw _ _ _ _ hd' hd heq
          exact hsame (by rw [e1, e2])
      · intro k hk
        unfold Mem.write
        have hne : k ≠ (ry + r) * W + (rx + d) := hk r d hd hr (by omega)
        rw [if_neg hne]
        exact h2 k (fun r' d' hd' hr' hlt => hk r' d' hd' hr' (by omega))
    unfold rleStep
    dsimp only
    rw [hdx, hry]
    have hmod : (d + 1) % 65536 = d + 1 := Nat.mod_eq_of_lt (by omega)
    rw [hmod]
    by_cases hwrap : d + 1 ≥ rw
    · rw [if_pos hwrap]
      by_cases hnext : ry + r + 1 < sh
      · rw [if_pos hnext]
        have hm2 : (ry + r + 1) % 65536 = ry + r + 1 := Nat.mod_eq_of_lt (by omega)
        obtain ⟨p1, p2⟩ := hpix
        refine ⟨p1, p2, Or.inl ⟨r + 1, 0, by omega, by omega, ?_, rfl, rfl, ?_, ?_⟩⟩
        · rw [Nat.succ_mul]
          omega
        · show (ry + r + 1) % 65536 = ry + (r + 1)
          rw [hm2]
          omega
        · show (ry + r + 1) % 65536 * W + rx = (ry + (r + 1)) * W + (rx + 0)
          rw [hm2]
          rfl
      · rw [if_neg hnext]
        obtain ⟨p1, p2⟩ := hpix
        refine ⟨p1, p2, Or.inr ⟨?_, rfl, rfl⟩⟩
        have e : sh - ry = r + 1 := by omega
        rw [e, Nat.mul_succ, Nat.mul_comm]
        omega
    · rw [if_neg hwrap]
      obtain ⟨p1, p2⟩ := hpix
      refine ⟨p1, p2, Or.inl ⟨r, d + 1, by omega, hr, by omega, rfl, rfl, rfl, ?_⟩⟩
      show st.dst + 1 = _
      rw [hdst]
      omega
  · -- the last scan line is full: nothing is stored any more
    have hstep : rleStepD W rx rw sh (L.getD t 0) st = st := by
      unfold rleStepD
      rw [if_pos hdone]
    rw [hstep]
    have hlt : ∀ r' d', d' < rw → r' < sh - ry → r' * rw + d' < t := by
      intro r' d' hd' hr'
      have := Nat.mul_le_mul_right rw (show r' + 1 ≤ sh - ry by omega)
      rw [Nat.succ_mul, Nat.mul_comm (sh - ry) rw] at this
      omega
    exact ⟨fun r' d' hd' hr' _ => h1 r' d' hd' hr' (hlt r' d' hd' hr'),
      fun k hk => h2 k (fun r' d' hd' hr' _ => hk r' d' hd' hr' (by
        have := hlt r' d' hd' hr'
        omega)),
      Or.inr ⟨by omega, hdone, hdx⟩⟩

theorem RleInv_fold (W rx ry rw sh : Nat) (p0 : Mem) (L : List Nat)
    (hW : rx + rw ≤ W) (hrw : rw < 65536) (hsh : sh < 65536) :
    ∀ (n : Nat) (st : RleState), n ≤ L.length → RleInv W rx ry rw sh p0 L 0 st →
      RleInv W rx ry rw sh p0 L n
        ((L.take n).foldl (fun st v => rleStepD W rx rw sh v st) st) := by
  intro n
  induction n with
  | zero =>
    intro st _ h
    exact h
  | succ n ih =>
    intro st hn h
    have e : L.take (n + 1) = L.take n ++ [L.getD n 0] := by
      rw [List.take_succ]
      congr 1
      rw [List.getD_eq_getElem?_getD, List.getElem?_eq_getElem (by omega)]
      rfl
    rw [e, List.foldl_append]
    exact RleInv_step W rx ry rw sh p0 L n _ hW hrw hsh (ih st (by omega) h)

theorem rleDecode_inv (W rx ry rw sh : Nat) (rle_data : Mem) (bytesRLE : Nat) (p0 : Mem)
    (hW : rx + rw ≤ W) (hrw1 : 1 ≤ rw) (hrw : rw < 65536) (hsh : sh < 65536) (hry : ry < sh) :
    RleInv W rx ry rw sh p0 (rlePixels rle_data ((bytesRLE + 3) / 4))
      (rlePixels rle_data ((bytesRLE + 3) / 4)).length
      (rleDecode W rx rw sh rle_data bytesRLE
        { pix := p0, dst := ry * W + rx, dx := 0, ry := ry, done := false }) := by
  rw [rleDecode_foldl]
  have h := RleInv_fold W rx ry rw sh p0 (rlePixels rle_data ((bytesRLE + 3) / 4)) hW hrw hsh
    (rlePixels rle_data ((bytesRLE + 3) / 4)).length
    { pix := p0, dst := ry * W + rx, dx := 0, ry := ry, done := false } (Nat.le_refl _)
    ⟨fun r d _ _ h => absurd h (Nat.not_lt_zero _), fun k _ => rfl,
      Or.inl ⟨0, 0, by omega, by omega, by simp, rfl, rfl, rfl, by simp⟩⟩
  rw [List.take_length] at h
  exact h

theorem rlePixels_succ (m : Mem) (n : Nat) :
    rlePixels m (n + 1) = rlePixels m n ++
      List.replicate (byteAt m (4 * n + 3) + 1)
        ((word32 false (m (4 * n)) (m (4 * n + 1)) (m (4 * n + 2)) (m (4 * n + 3)))
          &&& 16777215) := by
  unfold rlePixels
  rw [List.range_succ, List.flatMap_append]
  simp only [List.flatMap_singleton]

theorem rlePixels_congr (m m' : Mem) (n : Nat) (h : ∀ k, k < 4 * n → m k = m' k) :
    rlePixels m n = rlePixels m' n := by
  induction n with
  | zero => simp [rlePixels]
  | succ n ih =>
    rw [rlePixels_succ, rlePixels_succ, ih (fun k hk => h k (by omega))]
    unfold byteAt
    rw [h (4 * n) (by omega), h (4 * n + 1) (by omega), h (4 * n + 2) (by omega),
      h (4 * n + 3) (by omega)]

theorem rleEncode_length (groups : List (Nat × Nat)) :
    (rleEncode groups).length = 4 * groups.length := by
  induction groups with
  | nil => rfl
  | cons g gs ih =>
    unfold rleEncode at ih ⊢
    rw [List.flatMap_cons, List.length_append, ih]
    simp only [List.length_cons, List.length_nil]
    omega

theorem rleEncode_append (gs : List (Nat × Nat)) (g : Nat × Nat) :
    rleEncode (gs ++ [g]) =
      rleEncode gs ++ [g.1 % 256, g.1 / 256 % 256, g.1 / 65536 % 256, g.2 % 256] := by
  unfold rleEncode
  rw [List.flatMap_append]
  simp only [List.flatMap_singleton]

theorem rleExpand_append (gs : List (Nat × Nat)) (g : Nat × Nat) :
    rleExpand (gs ++ [g]) = rleExpand gs ++ List.replicate (g.2 + 1) g.1 := by
  unfold rleExpand
  rw [List.flatMap_append]
  simp only [List.flatMap_singleton]

theorem and_24 (a : Nat) : a &&& 16777215 = a % 16777216 :=
  Nat.and_pow_two_sub_one_eq_mod a 24

theorem rlePixels_encode (uninit : Mem) (groups : List (Nat × Nat))
    (hg : ∀ g, g ∈ groups → g.1 < 16777216 ∧ g.2 < 256) :
    rlePixels (writeBytes uninit 0 (rleEncode groups)) groups.length = rleExpand groups := by
  induction groups using List.reverseRecOn with
  | nil => simp [rlePixels, rleExpand]
  | append_singleton gs g ih =>
    have hlen := rleEncode_length gs
    have hgg := hg g (by simp)
    rw [List.length_append, List.length_singleton, rlePixels_succ, rleExpand_append,
      rleEncode_append]
    have hcongr : rlePixels (writeBytes uninit 0 (rleEncode gs ++
        [g.1 % 256, g.1 / 256 % 256, g.1 / 65536 % 256, g.2 % 256])) gs.length =
        rlePixels (writeBytes uninit 0 (rleEncode gs)) gs.length := by
      apply rlePixels_congr
      intro k hk
      unfold writeBytes
      have h1 : 0 ≤ k ∧ k < 0 + (rleEncode gs ++
          [g.1 % 256, g.1 / 256 % 256, g.1 / 65536 % 256, g.2 % 256]).length := by
        rw [List.length_append, hlen]
        simp only [List.length_cons, List.length_nil]
        omega
      have h2 : 0 ≤ k ∧ k < 0 + (rleEncode gs).length := by omega
      rw [if_pos h1, if_pos h2, Nat.sub_zero, List.getD_append _ _ _ _ (by omega)]
    rw [hcongr, ih (fun g' hg' => hg g' (by simp [hg']))]
    have hb : ∀ t, t < 4 →
        writeBytes uninit 0 (rleEncode gs ++
          [g.1 % 256, g.1 / 256 % 256, g.1 / 65536 % 256, g.2 % 256]) (4 * gs.length + t) =
          [g.1 % 256, g.1 / 256 % 256, g.1 / 65536 % 256, g.2 % 256].getD t 0 := by
      intro t ht
      unfold writeBytes
      have h1 : 0 ≤ 4 * gs.length + t ∧ 4 * gs.length + t < 0 + (rleEncode gs ++
          [g.1 % 256, g.1 / 256 % 256, g.1 / 65536 % 256, g.2 % 256]).length := by
        rw [List.length_append, hlen]
        simp only [List.length_cons, List.length_nil]
        omega
      rw [if_pos h1, Nat.sub_zero, List.getD_append_right _ _ _ _ (by omega), hlen]
      congr 1
      omega
    have b0 := hb 0 (by omega)
    have b1 := hb 1 (by omega)
    have b2 := hb 2 (by omega)
    have b3 := hb 3 (by omega)
    rw [Nat.add_zero] at b0
    unfold byteAt
    rw [b0, b1, b2, b3]
    simp only [List.getD_cons_zero, List.getD_cons_succ]
    congr 2
    · omega
    · rw [and_24]
      unfold word32
      simp only [Bool.false_eq_true, if_false]
      omega

theorem handleItalc_compressed (B : Build) (E : Ext) (fuel : Nat) (c : Conn)
    (rx ry rw rh comp bytesLZO bytesRLE : Nat) (lzo rest : List Nat)
    (hcomp : comp % 256 ≠ 0) (hL : bytesLZO < 4294967296) (hR : bytesRLE < 4294967296)
    (hlen : lzo.length = bytesLZO)
    (hin : c.inbound = italcHeader comp bytesLZO bytesRLE ++ (lzo ++ rest)) :
    handleItalc B E fuel c rx ry rw rh =
      if (E.lzo1x_decompress lzo).length ≠ bytesRLE then
        some (false,
          (if (E.lzo1x_decompress lzo).length > bytesRLE then
            ({ c with inbound := rest } : Conn).act .overrunRleData
          else ({ c with inbound := rest } : Conn)).act (.qCritical .italcSizeMismatch))
      else
        some (true,
          if (rleDecode c.screen.width rx rw (c.screen.height % 65536)
              (writeBytes E.uninit 0 (E.lzo1x_decompress lzo)) bytesRLE
              { pix := c.screen.pix, dst := ry * c.screen.width + rx, dx := 0, ry := ry,
                done := false }).dx ≠ 0 then
            ({ c with
              inbound := rest
              screen := { c.screen with
                pix := (rleDecode c.screen.width rx rw (c.screen.height % 65536)
                  (writeBytes E.uninit 0 (E.lzo1x_decompress lzo)) bytesRLE
                  { pix := c.screen.pix, dst := ry * c.screen.width + rx, dx := 0, ry := ry,
                    done := false }).pix } } : Conn).act (.qWarning .italcDxNotZero)
          else
            { c with
              inbound := rest
              screen := { c.screen with
                pix := (rleDecode c.screen.width rx rw (c.screen.height % 65536)
                  (writeBytes E.uninit 0 (E.lzo1x_decompress lzo)) bytesRLE
                  { pix := c.screen.pix, dst := ry * c.screen.width + rx, dx := 0, ry := ry,
                    done := false }).pix } }) := by
  have hread1 := readFromServer_append c (italcHeader comp bytesLZO bytesRLE) (lzo ++ rest) 9
    hin rfl
  have hread2 := readFromServer_append ({ c with inbound := lzo ++ rest } : Conn) lzo rest
    bytesLZO rfl hlen
  have hc : (italcHeader comp bytesLZO bytesRLE).getD 0 0 % 256 ≠ 0 := hcomp
  have hl : wire32 ((italcHeader comp bytesLZO bytesRLE).getD 1 0)
      ((italcHeader comp bytesLZO bytesRLE).getD 2 0)
      ((italcHeader comp bytesLZO bytesRLE).getD 3 0)
      ((italcHeader comp bytesLZO bytesRLE).getD 4 0) = bytesLZO := wire32_bytes _ hL
  have hr : wire32 ((italcHeader comp bytesLZO bytesRLE).getD 5 0)
      ((italcHeader comp bytesLZO bytesRLE).getD 6 0)
      ((italcHeader comp bytesLZO bytesRLE).getD 7 0)
      ((italcHeader comp bytesLZO bytesRLE).getD 8 0) = bytesRLE := wire32_bytes _ hR
  unfold handleItalc
  rw [hread1]
  dsimp only
  rw [if_neg hc, hl, hr, hread2]

/-- C16: Italc RLE expansion. For every compressed Italc rect `(x, y, w, h)`
inside the screen whose decompressed data is the encoding of a sequence of
groups (pixel below `2^24`, run-length-minus-one below 256) whose runs total
exactly `w * h` pixels, `handleItalc` returns `TRUE`, has read exactly the
header and the compressed data, and the pixel at raster index `k` of the rect
(row `k / w`, column `k % w`) is pixel `k` of the expansion of the groups, the
pixel of the group whose run covers `k`. -/
theorem C16_italc_rle_expansion (B : Build) (E : Ext) (fuel : Nat) (c : Conn)
    (x y w h comp bytesLZO : Nat) (lzo rest : List Nat) (groups : List (Nat × Nat))
    (hcomp : comp % 256 ≠ 0) (hL : bytesLZO < 4294967296) (hlen : lzo.length = bytesLZO)
    (hR : 4 * groups.length < 4294967296)
    (hin : c.inbound = italcHeader comp bytesLZO (4 * groups.length) ++ (lzo ++ rest))
    (hdec : E.lzo1x_decompress lzo = rleEncode groups)
    (hg : ∀ g, g ∈ groups → g.1 < 16777216 ∧ g.2 < 256)
    (htotal : (rleExpand groups).length = w * h)
    (hw : 1 ≤ w) (hh : 1 ≤ h) (hx : x + w ≤ c.screen.width) (hy : y + h ≤ c.screen.height)
    (hW : c.screen.width < 65536) (hH : c.screen.height < 65536) :
    ∃ c', handleItalc B E fuel c x y w h = some (true, c') ∧ c'.inbound = rest ∧
      ∀ k, k < w * h →
        c'.screen.pixel (x + k % w) (y + k / w) = (rleExpand groups).getD k 0 := by
  have hmain := handleItalc_compressed B E fuel c x y w h comp bytesLZO (4 * groups.length)
    lzo rest hcomp hL hR hlen hin
  have hlen2 : ¬ (E.lzo1x_decompress lzo).length ≠ 4 * groups.length := by
    rw [hdec, rleEncode_length]
    simp
  rw [if_neg hlen2] at hmain
  have hinv := rleDecode_inv c.screen.width x y w (c.screen.height % 65536)
    (writeBytes E.uninit 0 (E.lzo1x_decompress lzo)) (4 * groups.length) c.screen.pix
    hx hw (by omega) (Nat.mod_lt _ (by decide)) (by rw [Nat.mod_eq_of_lt hH]; omega)
  have hn : (4 * groups.length + 3) / 4 = groups.length := by omega
  rw [hn, hdec, rlePixels_encode E.uninit groups hg, Nat.mod_eq_of_lt hH] at hinv
  rw [hdec, Nat.mod_eq_of_lt hH] at hmain
  obtain ⟨st, hst⟩ : ∃ st, st = rleDecode c.screen.width x w c.screen.height
      (writeBytes E.uninit 0 (rleEncode groups)) (4 * groups.length)
      { pix := c.screen.pix, dst := y * c.screen.width + x, dx := 0, ry := y, done := false } :=
    ⟨_, rfl⟩
  rw [← hst] at hinv hmain
  have hpix : ∀ k, k < w * h →
      st.pix ((y + k / w) * c.screen.width + (x + k % w)) = (rleExpand groups).getD k 0 := by
    intro k hk
    have hr : k / w < h := (Nat.div_lt_iff_lt_mul (by omega)).mpr (by rw [Nat.mul_comm]; exact hk)
    have hd : k % w < w := Nat.mod_lt _ (by omega)
    have hkk : k / w * w + k % w = k := Nat.div_add_mod' k w
    have := hinv.1 (k / w) (k % w) hd (by omega) (by rw [hkk, htotal]; exact hk)
    rw [hkk] at this
    exact this
  refine ⟨_, hmain, ?_, fun k hk => ?_⟩
  · split <;> rfl
  · have e : ∀ d : Conn, d.screen = { c.screen with pix := st.pix } →
        d.screen.pixel (x + k % w) (y + k / w) = (rleExpand groups).getD k 0 := by
      intro d hd
      unfold Screen.pixel
      rw [hd]
      exact hpix k hk
    split
    · exact e _ rfl
    · exact e _ rfl

/-- C16, witness: the rect `(1, 0, 2, 2)` on `sampleItalcConn`, with the identity
as decompressor; the runs of 3 and 1 pixels fill the `2 × 2` rect. -/
theorem C16_italc_rle_expansion_witness :
    ∃ c', handleItalc Build.sample Ext.sample 0 sampleItalcConn 1 0 2 2 = some (true, c') ∧
      c'.inbound = [9] ∧
      ∀ k, k < 2 * 2 →
        c'.screen.pixel (1 + k % 2) (0 + k / 2) = (rleExpand sampleItalcGroups).getD k 0 :=
  C16_italc_rle_expansion Build.sample Ext.sample 0 sampleItalcConn 1 0 2 2 1 8
    (rleEncode sampleItalcGroups) [9] sampleItalcGroups (by decide) (by decide) rfl
    (by decide) rfl rfl (by decide) rfl (by decide) (by decide) (by decide) (by decide)
    (by decide) (by decide)

theorem handleItalc_rle (B : Build) (E : Ext) (fuel : Nat) (c : Conn)
    (x y w h comp bytesLZO bytesRLE : Nat) (lzo rest : List Nat)
    (hcomp : comp % 256 ≠ 0) (hL : bytesLZO < 4294967296) (hR : bytesRLE < 4294967296)
    (hlen : lzo.length = bytesLZO)
    (hin : c.inbound = italcHeader comp bytesLZO bytesRLE ++ (lzo ++ rest))
    (hout : (E.lzo1x_decompress lzo).length = bytesRLE)
    (hw : 1 ≤ w) (hx : x + w ≤ c.screen.width) (hy : y < c.screen.height)
    (hW : c.screen.width < 65536) (hH : c.screen.height < 65536) :
    ∃ st, RleInv c.screen.width x y w c.screen.height c.screen.pix
        (rlePixels (writeBytes E.uninit 0 (E.lzo1x_decompress lzo)) ((bytesRLE + 3) / 4))
        (rlePixels (writeBytes E.uninit 0 (E.lzo1x_decompress lzo)) ((bytesRLE + 3) / 4)).length
        st ∧
      handleItalc B E fuel c x y w h =
        some (true,
          if st.dx ≠ 0 then
            ({ c with inbound := rest, screen := { c.screen with pix := st.pix } } : Conn).act
              (.qWarning .italcDxNotZero)
          else { c with inbound := rest, screen := { c.screen with pix := st.pix } }) := by
  have hmain := handleItalc_compressed B E fuel c x y w h comp bytesLZO bytesRLE
    lzo rest hcomp hL hR hlen hin
  rw [if_neg (not_not.mpr hout), Nat.mod_eq_of_lt hH] at hmain
  have hinv := rleDecode_inv c.screen.width x y w c.screen.height
    (writeBytes E.uninit 0 (E.lzo1x_decompress lzo)) bytesRLE c.screen.pix
    hx hw (by omega) hH hy
  exact ⟨_, hinv, hmain⟩

theorem rect_index_lt (w n r d : Nat) (hr : r < n) (hd : d < w) : r * w + d < w * n := by
  have h := Nat.mul_le_mul_right w (show r + 1 ≤ n by omega)
  rw [Nat.succ_mul, Nat.mul_comm n w] at h
  omega

/-- C17 (amended): Italc run overshoot. When the runs of a compressed Italc rect
`(x, y, w, h)` inside the screen encode at least `w * (screenHeight - y)` pixels,
decoding stops at the last scan line of the screen, not at the end of the rect:
`handleItalc` returns `TRUE`, the rows `y .. screenHeight - 1` hold in the columns
`x .. x + w - 1` the first `w * (screenHeight - y)` expanded pixels, no other
pixel is modified, and `dx` ends at 0, so that no warning is logged. For a rect
that ends on the last scan line (`y + h = screenHeight`) this is the rect and
its first `w * h` pixels. -/
theorem C17_italc_run_overshoot (B : Build) (E : Ext) (fuel : Nat) (c : Conn)
    (x y w h comp bytesLZO : Nat) (lzo rest : List Nat) (groups : List (Nat × Nat))
    (hcomp : comp % 256 ≠ 0) (hL : bytesLZO < 4294967296) (hlen : lzo.length = bytesLZO)
    (hR : 4 * groups.length < 4294967296)
    (hin : c.inbound = italcHeader comp bytesLZO (4 * groups.length) ++ (lzo ++ rest))
    (hdec : E.lzo1x_decompress lzo = rleEncode groups)
    (hg : ∀ g, g ∈ groups → g.1 < 16777216 ∧ g.2 < 256)
    (htotal : w * (c.screen.height - y) ≤ (rleExpand groups).length)
    (hw : 1 ≤ w) (hh : 1 ≤ h) (hx : x + w ≤ c.screen.width) (hy : y + h ≤ c.screen.height)
    (hW : c.screen.width < 65536) (hH : c.screen.height < 65536) :
    ∃ c', handleItalc B E fuel c x y w h = some (true, c') ∧
      (∀ r d, r < c.screen.height - y → d < w →
        c'.screen.pixel (x + d) (y + r) = (rleExpand groups).getD (r * w + d) 0) ∧
      (∀ k, ¬ inRect c.screen.width x y w (c.screen.height - y) k →
        c'.screen.pix k = c.screen.pix k) ∧
      c'.trace = c.trace := by
  obtain ⟨st, hinv, hres⟩ := handleItalc_rle B E fuel c x y w h comp bytesLZO
    (4 * groups.length) lzo rest hcomp hL hR hlen hin
    (by rw [hdec, rleEncode_length]) hw hx (by omega) hW hH
  have hn : (4 * groups.length + 3) / 4 = groups.length := by omega
  rw [hn, hdec, rlePixels_encode E.uninit groups hg] at hinv
  have hdx : st.dx = 0 := by
    rcases hinv.2.2 with ⟨r, d, hd, hr, ht, _⟩ | ⟨_, _, h0⟩
    · have := rect_index_lt w (c.screen.height - y) r d hr hd
      omega
    · exact h0
  rw [if_neg (not_not.mpr hdx)] at hres
  refine ⟨_, hres, fun r d hr hd => ?_, fun k hk => ?_, rfl⟩
  · have := rect_index_lt w (c.screen.height - y) r d hr hd
    exact hinv.1 r d hd hr (by omega)
  · refine hinv.2.1 k (fun r d hd hr _ hkk => hk ?_)
    rw [hkk]
    exact (inRect_pixel c.screen.width x y w (c.screen.height - y) (x + d) (y + r)
      (by omega)).mpr ⟨by omega, by omega, by omega, by omega⟩

/-- C17 (amended), witness: the groups `(0x00FF00, run = 1)` and
`(0x0000FF, run = 2)` over the rect `(0, 0, 3, 1)` of a screen of height 1. -/
theorem C17_italc_run_overshoot_witness :
    ∃ c', handleItalc Build.sample Ext.sample 0 (sampleOvershootConn 1) 0 0 3 1 =
        some (true, c') ∧
      (∀ r d, r < (sampleOvershootConn 1).screen.height - 0 → d < 3 →
        c'.screen.pixel (0 + d) (0 + r) = (rleExpand sampleOvershootGroups).getD (r * 3 + d) 0) ∧
      (∀ k, ¬ inRect (sampleOvershootConn 1).screen.width 0 0 3
          ((sampleOvershootConn 1).screen.height - 0) k →
        c'.screen.pix k = (sampleOvershootConn 1).screen.pix k) ∧
      c'.trace = (sampleOvershootConn 1).trace :=
  C17_italc_run_overshoot Build.sample Ext.sample 0 (sampleOvershootConn 1) 0 0 3 1 1 8
    (rleEncode sampleOvershootGroups) [9] sampleOvershootGroups (by decide) (by decide) rfl
    (by decide) rfl rfl (by decide) (by decide) (by decide) (by decide) (by decide) (by decide)
    (by decide) (by decide)

/-- C17, counterexample: the groups `(0x00FF00, run = 1)` and `(0x0000FF, run = 2)`
over the rect `(0, 0, 3, 1)` of a `3 × 2` screen. The runs encode 5 pixels, more
than the 3 of the rect, which lies inside the screen; the decoder goes on in the
scan line below the rect: pixel `(0, 1)`, which was 7, becomes `0x0000FF`, and
the warning for `dx != 0` is logged. -/
theorem C17_italc_run_overshoot_counterexample :
    3 * 1 < (rleExpand sampleOvershootGroups).length ∧
      0 + 3 ≤ (sampleOvershootConn 2).screen.width ∧
      0 + 1 ≤ (sampleOvershootConn 2).screen.height ∧
      ¬ inRect 3 0 0 3 1 (1 * 3 + 0) ∧
      ∃ c', handleItalc Build.sample Ext.sample 0 (sampleOvershootConn 2) 0 0 3 1 =
          some (true, c') ∧
        (sampleOvershootConn 2).screen.pixel 0 1 = 7 ∧
        c'.screen.pixel 0 1 = 255 ∧
        c'.trace = (sampleOvershootConn 2).trace ++ [.qWarning .italcDxNotZero] :=
  ⟨by decide, by decide, by decide, by decide, _, rfl, rfl, rfl, rfl⟩

/-! ## Write bounds of the Raw and the Italc decoder -/

theorem inRect_lt (W H x y w h k : Nat) (hx : x + w ≤ W) (hy : y + h ≤ H)
    (hk : inRect W x y w h k) : k < W * H := by
  obtain ⟨_, h2, _, h4⟩ := hk
  have h5 := Nat.mul_le_mul_left W (show k / W + 1 ≤ H by omega)
  rw [Nat.mul_succ] at h5
  have h6 := Nat.div_add_mod k W
  omega

theorem inRect_mono (W x y w h h' k : Nat) (hh : h ≤ h') (hk : inRect W x y w h k) :
    inRect W x y w h' k := by
  obtain ⟨h1, h2, h3, h4⟩ := hk
  exact ⟨h1, h2, h3, by omega⟩

theorem rawCopyLines_outside (be : Bool) (buf pix : Mem) (W rx ry rw rh l k : Nat)
    (hW : rx + rw ≤ W) (hl : l ≤ rh) (hk : ¬ inRect W rx ry rw rh k) :
    rawCopyLines be buf pix (ry * W + rx) rw W l k = pix k := by
  apply rawCopyLines_frame
  intro j hj hjk
  apply hk
  have e : k = (ry + j) * W + (rx + (k - (ry * W + rx + j * W))) := by
    rw [Nat.add_mul]
    omega
  rw [e]
  exact (inRect_pixel W rx ry rw rh _ _ (by omega)).mpr ⟨by omega, by omega, by omega, by omega⟩

theorem handleRawLoop_frame (B : Build) :
    ∀ (fuel : Nat) (c : Conn) (rx ry rw rh L : Nat) (b : Bool) (c' : Conn),
      rx + rw ≤ c.screen.width → c.screen.width < 65536 → ry + rh < 65536 →
      handleRawLoop B fuel c rx ry rw rh L = some (b, c') →
      c'.screen.width = c.screen.width ∧ c'.screen.height = c.screen.height ∧
        ∀ k, ¬ inRect c.screen.width rx ry rw rh k → c'.screen.pix k = c.screen.pix k := by
  intro fuel
  induction fuel with
  | zero =>
    intro c rx ry rw rh L b c' _ _ _ h
    rw [handleRawLoop] at h
    by_cases h0 : rh = 0
    · simp only [h0, if_true, Option.some.injEq, Prod.mk.injEq] at h
      rw [← h.2]
      exact ⟨rfl, rfl, fun _ _ => rfl⟩
    · simp [h0] at h
  | succ fuel ih =>
    intro c rx ry rw rh L b c' hx hW hy h
    rw [handleRawLoop] at h
    by_cases h0 : rh = 0
    · simp only [h0, if_true, Option.some.injEq, Prod.mk.injEq] at h
      rw [← h.2]
      exact ⟨rfl, rfl, fun _ _ => rfl⟩
    · simp only [h0, if_false] at h
      cases hr : readFromServer c (rw * 4 * (if L > rh then rh else L)) with
      | none =>
        rw [hr] at h
        simp only [Option.some.injEq, Prod.mk.injEq] at h
        rw [← h.2]
        exact ⟨rfl, rfl, fun _ _ => rfl⟩
      | some p =>
        obtain ⟨bs, c1⟩ := p
        rw [hr] at h
        have hc1 := readFromServer_some c _ bs c1 hr
        subst hc1
        dsimp only at h
        have hl : (if L > rh then rh else L) ≤ rh := by split <;> omega
        generalize (if L > rh then rh else L) = l at h hl
        rw [Nat.mod_eq_of_lt hW, Nat.mod_eq_of_lt (show ry + l < 65536 by omega),
          Nat.mod_eq_of_lt (show rh - l < 65536 by omega)] at h
        have key := fun a1 a2 a3 => ih _ rx (ry + l) rw (rh - l) l b c' a1 a2 a3 h
        obtain ⟨i1, i2, i3⟩ := key hx hW (by omega)
        refine ⟨i1, i2, fun k hk => ?_⟩
        have hk2 : ¬ inRect c.screen.width rx (ry + l) rw (rh - l) k := by
          intro hin
          apply hk
          obtain ⟨a1, a2, a3, a4⟩ := hin
          exact ⟨a1, a2, by omega, by omega⟩
        rw [i3 k hk2]
        exact rawCopyLines_outside _ _ _ _ rx ry rw rh l k hx hl hk

theorem handleRawLoop_total (B : Build) :
    ∀ (fuel : Nat) (c : Conn) (rx ry rw rh L : Nat),
      rh ≤ fuel → 1 ≤ L → ry + rh < 65536 →
      ∃ r, handleRawLoop B fuel c rx ry rw rh L = some r := by
  intro fuel
  induction fuel with
  | zero =>
    intro c rx ry rw rh L hf _ _
    rw [handleRawLoop]
    refine ⟨(true, c), ?_⟩
    simp [show rh = 0 by omega]
  | succ fuel ih =>
    intro c rx ry rw rh L hf hL hy
    rw [handleRawLoop]
    by_cases h0 : rh = 0
    · refine ⟨(true, c), ?_⟩
      simp [h0]
    · simp only [h0, if_false]
      cases hr : readFromServer c (rw * 4 * (if L > rh then rh else L)) with
      | none => exact ⟨_, rfl⟩
      | some p =>
        obtain ⟨bs, c1⟩ := p
        dsimp only
        have hl : (if L > rh then rh else L) ≤ rh := by split <;> omega
        have hl1 : 1 ≤ (if L > rh then rh else L) := by split <;> omega
        generalize (if L > rh then rh else L) = l at hl hl1
        rw [Nat.mod_eq_of_lt (show ry + l < 65536 by omega),
          Nat.mod_eq_of_lt (show rh - l < 65536 by omega)]
        exact ih _ rx (ry + l) rw (rh - l) l (by omega) hl1 (by omega)

theorem handleItalc_frame (B : Build) (E : Ext) (fuel : Nat) (c : Conn) (x y w h : Nat)
    (b : Bool) (c' : Conn) (hw : 1 ≤ w) (hh : 1 ≤ h) (hx : x + w ≤ c.screen.width)
    (hy : y + h ≤ c.screen.height) (hW : c.screen.width < 65536)
    (hH : c.screen.height < 65536)
    (hres : handleItalc B E fuel c x y w h = some (b, c')) :
    ∀ k, ¬ inRect c.screen.width x y w (c.screen.height - y) k →
      c'.screen.pix k = c.screen.pix k := by
  intro k hk
  unfold handleItalc at hres
  cases hr : readFromServer c 9 with
  | none =>
    rw [hr] at hres
    simp only [Option.some.injEq, Prod.mk.injEq] at hres
    rw [← hres.2]
  | some p =>
    obtain ⟨hdr, c1⟩ := p
    rw [hr] at hres
    have hc1 := readFromServer_some c _ hdr c1 hr
    subst hc1
    dsimp only at hres
    by_cases hcomp : hdr.getD 0 0 % 256 = 0
    · rw [if_pos hcomp] at hres
      unfold handleRaw at hres
      have key := fun a1 a2 a3 => handleRawLoop_frame B fuel _ x y w h _ b c' a1 a2 a3 hres
      exact (key hx hW (by omega)).2.2 k
        (fun hin => hk (inRect_mono _ x y w h _ k (by omega) hin))
    · rw [if_neg hcomp] at hres
      generalize wire32 (hdr.getD 1 0) (hdr.getD 2 0) (hdr.getD 3 0) (hdr.getD 4 0) = bytesLZO
        at hres
      generalize wire32 (hdr.getD 5 0) (hdr.getD 6 0) (hdr.getD 7 0) (hdr.getD 8 0) = bytesRLE
        at hres
      cases hr2 : readFromServer
          ({ c with inbound := c.inbound.drop 9 } : Conn) bytesLZO with
      | none =>
        rw [hr2] at hres
        simp only [Option.some.injEq, Prod.mk.injEq] at hres
        rw [← hres.2]
      | some p2 =>
        obtain ⟨lzo, c2⟩ := p2
        rw [hr2] at hres
        have hc2 := readFromServer_some _ _ lzo c2 hr2
        subst hc2
        dsimp only at hres
        by_cases hout : (E.lzo1x_decompress lzo).length = bytesRLE
        · rw [if_neg (not_not.mpr hout), Nat.mod_eq_of_lt hH] at hres
          have hinv := rleDecode_inv c.screen.width x y w c.screen.height
            (writeBytes E.uninit 0 (E.lzo1x_decompress lzo)) bytesRLE c.screen.pix
            hx hw (by omega) hH (by omega)
          have hpix : (rleDecode c.screen.width x w c.screen.height
              (writeBytes E.uninit 0 (E.lzo1x_decompress lzo)) bytesRLE
              { pix := c.screen.pix, dst := y * c.screen.width + x, dx := 0, ry := y,
                done := false }).pix k = c.screen.pix k := by
            refine hinv.2.1 k (fun r d hd hr _ hkk => hk ?_)
            rw [hkk]
            exact (inRect_pixel c.screen.width x y w (c.screen.height - y) (x + d) (y + r)
              (by omega)).mpr ⟨by omega, by omega, by omega, by omega⟩
          simp only [Option.some.injEq, Prod.mk.injEq] at hres
          rw [← hres.2]
          split
          · exact hpix
          · exact hpix
        · rw [if_pos hout] at hres
          simp only [Option.some.injEq, Prod.mk.injEq] at hres
          rw [← hres.2]
          split <;> rfl

theorem handleItalc_total (B : Build) (E : Ext) (fuel : Nat) (c : Conn) (x y w h : Nat)
    (hf : h ≤ fuel) (hL : 1 ≤ B.BUFFER_SIZE / (w * 4) % 65536) (hy : y + h < 65536) :
    ∃ r, handleItalc B E fuel c x y w h = some r := by
  unfold handleItalc
  cases readFromServer c 9 with
  | none => exact ⟨_, rfl⟩
  | some p =>
    obtain ⟨hdr, c1⟩ := p
    dsimp only
    by_cases hcomp : hdr.getD 0 0 % 256 = 0
    · rw [if_pos hcomp]
      exact handleRawLoop_total B fuel c1 x y w h _ hf hL hy
    · rw [if_neg hcomp]
      cases readFromServer c1
          (wire32 (hdr.getD 1 0) (hdr.getD 2 0) (hdr.getD 3 0) (hdr.getD 4 0)) with
      | none => exact ⟨_, rfl⟩
      | some p2 =>
        obtain ⟨lzo, c2⟩ := p2
        dsimp only
        split
        · exact ⟨_, rfl⟩
        · exact ⟨_, rfl⟩

/-- C19: write bounds. For every rect `(x, y, w, h)` with `w, h ≥ 1` that passes
the bounds check of the dispatcher (`x + w ≤ fbW`, `y + h ≤ fbH`), on a screen
of the framebuffer size and for every content of the transport: every screen
pixel that `handleRaw` changes lies in the rect, every screen pixel that
`handleItalc` changes (raw copy or run-length loop, whatever the run lengths)
lies in the columns of the rect on a scan line from `y` to `fbH - 1`, and so
each of them has its index inside the `fbW × fbH` pixels of the screen; both
decoders return when the Raw batch size is at least 1. -/
theorem C19_write_bounds (B : Build) (E : Ext) (fuel : Nat) (c : Conn) (x y w h : Nat)
    (hw : 1 ≤ w) (hh : 1 ≤ h)
    (hx : x + w ≤ c.framebufferWidth) (hy : y + h ≤ c.framebufferHeight)
    (hsw : c.screen.width = c.framebufferWidth) (hsh : c.screen.height = c.framebufferHeight)
    (hW : c.framebufferWidth < 65536) (hH : c.framebufferHeight < 65536) :
    (∀ b c', handleRaw B fuel c x y w h = some (b, c') →
      ∀ k, c'.screen.pix k ≠ c.screen.pix k →
        inRect c.framebufferWidth x y w h k ∧
          k < c.framebufferWidth * c.framebufferHeight) ∧
      (∀ b c', handleItalc B E fuel c x y w h = some (b, c') →
        ∀ k, c'.screen.pix k ≠ c.screen.pix k →
          inRect c.framebufferWidth x y w (c.framebufferHeight - y) k ∧
            k < c.framebufferWidth * c.framebufferHeight) ∧
      (h ≤ fuel → 1 ≤ B.BUFFER_SIZE / (w * 4) % 65536 →
        (∃ r, handleRaw B fuel c x y w h = some r) ∧
          ∃ r, handleItalc B E fuel c x y w h = some r) := by
  rw [← hsw] at hx hW ⊢
  rw [← hsh] at hy hH ⊢
  refine ⟨fun b c' hres k hk => ?_, fun b c' hres k hk => ?_, fun hf hL => ?_⟩
  · have hin : inRect c.screen.width x y w h k := by
      by_contra hn
      exact hk ((handleRawLoop_frame B fuel c x y w h _ b c' hx hW (by omega) hres).2.2 k hn)
    exact ⟨hin, inRect_lt _ _ x y w h k hx hy hin⟩
  · have hin : inRect c.screen.width x y w (c.screen.height - y) k := by
      by_contra hn
      exact hk (handleItalc_frame B E fuel c x y w h b c' hw hh hx hy hW hH hres k hn)
    exact ⟨hin, inRect_lt _ _ x y w _ k hx (by omega) hin⟩
  · exact ⟨handleRawLoop_total B fuel c x y w h _ hf hL (by omega),
      handleItalc_total B E fuel c x y w h hf hL (by omega)⟩

/-- C19, witness: the rect `(0, 0, 3, 1)` on the `3 × 2` screen of
`sampleOvershootConn 2`, whose runs encode 5 pixels. -/
theorem C19_write_bounds_witness :
    (∀ b c', handleRaw Build.sample 1 (sampleOvershootConn 2) 0 0 3 1 = some (b, c') →
      ∀ k, c'.screen.pix k ≠ (sampleOvershootConn 2).screen.pix k →
        inRect (sampleOvershootConn 2).framebufferWidth 0 0 3 1 k ∧
          k < (sampleOvershootConn 2).framebufferWidth *
            (sampleOvershootConn 2).framebufferHeight) ∧
      (∀ b c', handleItalc Build.sample Ext.sample 1 (sampleOvershootConn 2) 0 0 3 1 =
          some (b, c') →
        ∀ k, c'.screen.pix k ≠ (sampleOvershootConn 2).screen.pix k →
          inRect (sampleOvershootConn 2).framebufferWidth 0 0 3
              ((sampleOvershootConn 2).framebufferHeight - 0) k ∧
            k < (sampleOvershootConn 2).framebufferWidth *
              (sampleOvershootConn 2).framebufferHeight) ∧
      (1 ≤ 1 → 1 ≤ Build.sample.BUFFER_SIZE / (3 * 4) % 65536 →
        (∃ r, handleRaw Build.sample 1 (sampleOvershootConn 2) 0 0 3 1 = some r) ∧
          ∃ r, handleItalc Build.sample Ext.sample 1 (sampleOvershootConn 2) 0 0 3 1 = some r) :=
  C19_write_bounds Build.sample Ext.sample 1 (sampleOvershootConn 2) 0 0 3 1
    (by decide) (by decide) (by decide) (by decide) rfl rfl (by decide) (by decide)

/-! ## The colour reduction of the demo qualities -/

theorem and_and_self (a m : Nat) : a &&& m &&& m = a &&& m := by
  rw [Nat.land_assoc, Nat.and_self]

theorem maskedOn_trans (m : Nat) (S T : Nat → Prop) (p q r : Mem)
    (h1 : MaskedOn m S p q) (h2 : MaskedOn m T q r) :
    MaskedOn m (fun k => S k ∨ T k) p r := by
  intro k
  by_cases hS : S k <;> by_cases hT : T k
  · exact ⟨fun _ => by rw [(h2 k).1 hT, (h1 k).1 hS, and_and_self], fun h => absurd (Or.inl hS) h⟩
  · exact ⟨fun _ => by rw [(h2 k).2 hT, (h1 k).1 hS], fun h => absurd (Or.inl hS) h⟩
  · exact ⟨fun _ => by rw [(h2 k).1 hT, (h1 k).2 hS], fun h => absurd (Or.inr hT) h⟩
  · exact ⟨fun h => (h.elim hS hT).elim, fun _ => by rw [(h2 k).2 hT, (h1 k).2 hS]⟩

theorem maskedOn_congr (m : Nat) (S T : Nat → Prop) (p q : Mem) (h : MaskedOn m S p q)
    (hST : ∀ k, S k ↔ T k) : MaskedOn m T p q :=
  fun k => ⟨fun hk => (h k).1 ((hST k).mpr hk), fun hk => (h k).2 (fun hs => hk ((hST k).mp hs))⟩

theorem maskedOn_write (m : Nat) (p : Mem) (a : Nat) :
    MaskedOn m (fun k => k = a) p (p.write a (p a &&& m)) := by
  intro k
  unfold Mem.write
  constructor
  · intro hk
    rw [if_pos hk, hk]
  · intro hk
    rw [if_neg hk]

theorem demoMask_columns (m : Nat) (idx : Nat → Nat) (n : Nat) (p : Mem) :
    MaskedOn m (fun k => ∃ x, x < n ∧ k = idx x) p
      (forLoop n (fun x (p : Mem) => p.write (idx x) (p (idx x) &&& m)) p) := by
  induction n with
  | zero => exact fun k => ⟨fun ⟨x, hx, _⟩ => absurd hx (Nat.not_lt_zero _), fun _ => rfl⟩
  | succ n ih =>
    refine maskedOn_congr m _ _ _ _ (maskedOn_trans m _ _ _ _ _ ih (maskedOn_write m _ (idx n)))
      (fun k => ⟨?_, ?_⟩)
    · rintro (⟨x, hx, hk⟩ | hk)
      · exact ⟨x, by omega, hk⟩
      · exact ⟨n, by omega, hk⟩
    · rintro ⟨x, hx, hk⟩
      by_cases hxn : x = n
      · exact Or.inr (hxn ▸ hk)
      · exact Or.inl ⟨x, by omega, hk⟩

theorem demoMaskRect_masked (W m : Nat) (p : Mem) (r : QRect) :
    MaskedOn m (fun k => ∃ x y, x < r.w.toNat ∧ y < r.h.toNat ∧ k = r.pixelIndex W x y) p
      (demoMaskRect W m p r) := by
  unfold demoMaskRect
  generalize r.h.toNat = n
  induction n with
  | zero => exact fun k => ⟨fun ⟨_, _, _, hy, _⟩ => absurd hy (Nat.not_lt_zero _), fun _ => rfl⟩
  | succ n ih =>
    refine maskedOn_congr m _ _ _ _ (maskedOn_trans m _ _ _ _ _ ih
      (demoMask_columns m (fun x => r.pixelIndex W x n) r.w.toNat _)) (fun k => ⟨?_, ?_⟩)
    · rintro (⟨x, y, hx, hy, hk⟩ | ⟨x, hx, hk⟩)
      · exact ⟨x, y, hx, by omega, hk⟩
      · exact ⟨x, n, hx, by omega, hk⟩
    · rintro ⟨x, y, hx, hy, hk⟩
      by_cases hyn : y = n
      · exact Or.inr ⟨x, hx, hyn ▸ hk⟩
      · exact Or.inl ⟨x, y, hx, by omega, hk⟩

theorem demoMask_masked (W m : Nat) (rects : List QRect) :
    ∀ p : Mem, MaskedOn m
      (fun k => ∃ r, r ∈ rects ∧ ∃ x y, x < r.w.toNat ∧ y < r.h.toNat ∧ k = r.pixelIndex W x y)
      p (rects.foldl (demoMaskRect W m) p) := by
  induction rects with
  | nil =>
    intro p k
    exact ⟨fun ⟨_, hr, _⟩ => absurd hr (List.not_mem_nil _), fun _ => rfl⟩
  | cons r rs ih =>
    intro p
    rw [List.foldl_cons]
    refine maskedOn_congr m _ _ _ _ (maskedOn_trans m _ _ _ _ _ (demoMaskRect_masked W m p r)
      (ih _)) (fun k => ⟨?_, ?_⟩)
    · rintro (h | ⟨r', hr', h⟩)
      · exact ⟨r, List.mem_cons_self _ _, h⟩
      · exact ⟨r', List.mem_cons_of_mem _ hr', h⟩
    · rintro ⟨r', hr', h⟩
      rcases List.mem_cons.mp hr' with e | e
      · exact Or.inl (e ▸ h)
      · exact Or.inr ⟨r', e, h⟩

theorem pixelIndex_nonneg (W : Nat) (r : QRect) (x y : Nat) (hx : 0 ≤ r.x) (hy : 0 ≤ r.y) :
    r.pixelIndex W x y = (r.y.toNat + y) * W + (r.x.toNat + x) := by
  unfold QRect.pixelIndex
  obtain ⟨a, ha⟩ := Int.eq_ofNat_of_zero_le hx
  obtain ⟨b, hb⟩ := Int.eq_ofNat_of_zero_le hy
  rw [ha, hb]
  have e : ((y : Int) + (b : Int)) * (W : Int) + (a : Int) = (((y + b) * W + a : Nat) : Int) := by
    push_cast
    ring
  rw [e, Int.toNat_ofNat, Int.toNat_ofNat, Int.toNat_ofNat]
  ring

theorem postRegionChangedEvent_screen (c : Conn) (o : Origin) (rgn : QRegion) :
    (postRegionChangedEvent c o rgn).screen = c.screen := by
  unfold postRegionChangedEvent
  split <;> rfl

theorem handleFramebufferUpdate_updated (B : Build) (E : Ext) (fuel : Nat) (c : Conn)
    (fu : List Nat) (c1 c2 : Conn) (rgn : QRegion)
    (hread : readFromServer (c.act .imageLockForWrite) 3 = some (fu, c1))
    (hloop : rectLoop B E fuel (wire16 (fu.getD 1 0) (fu.getD 2 0)) c1 QRegion.empty =
      some (true, c2, rgn))
    (hne : rgn.isEmpty = false) :
    ∃ c', handleFramebufferUpdate B E fuel c = some (true, c') ∧
      c'.screen =
        if c2.quality = .QualityDemoLow then demoMask c2.screen rgn 16316664
        else if c2.quality = .QualityDemoMedium then demoMask c2.screen rgn 16579836
        else c2.screen := by
  unfold handleFramebufferUpdate
  dsimp only
  rw [hread]
  dsimp only
  rw [hloop]
  dsimp only
  rw [hne]
  refine ⟨_, rfl, ?_⟩
  show (postRegionChangedEvent _ _ _).screen = _
  rw [postRegionChangedEvent_screen]
  cases hq : c2.quality <;> simp [Quality.toNat]

/-- C20: demo colour reduction. When the rect loop of a FramebufferUpdate has
ended without failure on the connection `c2` with the non-empty region `rgn`,
`handleFramebufferUpdate` returns `TRUE` and its screen is the decoded screen of
`c2` with: at quality DemoLow every pixel of every rect of the region and-ed
with `0xF8F8F8`, at DemoMedium with `0xFCFCFC`; every pixel that is not a pixel
of a rect of the region as it was; and at every other quality (Low, Medium,
High, DemoHigh) the whole screen as it was. -/
theorem C20_demo_colour_reduction (B : Build) (E : Ext) (fuel : Nat) (c : Conn)
    (fu : List Nat) (c1 c2 : Conn) (rgn : QRegion)
    (hread : readFromServer (c.act .imageLockForWrite) 3 = some (fu, c1))
    (hloop : rectLoop B E fuel (wire16 (fu.getD 1 0) (fu.getD 2 0)) c1 QRegion.empty =
      some (true, c2, rgn))
    (hne : rgn.isEmpty = false) :
    ∃ c', handleFramebufferUpdate B E fuel c = some (true, c') ∧
      c'.screen.width = c2.screen.width ∧ c'.screen.height = c2.screen.height ∧
      (∀ r, r ∈ rgn.rects → 0 ≤ r.x → 0 ≤ r.y → ∀ x y, x < r.w.toNat → y < r.h.toNat →
        c'.screen.pixel (r.x.toNat + x) (r.y.toNat + y) =
          if c2.quality = .QualityDemoLow then
            c2.screen.pixel (r.x.toNat + x) (r.y.toNat + y) &&& 16316664
          else if c2.quality = .QualityDemoMedium then
            c2.screen.pixel (r.x.toNat + x) (r.y.toNat + y) &&& 16579836
          else c2.screen.pixel (r.x.toNat + x) (r.y.toNat + y)) ∧
      (∀ k, (∀ r, r ∈ rgn.rects → ∀ x y, x < r.w.toNat → y < r.h.toNat →
          k ≠ r.pixelIndex c2.screen.width x y) →
        c'.screen.pix k = c2.screen.pix k) ∧
      (c2.quality ≠ .QualityDemoLow → c2.quality ≠ .QualityDemoMedium →
        c'.screen = c2.screen) := by
  obtain ⟨c', hres, hscr⟩ := handleFramebufferUpdate_updated B E fuel c fu c1 c2 rgn hread hloop
    hne
  have hm := fun m => demoMask_masked c2.screen.width m rgn.rects c2.screen.pix
  refine ⟨c', hres, ?_, ?_, fun r hr hx0 hy0 x y hx hy => ?_, fun k hk => ?_, fun h1 h2 => ?_⟩
  · rw [hscr]
    split
    · rfl
    · split <;> rfl
  · rw [hscr]
    split
    · rfl
    · split <;> rfl
  · have hin : ∃ r', r' ∈ rgn.rects ∧ ∃ x' y', x' < r'.w.toNat ∧ y' < r'.h.toNat ∧
        (r.y.toNat + y) * c2.screen.width + (r.x.toNat + x) =
          r'.pixelIndex c2.screen.width x' y' :=
      ⟨r, hr, x, y, hx, hy, (pixelIndex_nonneg _ r x y hx0 hy0).symm⟩
    unfold Screen.pixel
    rw [hscr]
    by_cases h1 : c2.quality = .QualityDemoLow
    · rw [if_pos h1, if_pos h1]
      exact ((hm 16316664) _).1 hin
    · rw [if_neg h1, if_neg h1]
      by_cases h2 : c2.quality = .QualityDemoMedium
      · rw [if_pos h2, if_pos h2]
        exact ((hm 16579836) _).1 hin
      · rw [if_neg h2, if_neg h2]
  · have hout : ¬ ∃ r', r' ∈ rgn.rects ∧ ∃ x' y', x' < r'.w.toNat ∧ y' < r'.h.toNat ∧
        k = r'.pixelIndex c2.screen.width x' y' :=
      fun ⟨r', hr', x', y', hx', hy', e⟩ => hk r' hr' x' y' hx' hy' e
    rw [hscr]
    by_cases h1 : c2.quality = .QualityDemoLow
    · rw [if_pos h1]
      exact ((hm 16316664) k).2 hout
    · rw [if_neg h1]
      by_cases h2 : c2.quality = .QualityDemoMedium
      · rw [if_pos h2]
        exact ((hm 16579836) k).2 hout
      · rw [if_neg h2]
  · rw [hscr, if_neg h1, if_neg h2]

/-- C20, witness: `sampleDemoConn` at quality DemoLow. The Raw rect `(0, 0, 1, 1)`
is decoded to the pixel `0xFDFEFF`, the region is this rect. -/
theorem C20_demo_colour_reduction_witness :
    ∃ c', handleFramebufferUpdate Build.sample Ext.sample 1 (sampleDemoConn .QualityDemoLow) =
        some (true, c') ∧
      c'.screen.width = (sampleDemoDecoded .QualityDemoLow).screen.width ∧
      c'.screen.height = (sampleDemoDecoded .QualityDemoLow).screen.height ∧
      (∀ r, r ∈ (QRegion.empty.add ⟨0, 0, 1, 1⟩).rects → 0 ≤ r.x → 0 ≤ r.y →
        ∀ x y, x < r.w.toNat → y < r.h.toNat →
        c'.screen.pixel (r.x.toNat + x) (r.y.toNat + y) =
          if (sampleDemoDecoded .QualityDemoLow).quality = .QualityDemoLow then
            (sampleDemoDecoded .QualityDemoLow).screen.pixel (r.x.toNat + x) (r.y.toNat + y) &&&
              16316664
          else if (sampleDemoDecoded .QualityDemoLow).quality = .QualityDemoMedium then
            (sampleDemoDecoded .QualityDemoLow).screen.pixel (r.x.toNat + x) (r.y.toNat + y) &&&
              16579836
          else (sampleDemoDecoded .QualityDemoLow).screen.pixel (r.x.toNat + x)
            (r.y.toNat + y)) ∧
      (∀ k, (∀ r, r ∈ (QRegion.empty.add ⟨0, 0, 1, 1⟩).rects →
          ∀ x y, x < r.w.toNat → y < r.h.toNat →
          k ≠ r.pixelIndex (sampleDemoDecoded .QualityDemoLow).screen.width x y) →
        c'.screen.pix k = (sampleDemoDecoded .QualityDemoLow).screen.pix k) ∧
      ((sampleDemoDecoded .QualityDemoLow).quality ≠ .QualityDemoLow →
        (sampleDemoDecoded .QualityDemoLow).quality ≠ .QualityDemoMedium →
        c'.screen = (sampleDemoDecoded .QualityDemoLow).screen) :=
  C20_demo_colour_reduction Build.sample Ext.sample 1 (sampleDemoConn .QualityDemoLow)
    [0, 0, 1]
    { (sampleDemoConn .QualityDemoLow).act .imageLockForWrite with
      inbound := rectHeader 0 0 1 1 rfbEncodingRaw ++ [255, 254, 253, 0] }
    (sampleDemoDecoded .QualityDemoLow) (QRegion.empty.add ⟨0, 0, 1, 1⟩) rfl rfl rfl

/-! ## The input path -/

/-- C21: input path guard. For every argument tuple, `sendPointerEvent`,
`sendKeyEvent` and both forms of `sendFramebufferUpdateRequest` return `FALSE`
whenever the state is not `Connected`, and the connection is then exactly as it
was: nothing is written to the transport and the cursor position is unchanged. -/
theorem C21_input_path_guard (c : Conn) (x y w h button_mask key pad : Nat)
    (down incremental : Bool) (hs : c.state ≠ .Connected) :
    sendPointerEvent c x y button_mask = (false, c) ∧
      sendKeyEvent pad c key down = (false, c) ∧
      sendFramebufferUpdateRequest c x y w h incremental = (false, c) ∧
      sendFullFramebufferUpdateRequest c = (false, c) ∧
      (sendPointerEvent c x y button_mask).2.outbound = c.outbound ∧
      (sendPointerEvent c x y button_mask).2.cursorPos = c.cursorPos := by
  have h1 : sendPointerEvent c x y button_mask = (false, c) := by
    unfold sendPointerEvent
    rw [if_pos hs]
  refine ⟨h1, ?_, ?_, ?_, by rw [h1], by rw [h1]⟩
  · unfold sendKeyEvent
    rw [if_pos hs]
  · unfold sendFramebufferUpdateRequest
    rw [if_pos hs]
  · unfold sendFullFramebufferUpdateRequest sendFramebufferUpdateRequest
    rw [if_pos hs]

/-- C21, witness: a client that is not yet connected. -/
theorem C21_input_path_guard_witness :
    sendPointerEvent (Conn.new .QualityHigh false true) 10 20 1 =
        (false, Conn.new .QualityHigh false true) ∧
      sendKeyEvent 0 (Conn.new .QualityHigh false true) 65 true =
        (false, Conn.new .QualityHigh false true) ∧
      sendFramebufferUpdateRequest (Conn.new .QualityHigh false true) 0 0 640 480 true =
        (false, Conn.new .QualityHigh false true) ∧
      sendFullFramebufferUpdateRequest (Conn.new .QualityHigh false true) =
        (false, Conn.new .QualityHigh false true) ∧
      (sendPointerEvent (Conn.new .QualityHigh false true) 10 20 1).2.outbound =
        (Conn.new .QualityHigh false true).outbound ∧
      (sendPointerEvent (Conn.new .QualityHigh false true) 10 20 1).2.cursorPos =
        (Conn.new .QualityHigh false true).cursorPos :=
  C21_input_path_guard (Conn.new .QualityHigh false true) 10 20 640 480 1 65 0 true true
    (by decide)

/-! ## The zlib streams and `close` -/

/-- C24: `close` does not reset the generic Zlib stream. For every connection,
`close()` clears the flags of the four Tight streams and leaves
`m_decompStreamInited` and the inflate context of the generic Zlib stream as
they were. On `sampleZlibUsedConn` the flag is still `TRUE` after `close()`, and
the next Zlib rect is decoded without `inflateInit`: the inflate context is
still the one that has inflated the bytes received before the close, where a
connection whose flag is `FALSE` starts from the empty context. -/
theorem C24_close_keeps_zlib_stream :
    (∀ c : Conn, (∀ i, c.close.zlibStreamActive i = false) ∧
      c.close.decompStreamInited = c.decompStreamInited ∧
      c.close.decompStream = c.decompStream) ∧
    sampleZlibUsedConn.close.decompStreamInited = true ∧
    (∃ c', handleZlib Build.sample Ext.sample 0 sampleZlibUsedConn.close 0 0 2 1 =
        some (true, c') ∧
      c'.decompStream = [([1, 2, 3], 8)]) ∧
    ∃ c', handleZlib Build.sample Ext.sample 0
        { sampleZlibUsedConn.close with decompStreamInited := false } 0 0 2 1 =
          some (true, c') ∧
      c'.decompStream = [] :=
  ⟨fun _ => ⟨fun _ => rfl, rfl, rfl⟩, rfl, ⟨_, rfl, rfl⟩, ⟨_, rfl, rfl⟩⟩

/-! ## Zlib: the raw buffer -/

theorem handleZlibLoop_rawBufferSize (B : Build) (E : Ext) :
    ∀ (fuel : Nat) (st : ZlibLoop) (b : Bool) (st' : ZlibLoop),
      handleZlibLoop B E fuel st = some (b, st') →
      st'.c.rawBufferSize = st.c.rawBufferSize := by
  intro fuel
  induction fuel with
  | zero =>
    intro st b st' h
    rw [handleZlibLoop] at h
    split at h
    · simp only [Option.some.injEq, Prod.mk.injEq] at h
      rw [← h.2]
    · exact absurd h (by simp)
  | succ fuel ih =>
    intro st b st' h
    rw [handleZlibLoop] at h
    split at h
    · simp only [Option.some.injEq, Prod.mk.injEq] at h
      rw [← h.2]
    · dsimp only at h
      split at h
      · simp only [Option.some.injEq, Prod.mk.injEq] at h
        rw [← h.2]
      · rename_i bs c1 h1
        have t1 : c1.rawBufferSize = st.c.rawBufferSize := by
          rw [readFromServer_some _ _ _ _ h1]
        split at h
        · simp only [Option.some.injEq, Prod.mk.injEq] at h
          rw [← h.2]
          exact t1
        · split at h
          · simp only [Option.some.injEq, Prod.mk.injEq] at h
            rw [← h.2]
            exact t1
          · split at h
            · simp only [Option.some.injEq, Prod.mk.injEq] at h
              rw [← h.2]
              exact t1
            · exact (ih _ _ _ h).trans t1

theorem handleZlib_rawBufferSize (B : Build) (E : Ext) (fuel : Nat) (c : Conn)
    (rx ry rw rh : Nat) (b : Bool) (c' : Conn)
    (h : handleZlib B E fuel c rx ry rw rh = some (b, c')) :
    c'.rawBufferSize =
      if c.rawBufferSize < toInt32 (rw * rh * 4) then toInt32 (rw * rh * 4)
      else c.rawBufferSize := by
  unfold handleZlib at h
  dsimp only at h
  have t0 : (if c.rawBufferSize < toInt32 (rw * rh * 4) then
      ({ c with rawBufferSize := toInt32 (rw * rh * 4), rawBuffer := E.uninit } : Conn)
      else c).rawBufferSize =
        if c.rawBufferSize < toInt32 (rw * rh * 4) then toInt32 (rw * rh * 4)
        else c.rawBufferSize := by
    split <;> rfl
  split at h
  · simp only [Option.some.injEq, Prod.mk.injEq] at h
    rw [← h.2]
    exact t0
  · rename_i hdr c2 h2
    have t2 : c2.rawBufferSize = _ := (by rw [readFromServer_some _ _ _ _ h2] : c2.rawBufferSize =
      (if c.rawBufferSize < toInt32 (rw * rh * 4) then
        ({ c with rawBufferSize := toInt32 (rw * rh * 4), rawBuffer := E.uninit } : Conn)
        else c).rawBufferSize).trans t0
    split at h
    · simp only [Option.some.injEq, Prod.mk.injEq] at h
      rw [← h.2]
      exact t2
    · rename_i c3 h3
      have t3 : c3.rawBufferSize = c2.rawBufferSize := by
        split at h3
        · simp only [Option.some.injEq] at h3
          rw [← h3]
        · split at h3
          · exact absurd h3 (by simp)
          · simp only [Option.some.injEq] at h3
            rw [← h3]
      split at h
      · exact absurd h (by simp)
      · rename_i st hst
        have := handleZlibLoop_rawBufferSize _ _ _ _ _ _ hst
        simp only [Option.some.injEq, Prod.mk.injEq] at h
        rw [← h.2]
        exact this.trans (t3.trans t2)
      · rename_i st hst
        have := handleZlibLoop_rawBufferSize _ _ _ _ _ _ hst
        split at h
        · simp only [Option.some.injEq, Prod.mk.injEq] at h
          rw [← h.2]
          exact this.trans (t3.trans t2)
        · simp only [Option.some.injEq, Prod.mk.injEq] at h
          rw [← h.2]
          exact this.trans (t3.trans t2)

theorem toInt32_small (v : Nat) (h : v < 2147483648) : toInt32 v = (v : Int) := by
  unfold toInt32
  have e : v % 4294967296 = v := Nat.mod_eq_of_lt (by omega)
  rw [e, if_pos h]

theorem zlibCalls_rawBufferSize (B : Build) (E : Ext) (c c' : Conn)
    (h : ZlibCalls B E c c') : c.rawBufferSize ≤ c'.rawBufferSize := by
  induction h with
  | done c => exact Int.le_refl _
  | call fuel c c1 c2 rx ry rw rh b hsize hcall _ ih =>
    have e := handleZlib_rawBufferSize B E fuel c rx ry rw rh b c1 hcall
    have : c.rawBufferSize ≤ c1.rawBufferSize := by
      rw [e]
      split <;> omega
    exact Int.le_trans this ih
  | between c c1 c2 hsame _ ih =>
    rw [← hsame]
    exact ih

/-- C25: the raw buffer only grows. Whatever a call of `handleZlib` for a rect
with `w * h * 4 < 2^31` returns, the size of the raw decompression buffer after
the call is the larger one of the size before and `w * h * 4`: it has not
decreased, it is at least `w * h * 4`, and it has changed only if it was smaller
than `w * h * 4`. Hence across every sequence of such calls that starts after
this one the size never decreases. -/
theorem C25_raw_buffer_only_grows (B : Build) (E : Ext) (fuel : Nat) (c : Conn)
    (rx ry rw rh : Nat) (b : Bool) (c' : Conn)
    (hsize : rw * rh * 4 < 2147483648)
    (hcall : handleZlib B E fuel c rx ry rw rh = some (b, c')) :
    c.rawBufferSize ≤ c'.rawBufferSize ∧
      ((rw * rh * 4 : Nat) : Int) ≤ c'.rawBufferSize ∧
      (((rw * rh * 4 : Nat) : Int) ≤ c.rawBufferSize → c'.rawBufferSize = c.rawBufferSize) ∧
      (c.rawBufferSize < ((rw * rh * 4 : Nat) : Int) →
        c'.rawBufferSize = ((rw * rh * 4 : Nat) : Int)) ∧
      (∀ c'', ZlibCalls B E c' c'' →
        c'.rawBufferSize ≤ c''.rawBufferSize ∧ c.rawBufferSize ≤ c''.rawBufferSize) := by
  have e := handleZlib_rawBufferSize B E fuel c rx ry rw rh b c' hcall
  rw [toInt32_small _ hsize] at e
  have h1 : c.rawBufferSize ≤ c'.rawBufferSize := by
    rw [e]
    split <;> omega
  refine ⟨h1, ?_, fun h => ?_, fun h => ?_, fun c'' hc => ?_⟩
  · rw [e]
    split <;> omega
  · rw [e, if_neg (by omega)]
  · rw [e, if_pos h]
  · have := zlibCalls_rawBufferSize B E c' c'' hc
    exact ⟨this, Int.le_trans h1 this⟩

/-- C25, witness: the first Zlib rect of a connection, `2 × 1` pixels with
`nBytes = 0`: the buffer, of size -1 before, has 8 bytes afterwards. -/
theorem C25_raw_buffer_only_grows_witness :
    ∃ c', handleZlib Build.sample Ext.sample 0 sampleZlibEmptyConn 0 0 2 1 = some (true, c') ∧
      sampleZlibEmptyConn.rawBufferSize ≤ c'.rawBufferSize ∧
      ((2 * 1 * 4 : Nat) : Int) ≤ c'.rawBufferSize ∧
      (((2 * 1 * 4 : Nat) : Int) ≤ sampleZlibEmptyConn.rawBufferSize →
        c'.rawBufferSize = sampleZlibEmptyConn.rawBufferSize) ∧
      (sampleZlibEmptyConn.rawBufferSize < ((2 * 1 * 4 : Nat) : Int) →
        c'.rawBufferSize = ((2 * 1 * 4 : Nat) : Int)) ∧
      (∀ c'', ZlibCalls Build.sample Ext.sample c' c'' →
        c'.rawBufferSize ≤ c''.rawBufferSize ∧
          sampleZlibEmptyConn.rawBufferSize ≤ c''.rawBufferSize) :=
  ⟨_, rfl, C25_raw_buffer_only_grows Build.sample Ext.sample 0 sampleZlibEmptyConn 0 0 2 1
    true _ (by decide) rfl⟩

/-! ## The bounds check and the cursor rects -/

theorem handleServerMessages_too_large (B : Build) (E : Ext) (fuel : Nat) (c : Conn)
    (send_screen_update : Bool) (tries : Int) (pad x y w h enc : Nat) (payload : List Nat)
    (htries : 1 ≤ tries)
    (hx : x < 65536) (hy : y < 65536) (hw : w < 65536) (hh : h < 65536)
    (henc : enc < 4294967296) (hlast : enc ≠ rfbEncodingLastRect)
    (hin : c.inbound =
      rfbFramebufferUpdate :: pad :: (1 / 256 % 256) :: (1 % 256) ::
        (rectHeader x y w h enc ++ payload))
    (hb : x + w > c.framebufferWidth ∨ y + h > c.framebufferHeight) :
    handleServerMessages B E fuel c send_screen_update tries =
      some (false,
        { c with
          inbound := payload
          trace := c.trace ++ [.imageLockForWrite, .qWarning .rectTooLarge, .imageUnlock] }) := by
  have hfail := handleRect_out_of_bounds B E fuel
    ({ c with inbound := rectHeader x y w h enc ++ payload,
              trace := c.trace ++ [.imageLockForWrite] } : Conn)
    QRegion.empty x y w h enc payload hx hy hw hh henc rfl hlast hb
  rw [handleServerMessages_failed B E fuel c send_screen_update tries pad 1 0
    (rectHeader x y w h enc ++ payload) _ QRegion.empty _ htries (by decide) (by decide) hin rfl
    hfail]
  simp [Conn.act]

/-- C28, counterexample: cursor rects are not exempt from the bounds check. On a
`3 × 1` framebuffer, an update whose only rect is a RichCursor or an XCursor
rect of size `4 × 1` with hotspot `(0, 0)`, or a PointerPos rect for the
position `(4, 0)`, is not dispatched to its cursor handler: the dispatcher
refuses it like any other rect that does not fit. `handleServerMessages`
returns `FALSE` after the warning "rect too large", the cursor handler is not
called (no cursor action in the trace, cursor shape and position as before) and
the bytes behind the rect header stay unread. -/
theorem C28_cursor_rects_bounds_checked_counterexample :
    handleServerMessages Build.sample Ext.sample 0
        (sampleCursorBoundsConn 0 4 rfbEncodingRichCursor) false 1 =
      some (false, sampleCursorRefusedConn 0 4 rfbEncodingRichCursor) ∧
    handleServerMessages Build.sample Ext.sample 0
        (sampleCursorBoundsConn 0 4 rfbEncodingXCursor) false 1 =
      some (false, sampleCursorRefusedConn 0 4 rfbEncodingXCursor) ∧
    handleServerMessages Build.sample Ext.sample 0
        (sampleCursorBoundsConn 4 0 rfbEncodingPointerPos) false 1 =
      some (false, sampleCursorRefusedConn 4 0 rfbEncodingPointerPos) ∧
    (sampleCursorRefusedConn 0 4 rfbEncodingRichCursor).cursorShape =
      (sampleCursorBoundsConn 0 4 rfbEncodingRichCursor).cursorShape ∧
    (sampleCursorRefusedConn 4 0 rfbEncodingPointerPos).cursorPos =
      (sampleCursorBoundsConn 4 0 rfbEncodingPointerPos).cursorPos ∧
    (sampleCursorRefusedConn 0 4 rfbEncodingRichCursor).softwareCursor = false :=
  ⟨handleServerMessages_too_large Build.sample Ext.sample 0 _ false 1 0 0 0 4 1
      rfbEncodingRichCursor [1, 2, 3, 4] (by decide) (by decide) (by decide) (by decide)
      (by decide) (by decide) (by decide) rfl (by decide),
    handleServerMessages_too_large Build.sample Ext.sample 0 _ false 1 0 0 0 4 1
      rfbEncodingXCursor [1, 2, 3, 4] (by decide) (by decide) (by decide) (by decide)
      (by decide) (by decide) (by decide) rfl (by decide),
    handleServerMessages_too_large Build.sample Ext.sample 0 _ false 1 0 4 0 0 1
      rfbEncodingPointerPos [1, 2, 3, 4] (by decide) (by decide) (by decide) (by decide)
      (by decide) (by decide) (by decide) rfl (by decide),
    rfl, rfl, rfl⟩

/-! ## Raw: the number of reads -/

theorem ceil_div_step (rh l : Nat) (hl : 1 ≤ l) (h0 : rh ≠ 0) :
    (rh + l - 1) / l =
      (rh - (if l > rh then rh else l) + (if l > rh then rh else l) - 1) /
        (if l > rh then rh else l) + 1 := by
  by_cases h : l > rh
  · rw [if_pos h]
    have e1 : (rh + l - 1) / l = 1 :=
      Nat.div_eq_of_lt_le (by omega) (by omega)
    have e2 : (rh - rh + rh - 1) / rh = 0 := Nat.div_eq_of_lt (by omega)
    rw [e1, e2]
  · rw [if_neg h]
    have e : rh + l - 1 = (rh - l + l - 1) + l := by omega
    rw [e, Nat.add_div_right _ (by omega)]

theorem handleRawLoop_reads (B : Build) :
    ∀ (fuel : Nat) (c : Conn) (rx ry rw rh l : Nat) (bs rest : List Nat),
      1 ≤ l → rh < 65536 → bs.length = rw * 4 * rh → c.inbound = bs ++ rest →
      ((rh + l - 1) / l ≤ fuel →
        ∃ c', handleRawLoop B fuel c rx ry rw rh l = some (true, c') ∧ c'.inbound = rest) ∧
      (fuel < (rh + l - 1) / l → handleRawLoop B fuel c rx ry rw rh l = none) := by
  intro fuel
  induction fuel with
  | zero =>
    intro c rx ry rw rh l bs rest hl hrh hlen hin
    by_cases h0 : rh = 0
    · subst h0
      have hbs : bs = [] := List.length_eq_zero.mp (by simpa using hlen)
      subst hbs
      have e : (0 + l - 1) / l = 0 := Nat.div_eq_of_lt (by omega)
      rw [e]
      refine ⟨fun _ => ⟨c, ?_, by simpa using hin⟩, fun h => absurd h (Nat.lt_irrefl 0)⟩
      rw [handleRawLoop]
      simp
    · have e := ceil_div_step rh l hl h0
      refine ⟨fun h => ?_, fun _ => ?_⟩
      · rw [e] at h
        exact absurd h (Nat.not_succ_le_zero _)
      · rw [handleRawLoop]
        simp [h0]
  | succ fuel ih =>
    intro c rx ry rw rh l bs rest hl hrh hlen hin
    by_cases h0 : rh = 0
    · subst h0
      have hbs : bs = [] := List.length_eq_zero.mp (by simpa using hlen)
      subst hbs
      have e : (0 + l - 1) / l = 0 := Nat.div_eq_of_lt (by omega)
      rw [e]
      refine ⟨fun _ => ⟨c, ?_, by simpa using hin⟩, fun h => absurd h (Nat.not_lt_zero _)⟩
      rw [handleRawLoop]
      simp
    · have e := ceil_div_step rh l hl h0
      have hl' : 1 ≤ (if l > rh then rh else l) := by split <;> omega
      have hle : (if l > rh then rh else l) ≤ rh := by split <;> omega
      have hstep := handleRawLoop_step B fuel c rx ry rw rh l
        (bs.take (rw * 4 * (if l > rh then rh else l)))
        (bs.drop (rw * 4 * (if l > rh then rh else l)) ++ rest) h0
        (by rw [hin, ← List.append_assoc, List.take_append_drop])
        (by
          rw [List.length_take, hlen]
          exact Nat.min_eq_left (Nat.mul_le_mul_left _ hle))
      rw [hstep, e]
      have hlen' : (bs.drop (rw * 4 * (if l > rh then rh else l))).length =
          rw * 4 * (rh - (if l > rh then rh else l)) := by
        rw [List.length_drop, hlen, Nat.mul_sub]
      generalize (if l > rh then rh else l) = l' at hl' hle hlen' ⊢
      rw [Nat.mod_eq_of_lt (show rh - l' < 65536 by omega)]
      refine ⟨fun h => (ih _ _ _ _ _ _ (bs.drop (rw * 4 * l')) rest hl' ?_ hlen' ?_).1 ?_,
        fun h => (ih _ _ _ _ _ _ (bs.drop (rw * 4 * l')) rest hl' ?_ hlen' ?_).2 ?_⟩
      · omega
      · rfl
      · omega
      · omega
      · rfl
      · omega

/-- C29: Raw termination. Let `L = (BUFFER_SIZE div (4 w)) mod 2^16` be the batch
size of a Raw rect `(x, y, w, h)` with `w, h ≥ 1` whose `w * h * 4` bytes are on
the transport. If `L ≥ 1`, the loop of `handleRaw` ends after exactly
`ceil(h / L)` iterations, each with one successful read: with that many
iterations allowed `handleRaw` returns `TRUE` and has consumed exactly the
`w * h * 4` bytes, with fewer it has not returned. If `L = 0`, which is the case
when `4 w > BUFFER_SIZE`, an iteration reads 0 bytes and leaves the connection
and the remaining height as they were, so that the loop never ends. -/
theorem C29_raw_termination (B : Build) (fuel : Nat) (c : Conn) (x y w h : Nat)
    (bs rest : List Nat) (_hw : 1 ≤ w) (hh : 1 ≤ h) (hh16 : h < 65536) (hy16 : y < 65536)
    (hlen : bs.length = w * h * 4) (hin : c.inbound = bs ++ rest) :
    (1 ≤ B.BUFFER_SIZE / (w * 4) % 65536 →
      ((h + B.BUFFER_SIZE / (w * 4) % 65536 - 1) / (B.BUFFER_SIZE / (w * 4) % 65536) ≤ fuel →
        ∃ c', handleRaw B fuel c x y w h = some (true, c') ∧ c'.inbound = rest ∧
          c.inbound.length = w * h * 4 + c'.inbound.length) ∧
      (fuel < (h + B.BUFFER_SIZE / (w * 4) % 65536 - 1) / (B.BUFFER_SIZE / (w * 4) % 65536) →
        handleRaw B fuel c x y w h = none)) ∧
    (B.BUFFER_SIZE / (w * 4) % 65536 = 0 →
      handleRaw B fuel c x y w h = none ∧
        ∀ n, handleRawLoop B (n + 1) c x y w h 0 = handleRawLoop B n c x y w h 0) ∧
    (4 * w > B.BUFFER_SIZE → B.BUFFER_SIZE / (w * 4) % 65536 = 0) := by
  refine ⟨fun hL => ?_, fun hL => ?_, fun hbig => ?_⟩
  · obtain ⟨i1, i2⟩ := handleRawLoop_reads B fuel c x y w h (B.BUFFER_SIZE / (w * 4) % 65536)
      bs rest hL hh16 (by rw [hlen]; ring) hin
    refine ⟨fun hf => ?_, fun hf => i2 hf⟩
    obtain ⟨c', h1, h2⟩ := i1 hf
    refine ⟨c', h1, h2, ?_⟩
    rw [h2, hin, List.length_append, hlen]
  · unfold handleRaw
    rw [hL]
    refine ⟨handleRawLoop_stuck B fuel c x y w h (by omega) hh16 hy16, fun n => ?_⟩
    rw [handleRawLoop_step B n c x y w h 0 [] c.inbound (by omega) rfl (by simp)]
    simp only [Nat.not_lt_zero, gt_iff_lt, if_false, Nat.add_zero, Nat.sub_zero,
      Nat.mod_eq_of_lt hh16, Nat.mod_eq_of_lt hy16]
    have hb : writeBytes c.buffer 0 [] = c.buffer := by
      funext k
      simp [writeBytes]
    rw [hb]
    rfl
  · rw [Nat.div_eq_of_lt (by omega)]

/-- C29, witness: the Raw rect `(0, 0, 2048, 3)` with `BUFFER_SIZE = 16384`: the
batch size is 2 and the rect takes 2 reads. -/
theorem C29_raw_termination_witness :
    (1 ≤ Build.small.BUFFER_SIZE / (2048 * 4) % 65536 →
      ((3 + Build.small.BUFFER_SIZE / (2048 * 4) % 65536 - 1) /
          (Build.small.BUFFER_SIZE / (2048 * 4) % 65536) ≤ 2 →
        ∃ c', handleRaw Build.small 2 sampleRawBatchConn 0 0 2048 3 = some (true, c') ∧
          c'.inbound = [] ∧
          sampleRawBatchConn.inbound.length = 2048 * 3 * 4 + c'.inbound.length) ∧
      (2 < (3 + Build.small.BUFFER_SIZE / (2048 * 4) % 65536 - 1) /
          (Build.small.BUFFER_SIZE / (2048 * 4) % 65536) →
        handleRaw Build.small 2 sampleRawBatchConn 0 0 2048 3 = none)) ∧
    (Build.small.BUFFER_SIZE / (2048 * 4) % 65536 = 0 →
      handleRaw Build.small 2 sampleRawBatchConn 0 0 2048 3 = none ∧
        ∀ n, handleRawLoop Build.small (n + 1) sampleRawBatchConn 0 0 2048 3 0 =
          handleRawLoop Build.small n sampleRawBatchConn 0 0 2048 3 0) ∧
    (4 * 2048 > Build.small.BUFFER_SIZE → Build.small.BUFFER_SIZE / (2048 * 4) % 65536 = 0) :=
  C29_raw_termination Build.small 2 sampleRawBatchConn 0 0 2048 3
    (List.replicate (2048 * 3 * 4) 0) [] (by decide) (by decide) (by decide) (by decide)
    (List.length_replicate _ _) rfl

/-! ## XCursor: the conversion of the colour indices -/

/-- C27: XCursor colour expansion stops after the first pixel. In the branch for
4 bytes per pixel the loop that converts the colour indices into pixels ends
with `break` in its first iteration. For the `2 × 1` XCursor rect of
`sampleXCursorConn`, whose two bitmap bits are 1 and whose foreground is white,
`handleCursorShape` returns `TRUE` and the cursor has the foreground pixel
`0xFFFFFF` at index 0 only: pixel 1 is still the colour index 1 (with the
content of the fresh buffer in its upper bytes), not the foreground pixel. -/
theorem C27_xcursor_conversion_stops :
    RGB24_TO_PIXEL 255 255 255 = 16777215 ∧
    ∃ c', handleCursorShape Build.sample Ext.sample sampleXCursorConn 0 0 2 1
        rfbEncodingXCursor = (true, c') ∧
      c'.cursorShape.width = 2 ∧ c'.cursorShape.height = 1 ∧
      c'.cursorShape.pixels 0 = 16777215 ∧
      c'.cursorShape.pixels 1 = 1 :=
  ⟨by decide, _, rfl, rfl, rfl, by decide, by decide⟩

/-! ## Tight: the two parts of the scratch buffer -/

theorem forLoop_inv {σ : Type} (P : σ → Prop) (n : Nat) (body : Nat → σ → σ) (s : σ)
    (h0 : P s) (hstep : ∀ i s, i < n → P s → P (body i s)) : P (forLoop n body s) := by
  induction n with
  | zero => exact h0
  | succ n ih =>
    exact hstep n _ (Nat.lt_succ_self n) (ih (fun i s hi hs => hstep i s (by omega) hs))

theorem store32_outside (be : Bool) (dstOff N idx v : Nat) (buf0 buf : Mem) (hidx : idx < N)
    (h : ∀ k, k < dstOff ∨ dstOff + 4 * N ≤ k → buf k = buf0 k) :
    ∀ k, k < dstOff ∨ dstOff + 4 * N ≤ k →
      store32 be buf (dstOff + 4 * idx) v k = buf0 k := by
  intro k hk
  rw [store32_frame be buf _ v k (by omega)]
  exact h k hk

theorem row_index_lt (W n y x : Nat) (hy : y < n) (hx : x < W) : y * W + x < n * W := by
  have h := Nat.mul_le_mul_right W (show y + 1 ≤ n by omega)
  rw [Nat.succ_mul] at h
  omega

theorem filterCopy_outside (c : Conn) (num_rows dstOff : Nat) (k : Nat)
    (hk : k < dstOff ∨ dstOff + 4 * (num_rows * c.rectWidth) ≤ k) :
    (filterCopy c num_rows dstOff).buffer k = c.buffer k := by
  unfold filterCopy
  dsimp only
  rw [if_neg]
  intro h
  have : num_rows * c.rectWidth * 4 = 4 * (num_rows * c.rectWidth) := by ring
  omega

theorem palette2Byte_outside (be : Bool) (pal : Mem) (W w dstOff N y x n : Nat) (buf0 buf : Mem)
    (hn : n ≤ 8) (hN : ∀ t, t < n → y * W + x * 8 + t < N)
    (h : ∀ k, k < dstOff ∨ dstOff + 4 * N ≤ k → buf k = buf0 k) :
    ∀ k, k < dstOff ∨ dstOff + 4 * N ≤ k →
      palette2Byte be pal W w dstOff y x n buf k = buf0 k := by
  unfold palette2Byte
  refine forLoop_inv (fun b : Mem => ∀ k, k < dstOff ∨ dstOff + 4 * N ≤ k → b k = buf0 k)
    n _ buf h (fun t b ht hb => ?_)
  have e : y * W + x * 8 + 7 - (7 - t) = y * W + x * 8 + t := by
    have := hN t ht
    omega
  dsimp only
  rw [e]
  exact store32_outside be dstOff N _ _ buf0 b (hN t ht) hb

theorem filterPalette_outside (B : Build) (c : Conn) (num_rows dstOff : Nat) (k : Nat)
    (hk : k < dstOff ∨ dstOff + 4 * (num_rows * c.rectWidth) ≤ k) :
    (filterPalette B c num_rows dstOff).buffer k = c.buffer k := by
  unfold filterPalette
  dsimp only
  split
  · dsimp only
    refine forLoop_inv
      (fun b : Mem => ∀ k, k < dstOff ∨ dstOff + 4 * (num_rows * c.rectWidth) ≤ k →
        b k = c.buffer k)
      num_rows _ c.buffer (fun _ _ => rfl) (fun y b hy hb => ?_) k hk
    unfold palette2Row
    dsimp only
    apply palette2Byte_outside
    · omega
    · intro t ht
      have hx : c.rectWidth / 8 * 8 + t < c.rectWidth := by omega
      have := row_index_lt c.rectWidth num_rows y (c.rectWidth / 8 * 8 + t) hy hx
      omega
    · refine forLoop_inv
        (fun b : Mem => ∀ k, k < dstOff ∨ dstOff + 4 * (num_rows * c.rectWidth) ≤ k →
          b k = c.buffer k)
        (c.rectWidth / 8) _ b hb (fun x b2 hx hb2 => ?_)
      apply palette2Byte_outside
      · omega
      · intro t ht
        have hx2 : x * 8 + t < c.rectWidth := by omega
        have := row_index_lt c.rectWidth num_rows y (x * 8 + t) hy hx2
        omega
      · exact hb2
  · dsimp only
    refine forLoop_inv
      (fun b : Mem => ∀ k, k < dstOff ∨ dstOff + 4 * (num_rows * c.rectWidth) ≤ k →
        b k = c.buffer k)
      num_rows _ c.buffer (fun _ _ => rfl) (fun y b hy hb => ?_) k hk
    refine forLoop_inv
      (fun b : Mem => ∀ k, k < dstOff ∨ dstOff + 4 * (num_rows * c.rectWidth) ≤ k →
        b k = c.buffer k)
      c.rectWidth _ b hb (fun x b2 hx hb2 => ?_)
    exact store32_outside _ dstOff _ _ _ c.buffer b2
      (row_index_lt c.rectWidth num_rows y x hy hx) hb2

theorem gradientFirst_buffer (be : Bool) (W y ch : Nat) (g : GradientState) :
    (gradientFirst be W y ch g).buffer = g.buffer := rfl

theorem gradientNext_buffer (be : Bool) (W y x ch : Nat) (g : GradientState) :
    (gradientNext be W y x ch g).buffer = g.buffer := rfl

theorem filterGradient_outside (B : Build) (uninit : Mem) (c : Conn) (num_rows dstOff : Nat)
    (k : Nat) (hw : 1 ≤ c.rectWidth)
    (hk : k < dstOff ∨ dstOff + 4 * (num_rows * c.rectWidth) ≤ k) :
    (filterGradient B uninit c num_rows dstOff).buffer k = c.buffer k := by
  unfold filterGradient
  dsimp only
  refine forLoop_inv
    (fun g : GradientState => ∀ k, k < dstOff ∨ dstOff + 4 * (num_rows * c.rectWidth) ≤ k →
      g.buffer k = c.buffer k)
    num_rows _ _ (fun _ _ => rfl) (fun y g hy hg => ?_) k hk
  unfold gradientRow
  dsimp only
  refine forLoop_inv
    (fun g : GradientState => ∀ k, k < dstOff ∨ dstOff + 4 * (num_rows * c.rectWidth) ≤ k →
      g.buffer k = c.buffer k)
    (c.rectWidth - 1) _ _ ?_ (fun i g2 hi hg2 => ?_)
  · dsimp only
    have := store32_outside B.WORDS_BIGENDIAN dstOff (num_rows * c.rectWidth) (y * c.rectWidth)
      (RGB_TO_PIXEL
        ((forLoop 3 (fun ch g => gradientFirst B.WORDS_BIGENDIAN c.rectWidth y ch g) g).pix 0)
        ((forLoop 3 (fun ch g => gradientFirst B.WORDS_BIGENDIAN c.rectWidth y ch g) g).pix 1)
        ((forLoop 3 (fun ch g => gradientFirst B.WORDS_BIGENDIAN c.rectWidth y ch g) g).pix 2))
      c.buffer g.buffer
      (by have := row_index_lt c.rectWidth num_rows y 0 hy (by omega); omega) hg
    exact this
  · unfold gradientPixel
    dsimp only
    exact store32_outside B.WORDS_BIGENDIAN dstOff (num_rows * c.rectWidth)
      (y * c.rectWidth + (i + 1)) _ c.buffer g2.buffer
      (row_index_lt c.rectWidth num_rows y (i + 1) hy (by omega)) hg2

theorem applyFilter_outside (B : Build) (E : Ext) (f : TightFilter) (c : Conn)
    (num_rows dstOff : Nat) (k : Nat) (hw : 1 ≤ c.rectWidth)
    (hk : k < dstOff ∨ dstOff + 4 * (num_rows * c.rectWidth) ≤ k) :
    (applyFilter B E f c num_rows dstOff).buffer k = c.buffer k := by
  cases f
  · exact filterCopy_outside c num_rows dstOff k hk
  · exact filterPalette_outside B c num_rows dstOff k hk
  · exact filterGradient_outside B E.uninit c num_rows dstOff k hw hk

theorem tight_split_arith (BS bits_pixel rw avail_out : Nat)
    (hbits : bits_pixel = 1 ∨ bits_pixel = 8 ∨ bits_pixel = 32)
    (hrow16 : (rw * bits_pixel + 7) / 8 < 65536) :
    (BS * bits_pixel / (bits_pixel + 32) &&& 4294967292) +
        ((BS * bits_pixel / (bits_pixel + 32) &&& 4294967292) - avail_out) /
          ((rw * bits_pixel + 7) / 8 % 65536) % 65536 * rw * 4 ≤ BS ∧
      ((BS * bits_pixel / (bits_pixel + 32) &&& 4294967292) - avail_out) /
          ((rw * bits_pixel + 7) / 8 % 65536) % 65536 * ((rw * bits_pixel + 7) / 8 % 65536) ≤
        (BS * bits_pixel / (bits_pixel + 32) &&& 4294967292) - avail_out := by
  have hle : BS * bits_pixel / (bits_pixel + 32) &&& 4294967292 ≤
      BS * bits_pixel / (bits_pixel + 32) := Nat.and_le_left
  have hdiv : BS * bits_pixel / (bits_pixel + 32) * (bits_pixel + 32) ≤ BS * bits_pixel :=
    Nat.div_mul_le_self _ _
  generalize (BS * bits_pixel / (bits_pixel + 32) &&& 4294967292) = bs at hle ⊢
  generalize BS * bits_pixel / (bits_pixel + 32) = q at hle hdiv
  rw [Nat.mod_eq_of_lt hrow16]
  have hnr : (bs - avail_out) / ((rw * bits_pixel + 7) / 8) % 65536 ≤
      (bs - avail_out) / ((rw * bits_pixel + 7) / 8) := Nat.mod_le _ _
  have hrows : (bs - avail_out) / ((rw * bits_pixel + 7) / 8) * ((rw * bits_pixel + 7) / 8) ≤
      bs - avail_out := Nat.div_mul_le_self _ _
  generalize (bs - avail_out) / ((rw * bits_pixel + 7) / 8) % 65536 = nr at hnr ⊢
  generalize (bs - avail_out) / ((rw * bits_pixel + 7) / 8) = n0 at hnr hrows
  have hmul : nr * ((rw * bits_pixel + 7) / 8) ≤ n0 * ((rw * bits_pixel + 7) / 8) :=
    Nat.mul_le_mul_right _ hnr
  refine ⟨?_, Nat.le_trans hmul hrows⟩
  have hin : nr * ((rw * bits_pixel + 7) / 8) ≤ bs := by omega
  have e : nr * rw * 4 = 4 * (nr * rw) := by ring
  rw [e]
  rcases hbits with h | h | h <;> subst h
  · have hR : rw ≤ 8 * ((rw * 1 + 7) / 8) := by omega
    have h2 : nr * rw ≤ nr * (8 * ((rw * 1 + 7) / 8)) := Nat.mul_le_mul_left _ hR
    have e2 : nr * (8 * ((rw * 1 + 7) / 8)) = 8 * (nr * ((rw * 1 + 7) / 8)) := by ring
    rw [e2] at h2
    omega
  · have e3 : (rw * 8 + 7) / 8 = rw := by omega
    rw [e3] at hin
    omega
  · have e3 : (rw * 32 + 7) / 8 = 4 * rw := by omega
    rw [e3] at hin
    have e4 : nr * (4 * rw) = 4 * (nr * rw) := by ring
    rw [e4] at hin
    omega

@[refl]
theorem TraceIn.same (c : Conn) : TraceIn c c :=
  ⟨[], by simp, fun a ha => absurd ha (List.not_mem_nil a)⟩

theorem TraceIn.seq {a b c : Conn} (h1 : TraceIn a b) (h2 : TraceIn b c) : TraceIn a c := by
  obtain ⟨n1, e1, p1⟩ := h1
  obtain ⟨n2, e2, p2⟩ := h2
  refine ⟨n2 ++ n1, by rw [e1, e2, List.append_assoc], fun x hx => ?_⟩
  rcases List.mem_append.mp hx with h | h
  · exact p2 x h
  · exact p1 x h

theorem TraceIn.step (c : Conn) (a : Action) (h : a.isFrame = false) : TraceIn (c.act a) c :=
  ⟨[a], rfl, fun x hx => by rw [List.mem_singleton.mp hx]; exact h⟩

theorem TraceIn.of_eq (c c' : Conn) (h : c'.trace = c.trace) : TraceIn c' c :=
  ⟨[], by simp [h], fun a ha => absurd ha (List.not_mem_nil a)⟩

theorem tightResetStep_traceIn (E : Ext) (i : Nat) (st : Conn × Nat) :
    TraceIn (tightResetStep E i st).1 st.1 := by
  unfold tightResetStep
  simp only []
  split_ifs
  · exact TraceIn.step _ _ rfl
  · exact TraceIn.of_eq _ _ rfl
  · exact TraceIn.same _

theorem tightResetStreams_traceIn (E : Ext) (c : Conn) (cc : Nat) :
    TraceIn (tightResetStreams E c cc).1 c := by
  unfold tightResetStreams forLoop forLoop forLoop forLoop forLoop
  exact (tightResetStep_traceIn E 3 _).seq ((tightResetStep_traceIn E 2 _).seq
    ((tightResetStep_traceIn E 1 _).seq (tightResetStep_traceIn E 0 _)))

theorem decompressJpegRect_traceIn (B : Build) (E : Ext) (c : Conn) (x y w h : Nat) :
    TraceIn (decompressJpegRect B E c x y w h).2 c := by
  have t0 := readCompactLen_trace c
  unfold decompressJpegRect
  dsimp only
  split
  · exact (TraceIn.step _ _ (by rfl)).seq (TraceIn.of_eq _ _ t0)
  · split
    · exact TraceIn.of_eq _ _ t0
    · rename_i data c2 h2
      have t2 := readFromServer_trace _ _ _ _ h2
      split
      · exact (TraceIn.step _ _ (by rfl)).seq (TraceIn.of_eq _ _ (t2.trans t0))
      · exact TraceIn.of_eq _ _ ((jpegScanlines_trace _ _ _ _ _ _).trans (t2.trans t0))

theorem tightInflateLoop_traceIn (B : Build) (E : Ext) (f : TightFilter)
    (rx ry rw stream_id row_size buffer_size : Nat) :
    ∀ (fuel : Nat) (st : TightLoop) (input : List Nat) (b : Bool) (st' : TightLoop),
      tightInflateLoop B E f rx ry rw stream_id row_size buffer_size fuel st input
        = some (b, st') →
      TraceIn st'.c st.c := by
  intro fuel
  induction fuel with
  | zero =>
    intro st input b st' h
    rw [tightInflateLoop] at h
    exact absurd h (by simp)
  | succ fuel ih =>
    intro st input b st' h
    rw [tightInflateLoop] at h
    dsimp only at h
    split at h
    · simp only [Option.some.injEq, Prod.mk.injEq] at h
      rw [← h.2]
      exact TraceIn.of_eq _ _ rfl
    · split at h
      · simp only [Option.some.injEq, Prod.mk.injEq] at h
        rw [← h.2]
        exact TraceIn.step _ _ rfl
      · split at h
        · refine (ih _ _ _ _ h).seq ?_
          apply TraceIn.of_eq
          dsimp only
          apply ite_trace
          · apply ite_trace
            · exact applyFilter_trace _ _ _ _ _ _
            · exact applyFilter_trace _ _ _ _ _ _
          · apply ite_trace
            · exact applyFilter_trace _ _ _ _ _ _
            · exact applyFilter_trace _ _ _ _ _ _
        · simp only [Option.some.injEq, Prod.mk.injEq] at h
          rw [← h.2]
          apply TraceIn.of_eq
          dsimp only
          apply ite_trace
          · apply ite_trace
            · exact applyFilter_trace _ _ _ _ _ _
            · exact applyFilter_trace _ _ _ _ _ _
          · apply ite_trace
            · exact applyFilter_trace _ _ _ _ _ _
            · exact applyFilter_trace _ _ _ _ _ _

theorem tightReadLoop_traceIn (B : Build) (E : Ext) (f : TightFilter)
    (rx ry rw stream_id row_size buffer_size : Nat) :
    ∀ (fuel : Nat) (st : TightLoop) (b : Bool) (st' : TightLoop),
      tightReadLoop B E f rx ry rw stream_id row_size buffer_size fuel st = some (b, st') →
      TraceIn st'.c st.c := by
  intro fuel
  induction fuel with
  | zero =>
    intro st b st' h
    rw [tightReadLoop] at h
    split at h
    · simp only [Option.some.injEq, Prod.mk.injEq] at h
      rw [← h.2]
    · exact absurd h (by simp)
  | succ fuel ih =>
    intro st b st' h
    rw [tightReadLoop] at h
    split at h
    · simp only [Option.some.injEq, Prod.mk.injEq] at h
      rw [← h.2]
    · dsimp only at h
      split at h
      · simp only [Option.some.injEq, Prod.mk.injEq] at h
        rw [← h.2]
      · rename_i bs c1 h1
        have t1 := readFromServer_trace _ _ _ _ h1
        split at h
        · exact absurd h (by simp)
        · rename_i st2 h2
          simp only [Option.some.injEq, Prod.mk.injEq] at h
          rw [← h.2]
          exact (tightInflateLoop_traceIn _ _ _ _ _ _ _ _ _ _ _ _ _ _ h2).seq
            (TraceIn.of_eq _ _ t1)
        · rename_i st2 h2
          exact (ih _ _ _ h).seq
            ((tightInflateLoop_traceIn _ _ _ _ _ _ _ _ _ _ _ _ _ _ h2).seq
              (TraceIn.of_eq _ _ t1))

theorem tightData_traceIn (B : Build) (E : Ext) (fuel : Nat) (rx ry rw rh comp_ctl : Nat)
    (f : TightFilter) (bits_pixel : Nat) (c4 : Conn) (b : Bool) (c' : Conn)
    (h : tightData B E fuel rx ry rw rh comp_ctl f bits_pixel c4 = some (b, c')) :
    TraceIn c' c4 := by
  unfold tightData at h
  split at h
  · simp only [Option.some.injEq, Prod.mk.injEq] at h
    rw [← h.2]
    exact TraceIn.step _ _ rfl
  · dsimp only at h
    split at h
    · split at h
      · simp only [Option.some.injEq, Prod.mk.injEq] at h
        rw [← h.2]
      · rename_i bs c5 h5
        have t5 := readFromServer_trace _ _ _ _ h5
        simp only [Option.some.injEq, Prod.mk.injEq] at h
        rw [← h.2]
        apply TraceIn.of_eq
        exact (applyFilter_trace _ _ _ _ _ _).trans t5
    · have t5 := readCompactLen_trace c4
      split at h
      · simp only [Option.some.injEq, Prod.mk.injEq] at h
        rw [← h.2]
        exact (TraceIn.step _ _ (by rfl)).seq (TraceIn.of_eq _ _ t5)
      · split at h
        · simp only [Option.some.injEq, Prod.mk.injEq] at h
          rw [← h.2]
          split
          · exact (TraceIn.step _ _ (by rfl)).seq (TraceIn.of_eq _ _ t5)
          · exact TraceIn.of_eq _ _ t5
        · rename_i c6 h6
          have t6 : c6.trace = (readCompactLen c4).2.trace := by
            split at h6
            · simp only [Option.some.injEq] at h6
              rw [← h6]
            · split at h6
              · exact absurd h6 (by simp)
              · simp only [Option.some.injEq] at h6
                rw [← h6]
          split at h
          · simp only [Option.some.injEq, Prod.mk.injEq] at h
            rw [← h.2]
            exact (TraceIn.step _ _ (by rfl)).seq
              (TraceIn.of_eq _ _ (t6.trans t5))
          · split at h
            · exact absurd h (by simp)
            · rename_i st hst
              have := tightReadLoop_traceIn _ _ _ _ _ _ _ _ _ _ _ _ _ hst
              simp only [Option.some.injEq, Prod.mk.injEq] at h
              rw [← h.2]
              exact this.seq (TraceIn.of_eq _ _ (t6.trans t5))
            · rename_i st hst
              have := tightReadLoop_traceIn _ _ _ _ _ _ _ _ _ _ _ _ _ hst
              split at h
              · simp only [Option.some.injEq, Prod.mk.injEq] at h
                rw [← h.2]
                exact (TraceIn.step _ _ (by rfl)).seq
                  (this.seq (TraceIn.of_eq _ _ (t6.trans t5)))
              · simp only [Option.some.injEq, Prod.mk.injEq] at h
                rw [← h.2]
                exact this.seq (TraceIn.of_eq _ _ (t6.trans t5))

theorem handleTight_traceIn (B : Build) (E : Ext) (fuel : Nat) (c : Conn)
    (rx ry rw rh : Nat) (b : Bool) (c' : Conn)
    (h : handleTight B E fuel c rx ry rw rh = some (b, c')) :
    TraceIn c' c := by
  unfold handleTight at h
  split at h
  · simp only [Option.some.injEq, Prod.mk.injEq] at h
    rw [← h.2]
  · rename_i cb c1 h1
    have t1 := readFromServer_trace _ _ _ _ h1
    have u2 := (tightResetStreams_traceIn E c1 (cb.getD 0 0 % 256)).seq
      (TraceIn.of_eq _ _ t1)
    dsimp only at h
    split at h
    · split at h
      · simp only [Option.some.injEq, Prod.mk.injEq] at h
        rw [← h.2]
        exact u2
      · rename_i pb c3 h3
        have t3 := readFromServer_trace _ _ _ _ h3
        simp only [Option.some.injEq, Prod.mk.injEq] at h
        rw [← h.2]
        exact (TraceIn.of_eq _ _ t3).seq u2
    · split at h
      · split at h
        · simp only [Option.some.injEq] at h
          have hj := decompressJpegRect_traceIn B E
            (tightResetStreams E c1 (cb.getD 0 0 % 256)).1 rx ry rw rh
          rw [h] at hj
          exact hj.seq u2
        · simp only [Option.some.injEq, Prod.mk.injEq] at h
          rw [← h.2]
          exact u2
      · split at h
        · simp only [Option.some.injEq, Prod.mk.injEq] at h
          rw [← h.2]
          exact (TraceIn.step _ _ (by rfl)).seq u2
        · split at h
          · split at h
            · simp only [Option.some.injEq, Prod.mk.injEq] at h
              rw [← h.2]
              exact u2
            · rename_i fb c3 h3
              have t3 := readFromServer_trace _ _ _ _ h3
              have u3 := (TraceIn.of_eq _ _ t3).seq u2
              split at h
              · exact (tightData_traceIn _ _ _ _ _ _ _ _ _ _ _ _ _ h).seq
                  ((TraceIn.of_eq _ _ (initFilterCopy_trace _ _)).seq u3)
              · split at h
                · exact (tightData_traceIn _ _ _ _ _ _ _ _ _ _ _ _ _ h).seq
                    ((TraceIn.of_eq _ _ (initFilterPalette_trace _ _)).seq u3)
                · split at h
                  · exact (tightData_traceIn _ _ _ _ _ _ _ _ _ _ _ _ _ h).seq
                      ((TraceIn.of_eq _ _ (initFilterGradient_trace _ _)).seq u3)
                  · simp only [Option.some.injEq, Prod.mk.injEq] at h
                    rw [← h.2]
                    exact (TraceIn.step _ _ (by rfl)).seq u3
          · exact (tightData_traceIn _ _ _ _ _ _ _ _ _ _ _ _ _ h).seq
              ((TraceIn.of_eq _ _ (initFilterCopy_trace _ _)).seq u2)

theorem handleZlibLoop_traceIn (B : Build) (E : Ext) :
    ∀ (fuel : Nat) (st : ZlibLoop) (b : Bool) (st' : ZlibLoop),
      handleZlibLoop B E fuel st = some (b, st') →
      TraceIn st'.c st.c := by
  intro fuel
  induction fuel with
  | zero =>
    intro st b st' h
    rw [handleZlibLoop] at h
    split at h
    · simp only [Option.some.injEq, Prod.mk.injEq] at h
      rw [← h.2]
    · exact absurd h (by simp)
  | succ fuel ih =>
    intro st b st' h
    rw [handleZlibLoop] at h
    split at h
    · simp only [Option.some.injEq, Prod.mk.injEq] at h
      rw [← h.2]
    · dsimp only at h
      split at h
      · simp only [Option.some.injEq, Prod.mk.injEq] at h
        rw [← h.2]
      · rename_i bs c1 h1
        have t1 := readFromServer_trace _ _ _ _ h1
        split at h
        · simp only [Option.some.injEq, Prod.mk.injEq] at h
          rw [← h.2]
          exact (TraceIn.step _ _ (by rfl)).seq (TraceIn.of_eq _ _ t1)
        · split at h
          · simp only [Option.some.injEq, Prod.mk.injEq] at h
            rw [← h.2]
            exact (TraceIn.step _ _ (by rfl)).seq (TraceIn.of_eq _ _ t1)
          · split at h
            · simp only [Option.some.injEq, Prod.mk.injEq] at h
              rw [← h.2]
              exact (TraceIn.step _ _ (by rfl)).seq (TraceIn.of_eq _ _ t1)
            · exact (ih _ _ _ h).seq (TraceIn.of_eq _ _ t1)

theorem handleZlib_traceIn (B : Build) (E : Ext) (fuel : Nat) (c : Conn)
    (rx ry rw rh : Nat) (b : Bool) (c' : Conn)
    (h : handleZlib B E fuel c rx ry rw rh = some (b, c')) :
    TraceIn c' c := by
  unfold handleZlib at h
  dsimp only at h
  have t0 : (if c.rawBufferSize < toInt32 (rw * rh * 4) then
      ({ c with rawBufferSize := toInt32 (rw * rh * 4), rawBuffer := E.uninit } : Conn)
      else c).trace = c.trace := ite_trace _ _ _ _ rfl rfl
  split at h
  · simp only [Option.some.injEq, Prod.mk.injEq] at h
    rw [← h.2]
    exact TraceIn.of_eq _ _ t0
  · rename_i hdr c2 h2
    have t2 := (readFromServer_trace _ _ _ _ h2).trans t0
    split at h
    · simp only [Option.some.injEq, Prod.mk.injEq] at h
      rw [← h.2]
      exact (TraceIn.step _ _ (by rfl)).seq (TraceIn.of_eq _ _ t2)
    · rename_i c3 h3
      have t3 : c3.trace = c2.trace := by
        split at h3
        · simp only [Option.some.injEq] at h3
          rw [← h3]
        · split at h3
          · exact absurd h3 (by simp)
          · simp only [Option.some.injEq] at h3
            rw [← h3]
      split at h
      · exact absurd h (by simp)
      · rename_i st hst
        have := handleZlibLoop_traceIn _ _ _ _ _ _ hst
        simp only [Option.some.injEq, Prod.mk.injEq] at h
        rw [← h.2]
        exact this.seq (TraceIn.of_eq _ _ (t3.trans t2))
      · rename_i st hst
        have := handleZlibLoop_traceIn _ _ _ _ _ _ hst
        split at h
        · simp only [Option.some.injEq, Prod.mk.injEq] at h
          rw [← h.2]
          exact (TraceIn.of_eq _ _ rfl).seq
            (this.seq (TraceIn.of_eq _ _ (t3.trans t2)))
        · simp only [Option.some.injEq, Prod.mk.injEq] at h
          rw [← h.2]
          exact (TraceIn.step _ _ (by rfl)).seq
            (this.seq (TraceIn.of_eq _ _ (t3.trans t2)))

theorem handleItalc_traceIn (B : Build) (E : Ext) (fuel : Nat) (c : Conn)
    (rx ry rw rh : Nat) (b : Bool) (c' : Conn)
    (h : handleItalc B E fuel c rx ry rw rh = some (b, c')) :
    TraceIn c' c := by
  unfold handleItalc at h
  split at h
  · simp only [Option.some.injEq, Prod.mk.injEq] at h
    rw [← h.2]
  · rename_i hdr c1 h1
    have t1 := readFromServer_trace _ _ _ _ h1
    split at h
    · exact TraceIn.of_eq _ _ ((handleRaw_trace _ _ _ _ _ _ _ _ _ h).trans t1)
    · dsimp only at h
      split at h
      · simp only [Option.some.injEq, Prod.mk.injEq] at h
        rw [← h.2]
        exact TraceIn.of_eq _ _ t1
      · rename_i lzo c2 h2
        have t2 := (readFromServer_trace _ _ _ _ h2).trans t1
        split at h
        · simp only [Option.some.injEq, Prod.mk.injEq] at h
          rw [← h.2]
          refine (TraceIn.step _ _ (by rfl)).seq ?_
          split
          · exact (TraceIn.step _ _ (by rfl)).seq (TraceIn.of_eq _ _ t2)
          · exact TraceIn.of_eq _ _ t2
        · simp only [Option.some.injEq, Prod.mk.injEq] at h
          rw [← h.2]
          split
          · exact (TraceIn.step _ _ (by rfl)).seq (TraceIn.of_eq _ _ t2)
          · exact TraceIn.of_eq _ _ t2

theorem postRegionChangedEvent_traceIn (c : Conn) (o : Origin) (rgn : QRegion)
    (ho : o ≠ .update) : TraceIn (postRegionChangedEvent c o rgn) c := by
  unfold postRegionChangedEvent
  split
  · apply TraceIn.step
    cases o <;> first | rfl | exact absurd rfl ho
  · rfl

theorem handleCursorPos_traceIn (c : Conn) (x y : Nat) :
    TraceIn (handleCursorPos c x y).2 c := by
  unfold handleCursorPos
  dsimp only
  split
  · exact (TraceIn.step _ _ (by rfl)).seq
      ((postRegionChangedEvent_traceIn _ _ _ (by decide)).seq
        (TraceIn.of_eq _ _ rfl))
  · exact (postRegionChangedEvent_traceIn _ _ _ (by decide)).seq
      (TraceIn.of_eq _ _ rfl)

theorem cursorShapeInstall_traceIn (B : Build) (E : Ext) (c2 : Conn) (rcSource : Mem)
    (xhot yhot width height bytesMaskData : Nat) :
    TraceIn (cursorShapeInstall B E c2 rcSource xhot yhot width height bytesMaskData).2
      c2 := by
  unfold cursorShapeInstall
  split
  · rfl
  · rename_i mask c3 h3
    have t3 := readFromServer_trace _ _ _ _ h3
    dsimp only
    have e : ∀ d : Conn, d.trace = c3.trace ++ [.cursorLockForWrite, .cursorUnlock] →
        TraceIn d c2 := by
      intro d hd
      refine ⟨[.cursorLockForWrite, .cursorUnlock], by rw [hd, t3], ?_⟩
      intro a ha
      simp only [List.mem_cons, List.mem_singleton, List.not_mem_nil, or_false] at ha
      rcases ha with rfl | rfl <;> rfl
    split
    · refine (TraceIn.step _ _ (by rfl)).seq ((TraceIn.step _ _ (by rfl)).seq
        ((postRegionChangedEvent_traceIn _ _ _ (by decide)).seq (e _ ?_)))
      simp [Conn.act]
    · refine (TraceIn.step _ _ (by rfl)).seq
        ((postRegionChangedEvent_traceIn _ _ _ (by decide)).seq (e _ ?_))
      simp [Conn.act]

theorem handleCursorShape_traceIn (B : Build) (E : Ext) (c : Conn)
    (xhot yhot width height enc : Nat) :
    TraceIn (handleCursorShape B E c xhot yhot width height enc).2 c := by
  unfold handleCursorShape
  dsimp only
  split
  · rfl
  · split
    · split
      · rfl
      · rename_i rgb c1 h1
        have t1 := readFromServer_trace _ _ _ _ h1
        split
        · exact TraceIn.of_eq _ _ t1
        · rename_i bits c2 h2
          have t2 := (readFromServer_trace _ _ _ _ h2).trans t1
          exact (cursorShapeInstall_traceIn _ _ _ _ _ _ _ _ _).seq
            (TraceIn.of_eq _ _ t2)
    · split
      · rfl
      · rename_i px c1 h1
        have t1 := readFromServer_trace _ _ _ _ h1
        exact (cursorShapeInstall_traceIn _ _ _ _ _ _ _ _ _).seq
          (TraceIn.of_eq _ _ t1)

theorem close_traceIn (c : Conn) : TraceIn c.close c := by
  unfold Conn.close
  exact TraceIn.step _ _ rfl

theorem dispatchRect_traceIn (B : Build) (E : Ext) (fuel : Nat) (c : Conn)
    (rgn : QRegion) (x y w h enc : Nat) (r : RectStep)
    (hr : dispatchRect B E fuel c rgn x y w h enc = some r) :
    TraceIn r.conn c := by
  unfold dispatchRect at hr
  by_cases h0 : enc = rfbEncodingRaw
  · rw [if_pos h0] at hr
    obtain ⟨a, ha, hf⟩ := Option.map_eq_some'.mp hr
    rw [← hf, ofBool_conn]
    exact TraceIn.of_eq _ _ (handleRaw_trace _ _ _ _ _ _ _ a.1 a.2 ha)
  rw [if_neg h0] at hr
  by_cases h1 : enc = rfbEncodingCopyRect
  · rw [if_pos h1] at hr
    cases hread : readFromServer c 4 with
    | none =>
      rw [hread] at hr
      simp only [Option.some.injEq] at hr
      rw [← hr]
      rfl
    | some p =>
      rw [hread] at hr
      simp only [Option.some.injEq] at hr
      rw [← hr]
      exact TraceIn.of_eq _ _ (readFromServer_trace _ _ p.1 p.2 hread)
  rw [if_neg h1] at hr
  by_cases h2 : enc = rfbEncodingRRE
  · rw [if_pos h2] at hr
    simp only [Option.some.injEq] at hr
    rw [← hr, ofBool_conn]
    exact TraceIn.step _ _ rfl
  rw [if_neg h2] at hr
  by_cases h3 : enc = rfbEncodingCoRRE
  · rw [if_pos h3] at hr
    simp only [Option.some.injEq] at hr
    rw [← hr, ofBool_conn]
    obtain ⟨new, e, hnew⟩ := handleCoRRE_trace B c x y w h
    exact ⟨new, e, fun a ha => by rw [hnew a ha]; rfl⟩
  rw [if_neg h3] at hr
  by_cases h4 : B.HAVE_LIBZ = true ∧ enc = rfbEncodingZlib
  · rw [if_pos h4] at hr
    obtain ⟨a, ha, hf⟩ := Option.map_eq_some'.mp hr
    rw [← hf, ofBool_conn]
    exact handleZlib_traceIn _ _ _ _ _ _ _ _ a.1 a.2 ha
  rw [if_neg h4] at hr
  by_cases h5 : B.HAVE_LIBZ = true ∧ enc = rfbEncodingTight
  · rw [if_pos h5] at hr
    obtain ⟨a, ha, hf⟩ := Option.map_eq_some'.mp hr
    rw [← hf, ofBool_conn]
    exact handleTight_traceIn _ _ _ _ _ _ _ _ a.1 a.2 ha
  rw [if_neg h5] at hr
  by_cases h6 : enc = rfbEncodingPointerPos
  · rw [if_pos h6] at hr
    simp only [Option.some.injEq] at hr
    rw [← hr, ofBool_conn]
    exact handleCursorPos_traceIn _ _ _
  rw [if_neg h6] at hr
  by_cases h7 : enc = rfbEncodingRichCursor ∨ enc = rfbEncodingXCursor
  · rw [if_pos h7] at hr
    simp only [Option.some.injEq] at hr
    rw [← hr, ofBool_conn]
    exact handleCursorShape_traceIn _ _ _ _ _ _ _ _
  rw [if_neg h7] at hr
  by_cases h8 : enc = rfbEncodingItalc
  · rw [if_pos h8] at hr
    obtain ⟨a, ha, hf⟩ := Option.map_eq_some'.mp hr
    rw [← hf, ofBool_conn]
    exact handleItalc_traceIn _ _ _ _ _ _ _ _ a.1 a.2 ha
  rw [if_neg h8] at hr
  by_cases h9 : enc = rfbEncodingItalcCursor
  · rw [if_pos h9] at hr
    simp only [Option.some.injEq] at hr
    rw [← hr]
    refine (postRegionChangedEvent_traceIn _ _ _ (by decide)).seq ?_
    refine ⟨[.cursorLockForWrite, .cursorUnlock], by simp [Conn.act], ?_⟩
    intro a ha
    simp only [List.mem_cons, List.mem_singleton, List.not_mem_nil, or_false] at ha
    rcases ha with rfl | rfl <;> rfl
  rw [if_neg h9] at hr
  simp only [Option.some.injEq] at hr
  rw [← hr]
  exact (close_traceIn _).seq (TraceIn.step _ _ rfl)

theorem handleRect_traceIn (B : Build) (E : Ext) (fuel : Nat) (c : Conn)
    (rgn : QRegion) (r : RectStep) (hr : handleRect B E fuel c rgn = some r) :
    TraceIn r.conn c := by
  unfold handleRect at hr
  split at hr
  · simp only [Option.some.injEq] at hr
    rw [← hr]
    rfl
  · rename_i hb c1 h1
    have t1 := TraceIn.of_eq _ _ (readFromServer_trace _ _ _ _ h1)
    dsimp only at hr
    split at hr
    · simp only [Option.some.injEq] at hr
      rw [← hr]
      exact t1
    · split at hr
      · simp only [Option.some.injEq] at hr
        rw [← hr]
        exact (TraceIn.step _ _ (by rfl)).seq t1
      · split at hr
        · split at hr
          · simp only [Option.some.injEq] at hr
            rw [← hr]
            exact (TraceIn.step _ _ (by rfl)).seq t1
          · exact (dispatchRect_traceIn _ _ _ _ _ _ _ _ _ _ _ hr).seq t1
        · exact (dispatchRect_traceIn _ _ _ _ _ _ _ _ _ _ _ hr).seq t1

theorem rectPrefix_traceIn (B : Build) (E : Ext) (fuel : Nat) :
    ∀ (k : Nat) (c : Conn) (rgn : QRegion) (ck : Conn) (rgnk : QRegion),
      rectPrefix B E fuel k c rgn = some (ck, rgnk) → TraceIn ck c := by
  intro k
  induction k with
  | zero =>
    intro c rgn ck rgnk h
    simp only [rectPrefix, Option.some.injEq, Prod.mk.injEq] at h
    rw [h.1]
  | succ k ih =>
    intro c rgn ck rgnk h
    rw [rectPrefix] at h
    split at h
    · rename_i c1 rgn1 heq
      exact (ih _ _ _ _ h).seq (handleRect_traceIn _ _ _ _ _ _ heq)
    · exact absurd h (by simp)


theorem rectLoop_traceIn (B : Build) (E : Ext) (fuel : Nat) :
    ∀ (n : Nat) (c : Conn) (rgn : QRegion) (b : Bool) (c2 : Conn) (rgn2 : QRegion),
      rectLoop B E fuel n c rgn = some (b, c2, rgn2) → TraceIn c2 c := by
  intro n
  induction n with
  | zero =>
    intro c rgn b c2 rgn2 h
    simp only [rectLoop, Option.some.injEq, Prod.mk.injEq] at h
    rw [h.2.1]
  | succ n ih =>
    intro c rgn b c2 rgn2 h
    rw [rectLoop] at h
    cases hr : handleRect B E fuel c rgn with
    | none =>
      rw [hr] at h
      exact absurd h (by simp)
    | some r =>
      have t := handleRect_traceIn B E fuel c rgn r hr
      rw [hr] at h
      cases r with
      | next c1 rgn1 => exact (ih _ _ _ _ _ h).seq t
      | last c1 rgn1 =>
        simp only [Option.some.injEq, Prod.mk.injEq] at h
        rw [← h.2.1]
        exact t
      | failed c1 =>
        simp only [Option.some.injEq, Prod.mk.injEq] at h
        rw [← h.2.1]
        exact t

theorem isFrame_false_ne (a : Action) (h : Action.isFrame a = false) :
    a ≠ .imageLockForWrite ∧ a ≠ .imageUnlock ∧
      ∀ rgn, a ≠ .postRegionChanged .update rgn ∧ a ≠ .regionUpdated .update rgn := by
  refine ⟨?_, ?_, fun rgn => ⟨?_, ?_⟩⟩ <;> intro e <;> rw [e] at h <;>
    exact Bool.noConfusion h

theorem handleFramebufferUpdate_trace (B : Build) (E : Ext) (fuel : Nat) (c : Conn)
    (fu : List Nat) (c1 c2 : Conn) (rgn : QRegion)
    (hread : readFromServer (c.act .imageLockForWrite) 3 = some (fu, c1))
    (hloop : rectLoop B E fuel (wire16 (fu.getD 1 0) (fu.getD 2 0)) c1 QRegion.empty =
      some (true, c2, rgn))
    (hne : rgn.isEmpty = false) :
    ∃ c', handleFramebufferUpdate B E fuel c = some (true, c') ∧
      c'.trace = c2.trace ++
        (if c2.hasParent = true then [Action.postRegionChanged .update rgn] else []) ++
        [.imageUnlock, .regionUpdated .update rgn] := by
  unfold handleFramebufferUpdate
  dsimp only
  rw [hread]
  dsimp only
  rw [hloop]
  dsimp only
  rw [hne]
  refine ⟨_, rfl, ?_⟩
  by_cases hp : c2.hasParent = true <;>
    by_cases hq : (c2.quality.toNat ≥ Quality.QualityDemoLow.toNat ∧
      c2.quality ≠ .QualityDemoHigh) <;>
    simp [postRegionChangedEvent, Conn.act, hp, hq]

/-- C26 (amended): event ordering. In the trace of one successful
FramebufferUpdate with a non-empty updated region, the screen write lock is
taken first; then come the actions of the rect loop, among them the events of
the cursor rects, in message order (the actions of the first `k` rects are a
prefix of them, for every `k`), all while the lock is held, as the loop neither
releases the lock nor notifies the update; then the region-changed event for the
updated region is posted (if there is a parent), still before the lock is
released; then the lock is released, and the signal `regionUpdated` for the
updated region is the one event that is emitted after the release. -/
theorem C26_event_ordering (B : Build) (E : Ext) (fuel : Nat) (c : Conn)
    (fu : List Nat) (c1 c2 : Conn) (rgn : QRegion)
    (hread : readFromServer (c.act .imageLockForWrite) 3 = some (fu, c1))
    (hloop : rectLoop B E fuel (wire16 (fu.getD 1 0) (fu.getD 2 0)) c1 QRegion.empty =
      some (true, c2, rgn))
    (hne : rgn.isEmpty = false) :
    ∃ c' loopActions, handleFramebufferUpdate B E fuel c = some (true, c') ∧
      c'.trace = c.trace ++ [.imageLockForWrite] ++ loopActions ++
        (if c2.hasParent = true then [Action.postRegionChanged .update rgn] else []) ++
        [.imageUnlock, .regionUpdated .update rgn] ∧
      (∀ a, a ∈ loopActions →
        a ≠ .imageLockForWrite ∧ a ≠ .imageUnlock ∧
          ∀ r, a ≠ .postRegionChanged .update r ∧ a ≠ .regionUpdated .update r) ∧
      (∀ k ck rgnk, k ≤ wire16 (fu.getD 1 0) (fu.getD 2 0) →
        rectPrefix B E fuel k c1 QRegion.empty = some (ck, rgnk) →
        ∃ l1 l2, loopActions = l1 ++ l2 ∧
          ck.trace = c.trace ++ [.imageLockForWrite] ++ l1) := by
  obtain ⟨c', hres, htr⟩ := handleFramebufferUpdate_trace B E fuel c fu c1 c2 rgn hread hloop hne
  have hc1 : c1.trace = c.trace ++ [.imageLockForWrite] := readFromServer_trace _ _ _ _ hread
  obtain ⟨new, hnew, hno⟩ := rectLoop_traceIn B E fuel _ c1 QRegion.empty true c2 rgn hloop
  refine ⟨c', new, hres, ?_, fun a ha => isFrame_false_ne a (hno a ha), ?_⟩
  · rw [htr, hnew, hc1]
  · intro k ck rgnk hk hpre
    obtain ⟨n, hn⟩ : ∃ n, wire16 (fu.getD 1 0) (fu.getD 2 0) = k + n := ⟨_, (Nat.add_sub_cancel' hk).symm⟩
    rw [hn, rectLoop_prefix B E fuel k n c1 QRegion.empty ck rgnk hpre] at hloop
    obtain ⟨l2, h2, _⟩ := rectLoop_traceIn B E fuel _ ck rgnk true c2 rgn hloop
    obtain ⟨l1, h1, _⟩ := rectPrefix_traceIn B E fuel k c1 QRegion.empty ck rgnk hpre
    refine ⟨l1, l2, ?_, by rw [h1, hc1]⟩
    have : c1.trace ++ new = c1.trace ++ (l1 ++ l2) := by
      rw [← hnew, h2, h1, List.append_assoc]
    exact List.append_cancel_left this

/-- C26 (amended), witness: the update of `sampleDemoConn` with one Raw rect. -/
theorem C26_event_ordering_witness :
    ∃ c' loopActions,
      handleFramebufferUpdate Build.sample Ext.sample 1 (sampleDemoConn .QualityHigh) =
        some (true, c') ∧
      c'.trace = (sampleDemoConn .QualityHigh).trace ++ [.imageLockForWrite] ++ loopActions ++
        (if (sampleDemoDecoded .QualityHigh).hasParent = true then
          [Action.postRegionChanged .update (QRegion.empty.add ⟨0, 0, 1, 1⟩)] else []) ++
        [.imageUnlock, .regionUpdated .update (QRegion.empty.add ⟨0, 0, 1, 1⟩)] ∧
      (∀ a, a ∈ loopActions →
        a ≠ .imageLockForWrite ∧ a ≠ .imageUnlock ∧
          ∀ r, a ≠ .postRegionChanged .update r ∧ a ≠ .regionUpdated .update r) ∧
      (∀ k ck rgnk, k ≤ wire16 (([0, 0, 1] : List Nat).getD 1 0) (([0, 0, 1] : List Nat).getD 2 0) →
        rectPrefix Build.sample Ext.sample 1 k
            { (sampleDemoConn .QualityHigh).act .imageLockForWrite with
              inbound := rectHeader 0 0 1 1 rfbEncodingRaw ++ [255, 254, 253, 0] }
            QRegion.empty = some (ck, rgnk) →
        ∃ l1 l2, loopActions = l1 ++ l2 ∧
          ck.trace = (sampleDemoConn .QualityHigh).trace ++ [.imageLockForWrite] ++ l1) :=
  C26_event_ordering Build.sample Ext.sample 1 (sampleDemoConn .QualityHigh) [0, 0, 1]
    { (sampleDemoConn .QualityHigh).act .imageLockForWrite with
      inbound := rectHeader 0 0 1 1 rfbEncodingRaw ++ [255, 254, 253, 0] }
    (sampleDemoDecoded .QualityHigh) (QRegion.empty.add ⟨0, 0, 1, 1⟩) rfl rfl rfl

/-- C26, counterexample: the update of `sampleDemoConn` with one Raw rect, on a
connection with a parent. The actions of the update are: lock, region-changed
event for the updated region, unlock, `regionUpdated`; the region-changed event
is posted before the screen write lock is released. -/
theorem C26_event_ordering_counterexample :
    ∃ c', handleFramebufferUpdate Build.sample Ext.sample 1 (sampleDemoConn .QualityHigh) =
        some (true, c') ∧
      c'.trace =
        [.imageLockForWrite, .postRegionChanged .update (QRegion.empty.add ⟨0, 0, 1, 1⟩),
          .imageUnlock, .regionUpdated .update (QRegion.empty.add ⟨0, 0, 1, 1⟩)] :=
  handleFramebufferUpdate_trace Build.sample Ext.sample 1 (sampleDemoConn .QualityHigh) [0, 0, 1]
    { (sampleDemoConn .QualityHigh).act .imageLockForWrite with
      inbound := rectHeader 0 0 1 1 rfbEncodingRaw ++ [255, 254, 253, 0] }
    (sampleDemoDecoded .QualityHigh) (QRegion.empty.add ⟨0, 0, 1, 1⟩) rfl rfl rfl

/-! ## Zlib: the output length -/

theorem writeBytes_append (m : Mem) (a : Nat) (xs ys : List Nat) :
    writeBytes (writeBytes m a xs) (a + xs.length) ys = writeBytes m a (xs ++ ys) := by
  funext k
  unfold writeBytes
  simp only [List.length_append]
  by_cases h1 : a + xs.length ≤ k ∧ k < a + xs.length + ys.length
  · rw [if_pos h1, if_pos (by omega), List.getD_append_right _ _ _ _ (by omega)]
    congr 1
    omega
  · rw [if_neg h1]
    by_cases h2 : a ≤ k ∧ k < a + xs.length
    · rw [if_pos h2, if_pos (by omega), List.getD_append _ _ _ _ (by omega)]
    · rw [if_neg h2, if_neg (by omega)]

theorem writeBytes_nil (m : Mem) (a : Nat) : writeBytes m a [] = m := by
  funext k
  unfold writeBytes
  rw [if_neg]
  simp only [List.length_nil, Nat.add_zero]
  omega

theorem inflateBounded_out_length (E : Ext) (zs : ZStream) (bs : List Nat) (a : Nat) :
    (E.inflateBounded zs bs a).out.length ≤ a := by
  unfold Ext.inflateBounded
  simp only [List.length_take]
  exact Nat.min_le_left _ _

theorem handleZlibLoop_output (B : Build) (E : Ext) :
    ∀ (fuel : Nat) (st st' : ZlibLoop),
      handleZlibLoop B E fuel st = some (true, st') →
      ∃ calls,
        st'.c.decompStream = st.c.decompStream ++ calls ∧
        st'.c.rawBuffer =
          writeBytes st.c.rawBuffer st.out_pos (inflateOutput E st.c.decompStream calls) ∧
        (inflateOutput E st.c.decompStream calls).length ≤ st.avail_out ∧
        st'.out_pos = st.out_pos + (inflateOutput E st.c.decompStream calls).length ∧
        st'.c.screen = st.c.screen := by
  intro fuel
  induction fuel with
  | zero =>
    intro st st' h
    rw [handleZlibLoop] at h
    split at h
    · simp only [Option.some.injEq, Prod.mk.injEq, true_and] at h
      subst h
      exact ⟨[], by simp, by simp [inflateOutput, writeBytes_nil], by simp [inflateOutput],
        by simp [inflateOutput], rfl⟩
    · exact absurd h (by simp)
  | succ fuel ih =>
    intro st st' h
    rw [handleZlibLoop] at h
    split at h
    · simp only [Option.some.injEq, Prod.mk.injEq, true_and] at h
      subst h
      exact ⟨[], by simp, by simp [inflateOutput, writeBytes_nil], by simp [inflateOutput],
        by simp [inflateOutput], rfl⟩
    · dsimp only at h
      split at h
      · exact absurd h (by simp)
      · rename_i bs c1 h1
        have e1 := readFromServer_some _ _ _ _ h1
        split at h
        · exact absurd h (by simp)
        · split at h
          · exact absurd h (by simp)
          · split at h
            · exact absurd h (by simp)
            · obtain ⟨calls, k1, k2, k3, k4, k5⟩ := ih _ _ h
              have d1 : c1.decompStream = st.c.decompStream := by rw [e1]
              have d2 : c1.rawBuffer = st.c.rawBuffer := by rw [e1]
              have d3 : c1.screen = st.c.screen := by rw [e1]
              have hl := inflateBounded_out_length E st.c.decompStream bs st.avail_out
              dsimp only at k1 k2 k3 k4 k5
              rw [d1] at k1 k2 k3 k4
              rw [d2] at k2
              rw [d3] at k5
              refine ⟨(bs, st.avail_out) :: calls, ?_, ?_, ?_, ?_, k5⟩
              · rw [k1]
                simp
              · rw [k2]
                simp only [inflateOutput]
                rw [writeBytes_append]
              · simp only [inflateOutput, List.length_append]
                omega
              · rw [k4]
                simp only [inflateOutput, List.length_append]
                omega

theorem handleZlib_output (B : Build) (E : Ext) (fuel : Nat) (c : Conn)
    (rx ry rw rh : Nat) (c' : Conn)
    (h : handleZlib B E fuel c rx ry rw rh = some (true, c')) :
    ∃ calls,
      c'.decompStream =
        (if c.decompStreamInited = true then c.decompStream else []) ++ calls ∧
      c'.rawBuffer =
        writeBytes
          (if c.rawBufferSize < toInt32 (rw * rh * 4) then E.uninit else c.rawBuffer) 0
          (inflateOutput E (if c.decompStreamInited = true then c.decompStream else [])
            calls) ∧
      (inflateOutput E (if c.decompStreamInited = true then c.decompStream else [])
        calls).length ≤ c'.rawBufferSize.toNat ∧
      c'.screen =
        c.screen.copyRect rx ry rw rh (bufferWords B.WORDS_BIGENDIAN c'.rawBuffer 0) := by
  have hsz := handleZlib_rawBufferSize B E fuel c rx ry rw rh true c' h
  unfold handleZlib at h
  dsimp only at h
  generalize hc1 : (if c.rawBufferSize < toInt32 (rw * rh * 4) then
      ({ c with rawBufferSize := toInt32 (rw * rh * 4), rawBuffer := E.uninit } : Conn)
      else c) = c1 at h
  have a1 : c1.rawBuffer =
      if c.rawBufferSize < toInt32 (rw * rh * 4) then E.uninit else c.rawBuffer := by
    rw [← hc1]
    split <;> rfl
  have a2 : c1.decompStream = c.decompStream := by
    rw [← hc1]
    split <;> rfl
  have a3 : c1.decompStreamInited = c.decompStreamInited := by
    rw [← hc1]
    split <;> rfl
  have a4 : c1.screen = c.screen := by
    rw [← hc1]
    split <;> rfl
  have a5 : c1.rawBufferSize =
      if c.rawBufferSize < toInt32 (rw * rh * 4) then toInt32 (rw * rh * 4)
      else c.rawBufferSize := by
    rw [← hc1]
    split <;> rfl
  split at h
  · exact absurd h (by simp)
  · rename_i hdr c2 h2
    have e2 := readFromServer_some _ _ _ _ h2
    split at h
    · exact absurd h (by simp)
    · rename_i c3 h3
      have t3 : c3.rawBuffer = c1.rawBuffer ∧ c3.screen = c1.screen ∧
          c3.rawBufferSize = c1.rawBufferSize ∧
          c3.decompStream = if c.decompStreamInited = true then c.decompStream else [] := by
        have i2 : c2.decompStreamInited = c.decompStreamInited := by rw [e2, a3]
        rw [i2] at h3
        split at h3
        · rename_i hi
          simp only [Option.some.injEq] at h3
          rw [← h3, e2, if_pos hi]
          exact ⟨rfl, rfl, rfl, a2⟩
        · rename_i hi
          split at h3
          · exact absurd h3 (by simp)
          · simp only [Option.some.injEq] at h3
            rw [← h3, e2, if_neg hi]
            exact ⟨rfl, rfl, rfl, rfl⟩
      split at h
      · exact absurd h (by simp)
      · exact absurd h (by simp)
      · rename_i st hst
        obtain ⟨calls, k1, k2, k3, _, k5⟩ := handleZlibLoop_output B E _ _ _ hst
        dsimp only at k1 k2 k3 k5
        split at h
        · simp only [Option.some.injEq, Prod.mk.injEq, true_and] at h
          rw [← h] at hsz ⊢
          dsimp only at hsz ⊢
          rw [t3.2.2.2] at k1 k2 k3
          rw [t3.1, a1] at k2
          rw [t3.2.2.1, a5, ← hsz] at k3
          rw [t3.2.1, a4] at k5
          exact ⟨calls, k1, k2, k3, by rw [k5]⟩
        · exact absurd h (by simp)

theorem handleZlibLoop_done (B : Build) (E : Ext) (fuel : Nat) (st : ZlibLoop)
    (h : st.remaining ≤ 0) : handleZlibLoop B E fuel st = some (true, st) := by
  cases fuel <;>
  · rw [handleZlibLoop, if_pos]
    intro hh
    exact absurd hh.1 (by omega)

theorem handleZlib_empty (B : Build) (E : Ext) (fuel : Nat) (c : Conn)
    (rx ry rw rh b0 b1 b2 b3 : Nat) (rest : List Nat)
    (hin : c.inbound = [b0, b1, b2, b3] ++ rest)
    (hn : toInt32 (wire32 b0 b1 b2 b3) ≤ 0)
    (hinit : c.decompStreamInited = true ∨ E.inflateInit.1 = Z_OK) :
    ∃ c', handleZlib B E fuel c rx ry rw rh = some (true, c') ∧
      c'.inbound = rest ∧ c'.trace = c.trace ∧ c'.buffer = c.buffer ∧
      c'.decompStream = (if c.decompStreamInited = true then c.decompStream else []) ∧
      c'.rawBuffer =
        (if c.rawBufferSize < toInt32 (rw * rh * 4) then E.uninit else c.rawBuffer) ∧
      c'.screen = c.screen.copyRect rx ry rw rh
        (bufferWords B.WORDS_BIGENDIAN
          (if c.rawBufferSize < toInt32 (rw * rh * 4) then E.uninit else c.rawBuffer) 0) := by
  unfold handleZlib
  dsimp only
  generalize hc1 : (if c.rawBufferSize < toInt32 (rw * rh * 4) then
      ({ c with rawBufferSize := toInt32 (rw * rh * 4), rawBuffer := E.uninit } : Conn)
      else c) = c1
  have a0 : c1.inbound = [b0, b1, b2, b3] ++ rest := by
    rw [← hc1, ← hin]
    split <;> rfl
  have a1 : c1.rawBuffer =
      if c.rawBufferSize < toInt32 (rw * rh * 4) then E.uninit else c.rawBuffer := by
    rw [← hc1]
    split <;> rfl
  have a2 : c1.decompStream = c.decompStream := by
    rw [← hc1]
    split <;> rfl
  have a3 : c1.decompStreamInited = c.decompStreamInited := by
    rw [← hc1]
    split <;> rfl
  have a4 : c1.screen = c.screen := by
    rw [← hc1]
    split <;> rfl
  have a5 : c1.trace = c.trace := by
    rw [← hc1]
    split <;> rfl
  have a6 : c1.buffer = c.buffer := by
    rw [← hc1]
    split <;> rfl
  rw [readFromServer_append c1 [b0, b1, b2, b3] rest 4 a0 rfl]
  dsimp only
  have hw : toInt32 (wire32 ([b0, b1, b2, b3].getD 0 0) ([b0, b1, b2, b3].getD 1 0)
      ([b0, b1, b2, b3].getD 2 0) ([b0, b1, b2, b3].getD 3 0)) ≤ 0 := hn
  rw [a3]
  by_cases hi : c.decompStreamInited = true
  · rw [if_pos hi, if_pos hi]
    dsimp only
    rw [handleZlibLoop_done B E fuel _ (by
      dsimp only
      omega)]
    dsimp only
    rw [if_pos rfl]
    exact ⟨_, rfl, rfl, a5, a6, a2, a1, by rw [a4, a1]⟩
  · have ho : E.inflateInit.1 = Z_OK := hinit.resolve_left hi
    rw [if_neg hi, if_neg hi, if_neg (by simp [ho])]
    dsimp only
    rw [handleZlibLoop_done B E fuel _ (by
      dsimp only
      omega)]
    dsimp only
    rw [if_pos rfl]
    exact ⟨_, rfl, rfl, a5, a6, rfl, a1, by rw [a4, a1]⟩

theorem copyRect_pixel (s : Screen) (x y w h : Nat) (src : Mem) (px py : Nat)
    (hpx : px < s.width) :
    (s.copyRect x y w h src).pixel px py =
      if x ≤ px ∧ px < x + w ∧ y ≤ py ∧ py < y + h then src ((py - y) * w + (px - x))
      else s.pixel px py := by
  unfold Screen.copyRect Screen.pixel
  simp only [inRect_pixel s.width x y w h px py hpx, idx_mod s.width py px hpx,
    idx_div s.width py px hpx]

/-- C31: the length of the Zlib output is not checked. For a Zlib rect with
`w * h * 4 < 2^31` whose header announces `nBytes = 0` (or any `nBytes` that is
not positive as an `int`), on a connection whose generic stream is initialised
or can be initialised, `handleZlib` returns `TRUE` for every bound on the number
of loop iterations: it has taken the four header bytes from the transport and
nothing else, it has made no `inflate` call, the raw buffer is the one the
connection had (or fresh memory, if it had to grow), and the pixel at
`(x + i, y + j)` of a rect inside the image is the word `j * w + i` of that
buffer, while the pixels outside the rect are unchanged. In general, whenever
`handleZlib` returns `TRUE` the raw buffer is the previous one (or fresh memory)
overwritten from byte 0 by what the `inflate` calls of this rect produced, of
any length up to the buffer size, and the rect is copied from its first
`w * h` words: no condition relates that length to `w * h * 4`. -/
theorem C31_zlib_output_length_unchecked (B : Build) (E : Ext) (fuel : Nat) (c : Conn)
    (rx ry rw rh b0 b1 b2 b3 : Nat) (rest : List Nat)
    (hsize : rw * rh * 4 < 2147483648)
    (hin : c.inbound = [b0, b1, b2, b3] ++ rest)
    (hn : toInt32 (wire32 b0 b1 b2 b3) ≤ 0)
    (hinit : c.decompStreamInited = true ∨ E.inflateInit.1 = Z_OK) :
    (∃ c', handleZlib B E fuel c rx ry rw rh = some (true, c') ∧
      c'.inbound = rest ∧ c'.buffer = c.buffer ∧ c'.trace = c.trace ∧
      c'.decompStream = (if c.decompStreamInited = true then c.decompStream else []) ∧
      c'.rawBuffer =
        (if c.rawBufferSize < ((rw * rh * 4 : Nat) : Int) then E.uninit else c.rawBuffer) ∧
      c'.screen.width = c.screen.width ∧ c'.screen.height = c.screen.height ∧
      (∀ i j, i < rw → j < rh → rx + rw ≤ c.screen.width →
        c'.screen.pixel (rx + i) (ry + j) =
          load32 B.WORDS_BIGENDIAN
            (if c.rawBufferSize < ((rw * rh * 4 : Nat) : Int) then E.uninit else c.rawBuffer)
            (4 * (j * rw + i))) ∧
      (∀ k, ¬ inRect c.screen.width rx ry rw rh k → c'.screen.pix k = c.screen.pix k)) ∧
    (∀ (n : Nat) (c0 c1 : Conn) (x y w h : Nat),
      handleZlib B E n c0 x y w h = some (true, c1) →
      ∃ calls,
        c1.decompStream =
          (if c0.decompStreamInited = true then c0.decompStream else []) ++ calls ∧
        c1.rawBuffer =
          writeBytes
            (if c0.rawBufferSize < toInt32 (w * h * 4) then E.uninit else c0.rawBuffer) 0
            (inflateOutput E (if c0.decompStreamInited = true then c0.decompStream else [])
              calls) ∧
        (inflateOutput E (if c0.decompStreamInited = true then c0.decompStream else [])
          calls).length ≤ c1.rawBufferSize.toNat ∧
        c1.screen =
          c0.screen.copyRect x y w h (bufferWords B.WORDS_BIGENDIAN c1.rawBuffer 0)) := by
  refine ⟨?_, fun n c0 c1 x y w h hc => handleZlib_output B E n c0 x y w h c1 hc⟩
  obtain ⟨c', h1, h2, h3, h4, h5, h6, h7⟩ :=
    handleZlib_empty B E fuel c rx ry rw rh b0 b1 b2 b3 rest hin hn hinit
  rw [toInt32_small _ hsize] at h6 h7
  refine ⟨c', h1, h2, h4, h3, h5, h6, by rw [h7]; rfl, by rw [h7]; rfl, ?_, ?_⟩
  · intro i j hi hj hw
    rw [h7, copyRect_pixel _ _ _ _ _ _ _ _ (by omega), if_pos (by omega)]
    unfold bufferWords
    rw [Nat.add_sub_cancel_left, Nat.add_sub_cancel_left, Nat.zero_add]
  · intro k hk
    rw [h7]
    unfold Screen.copyRect
    dsimp only
    rw [if_neg hk]

/-- C31, witness: a `2 × 1` rect with `nBytes = 0` on a connection whose raw
buffer holds the bytes `01 02 03 00 04 05 06 00` of an earlier rect. The decoder
reports success, leaves the byte behind the header on the transport, and the
two pixels of the screen, `7` before, are now `0x030201` and `0x060504`. -/
theorem C31_zlib_output_length_unchecked_witness :
    sampleZlibStaleConn.screen.pixel 0 0 = 7 ∧ sampleZlibStaleConn.screen.pixel 1 0 = 7 ∧
    ∃ c', handleZlib Build.sample Ext.sample 0 sampleZlibStaleConn 0 0 2 1 = some (true, c') ∧
      c'.inbound = [9] ∧ c'.decompStream = [] ∧
      c'.screen.pixel 0 0 = 197121 ∧ c'.screen.pixel 1 0 = 394500 := by
  obtain ⟨⟨c', h1, h2, _, _, h5, _, _, _, h9, _⟩, _⟩ :=
    C31_zlib_output_length_unchecked Build.sample Ext.sample 0 sampleZlibStaleConn
      0 0 2 1 0 0 0 0 [9] (by decide) rfl (by decide) (Or.inl rfl)
  refine ⟨rfl, rfl, c', h1, h2, h5, ?_, ?_⟩
  · have := h9 0 0 (by decide) (by decide) (by decide)
    rw [this]
    decide
  · have := h9 1 0 (by decide) (by decide) (by decide)
    rw [this]
    decide

/-! ## CoRRE: the decoder and the size of the scratch buffer -/

theorem handleCoRRE_eval (B : Build) (c : Conn) (x y w h bg n : Nat)
    (sub : Nat → CoRRESubrect) (rest : List Nat)
    (hn : n < 4294967296) (hbg : bg < 4294967296)
    (hin : c.inbound = correEncode B.WORDS_BIGENDIAN bg n sub ++ rest) :
    handleCoRRE B c x y w h = (true,
      if n * 8 > B.BUFFER_SIZE then
        ({ c with
          inbound := rest
          buffer := writeBytes c.buffer 0
            ((List.range n).flatMap fun k => (sub k).encode B.WORDS_BIGENDIAN)
          screen := correSubrects B.WORDS_BIGENDIAN
            (writeBytes c.buffer 0
              ((List.range n).flatMap fun k => (sub k).encode B.WORDS_BIGENDIAN))
            (c.screen.fillRect x y w h bg) x y n } : Conn).act .overrunBuffer
      else
        { c with
          inbound := rest
          buffer := writeBytes c.buffer 0
            ((List.range n).flatMap fun k => (sub k).encode B.WORDS_BIGENDIAN)
          screen := correSubrects B.WORDS_BIGENDIAN
            (writeBytes c.buffer 0
              ((List.range n).flatMap fun k => (sub k).encode B.WORDS_BIGENDIAN))
            (c.screen.fillRect x y w h bg) x y n }) := by
  have hread1 := readFromServer_append c
    [n / 16777216 % 256, n / 65536 % 256, n / 256 % 256, n % 256]
    (bytes32 B.WORDS_BIGENDIAN bg ++
      ((List.range n).flatMap fun k => (sub k).encode B.WORDS_BIGENDIAN) ++ rest) 4
    (by rw [hin]; simp [correEncode]) rfl
  have hread2 := readFromServer_append
    { c with inbound := bytes32 B.WORDS_BIGENDIAN bg ++
      ((List.range n).flatMap fun k => (sub k).encode B.WORDS_BIGENDIAN) ++ rest }
    (bytes32 B.WORDS_BIGENDIAN bg)
    (((List.range n).flatMap fun k => (sub k).encode B.WORDS_BIGENDIAN) ++ rest) 4
    (by simp) (bytes32_length _ _)
  have hread3 := readFromServer_append
    { c with
      inbound := ((List.range n).flatMap fun k => (sub k).encode B.WORDS_BIGENDIAN) ++ rest
      screen := c.screen.fillRect x y w h bg }
    ((List.range n).flatMap fun k => (sub k).encode B.WORDS_BIGENDIAN) rest (n * 8)
    rfl (corre_buf_length _ _ _)
  unfold handleCoRRE
  rw [hread1]
  simp only [List.getD_cons_zero, List.getD_cons_succ, wire32_bytes n hn, hread2,
    word32_bytes32 _ _ hbg, hread3]

theorem protocolInitializationTail_trace (B : Build) (L : Lower) (c5 : Conn) :
    (protocolInitializationTail B L c5).trace = c5.trace ∨
      (protocolInitializationTail B L c5).trace =
        c5.trace ++ [.sendGetUserInformationRequest] := by
  unfold protocolInitializationTail
  cases h1 : readFromServer c5 sz_rfbServerInitMsg with
  | none => exact Or.inl rfl
  | some p =>
    obtain ⟨si, c6⟩ := p
    have t6 := readFromServer_trace _ _ _ _ h1
    dsimp only
    cases h2 : readFromServer
        ({ c6 with
          framebufferWidth := wire16 (si.getD 0 0) (si.getD 1 0)
          framebufferHeight := wire16 (si.getD 2 0) (si.getD 3 0) } : Conn)
        (wire32 (si.getD 20 0) (si.getD 21 0) (si.getD 22 0) (si.getD 23 0)) with
    | none => exact Or.inl t6
    | some p2 =>
      obtain ⟨nm, c8⟩ := p2
      have t8 : c8.trace = c5.trace := (readFromServer_trace _ _ _ _ h2).trans t6
      simp only [writeToServer, sendFullFramebufferUpdateRequest, sendFramebufferUpdateRequest,
        Conn.act]
      split_ifs <;> simp [t8]

theorem authType_eq (c : Conn) :
    authType c =
      if c.quality = .QualityDemoLow ∨ c.quality = .QualityDemoMedium ∨
          c.quality = .QualityDemoHigh then
        if c.useAuthFile = true then .ItalcAuthChallengeViaAuthFile
        else .ItalcAuthAppInternalChallenge
      else .ItalcAuthNone := by
  unfold authType
  cases c.quality <;> simp [Quality.toNat]

theorem authType_congr (x y : Conn) (h1 : x.quality = y.quality)
    (h2 : x.useAuthFile = y.useAuthFile) : authType x = authType y := by
  unfold authType
  rw [h1, h2]

theorem protocolInitialization_auth (B : Build) (L : Lower) (c : Conn)
    (greeting tail : List Nat) (hg : greeting.length = 12) (hin : c.inbound = greeting ++ tail)
    (hscan : L.scanRfb greeting = true ∨ L.scanIds greeting = true) :
    protocolInitialization B L c =
      if c.writeOk c.outbound greeting = true then
        if (L.authAgainstServer (authType c) tail).result ≠ .Connecting then
          { c with
            isDemoServer := if L.scanRfb greeting = true then c.isDemoServer else true
            state := (L.authAgainstServer (authType c) tail).state
            inbound := (L.authAgainstServer (authType c) tail).inbound
            outbound := c.outbound ++ greeting ++ (L.authAgainstServer (authType c) tail).written
            trace := c.trace ++ [.authAgainstServer (authType c)] }
        else if c.writeOk
            (c.outbound ++ greeting ++ (L.authAgainstServer (authType c) tail).written) [1] =
              true then
          protocolInitializationTail B L
            { c with
              isDemoServer := if L.scanRfb greeting = true then c.isDemoServer else true
              state := (L.authAgainstServer (authType c) tail).state
              inbound := (L.authAgainstServer (authType c) tail).inbound
              outbound :=
                c.outbound ++ greeting ++ (L.authAgainstServer (authType c) tail).written ++ [1]
              trace := c.trace ++ [.authAgainstServer (authType c)] }
        else
          { c with
            isDemoServer := if L.scanRfb greeting = true then c.isDemoServer else true
            state := .ConnectionFailed
            inbound := (L.authAgainstServer (authType c) tail).inbound
            outbound := c.outbound ++ greeting ++ (L.authAgainstServer (authType c) tail).written
            trace := c.trace ++ [.authAgainstServer (authType c)] }
      else
        { c with
          isDemoServer := if L.scanRfb greeting = true then c.isDemoServer else true
          state := .ConnectionFailed
          inbound := tail } := by
  unfold protocolInitialization
  rw [readFromServer_append c greeting tail sz_rfbProtocolVersionMsg hin hg]
  dsimp only
  by_cases h1 : L.scanRfb greeting = true
  · rw [if_pos h1, if_pos h1]
    dsimp only [writeToServer, Conn.act]
    by_cases hw : c.writeOk c.outbound greeting = true
    · rw [if_pos hw, if_pos hw]
      dsimp only
      rw [if_neg (by simp)]
      conv_lhs => rw [authType_congr _ c (by rfl) (by rfl)]
      generalize L.authAgainstServer (authType c) tail = r
      by_cases hr : r.result = .Connecting
      · rw [if_neg (not_not.mpr hr), if_neg (not_not.mpr hr)]
        by_cases hw2 : c.writeOk (c.outbound ++ greeting ++ r.written) [1] = true
        · rw [if_pos hw2, if_pos hw2]
          dsimp only
          rw [if_neg (by simp)]
        · rw [if_neg hw2, if_neg hw2]
          dsimp only
          rw [if_pos rfl]
      · rw [if_pos hr, if_pos hr]
    · rw [if_neg hw, if_neg hw]
      dsimp only
      rw [if_pos rfl]
  · have h2 : L.scanIds greeting = true := hscan.resolve_left h1
    rw [if_neg h1, if_pos h2, if_neg h1]
    dsimp only [writeToServer, Conn.act]
    by_cases hw : c.writeOk c.outbound greeting = true
    · rw [if_pos hw, if_pos hw]
      dsimp only
      rw [if_neg (by simp)]
      conv_lhs => rw [authType_congr _ c (by rfl) (by rfl)]
      generalize L.authAgainstServer (authType c) tail = r
      by_cases hr : r.result = .Connecting
      · rw [if_neg (not_not.mpr hr), if_neg (not_not.mpr hr)]
        by_cases hw2 : c.writeOk (c.outbound ++ greeting ++ r.written) [1] = true
        · rw [if_pos hw2, if_pos hw2]
          dsimp only
          rw [if_neg (by simp)]
        · rw [if_neg hw2, if_neg hw2]
          dsimp only
          rw [if_pos rfl]
      · rw [if_pos hr, if_pos hr]
    · rw [if_neg hw, if_neg hw]
      dsimp only
      rw [if_pos rfl]

/-- C23 (amended): authentication mode. Whenever the greeting is accepted, as
standard greeting or as the greeting of a demo server, and has been written
back to the server, `protocolInitialization` calls the authenticator exactly
once, and the challenge type it passes depends on the quality and on
`useAuthFile` only: a demo quality (DemoLow, DemoMedium, DemoHigh) with auth
file gives challenge-via-auth-file, a demo quality without auth file gives the
app-internal challenge, and the qualities Low, Medium and High give no
authentication, whatever the kind of the greeting. When the greeting cannot be
written back, the handshake ends in `ConnectionFailed` and the authenticator is
not called. -/
theorem C23_authentication_mode (B : Build) (L : Lower) (c : Conn)
    (greeting tail : List Nat) (hg : greeting.length = 12) (hin : c.inbound = greeting ++ tail)
    (hscan : L.scanRfb greeting = true ∨ L.scanIds greeting = true) :
    (c.writeOk c.outbound greeting = true →
      ∃ rest,
        (protocolInitialization B L c).trace =
          c.trace ++
            Action.authAgainstServer
              (if c.quality = .QualityDemoLow ∨ c.quality = .QualityDemoMedium ∨
                  c.quality = .QualityDemoHigh then
                if c.useAuthFile = true then .ItalcAuthChallengeViaAuthFile
                else .ItalcAuthAppInternalChallenge
              else .ItalcAuthNone) :: rest ∧
        ∀ t, Action.authAgainstServer t ∉ rest) ∧
    (c.writeOk c.outbound greeting = false →
      (protocolInitialization B L c).state = .ConnectionFailed ∧
        (protocolInitialization B L c).outbound = c.outbound ∧
        (protocolInitialization B L c).trace = c.trace) := by
  rw [protocolInitialization_auth B L c greeting tail hg hin hscan, ← authType_eq]
  refine ⟨fun hw => ?_, fun hw => ?_⟩
  · rw [if_pos hw]
    by_cases hr : (L.authAgainstServer (authType c) tail).result = .Connecting
    · rw [if_neg (not_not.mpr hr)]
      by_cases hw2 : c.writeOk
          (c.outbound ++ greeting ++ (L.authAgainstServer (authType c) tail).written) [1] = true
      · rw [if_pos hw2]
        rcases protocolInitializationTail_trace B L
          { c with
            isDemoServer := if L.scanRfb greeting = true then c.isDemoServer else true
            state := (L.authAgainstServer (authType c) tail).state
            inbound := (L.authAgainstServer (authType c) tail).inbound
            outbound :=
              c.outbound ++ greeting ++ (L.authAgainstServer (authType c) tail).written ++ [1]
            trace := c.trace ++ [.authAgainstServer (authType c)] } with h | h
        · exact ⟨[], by rw [h], fun t ht => absurd ht (List.not_mem_nil _)⟩
        · refine ⟨[.sendGetUserInformationRequest], by rw [h]; simp, fun t ht => ?_⟩
          simp at ht
      · rw [if_neg hw2]
        exact ⟨[], rfl, fun t ht => absurd ht (List.not_mem_nil _)⟩
    · rw [if_pos hr]
      exact ⟨[], rfl, fun t ht => absurd ht (List.not_mem_nil _)⟩
  · rw [if_neg (by rw [hw]; exact Bool.false_ne_true)]
    exact ⟨rfl, rfl, rfl⟩

/-- C23 (amended), witness: a client of quality DemoLow without auth file that
receives a standard greeting, on a transport that accepts the echo of the
greeting; and the same client on a transport that refuses every write, where
the handshake fails before the authenticator is called. -/
theorem C23_authentication_mode_witness :
    (∃ rest,
      (protocolInitialization Build.sample Lower.sample
          (sampleHandshakeConn .QualityDemoLow false sampleRfbGreeting)).trace =
        (sampleHandshakeConn .QualityDemoLow false sampleRfbGreeting).trace ++
          Action.authAgainstServer .ItalcAuthAppInternalChallenge :: rest ∧
      ∀ t, Action.authAgainstServer t ∉ rest) ∧
    (protocolInitialization Build.sample Lower.sample
        (sampleDeafConn .QualityDemoLow false sampleRfbGreeting)).state = .ConnectionFailed ∧
    (protocolInitialization Build.sample Lower.sample
        (sampleDeafConn .QualityDemoLow false sampleRfbGreeting)).outbound = [] ∧
    (protocolInitialization Build.sample Lower.sample
        (sampleDeafConn .QualityDemoLow false sampleRfbGreeting)).trace = [] :=
  ⟨(C23_authentication_mode Build.sample Lower.sample
      (sampleHandshakeConn .QualityDemoLow false sampleRfbGreeting) sampleRfbGreeting
      (sampleServerInit ++ [97, 98]) rfl rfl (Or.inl rfl)).1 rfl,
    (C23_authentication_mode Build.sample Lower.sample
      (sampleDeafConn .QualityDemoLow false sampleRfbGreeting) sampleRfbGreeting
      (sampleServerInit ++ [97, 98]) rfl rfl (Or.inl rfl)).2 rfl⟩

/-- C23, counterexample: the choice does not follow the kind of server. A client
of quality DemoLow without auth file that receives the standard greeting
`RFB 003.003` is not marked as talking to a demo server, and still passes the
app-internal challenge to the authenticator; a client of quality High with an
auth file that receives the greeting `IDS 003.003` of a demo server is marked
as talking to a demo server and passes "no authentication". -/
theorem C23_authentication_mode_counterexample :
    Lower.sample.scanRfb sampleRfbGreeting = true ∧
    (protocolInitialization Build.sample Lower.sample
        (sampleHandshakeConn .QualityDemoLow false sampleRfbGreeting)).isDemoServer = false ∧
    (protocolInitialization Build.sample Lower.sample
        (sampleHandshakeConn .QualityDemoLow false sampleRfbGreeting)).trace =
      [.authAgainstServer .ItalcAuthAppInternalChallenge, .sendGetUserInformationRequest] ∧
    Lower.sample.scanRfb sampleIdsGreeting = false ∧
    Lower.sample.scanIds sampleIdsGreeting = true ∧
    (protocolInitialization Build.sample Lower.sample
        (sampleHandshakeConn .QualityHigh true sampleIdsGreeting)).isDemoServer = true ∧
    (protocolInitialization Build.sample Lower.sample
        (sampleHandshakeConn .QualityHigh true sampleIdsGreeting)).trace =
      [.authAgainstServer .ItalcAuthNone, .sendGetUserInformationRequest] :=
  ⟨rfl, rfl, rfl, rfl, rfl, rfl, rfl⟩

theorem writeToServer_sent (c : Conn) (bytes : List Nat) :
    (writeToServer c bytes).2.state = c.state ∧
      (writeToServer c bytes).2.trace = c.trace ∧
      ∃ post, (writeToServer c bytes).2.outbound = c.outbound ++ post := by
  unfold writeToServer
  split
  · exact ⟨rfl, rfl, _, rfl⟩
  · exact ⟨rfl, rfl, [], by simp⟩

theorem sendFramebufferUpdateRequest_sent (c : Conn) (x y w h : Nat) (incremental : Bool) :
    (sendFramebufferUpdateRequest c x y w h incremental).2.state = c.state ∧
      (sendFramebufferUpdateRequest c x y w h incremental).2.trace = c.trace ∧
      ∃ post, (sendFramebufferUpdateRequest c x y w h incremental).2.outbound =
        c.outbound ++ post := by
  unfold sendFramebufferUpdateRequest
  by_cases hs : c.state ≠ .Connected
  · rw [if_pos hs]
    exact ⟨rfl, rfl, [], by simp⟩
  · rw [if_neg hs]
    exact writeToServer_sent c _

theorem protocolInitializationTail_eval (B : Build) (L : Lower) (c5 : Conn)
    (si name rest : List Nat) (hin : c5.inbound = si ++ (name ++ rest))
    (hsi : si.length = 24)
    (hname : name.length =
      wire32 (si.getD 20 0) (si.getD 21 0) (si.getD 22 0) (si.getD 23 0)) :
    protocolInitializationTail B L c5 =
      if c5.writeOk c5.outbound (setPixelFormatMsg B L) = true then
        if c5.writeOk (c5.outbound ++ setPixelFormatMsg B L)
            (setEncodingsMsg B L c5.quality) = true then
          { (sendFullFramebufferUpdateRequest
              { c5 with
                state := .Connected
                inbound := rest
                framebufferWidth := wire16 (si.getD 0 0) (si.getD 1 0)
                framebufferHeight := wire16 (si.getD 2 0) (si.getD 3 0)
                screen := ⟨wire16 (si.getD 0 0) (si.getD 1 0),
                  wire16 (si.getD 2 0) (si.getD 3 0), L.newImage⟩
                outbound := c5.outbound ++ setPixelFormatMsg B L ++
                  setEncodingsMsg B L c5.quality }).2 with
            outbound :=
              (sendFullFramebufferUpdateRequest
                { c5 with
                  state := .Connected
                  inbound := rest
                  framebufferWidth := wire16 (si.getD 0 0) (si.getD 1 0)
                  framebufferHeight := wire16 (si.getD 2 0) (si.getD 3 0)
                  screen := ⟨wire16 (si.getD 0 0) (si.getD 1 0),
                    wire16 (si.getD 2 0) (si.getD 3 0), L.newImage⟩
                  outbound := c5.outbound ++ setPixelFormatMsg B L ++
                    setEncodingsMsg B L c5.quality }).2.outbound ++ L.userInformationRequest
            trace :=
              (sendFullFramebufferUpdateRequest
                { c5 with
                  state := .Connected
                  inbound := rest
                  framebufferWidth := wire16 (si.getD 0 0) (si.getD 1 0)
                  framebufferHeight := wire16 (si.getD 2 0) (si.getD 3 0)
                  screen := ⟨wire16 (si.getD 0 0) (si.getD 1 0),
                    wire16 (si.getD 2 0) (si.getD 3 0), L.newImage⟩
                  outbound := c5.outbound ++ setPixelFormatMsg B L ++
                    setEncodingsMsg B L c5.quality }).2.trace ++
                [.sendGetUserInformationRequest] }
        else
          { c5 with
            state := .ConnectionFailed
            inbound := rest
            framebufferWidth := wire16 (si.getD 0 0) (si.getD 1 0)
            framebufferHeight := wire16 (si.getD 2 0) (si.getD 3 0)
            outbound := c5.outbound ++ setPixelFormatMsg B L }
      else
        { c5 with
          state := .ConnectionFailed
          inbound := rest
          framebufferWidth := wire16 (si.getD 0 0) (si.getD 1 0)
          framebufferHeight := wire16 (si.getD 2 0) (si.getD 3 0) } := by
  unfold protocolInitializationTail
  rw [readFromServer_append c5 si (name ++ rest) sz_rfbServerInitMsg hin hsi]
  dsimp only
  rw [readFromServer_append _ name rest _ rfl hname]
  dsimp only [writeToServer, Conn.act]
  by_cases hw1 : c5.writeOk c5.outbound (setPixelFormatMsg B L) = true
  · rw [if_pos hw1, if_pos hw1]
    dsimp only
    rw [if_neg (by simp)]
    by_cases hw2 : c5.writeOk (c5.outbound ++ setPixelFormatMsg B L)
        (setEncodingsMsg B L c5.quality) = true
    · rw [if_pos hw2, if_pos hw2]
      dsimp only
      rw [if_neg (by simp)]
    · rw [if_neg hw2, if_neg hw2]
      dsimp only
      rw [if_pos rfl]
  · rw [if_neg hw1, if_neg hw1]
    dsimp only
    rw [if_pos rfl]

theorem setEncodingsList_eq (B : Build) (q : Quality) :
    setEncodingsList B q =
      if q = .QualityDemoLow ∨ q = .QualityDemoMedium ∨ q = .QualityDemoHigh then
        [rfbEncodingRaw, rfbEncodingItalc, rfbEncodingItalcCursor]
      else
        (if B.HAVE_LIBZ = true ∧ B.HAVE_LIBJPEG = true then [rfbEncodingTight] else []) ++
          (if B.HAVE_LIBZ = true then [rfbEncodingZlib] else []) ++
          [rfbEncodingCoRRE, rfbEncodingCopyRect, rfbEncodingRaw, rfbEncodingRichCursor,
            rfbEncodingPointerPos] ++
          (if B.HAVE_LIBZ = true ∧ B.HAVE_LIBJPEG = true then
            if q = .QualityLow then [rfbEncodingQualityLevel4]
            else if q = .QualityMedium then [rfbEncodingQualityLevel9]
            else []
          else []) ++
          (if B.HAVE_LIBZ = true then [rfbEncodingCompressLevel4] else []) ++
          [rfbEncodingItalc, rfbEncodingItalcCursor] := by
  obtain ⟨be, z, j, bs, zs⟩ := B
  cases z <;> cases j <;> cases q <;> rfl

theorem setEncodingsList_length (B : Build) (q : Quality) :
    (setEncodingsList B q).length ≤ 11 := by
  obtain ⟨be, z, j, bs, zs⟩ := B
  cases z <;> cases j <;> cases q <;> exact Nat.le_of_ble_eq_true rfl

theorem flatMap_bytes32_length (l : List Nat) :
    (l.flatMap (bytes32 true)).length = 4 * l.length := by
  induction l with
  | nil => rfl
  | cons a l ih =>
    rw [List.flatMap_cons, List.length_append, ih, List.length_cons]
    simp [bytes32]
    omega

theorem setEncodingsMsg_eq (B : Build) (L : Lower) (q : Quality) :
    setEncodingsMsg B L q =
      [rfbSetEncodings, L.stack 3 % 256, (setEncodingsList B q).length / 256 % 256,
        (setEncodingsList B q).length % 256] ++
        (setEncodingsList B q).flatMap (bytes32 true) := by
  unfold setEncodingsMsg
  dsimp only
  have hl := setEncodingsList_length B q
  rw [Nat.mod_eq_of_lt (show (setEncodingsList B q).length < 65536 by omega)]
  apply List.take_of_length_le
  rw [List.length_append, flatMap_bytes32_length]
  simp
  omega

/-- C22 (amended): advertised encodings. When the handshake gets as far as the
SetEncodings message (greeting accepted and written back, authentication
passed, ClientInit written, ServerInit and name read, SetPixelFormat written),
the message that `protocolInitialization` gives to the transport is
`type; pad; u16 nEncodings; u32 encodings[]` with the list, for the demo
qualities, `[Raw, Italc, ItalcCursor]` and for Low, Medium and High `[Tight (if
zlib and JPEG are present), Zlib (if zlib is present), CoRRE, CopyRect, Raw,
RichCursor, PointerPos, QualityLevel4 for Low or QualityLevel9 for Medium (only
if zlib and JPEG are present), CompressLevel4 (if zlib is present), Italc,
ItalcCursor]` in that order; `nEncodings` is the length of the list and the
message has `4 + 4 * nEncodings` bytes. In a build with zlib and JPEG this is
the list of the specification. When the transport takes the message, it follows
the SetPixelFormat message in what the server has been sent and the handshake
ends in the state `Connected`; when the write fails, nothing of the message is
sent and the handshake ends in `ConnectionFailed`. -/
theorem C22_advertised_encodings (B : Build) (L : Lower) (c : Conn)
    (greeting tail si name rest : List Nat)
    (hg : greeting.length = 12) (hin : c.inbound = greeting ++ tail)
    (hscan : L.scanRfb greeting = true ∨ L.scanIds greeting = true)
    (hecho : c.writeOk c.outbound greeting = true)
    (hres : (L.authAgainstServer (authType c) tail).result = .Connecting)
    (hci : c.writeOk
      (c.outbound ++ greeting ++ (L.authAgainstServer (authType c) tail).written) [1] = true)
    (hauth : (L.authAgainstServer (authType c) tail).inbound = si ++ (name ++ rest))
    (hsi : si.length = 24)
    (hname : name.length =
      wire32 (si.getD 20 0) (si.getD 21 0) (si.getD 22 0) (si.getD 23 0))
    (hspf : c.writeOk
      (c.outbound ++ greeting ++ (L.authAgainstServer (authType c) tail).written ++ [1])
      (setPixelFormatMsg B L) = true) :
    ∃ encs pre,
      encs =
        (if c.quality = .QualityDemoLow ∨ c.quality = .QualityDemoMedium ∨
            c.quality = .QualityDemoHigh then
          [rfbEncodingRaw, rfbEncodingItalc, rfbEncodingItalcCursor]
        else
          (if B.HAVE_LIBZ = true ∧ B.HAVE_LIBJPEG = true then [rfbEncodingTight] else []) ++
            (if B.HAVE_LIBZ = true then [rfbEncodingZlib] else []) ++
            [rfbEncodingCoRRE, rfbEncodingCopyRect, rfbEncodingRaw, rfbEncodingRichCursor,
              rfbEncodingPointerPos] ++
            (if B.HAVE_LIBZ = true ∧ B.HAVE_LIBJPEG = true then
              if c.quality = .QualityLow then [rfbEncodingQualityLevel4]
              else if c.quality = .QualityMedium then [rfbEncodingQualityLevel9]
              else []
            else []) ++
            (if B.HAVE_LIBZ = true then [rfbEncodingCompressLevel4] else []) ++
            [rfbEncodingItalc, rfbEncodingItalcCursor]) ∧
      pre =
        c.outbound ++ greeting ++ (L.authAgainstServer (authType c) tail).written ++ [1] ++
          setPixelFormatMsg B L ∧
      setEncodingsMsg B L c.quality =
        [rfbSetEncodings, L.stack 3 % 256, encs.length / 256 % 256, encs.length % 256] ++
          encs.flatMap (bytes32 true) ∧
      (setEncodingsMsg B L c.quality).length = 4 + 4 * encs.length ∧
      (B.HAVE_LIBZ = true → B.HAVE_LIBJPEG = true →
        encs = advertisedEncodingsSpec B c.quality) ∧
      (c.writeOk pre (setEncodingsMsg B L c.quality) = true →
        (protocolInitialization B L c).state = .Connected ∧
          ∃ post, (protocolInitialization B L c).outbound =
            pre ++ setEncodingsMsg B L c.quality ++ post) ∧
      (c.writeOk pre (setEncodingsMsg B L c.quality) = false →
        (protocolInitialization B L c).state = .ConnectionFailed ∧
          (protocolInitialization B L c).outbound = pre) := by
  have hev := protocolInitialization_auth B L c greeting tail hg hin hscan
  rw [if_pos hecho, if_neg (not_not.mpr hres), if_pos hci,
    protocolInitializationTail_eval B L _ si name rest hauth hsi hname] at hev
  dsimp only at hev
  rw [if_pos hspf] at hev
  refine ⟨setEncodingsList B c.quality, _, setEncodingsList_eq B c.quality, rfl,
    setEncodingsMsg_eq B L c.quality, ?_, fun hz hj => ?_, fun hw => ?_, fun hw => ?_⟩
  · rw [setEncodingsMsg_eq, List.length_append, flatMap_bytes32_length]
    simp
  · obtain ⟨be, z, j, bs, zs⟩ := B
    dsimp only at hz hj
    subst hz hj
    cases c.quality <;> rfl
  · rw [hev, if_pos hw]
    dsimp only
    obtain ⟨e1, _, post, e3⟩ := sendFramebufferUpdateRequest_sent
      { c with
        isDemoServer := if L.scanRfb greeting = true then c.isDemoServer else true
        state := .Connected
        inbound := rest
        framebufferWidth := wire16 (si.getD 0 0) (si.getD 1 0)
        framebufferHeight := wire16 (si.getD 2 0) (si.getD 3 0)
        screen := ⟨wire16 (si.getD 0 0) (si.getD 1 0),
          wire16 (si.getD 2 0) (si.getD 3 0), L.newImage⟩
        outbound := c.outbound ++ greeting ++
          (L.authAgainstServer (authType c) tail).written ++ [1] ++ setPixelFormatMsg B L ++
          setEncodingsMsg B L c.quality
        trace := c.trace ++ [.authAgainstServer (authType c)] } 0 0
      (wire16 (si.getD 0 0) (si.getD 1 0)) (wire16 (si.getD 2 0) (si.getD 3 0)) false
    refine ⟨e1, post ++ L.userInformationRequest, ?_⟩
    unfold sendFullFramebufferUpdateRequest
    dsimp only
    rw [e3, List.append_assoc _ post]
  · rw [hev, if_neg (by rw [hw]; exact Bool.false_ne_true)]
    exact ⟨rfl, rfl⟩

/-- C22 (amended), witness: a client of quality Low in a build with zlib and
without JPEG, on a transport that accepts every write; and the same client on
a transport that refuses the SetEncodings message, where the handshake ends in
`ConnectionFailed` with the SetPixelFormat message as the last bytes sent. -/
theorem C22_advertised_encodings_witness :
    (∃ encs pre,
      encs =
        [rfbEncodingZlib, rfbEncodingCoRRE, rfbEncodingCopyRect, rfbEncodingRaw,
          rfbEncodingRichCursor, rfbEncodingPointerPos, rfbEncodingCompressLevel4,
          rfbEncodingItalc, rfbEncodingItalcCursor] ∧
      pre = sampleRfbGreeting ++ [1] ++ setPixelFormatMsg Build.nojpeg Lower.sample ∧
      setEncodingsMsg Build.nojpeg Lower.sample .QualityLow =
        [rfbSetEncodings, Lower.sample.stack 3 % 256, encs.length / 256 % 256,
          encs.length % 256] ++ encs.flatMap (bytes32 true) ∧
      (setEncodingsMsg Build.nojpeg Lower.sample .QualityLow).length = 4 + 4 * encs.length ∧
      (protocolInitialization Build.nojpeg Lower.sample
          (sampleHandshakeConn .QualityLow false sampleRfbGreeting)).state = .Connected ∧
      ∃ post, (protocolInitialization Build.nojpeg Lower.sample
          (sampleHandshakeConn .QualityLow false sampleRfbGreeting)).outbound =
        pre ++ setEncodingsMsg Build.nojpeg Lower.sample .QualityLow ++ post) ∧
    (protocolInitialization Build.nojpeg Lower.sample
        (sampleNoEncodingsConn .QualityLow false sampleRfbGreeting)).state = .ConnectionFailed ∧
    (protocolInitialization Build.nojpeg Lower.sample
        (sampleNoEncodingsConn .QualityLow false sampleRfbGreeting)).outbound =
      sampleRfbGreeting ++ [1] ++ setPixelFormatMsg Build.nojpeg Lower.sample := by
  obtain ⟨encs, pre, h1, h2, h3, h4, _, h6, _⟩ :=
    C22_advertised_encodings Build.nojpeg Lower.sample
      (sampleHandshakeConn .QualityLow false sampleRfbGreeting) sampleRfbGreeting
      (sampleServerInit ++ [97, 98]) sampleServerInit [97, 98] [] rfl rfl (Or.inl rfl) rfl rfl
      rfl rfl rfl rfl rfl
  obtain ⟨_, pre2, _, k2, _, _, _, _, k7⟩ :=
    C22_advertised_encodings Build.nojpeg Lower.sample
      (sampleNoEncodingsConn .QualityLow false sampleRfbGreeting) sampleRfbGreeting
      (sampleServerInit ++ [97, 98]) sampleServerInit [97, 98] [] rfl rfl (Or.inl rfl) rfl rfl
      rfl rfl rfl rfl rfl
  have k := k7 (by rw [k2]; rfl)
  rw [k2] at k
  exact ⟨⟨encs, pre, h1, h2, h3, h4, h6 rfl⟩, k⟩

/-- C22, counterexample: a build with zlib and without JPEG, quality Low. The
list of the specification has QualityLevel4 before CompressLevel4; the message
that `protocolInitialization` writes has 9 encodings and QualityLevel4 is not
among them. -/
theorem C22_advertised_encodings_counterexample :
    advertisedEncodingsSpec Build.nojpeg .QualityLow =
      [rfbEncodingZlib, rfbEncodingCoRRE, rfbEncodingCopyRect, rfbEncodingRaw,
        rfbEncodingRichCursor, rfbEncodingPointerPos, rfbEncodingQualityLevel4,
        rfbEncodingCompressLevel4, rfbEncodingItalc, rfbEncodingItalcCursor] ∧
    (protocolInitialization Build.nojpeg Lower.sample
        (sampleHandshakeConn .QualityLow false sampleRfbGreeting)).outbound =
      sampleRfbGreeting ++ [1] ++ setPixelFormatMsg Build.nojpeg Lower.sample ++
        ([rfbSetEncodings, 0, 0, 9] ++
          [rfbEncodingZlib, rfbEncodingCoRRE, rfbEncodingCopyRect, rfbEncodingRaw,
            rfbEncodingRichCursor, rfbEncodingPointerPos, rfbEncodingCompressLevel4,
            rfbEncodingItalc, rfbEncodingItalcCursor].flatMap (bytes32 true)) ++
        [rfbFramebufferUpdateRequest, 0, 0, 0, 0, 0, 2, 128, 1, 224] ++ [9] ∧
    rfbEncodingQualityLevel4 ∉
      [rfbEncodingZlib, rfbEncodingCoRRE, rfbEncodingCopyRect, rfbEncodingRaw,
        rfbEncodingRichCursor, rfbEncodingPointerPos, rfbEncodingCompressLevel4,
        rfbEncodingItalc, rfbEncodingItalcCursor] :=
  ⟨rfl, by decide, by decide⟩

/-! ## No decoder closes the transport -/

@[refl]
theorem TraceOpen.id (c : Conn) : TraceOpen c c :=
  ⟨[], by simp, fun a ha => absurd ha (List.not_mem_nil a)⟩

theorem TraceOpen.comp {a b c : Conn} (h1 : TraceOpen a b) (h2 : TraceOpen b c) : TraceOpen a c := by
  obtain ⟨n1, e1, p1⟩ := h1
  obtain ⟨n2, e2, p2⟩ := h2
  refine ⟨n2 ++ n1, by rw [e1, e2, List.append_assoc], fun x hx => ?_⟩
  rcases List.mem_append.mp hx with h | h
  · exact p2 x h
  · exact p1 x h

theorem TraceOpen.log (c : Conn) (a : Action) (h : a.isClose = false) : TraceOpen (c.act a) c :=
  ⟨[a], rfl, fun x hx => by rw [List.mem_singleton.mp hx]; exact h⟩

theorem TraceOpen.keep (c c' : Conn) (h : c'.trace = c.trace) : TraceOpen c' c :=
  ⟨[], by simp [h], fun a ha => absurd ha (List.not_mem_nil a)⟩

theorem tightResetStep_traceOpen (E : Ext) (i : Nat) (st : Conn × Nat) :
    TraceOpen (tightResetStep E i st).1 st.1 := by
  unfold tightResetStep
  simp only []
  split_ifs
  · exact TraceOpen.log _ _ rfl
  · exact TraceOpen.keep _ _ rfl
  · exact TraceOpen.id _

theorem tightResetStreams_traceOpen (E : Ext) (c : Conn) (cc : Nat) :
    TraceOpen (tightResetStreams E c cc).1 c := by
  unfold tightResetStreams forLoop forLoop forLoop forLoop forLoop
  exact (tightResetStep_traceOpen E 3 _).comp ((tightResetStep_traceOpen E 2 _).comp
    ((tightResetStep_traceOpen E 1 _).comp (tightResetStep_traceOpen E 0 _)))

theorem decompressJpegRect_traceOpen (B : Build) (E : Ext) (c : Conn) (x y w h : Nat) :
    TraceOpen (decompressJpegRect B E c x y w h).2 c := by
  have t0 := readCompactLen_trace c
  unfold decompressJpegRect
  dsimp only
  split
  · exact (TraceOpen.log _ _ (by rfl)).comp (TraceOpen.keep _ _ t0)
  · split
    · exact TraceOpen.keep _ _ t0
    · rename_i data c2 h2
      have t2 := readFromServer_trace _ _ _ _ h2
      split
      · exact (TraceOpen.log _ _ (by rfl)).comp (TraceOpen.keep _ _ (t2.trans t0))
      · exact TraceOpen.keep _ _ ((jpegScanlines_trace _ _ _ _ _ _).trans (t2.trans t0))

theorem tightInflateLoop_traceOpen (B : Build) (E : Ext) (f : TightFilter)
    (rx ry rw stream_id row_size buffer_size : Nat) :
    ∀ (fuel : Nat) (st : TightLoop) (input : List Nat) (b : Bool) (st' : TightLoop),
      tightInflateLoop B E f rx ry rw stream_id row_size buffer_size fuel st input
        = some (b, st') →
      TraceOpen st'.c st.c := by
  intro fuel
  induction fuel with
  | zero =>
    intro st input b st' h
    rw [tightInflateLoop] at h
    exact absurd h (by simp)
  | succ fuel ih =>
    intro st input b st' h
    rw [tightInflateLoop] at h
    dsimp only at h
    split at h
    · simp only [Option.some.injEq, Prod.mk.injEq] at h
      rw [← h.2]
      exact TraceOpen.keep _ _ rfl
    · split at h
      · simp only [Option.some.injEq, Prod.mk.injEq] at h
        rw [← h.2]
        exact TraceOpen.log _ _ rfl
      · split at h
        · refine (ih _ _ _ _ h).comp ?_
          apply TraceOpen.keep
          dsimp only
          apply ite_trace
          · apply ite_trace
            · exact applyFilter_trace _ _ _ _ _ _
            · exact applyFilter_trace _ _ _ _ _ _
          · apply ite_trace
            · exact applyFilter_trace _ _ _ _ _ _
            · exact applyFilter_trace _ _ _ _ _ _
        · simp only [Option.some.injEq, Prod.mk.injEq] at h
          rw [← h.2]
          apply TraceOpen.keep
          dsimp only
          apply ite_trace
          · apply ite_trace
            · exact applyFilter_trace _ _ _ _ _ _
            · exact applyFilter_trace _ _ _ _ _ _
          · apply ite_trace
            · exact applyFilter_trace _ _ _ _ _ _
            · exact applyFilter_trace _ _ _ _ _ _

theorem tightReadLoop_traceOpen (B : Build) (E : Ext) (f : TightFilter)
    (rx ry rw stream_id row_size buffer_size : Nat) :
    ∀ (fuel : Nat) (st : TightLoop) (b : Bool) (st' : TightLoop),
      tightReadLoop B E f rx ry rw stream_id row_size buffer_size fuel st = some (b, st') →
      TraceOpen st'.c st.c := by
  intro fuel
  induction fuel with
  | zero =>
    intro st b st' h
    rw [tightReadLoop] at h
    split at h
    · simp only [Option.some.injEq, Prod.mk.injEq] at h
      rw [← h.2]
    · exact absurd h (by simp)
  | succ fuel ih =>
    intro st b st' h
    rw [tightReadLoop] at h
    split at h
    · simp only [Option.some.injEq, Prod.mk.injEq] at h
      rw [← h.2]
    · dsimp only at h
      split at h
      · simp only [Option.some.injEq, Prod.mk.injEq] at h
        rw [← h.2]
      · rename_i bs c1 h1
        have t1 := readFromServer_trace _ _ _ _ h1
        split at h
        · exact absurd h (by simp)
        · rename_i st2 h2
          simp only [Option.some.injEq, Prod.mk.injEq] at h
          rw [← h.2]
          exact (tightInflateLoop_traceOpen _ _ _ _ _ _ _ _ _ _ _ _ _ _ h2).comp
            (TraceOpen.keep _ _ t1)
        · rename_i st2 h2
          exact (ih _ _ _ h).comp
            ((tightInflateLoop_traceOpen _ _ _ _ _ _ _ _ _ _ _ _ _ _ h2).comp
              (TraceOpen.keep _ _ t1))

theorem tightData_traceOpen (B : Build) (E : Ext) (fuel : Nat) (rx ry rw rh comp_ctl : Nat)
    (f : TightFilter) (bits_pixel : Nat) (c4 : Conn) (b : Bool) (c' : Conn)
    (h : tightData B E fuel rx ry rw rh comp_ctl f bits_pixel c4 = some (b, c')) :
    TraceOpen c' c4 := by
  unfold tightData at h
  split at h
  · simp only [Option.some.injEq, Prod.mk.injEq] at h
    rw [← h.2]
    exact TraceOpen.log _ _ rfl
  · dsimp only at h
    split at h
    · split at h
      · simp only [Option.some.injEq, Prod.mk.injEq] at h
        rw [← h.2]
      · rename_i bs c5 h5
        have t5 := readFromServer_trace _ _ _ _ h5
        simp only [Option.some.injEq, Prod.mk.injEq] at h
        rw [← h.2]
        apply TraceOpen.keep
        exact (applyFilter_trace _ _ _ _ _ _).trans t5
    · have t5 := readCompactLen_trace c4
      split at h
      · simp only [Option.some.injEq, Prod.mk.injEq] at h
        rw [← h.2]
        exact (TraceOpen.log _ _ (by rfl)).comp (TraceOpen.keep _ _ t5)
      · split at h
        · simp only [Option.some.injEq, Prod.mk.injEq] at h
          rw [← h.2]
          split
          · exact (TraceOpen.log _ _ (by rfl)).comp (TraceOpen.keep _ _ t5)
          · exact TraceOpen.keep _ _ t5
        · rename_i c6 h6
          have t6 : c6.trace = (readCompactLen c4).2.trace := by
            split at h6
            · simp only [Option.some.injEq] at h6
              rw [← h6]
            · split at h6
              · exact absurd h6 (by simp)
              · simp only [Option.some.injEq] at h6
                rw [← h6]
          split at h
          · simp only [Option.some.injEq, Prod.mk.injEq] at h
            rw [← h.2]
            exact (TraceOpen.log _ _ (by rfl)).comp
              (TraceOpen.keep _ _ (t6.trans t5))
          · split at h
            · exact absurd h (by simp)
            · rename_i st hst
              have := tightReadLoop_traceOpen _ _ _ _ _ _ _ _ _ _ _ _ _ hst
              simp only [Option.some.injEq, Prod.mk.injEq] at h
              rw [← h.2]
              exact this.comp (TraceOpen.keep _ _ (t6.trans t5))
            · rename_i st hst
              have := tightReadLoop_traceOpen _ _ _ _ _ _ _ _ _ _ _ _ _ hst
              split at h
              · simp only [Option.some.injEq, Prod.mk.injEq] at h
                rw [← h.2]
                exact (TraceOpen.log _ _ (by rfl)).comp
                  (this.comp (TraceOpen.keep _ _ (t6.trans t5)))
              · simp only [Option.some.injEq, Prod.mk.injEq] at h
                rw [← h.2]
                exact this.comp (TraceOpen.keep _ _ (t6.trans t5))

theorem handleTight_traceOpen (B : Build) (E : Ext) (fuel : Nat) (c : Conn)
    (rx ry rw rh : Nat) (b : Bool) (c' : Conn)
    (h : handleTight B E fuel c rx ry rw rh = some (b, c')) :
    TraceOpen c' c := by
  unfold handleTight at h
  split at h
  · simp only [Option.some.injEq, Prod.mk.injEq] at h
    rw [← h.2]
  · rename_i cb c1 h1
    have t1 := readFromServer_trace _ _ _ _ h1
    have u2 := (tightResetStreams_traceOpen E c1 (cb.getD 0 0 % 256)).comp
      (TraceOpen.keep _ _ t1)
    dsimp only at h
    split at h
    · split at h
      · simp only [Option.some.injEq, Prod.mk.injEq] at h
        rw [← h.2]
        exact u2
      · rename_i pb c3 h3
        have t3 := readFromServer_trace _ _ _ _ h3
        simp only [Option.some.injEq, Prod.mk.injEq] at h
        rw [← h.2]
        exact (TraceOpen.keep _ _ t3).comp u2
    · split at h
      · split at h
        · simp only [Option.some.injEq] at h
          have hj := decompressJpegRect_traceOpen B E
            (tightResetStreams E c1 (cb.getD 0 0 % 256)).1 rx ry rw rh
          rw [h] at hj
          exact hj.comp u2
        · simp only [Option.some.injEq, Prod.mk.injEq] at h
          rw [← h.2]
          exact u2
      · split at h
        · simp only [Option.some.injEq, Prod.mk.injEq] at h
          rw [← h.2]
          exact (TraceOpen.log _ _ (by rfl)).comp u2
        · split at h
          · split at h
            · simp only [Option.some.injEq, Prod.mk.injEq] at h
              rw [← h.2]
              exact u2
            · rename_i fb c3 h3
              have t3 := readFromServer_trace _ _ _ _ h3
              have u3 := (TraceOpen.keep _ _ t3).comp u2
              split at h
              · exact (tightData_traceOpen _ _ _ _ _ _ _ _ _ _ _ _ _ h).comp
                  ((TraceOpen.keep _ _ (initFilterCopy_trace _ _)).comp u3)
              · split at h
                · exact (tightData_traceOpen _ _ _ _ _ _ _ _ _ _ _ _ _ h).comp
                    ((TraceOpen.keep _ _ (initFilterPalette_trace _ _)).comp u3)
                · split at h
                  · exact (tightData_traceOpen _ _ _ _ _ _ _ _ _ _ _ _ _ h).comp
                      ((TraceOpen.keep _ _ (initFilterGradient_trace _ _)).comp u3)
                  · simp only [Option.some.injEq, Prod.mk.injEq] at h
                    rw [← h.2]
                    exact (TraceOpen.log _ _ (by rfl)).comp u3
          · exact (tightData_traceOpen _ _ _ _ _ _ _ _ _ _ _ _ _ h).comp
              ((TraceOpen.keep _ _ (initFilterCopy_trace _ _)).comp u2)

theorem handleZlibLoop_traceOpen (B : Build) (E : Ext) :
    ∀ (fuel : Nat) (st : ZlibLoop) (b : Bool) (st' : ZlibLoop),
      handleZlibLoop B E fuel st = some (b, st') →
      TraceOpen st'.c st.c := by
  intro fuel
  induction fuel with
  | zero =>
    intro st b st' h
    rw [handleZlibLoop] at h
    split at h
    · simp only [Option.some.injEq, Prod.mk.injEq] at h
      rw [← h.2]
    · exact absurd h (by simp)
  | succ fuel ih =>
    intro st b st' h
    rw [handleZlibLoop] at h
    split at h
    · simp only [Option.some.injEq, Prod.mk.injEq] at h
      rw [← h.2]
    · dsimp only at h
      split at h
      · simp only [Option.some.injEq, Prod.mk.injEq] at h
        rw [← h.2]
      · rename_i bs c1 h1
        have t1 := readFromServer_trace _ _ _ _ h1
        split at h
        · simp only [Option.some.injEq, Prod.mk.injEq] at h
          rw [← h.2]
          exact (TraceOpen.log _ _ (by rfl)).comp (TraceOpen.keep _ _ t1)
        · split at h
          · simp only [Option.some.injEq, Prod.mk.injEq] at h
            rw [← h.2]
            exact (TraceOpen.log _ _ (by rfl)).comp (TraceOpen.keep _ _ t1)
          · split at h
            · simp only [Option.some.injEq, Prod.mk.injEq] at h
              rw [← h.2]
              exact (TraceOpen.log _ _ (by rfl)).comp (TraceOpen.keep _ _ t1)
            · exact (ih _ _ _ h).comp (TraceOpen.keep _ _ t1)

theorem handleZlib_traceOpen (B : Build) (E : Ext) (fuel : Nat) (c : Conn)
    (rx ry rw rh : Nat) (b : Bool) (c' : Conn)
    (h : handleZlib B E fuel c rx ry rw rh = some (b, c')) :
    TraceOpen c' c := by
  unfold handleZlib at h
  dsimp only at h
  have t0 : (if c.rawBufferSize < toInt32 (rw * rh * 4) then
      ({ c with rawBufferSize := toInt32 (rw * rh * 4), rawBuffer := E.uninit } : Conn)
      else c).trace = c.trace := ite_trace _ _ _ _ rfl rfl
  split at h
  · simp only [Option.some.injEq, Prod.mk.injEq] at h
    rw [← h.2]
    exact TraceOpen.keep _ _ t0
  · rename_i hdr c2 h2
    have t2 := (readFromServer_trace _ _ _ _ h2).trans t0
    split at h
    · simp only [Option.some.injEq, Prod.mk.injEq] at h
      rw [← h.2]
      exact (TraceOpen.log _ _ (by rfl)).comp (TraceOpen.keep _ _ t2)
    · rename_i c3 h3
      have t3 : c3.trace = c2.trace := by
        split at h3
        · simp only [Option.some.injEq] at h3
          rw [← h3]
        · split at h3
          · exact absurd h3 (by simp)
          · simp only [Option.some.injEq] at h3
            rw [← h3]
      split at h
      · exact absurd h (by simp)
      · rename_i st hst
        have := handleZlibLoop_traceOpen _ _ _ _ _ _ hst
        simp only [Option.some.injEq, Prod.mk.injEq] at h
        rw [← h.2]
        exact this.comp (TraceOpen.keep _ _ (t3.trans t2))
      · rename_i st hst
        have := handleZlibLoop_traceOpen _ _ _ _ _ _ hst
        split at h
        · simp only [Option.some.injEq, Prod.mk.injEq] at h
          rw [← h.2]
          exact (TraceOpen.keep _ _ rfl).comp
            (this.comp (TraceOpen.keep _ _ (t3.trans t2)))
        · simp only [Option.some.injEq, Prod.mk.injEq] at h
          rw [← h.2]
          exact (TraceOpen.log _ _ (by rfl)).comp
            (this.comp (TraceOpen.keep _ _ (t3.trans t2)))

theorem handleItalc_traceOpen (B : Build) (E : Ext) (fuel : Nat) (c : Conn)
    (rx ry rw rh : Nat) (b : Bool) (c' : Conn)
    (h : handleItalc B E fuel c rx ry rw rh = some (b, c')) :
    TraceOpen c' c := by
  unfold handleItalc at h
  split at h
  · simp only [Option.some.injEq, Prod.mk.injEq] at h
    rw [← h.2]
  · rename_i hdr c1 h1
    have t1 := readFromServer_trace _ _ _ _ h1
    split at h
    · exact TraceOpen.keep _ _ ((handleRaw_trace _ _ _ _ _ _ _ _ _ h).trans t1)
    · dsimp only at h
      split at h
      · simp only [Option.some.injEq, Prod.mk.injEq] at h
        rw [← h.2]
        exact TraceOpen.keep _ _ t1
      · rename_i lzo c2 h2
        have t2 := (readFromServer_trace _ _ _ _ h2).trans t1
        split at h
        · simp only [Option.some.injEq, Prod.mk.injEq] at h
          rw [← h.2]
          refine (TraceOpen.log _ _ (by rfl)).comp ?_
          split
          · exact (TraceOpen.log _ _ (by rfl)).comp (TraceOpen.keep _ _ t2)
          · exact TraceOpen.keep _ _ t2
        · simp only [Option.some.injEq, Prod.mk.injEq] at h
          rw [← h.2]
          split
          · exact (TraceOpen.log _ _ (by rfl)).comp (TraceOpen.keep _ _ t2)
          · exact TraceOpen.keep _ _ t2

theorem postRegionChangedEvent_traceOpen (c : Conn) (o : Origin) (rgn : QRegion)
    (_ho : o ≠ .update) : TraceOpen (postRegionChangedEvent c o rgn) c := by
  unfold postRegionChangedEvent
  split
  · exact TraceOpen.log _ _ rfl
  · rfl

theorem handleCursorPos_traceOpen (c : Conn) (x y : Nat) :
    TraceOpen (handleCursorPos c x y).2 c := by
  unfold handleCursorPos
  dsimp only
  split
  · exact (TraceOpen.log _ _ (by rfl)).comp
      ((postRegionChangedEvent_traceOpen _ _ _ (by decide)).comp
        (TraceOpen.keep _ _ rfl))
  · exact (postRegionChangedEvent_traceOpen _ _ _ (by decide)).comp
      (TraceOpen.keep _ _ rfl)

theorem cursorShapeInstall_traceOpen (B : Build) (E : Ext) (c2 : Conn) (rcSource : Mem)
    (xhot yhot width height bytesMaskData : Nat) :
    TraceOpen (cursorShapeInstall B E c2 rcSource xhot yhot width height bytesMaskData).2
      c2 := by
  unfold cursorShapeInstall
  split
  · rfl
  · rename_i mask c3 h3
    have t3 := readFromServer_trace _ _ _ _ h3
    dsimp only
    have e : ∀ d : Conn, d.trace = c3.trace ++ [.cursorLockForWrite, .cursorUnlock] →
        TraceOpen d c2 := by
      intro d hd
      refine ⟨[.cursorLockForWrite, .cursorUnlock], by rw [hd, t3], ?_⟩
      intro a ha
      simp only [List.mem_cons, List.mem_singleton, List.not_mem_nil, or_false] at ha
      rcases ha with rfl | rfl <;> rfl
    split
    · refine (TraceOpen.log _ _ (by rfl)).comp ((TraceOpen.log _ _ (by rfl)).comp
        ((postRegionChangedEvent_traceOpen _ _ _ (by decide)).comp (e _ ?_)))
      simp [Conn.act]
    · refine (TraceOpen.log _ _ (by rfl)).comp
        ((postRegionChangedEvent_traceOpen _ _ _ (by decide)).comp (e _ ?_))
      simp [Conn.act]

theorem handleCursorShape_traceOpen (B : Build) (E : Ext) (c : Conn)
    (xhot yhot width height enc : Nat) :
    TraceOpen (handleCursorShape B E c xhot yhot width height enc).2 c := by
  unfold handleCursorShape
  dsimp only
  split
  · rfl
  · split
    · split
      · rfl
      · rename_i rgb c1 h1
        have t1 := readFromServer_trace _ _ _ _ h1
        split
        · exact TraceOpen.keep _ _ t1
        · rename_i bits c2 h2
          have t2 := (readFromServer_trace _ _ _ _ h2).trans t1
          exact (cursorShapeInstall_traceOpen _ _ _ _ _ _ _ _ _).comp
            (TraceOpen.keep _ _ t2)
    · split
      · rfl
      · rename_i px c1 h1
        have t1 := readFromServer_trace _ _ _ _ h1
        exact (cursorShapeInstall_traceOpen _ _ _ _ _ _ _ _ _).comp
          (TraceOpen.keep _ _ t1)

theorem dispatchRect_traceOpen (B : Build) (E : Ext) (fuel : Nat) (c : Conn)
    (rgn : QRegion) (x y w h enc : Nat) (r : RectStep)
    (hr : dispatchRect B E fuel c rgn x y w h enc = some r) :
    TraceOpen r.conn c ∨
      (unknownEncoding B enc ∧
        r = .failed ((c.act (.qCritical .unknownRectEncoding)).close)) := by
  unfold dispatchRect at hr
  by_cases h0 : enc = rfbEncodingRaw
  · rw [if_pos h0] at hr
    obtain ⟨a, ha, hf⟩ := Option.map_eq_some'.mp hr
    rw [← hf, ofBool_conn]
    exact Or.inl (TraceOpen.keep _ _ (handleRaw_trace _ _ _ _ _ _ _ a.1 a.2 ha))
  rw [if_neg h0] at hr
  by_cases h1 : enc = rfbEncodingCopyRect
  · rw [if_pos h1] at hr
    cases hread : readFromServer c 4 with
    | none =>
      rw [hread] at hr
      simp only [Option.some.injEq] at hr
      rw [← hr]
      exact Or.inl (TraceOpen.id _)
    | some p =>
      rw [hread] at hr
      simp only [Option.some.injEq] at hr
      rw [← hr]
      exact Or.inl (TraceOpen.keep _ _ (readFromServer_trace _ _ p.1 p.2 hread))
  rw [if_neg h1] at hr
  by_cases h2 : enc = rfbEncodingRRE
  · rw [if_pos h2] at hr
    simp only [Option.some.injEq] at hr
    rw [← hr, ofBool_conn]
    exact Or.inl (TraceOpen.log _ _ rfl)
  rw [if_neg h2] at hr
  by_cases h3 : enc = rfbEncodingCoRRE
  · rw [if_pos h3] at hr
    simp only [Option.some.injEq] at hr
    rw [← hr, ofBool_conn]
    obtain ⟨new, e, hnew⟩ := handleCoRRE_trace B c x y w h
    exact Or.inl ⟨new, e, fun a ha => by rw [hnew a ha]; rfl⟩
  rw [if_neg h3] at hr
  by_cases h4 : B.HAVE_LIBZ = true ∧ enc = rfbEncodingZlib
  · rw [if_pos h4] at hr
    obtain ⟨a, ha, hf⟩ := Option.map_eq_some'.mp hr
    rw [← hf, ofBool_conn]
    exact Or.inl (handleZlib_traceOpen _ _ _ _ _ _ _ _ a.1 a.2 ha)
  rw [if_neg h4] at hr
  by_cases h5 : B.HAVE_LIBZ = true ∧ enc = rfbEncodingTight
  · rw [if_pos h5] at hr
    obtain ⟨a, ha, hf⟩ := Option.map_eq_some'.mp hr
    rw [← hf, ofBool_conn]
    exact Or.inl (handleTight_traceOpen _ _ _ _ _ _ _ _ a.1 a.2 ha)
  rw [if_neg h5] at hr
  by_cases h6 : enc = rfbEncodingPointerPos
  · rw [if_pos h6] at hr
    simp only [Option.some.injEq] at hr
    rw [← hr, ofBool_conn]
    exact Or.inl (handleCursorPos_traceOpen _ _ _)
  rw [if_neg h6] at hr
  by_cases h7 : enc = rfbEncodingRichCursor ∨ enc = rfbEncodingXCursor
  · rw [if_pos h7] at hr
    simp only [Option.some.injEq] at hr
    rw [← hr, ofBool_conn]
    exact Or.inl (handleCursorShape_traceOpen _ _ _ _ _ _ _ _)
  rw [if_neg h7] at hr
  by_cases h8 : enc = rfbEncodingItalc
  · rw [if_pos h8] at hr
    obtain ⟨a, ha, hf⟩ := Option.map_eq_some'.mp hr
    rw [← hf, ofBool_conn]
    exact Or.inl (handleItalc_traceOpen _ _ _ _ _ _ _ _ a.1 a.2 ha)
  rw [if_neg h8] at hr
  by_cases h9 : enc = rfbEncodingItalcCursor
  · rw [if_pos h9] at hr
    simp only [Option.some.injEq] at hr
    rw [← hr]
    refine Or.inl ((postRegionChangedEvent_traceOpen _ _ _ (by decide)).comp ?_)
    refine ⟨[.cursorLockForWrite, .cursorUnlock], by simp [Conn.act], ?_⟩
    intro a ha
    simp only [List.mem_cons, List.mem_singleton, List.not_mem_nil, or_false] at ha
    rcases ha with rfl | rfl <;> rfl
  rw [if_neg h9] at hr
  simp only [Option.some.injEq] at hr
  exact Or.inr ⟨⟨h0, h1, h2, h3, h4, h5, h6, h7, h8, h9⟩, hr.symm⟩

theorem handleRect_traceOpen (B : Build) (E : Ext) (fuel : Nat) (c : Conn)
    (rgn : QRegion) (r : RectStep) (hr : handleRect B E fuel c rgn = some r) :
    TraceOpen r.conn c ∨
      ∃ hb rest, c.inbound = hb ++ rest ∧ hb.length = 12 ∧
        unknownEncoding B
          (wire32 (hb.getD 8 0) (hb.getD 9 0) (hb.getD 10 0) (hb.getD 11 0)) ∧
        r = .failed
          ((({ c with inbound := rest } : Conn).act (.qCritical .unknownRectEncoding)).close) := by
  unfold handleRect at hr
  split at hr
  · simp only [Option.some.injEq] at hr
    rw [← hr]
    exact Or.inl (TraceOpen.id _)
  · rename_i hb c1 h1
    have e1 := readFromServer_some _ _ _ _ h1
    have hsplit : c.inbound = hb ++ c.inbound.drop 12 ∧ hb.length = 12 := by
      unfold readFromServer at h1
      split at h1
      · rename_i hle
        simp only [Option.some.injEq, Prod.mk.injEq] at h1
        rw [← h1.1]
        exact ⟨(List.take_append_drop 12 c.inbound).symm,
          by rw [List.length_take]; omega⟩
      · exact absurd h1 (by simp)
    have t1 := TraceOpen.keep _ _ (readFromServer_trace _ _ _ _ h1)
    dsimp only at hr
    split at hr
    · simp only [Option.some.injEq] at hr
      rw [← hr]
      exact Or.inl t1
    · split at hr
      · simp only [Option.some.injEq] at hr
        rw [← hr]
        exact Or.inl ((TraceOpen.log _ _ (by rfl)).comp t1)
      · split at hr
        · split at hr
          · simp only [Option.some.injEq] at hr
            rw [← hr]
            exact Or.inl ((TraceOpen.log _ _ (by rfl)).comp t1)
          · rcases dispatchRect_traceOpen _ _ _ _ _ _ _ _ _ _ _ hr with hd | ⟨hu, hd⟩
            · exact Or.inl (hd.comp t1)
            · refine Or.inr ⟨hb, c.inbound.drop 12, hsplit.1, hsplit.2, hu, ?_⟩
              rw [hd, e1]
        · rename_i hcur
          rcases dispatchRect_traceOpen _ _ _ _ _ _ _ _ _ _ _ hr with hd | ⟨hu, hd⟩
          · exact Or.inl (hd.comp t1)
          · exfalso
            obtain ⟨_, _, _, _, _, _, u6, u7, _, _⟩ := hu
            apply hcur
            exact ⟨u6, fun hx => u7 (Or.inr hx), fun hx => u7 (Or.inl hx)⟩

theorem isClose_false_ne (a : Action) (h : Action.isClose a = false) : a ≠ .isdClose := by
  intro e
  rw [e] at h
  exact absurd h (by decide)


theorem rectPrefix_traceOpen (B : Build) (E : Ext) (fuel : Nat) :
    ∀ (k : Nat) (c : Conn) (rgn : QRegion) (ck : Conn) (rgnk : QRegion),
      rectPrefix B E fuel k c rgn = some (ck, rgnk) → TraceOpen ck c := by
  intro k
  induction k with
  | zero =>
    intro c rgn ck rgnk h
    simp only [rectPrefix, Option.some.injEq, Prod.mk.injEq] at h
    rw [h.1]
  | succ k ih =>
    intro c rgn ck rgnk h
    rw [rectPrefix] at h
    split at h
    · rename_i c1 rgn1 heq
      rcases handleRect_traceOpen _ _ _ _ _ _ heq with h1 | ⟨_, _, _, _, _, h1⟩
      · exact (ih _ _ _ _ h).comp h1
      · exact absurd h1 (by simp)
    · exact absurd h (by simp)

/-- C3 (amended): failure transition. Whenever the rect loop of a framebuffer
update reaches a rect that fails (bounds violation, decoder returning failure,
failed read), `handleServerMessages` releases the screen lock and returns
`FALSE`, leaving the connection as the failing rect left it. `close()` is called
only by the dispatcher and only for a rect with an unknown encoding: the rects
before the failing one have not called it, and if the failing rect has called
it, then its header was read, its encoding is none of the `case` labels of the
switch, and the rect has added exactly the critical message and the call of
`close()` to the trace. On a bounds violation in particular the dispatcher
changes neither the connection state nor the zlib stream flags: it only logs
the warning. For a rect with an unknown encoding `close()` resets the four Tight
stream flags and closes the transport through the lower layer. -/
theorem C3_failure_transition (B : Build) (E : Ext) (fuel : Nat) (c : Conn)
    (send_screen_update : Bool) (tries : Int) (pad nRects k : Nat) (body : List Nat)
    (ck : Conn) (rgnk : QRegion)
    (htries : 1 ≤ tries) (hn : nRects < 65536) (hk : k < nRects)
    (hin : c.inbound =
      rfbFramebufferUpdate :: pad :: (nRects / 256 % 256) :: (nRects % 256) :: body)
    (hpre : rectPrefix B E fuel k
      { c with inbound := body, trace := c.trace ++ [.imageLockForWrite] } QRegion.empty
        = some (ck, rgnk)) :
    (∀ cf, handleRect B E fuel ck rgnk = some (.failed cf) →
      handleServerMessages B E fuel c send_screen_update tries
          = some (false, cf.act .imageUnlock) ∧
        ∃ new, cf.trace = ck.trace ++ new ∧
          (Action.isdClose ∈ new →
            ∃ hb rest, ck.inbound = hb ++ rest ∧ hb.length = 12 ∧
              unknownEncoding B
                (wire32 (hb.getD 8 0) (hb.getD 9 0) (hb.getD 10 0) (hb.getD 11 0)) ∧
              new = [.qCritical .unknownRectEncoding, .isdClose])) ∧
    (∃ before, ck.trace = c.trace ++ [.imageLockForWrite] ++ before ∧
      Action.isdClose ∉ before) ∧
    (∀ x y w h enc rest, x < 65536 → y < 65536 → w < 65536 → h < 65536 → enc < 4294967296 →
      ck.inbound = rectHeader x y w h enc ++ rest → enc ≠ rfbEncodingLastRect →
      (x + w > ck.framebufferWidth ∨ y + h > ck.framebufferHeight) →
      ∃ c', handleServerMessages B E fuel c send_screen_update tries = some (false, c') ∧
        c'.state = ck.state ∧
        c'.trace = ck.trace ++ [.qWarning .rectTooLarge, .imageUnlock] ∧
        c'.zlibStreamActive = ck.zlibStreamActive) ∧
    (∀ x y w h enc rest, x < 65536 → y < 65536 → w < 65536 → h < 65536 → enc < 4294967296 →
      ck.inbound = rectHeader x y w h enc ++ rest →
      (x + w ≤ ck.framebufferWidth ∧ y + h ≤ ck.framebufferHeight) → h * w ≠ 0 →
      (enc ≠ rfbEncodingLastRect ∧ enc ≠ rfbEncodingRaw ∧ enc ≠ rfbEncodingCopyRect ∧
        enc ≠ rfbEncodingRRE ∧ enc ≠ rfbEncodingCoRRE ∧ enc ≠ rfbEncodingZlib ∧
        enc ≠ rfbEncodingTight ∧ enc ≠ rfbEncodingPointerPos ∧ enc ≠ rfbEncodingRichCursor ∧
        enc ≠ rfbEncodingXCursor ∧ enc ≠ rfbEncodingItalc ∧ enc ≠ rfbEncodingItalcCursor) →
      ∃ c', handleServerMessages B E fuel c send_screen_update tries = some (false, c') ∧
        c'.trace = ck.trace ++ [.qCritical .unknownRectEncoding, .isdClose, .imageUnlock] ∧
        ∀ i, c'.zlibStreamActive i = false) := by
  refine ⟨fun cf hfail => ⟨?_, ?_⟩, ?_,
    fun x y w h enc rest hx hy hw hh henc hhdr hlast hb => ?_,
    fun x y w h enc rest hx hy hw hh henc hhdr hb hwh hunk => ?_⟩
  · exact handleServerMessages_failed B E fuel c send_screen_update tries pad nRects k body
      ck rgnk cf htries hn hk hin hpre hfail
  · rcases handleRect_traceOpen B E fuel ck rgnk _ hfail with ⟨new, e, hnew⟩ | ⟨hb, rest, e1, e2, hu, hr⟩
    · exact ⟨new, e, fun hmem => absurd rfl (isClose_false_ne _ (hnew _ hmem))⟩
    · simp only [RectStep.failed.injEq] at hr
      refine ⟨[.qCritical .unknownRectEncoding, .isdClose], ?_, fun _ => ⟨hb, rest, e1, e2, hu, rfl⟩⟩
      rw [hr]
      simp [Conn.act, Conn.close]
  · obtain ⟨before, e, hb⟩ := rectPrefix_traceOpen B E fuel k _ QRegion.empty ck rgnk hpre
    exact ⟨before, e, fun hmem => absurd rfl (isClose_false_ne _ (hb _ hmem))⟩
  · refine ⟨_, handleServerMessages_failed B E fuel c send_screen_update tries pad nRects k body
      ck rgnk _ htries hn hk hin hpre
      (handleRect_out_of_bounds B E fuel ck rgnk x y w h enc rest hx hy hw hh henc hhdr hlast
        hb), rfl, ?_, rfl⟩
    simp [Conn.act]
  · refine ⟨_, handleServerMessages_failed B E fuel c send_screen_update tries pad nRects k body
      ck rgnk _ htries hn hk hin hpre
      (handleRect_unknown B E fuel ck rgnk x y w h enc rest hx hy hw hh henc hhdr hb hwh hunk),
      ?_, fun i => rfl⟩
    simp [Conn.act, Conn.close]

/-- C3, witness: a rect of the unknown encoding 77 while Tight stream 2 is active.
The dispatcher logs the rect, calls `close()` and returns `FALSE`; afterwards no
Tight stream is active. -/
theorem C3_failure_transition_witness :
    ∃ c', handleServerMessages Build.sample Ext.sample 0 sampleUnknownConn false 1
        = some (false, c') ∧
      c'.trace = [.imageLockForWrite] ++
        [.qCritical .unknownRectEncoding, .isdClose, .imageUnlock] ∧
      ∀ i, c'.zlibStreamActive i = false :=
  (C3_failure_transition Build.sample Ext.sample 0 sampleUnknownConn false 1 0 1 0
    (rectHeader 0 0 1 1 77 ++ [])
    { sampleUnknownConn with
      inbound := rectHeader 0 0 1 1 77 ++ []
      trace := sampleUnknownConn.trace ++ [.imageLockForWrite] }
    QRegion.empty (by decide) (by decide) (by decide) rfl rfl).2.2.2
    0 0 1 1 77 [] (by decide) (by decide) (by decide) (by decide) (by decide) rfl
    (by decide) (by decide) (by decide)

/-! ## The bounds check covers the cursor rects -/

theorem dispatchRect_cursor (B : Build) (E : Ext) (fuel : Nat) (c : Conn) (rgn : QRegion)
    (x y w h enc : Nat)
    (hcur : enc = rfbEncodingPointerPos ∨ enc = rfbEncodingRichCursor ∨
      enc = rfbEncodingXCursor) :
    dispatchRect B E fuel c rgn x y w h enc =
      some (RectStep.ofBool rgn
        (if enc = rfbEncodingPointerPos then handleCursorPos c x y
          else handleCursorShape B E c x y w h enc)) := by
  have n0 : enc ≠ rfbEncodingRaw := by rcases hcur with e | e | e <;> rw [e] <;> decide
  have n1 : enc ≠ rfbEncodingCopyRect := by rcases hcur with e | e | e <;> rw [e] <;> decide
  have n2 : enc ≠ rfbEncodingRRE := by rcases hcur with e | e | e <;> rw [e] <;> decide
  have n3 : enc ≠ rfbEncodingCoRRE := by rcases hcur with e | e | e <;> rw [e] <;> decide
  have n4 : ¬ (B.HAVE_LIBZ = true ∧ enc = rfbEncodingZlib) := by
    rintro ⟨_, e'⟩
    rcases hcur with e | e | e <;> rw [e] at e' <;> exact absurd e' (by decide)
  have n5 : ¬ (B.HAVE_LIBZ = true ∧ enc = rfbEncodingTight) := by
    rintro ⟨_, e'⟩
    rcases hcur with e | e | e <;> rw [e] at e' <;> exact absurd e' (by decide)
  unfold dispatchRect
  rw [if_neg n0, if_neg n1, if_neg n2, if_neg n3, if_neg n4, if_neg n5]
  by_cases hp : enc = rfbEncodingPointerPos
  · rw [if_pos hp, if_pos hp]
  · rw [if_neg hp, if_neg hp, if_pos (hcur.resolve_left hp)]

/-- C28 (amended): the bounds check covers the cursor rects. For a framebuffer
update whose only rect is a PointerPos, RichCursor or XCursor rect: if
`x + w > fbW` or `y + h > fbH` (hotspot or position plus size), the dispatcher
refuses it like any other rect that does not fit: `handleServerMessages`
returns `FALSE` after the warning "rect too large", the cursor handler is not
called (cursor shape, hotspot, position and `m_softwareCursor` as before) and
the bytes behind the rect header stay unread. If the rect is within the bounds,
the rect loop sets `m_softwareCursor`, leaves the updated region as it is and
calls the cursor handler, also for a rect without area: cursor rects are exempt
from the test for zero size only. -/
theorem C28_cursor_rects_bounds_checked (B : Build) (E : Ext) (fuel : Nat) (c : Conn)
    (send_screen_update : Bool) (tries : Int) (pad x y w h enc : Nat) (payload : List Nat)
    (htries : 1 ≤ tries)
    (hx : x < 65536) (hy : y < 65536) (hw : w < 65536) (hh : h < 65536)
    (hcur : enc = rfbEncodingPointerPos ∨ enc = rfbEncodingRichCursor ∨
      enc = rfbEncodingXCursor)
    (hin : c.inbound =
      rfbFramebufferUpdate :: pad :: (1 / 256 % 256) :: (1 % 256) ::
        (rectHeader x y w h enc ++ payload)) :
    ((x + w > c.framebufferWidth ∨ y + h > c.framebufferHeight) →
      ∃ c', handleServerMessages B E fuel c send_screen_update tries = some (false, c') ∧
        c' = { c with
          inbound := payload
          trace := c.trace ++ [.imageLockForWrite, .qWarning .rectTooLarge, .imageUnlock] } ∧
        c'.softwareCursor = c.softwareCursor ∧ c'.cursorPos = c.cursorPos ∧
        c'.cursorHotSpot = c.cursorHotSpot ∧ c'.cursorShape = c.cursorShape) ∧
    ((x + w ≤ c.framebufferWidth ∧ y + h ≤ c.framebufferHeight) →
      ∀ rgn : QRegion,
        handleRect B E fuel
            { c with
              inbound := rectHeader x y w h enc ++ payload
              trace := c.trace ++ [.imageLockForWrite] } rgn =
          some (RectStep.ofBool rgn
            (if enc = rfbEncodingPointerPos then
              handleCursorPos
                { c with
                  inbound := payload
                  softwareCursor := true
                  trace := c.trace ++ [.imageLockForWrite] } x y
            else
              handleCursorShape B E
                { c with
                  inbound := payload
                  softwareCursor := true
                  trace := c.trace ++ [.imageLockForWrite] } x y w h enc))) := by
  have henc : enc < 4294967296 := by rcases hcur with e | e | e <;> rw [e] <;> decide
  have hlast : enc ≠ rfbEncodingLastRect := by
    rcases hcur with e | e | e <;> rw [e] <;> decide
  refine ⟨fun hb => ⟨_, handleServerMessages_too_large B E fuel c send_screen_update tries pad
    x y w h enc payload htries hx hy hw hh henc hlast hin hb, rfl, rfl, rfl, rfl, rfl⟩,
    fun hb rgn => ?_⟩
  rw [handleRect_header B E fuel _ rgn x y w h enc payload hx hy hw hh henc rfl,
    if_neg hlast, if_neg (by dsimp only; omega), if_neg, dispatchRect_cursor B E fuel _ rgn x y w h enc hcur]
  rintro ⟨a1, a2, a3⟩
  rcases hcur with e | e | e
  · exact a1 e
  · exact a3 e
  · exact a2 e

/-- C28 (amended), witness: on a `3 × 1` framebuffer, a RichCursor rect of size
`4 × 1` with hotspot `(0, 0)` is refused, and a PointerPos rect for the position
`(2, 0)`, a rect without area, moves the cursor. -/
theorem C28_cursor_rects_bounds_checked_witness :
    (∃ c', handleServerMessages Build.sample Ext.sample 0
        (sampleCursorBoundsConn 0 4 rfbEncodingRichCursor) false 1 = some (false, c') ∧
      c'.inbound = [1, 2, 3, 4] ∧
      c'.trace = [.imageLockForWrite, .qWarning .rectTooLarge, .imageUnlock] ∧
      c'.softwareCursor = false) ∧
    ∃ c', handleRect Build.sample Ext.sample 0
        (sampleCursorRectConn 2 0 rfbEncodingPointerPos) QRegion.empty =
          some (.next c' QRegion.empty) ∧
      c'.cursorPos = ⟨2, 0⟩ ∧ c'.softwareCursor = true ∧ c'.inbound = [1, 2, 3, 4] := by
  refine ⟨?_, ?_⟩
  · obtain ⟨c', h1, h2, h3, _⟩ :=
      (C28_cursor_rects_bounds_checked Build.sample Ext.sample 0
        (sampleCursorBoundsConn 0 4 rfbEncodingRichCursor) false 1 0 0 0 4 1
        rfbEncodingRichCursor [1, 2, 3, 4] (by decide) (by decide) (by decide) (by decide)
        (by decide) (Or.inr (Or.inl rfl)) rfl).1 (by decide)
    refine ⟨c', h1, ?_, ?_, h3⟩
    · rw [h2]
    · rw [h2]
      rfl
  · have h := (C28_cursor_rects_bounds_checked Build.sample Ext.sample 0
        (sampleCursorBoundsConn 2 0 rfbEncodingPointerPos) false 1 0 2 0 0 1
        rfbEncodingPointerPos [1, 2, 3, 4] (by decide) (by decide) (by decide) (by decide)
        (by decide) (Or.inl rfl) rfl).2 (by decide) QRegion.empty
    exact ⟨_, h, rfl, rfl, rfl⟩

end Ivs
